import Mathlib

/-!
# The ZooKeeper C client core (`src/zookeeper/c/src/zookeeper.c`)

A shallow embedding of the single-connection client: the handle `zhandle_t`, its four queues,
the frame codec, the handshake, the reactor entry points `zookeeper_interest` and
`zookeeper_process`, the drain on connection loss and the asynchronous request operations.

Conventions of the embedding.

* C `int` and `int64_t` values are `Int`; arithmetic overflow is not modelled.
* A C linked list with `head` and `last` pointers is a `List`, head first.
* User code reached through a function pointer (the watcher, completion callbacks, the auth
  completion) and `notify_sync_completion` are not executed: every such invocation is appended
  to the `trace` field of the handle, in the order in which the C code performs it.  User code
  is assumed not to re-enter the library on the same handle.
* System calls (`socket`, `connect`, `getsockopt`, `send`, `recv`, `poll`, `gettimeofday`) are
  answered from the `World` carried by the handle, and logged there.
* `calloc` and `strdup` succeed, so the out-of-memory returns of the source are not modelled.
* The adaptor (`st_adaptor.c`, `mt_adaptor.c`) is not part of the source tree: locking is a
  no-op in this sequential model, and the one function whose result the two disciplines of
  the spec decide differently, `process_async`, is a parameter (`Adaptor`).
-/

namespace Zookeeper

/-! ## Constants of `zookeeper.c` -/

/-- Line 47. -/
def ZOOKEEPER_WRITE : Int := 1
/-- Line 48. -/
def ZOOKEEPER_READ : Int := 2

/-- Line 53. -/
def EXPIRED_SESSION_STATE : Int := -112
/-- Line 54. -/
def AUTH_FAILED_STATE : Int := -113
/-- Line 55. -/
def CONNECTING_STATE : Int := 1
/-- Line 56. -/
def ASSOCIATING_STATE : Int := 2
/-- Line 57. -/
def CONNECTED_STATE : Int := 3

/-- Line 80. -/
def SESSION_EVENT : Int := -1

/-- Line 117. -/
def COMPLETION_VOID : Int := 0
/-- Line 118. -/
def COMPLETION_STAT : Int := 1
/-- Line 119. -/
def COMPLETION_DATA : Int := 2
/-- Line 120. -/
def COMPLETION_STRINGLIST : Int := 3
/-- Line 121. -/
def COMPLETION_ACLLIST : Int := 4
/-- Line 122. -/
def COMPLETION_STRING : Int := 5

/-- Line 125. -/
def PING_XID : Int := -2
/-- Line 126. -/
def AUTH_XID : Int := -4

/-! ## Constants of headers that are not part of the source tree

`zookeeper.h` (error codes), `proto.h` (operation codes), `zk_adaptor.h` (sizes) and `errno.h`
are included by `zookeeper.c` but are not under `src/`.  The spec names the error codes and
the operation codes and fixes `ZOK = 0`; the other integers below are those of the headers.
The statements proved about the code use of them only that the error codes are negative and
pairwise distinct. -/

/-- Modelled from the spec: `ZOK (0)` of the error taxonomy (the enum of `zookeeper.h`). -/
def ZOK : Int := 0
/-- Modelled from the spec: error code `ZSYSTEMERROR` (System/IO group), value of `zookeeper.h`. -/
def ZSYSTEMERROR : Int := -1
/-- Modelled from the spec: error code `ZRUNTIMEINCONSISTENCY` (Protocol group). -/
def ZRUNTIMEINCONSISTENCY : Int := -2
/-- Modelled from the spec: error code `ZCONNECTIONLOSS` (System/IO group). -/
def ZCONNECTIONLOSS : Int := -4
/-- Modelled from the spec: error code `ZMARSHALLINGERROR` (System/IO group). -/
def ZMARSHALLINGERROR : Int := -5
/-- Modelled from the spec: error code `ZOPERATIONTIMEOUT` (System/IO group). -/
def ZOPERATIONTIMEOUT : Int := -7
/-- Modelled from the spec: error code `ZBADARGUMENTS` (Arguments group). -/
def ZBADARGUMENTS : Int := -8
/-- Modelled from the spec: error code `ZINVALIDSTATE` (Session group). -/
def ZINVALIDSTATE : Int := -9
/-- Modelled from the spec: error code `ZSESSIONEXPIRED` (Session group). -/
def ZSESSIONEXPIRED : Int := -112
/-- Modelled from the spec: error code `ZAUTHFAILED` (Session group). -/
def ZAUTHFAILED : Int := -115
/-- Modelled from the spec: error code `ZCLOSING` (Session group). -/
def ZCLOSING : Int := -116

/-- Modelled from the spec: opcode CREATE of `proto.h`. -/
def CREATE_OP : Int := 1
/-- Modelled from the spec: opcode DELETE of `proto.h`. -/
def DELETE_OP : Int := 2
/-- Modelled from the spec: opcode EXISTS of `proto.h`. -/
def EXISTS_OP : Int := 3
/-- Modelled from the spec: opcode GETDATA of `proto.h`. -/
def GETDATA_OP : Int := 4
/-- Modelled from the spec: opcode SETDATA of `proto.h`. -/
def SETDATA_OP : Int := 5
/-- Modelled from the spec: opcode GETACL of `proto.h`. -/
def GETACL_OP : Int := 6
/-- Modelled from the spec: opcode SETACL of `proto.h`. -/
def SETACL_OP : Int := 7
/-- Modelled from the spec: opcode GETCHILDREN of `proto.h`. -/
def GETCHILDREN_OP : Int := 8
/-- Modelled from the spec: opcode SYNC of `proto.h`. -/
def SYNC_OP : Int := 9
/-- Modelled from the spec: opcode PING of `proto.h`. -/
def PING_OP : Int := 11
/-- Modelled from the spec: opcode CLOSE of `proto.h`. -/
def CLOSE_OP : Int := -11
/-- Modelled from the spec: opcode SETAUTH of `proto.h`. -/
def SETAUTH_OP : Int := 100

/-- Modelled from the spec: the handshake request is
`i32 | i64 | i32 | i64 | i32 | 16B`, 44 bytes (`HANDSHAKE_REQ_SIZE` of `zk_adaptor.h`). -/
def HANDSHAKE_REQ_SIZE : Int := 44
/-- Modelled from the spec: the prime response is `len:i32 | i32 | i32 | i64 | i32 | 16B`,
40 bytes (the size of `primer_storage_buffer` in `zk_adaptor.h`). -/
def PRIMER_STORAGE_SIZE : Int := 40
/-- The value of `sizeof(buffer_list_t)` on an LP64 host (pointer, two ints, pointer);
the struct is declared in `zk_adaptor.h`. -/
def SIZEOF_BUFFER_LIST : Int := 24

/-- The value of `EAGAIN` (and `EWOULDBLOCK`) in `errno.h` on Linux. -/
def EAGAIN : Int := 11
/-- The value of `EWOULDBLOCK` in `errno.h` on Linux. -/
def EWOULDBLOCK : Int := 11
/-- The value of `EINPROGRESS` in `errno.h` on Linux. -/
def EINPROGRESS : Int := 115
/-- The value of `EHOSTDOWN` in `errno.h` on Linux. -/
def EHOSTDOWN : Int := 112

/-! ## Byte order helpers (`htonl`, `ntohl`, `htonll`) -/

/-- The `n` low-order bytes of `u`, most significant first. -/
def be_bytes : Nat → Nat → List Nat
  | 0, _ => []
  | n + 1, u => be_bytes n (u / 256) ++ [u % 256]

/-- The memory image of `htonl(x)`: the 32-bit two's complement of `x`, big-endian. -/
def be32 (x : Int) : List Nat := be_bytes 4 (x % 4294967296).toNat

/-- The memory image of `htonll(x)`: the 64-bit two's complement of `x`, big-endian. -/
def be64 (x : Int) : List Nat := be_bytes 8 (x % 18446744073709551616).toNat

/-- The value that an `int` takes when the result `x` of an `int` operation is stored in it on
a two's complement machine: `x` reduced modulo `2^32` to the range `[-2^31, 2^31)`. -/
def int_wrap (x : Int) : Int := (x + 2147483648) % 4294967296 - 2147483648

/-- The unsigned value of a big-endian byte string. -/
def be_value (bs : List Nat) : Nat := bs.foldl (fun a b => a * 256 + b % 256) 0

/-- The first `n` bytes of `bs`, bytes past its end reading as zero. -/
def take_padded (n : Nat) (bs : List Nat) : List Nat := (bs ++ List.replicate n 0).take n

/-- The `int` that `ntohl` yields from the four bytes at the start of `bs`. -/
def i32_of_be (bs : List Nat) : Int :=
  let u := be_value (take_padded 4 bs)
  if u < 2147483648 then (u : Int) else (u : Int) - 4294967296

/-- The `int64_t` that `htonll` yields from the eight bytes at the start of `bs`. -/
def i64_of_be (bs : List Nat) : Int :=
  let u := be_value (take_padded 8 bs)
  if u < 9223372036854775808 then (u : Int) else (u : Int) - 18446744073709551616

/-- The memory of an `int` variable on the (little-endian) host: four bytes, least
significant first. -/
def int_mem (x : Int) : List Nat := (be32 x).reverse

/-- The `int` held by four bytes of host memory. -/
def int_of_mem (m : List Nat) : Int := i32_of_be (take_padded 4 m).reverse

/-- The effect of `memcpy(dst + off, src, |src|)` on the bytes of `dst`. -/
def mem_write (dst : List Nat) (off : Nat) (src : List Nat) : List Nat :=
  take_padded off dst ++ src ++ dst.drop (off + src.length)

/-! ## Data model -/

/-- The C `struct timeval`. -/
structure timeval where
  tv_sec : Int
  tv_usec : Int
deriving DecidableEq, Repr

/-- The value of a completion callback slot (`completion_list_t.c`, `auth_info.completion`):
a null pointer, the distinguished address `SYNCHRONOUS_MARKER` (line 139), or a user
function. -/
inductive FnPtr where
  | null
  | SYNCHRONOUS_MARKER
  | fn (id : Nat)
deriving DecidableEq, Repr

/-- The watcher slot of the handle: `null_watcher_fn` (line 361) or a user function. -/
inductive watcher_fn where
  | null_watcher_fn
  | user (id : Nat)
deriving DecidableEq, Repr

/-- The `struct sync_completion` of `zk_adaptor.h` as far as `zookeeper.c` touches it: the
result code and the members of the union `u`.  The caller memory behind `u.str.str` and
`u.data.buffer` is represented by the bytes stored into it, from index 0.  Records decoded by
the serialization layer (`Stat`, `String_vector`, `ACL_vector`) are represented by the bytes
they are decoded from. -/
structure sync_completion where
  rc : Int
  str : List Nat
  str_len : Int
  buffer : List Nat
  buff_len : Int
  stat : Option (List Nat)
  strs : Option (List Nat)
  acl : Option (List Nat)
deriving DecidableEq, Repr

/-- The `buffer_list_t` of `zk_adaptor.h`: a frame with its cursor.  `buffer` is `none` for a
null pointer. -/
structure buffer_list_t where
  buffer : Option (List Nat)
  len : Int
  curr_offset : Int
deriving DecidableEq, Repr

/-- The `completion_list_t` of lines 141-155.  `c` is the union of callback pointers, `data`
the user context pointer, and `sc` the `struct sync_completion` that `data` points to when
the entry is synchronous. -/
structure completion_list_t where
  xid : Int
  completion_type : Int
  c : FnPtr
  data : Nat
  sc : sync_completion
  buffer : Option buffer_list_t
deriving DecidableEq, Repr

/-- The `clientid_t` of `zookeeper.h`: session id and 16-byte password. -/
structure clientid_t where
  client_id : Int
  passwd : List Nat
deriving DecidableEq, Repr

/-- The `struct connect_req` of `zk_adaptor.h` (serialized at lines 773-799). -/
structure connect_req where
  protocolVersion : Int
  lastZxidSeen : Int
  timeOut : Int
  sessionId : Int
  passwd_len : Int
  passwd : List Nat
deriving DecidableEq, Repr

/-- The `struct prime_struct` of `zk_adaptor.h` (deserialized at lines 801-826). -/
structure prime_struct where
  len : Int
  protocolVersion : Int
  timeOut : Int
  sessionId : Int
  passwd_len : Int
  passwd : List Nat
deriving DecidableEq, Repr

/-- The `auth_info` of `zk_adaptor.h` (initialised at lines 174-182). -/
structure auth_info where
  scheme : Option (List Nat)
  auth : List Nat
  state : Int
  completion : FnPtr
  data : Nat
deriving DecidableEq, Repr

/-- The pointer `zh->input_buffer`: null, the address of `zh->primer_buffer`, or a frame
allocated by `allocate_buffer`. -/
inductive input_buffer_t where
  | null
  | primer
  | heap (b : buffer_list_t)
deriving DecidableEq, Repr

/-- A user-visible invocation made by the library. -/
inductive Event where
  /-- The call `zh->watcher(zh, type, state, path)`. -/
  | watcher (fn : watcher_fn) (type : Int) (state : Int) (path : Option (List Nat))
  /-- A call through the callback slot `fn` of a completion of kind `completion_type`, with
  result code `rc`, context `data` and result arguments decoded from `result` (`none`: all
  result arguments are null or zero). -/
  | completion (fn : FnPtr) (completion_type : Int) (rc : Int) (result : Option (List Nat))
      (data : Nat)
  /-- The call `notify_sync_completion(sc)`, with the contents of `*sc` at that moment. -/
  | notify_sync_completion (data : Nat) (sc : sync_completion)
  /-- The call `zh->auth.completion(rc, zh->auth.data)`. -/
  | auth_completion (fn : FnPtr) (rc : Int) (data : Nat)
deriving DecidableEq, Repr

/-- The answer of the socket to one `send` call. -/
inductive SendResult where
  /-- The socket accepts up to `n` bytes. -/
  | accept (n : Nat)
  /-- The call returns -1 with this `errno`. -/
  | error (errno : Int)
deriving DecidableEq, Repr

/-- The answer of the socket to one `recv` call. -/
inductive RecvResult where
  /-- These bytes are available (none: the peer has closed). -/
  | data (bytes : List Nat)
  /-- The call returns -1 with this `errno`. -/
  | error (errno : Int)
deriving DecidableEq, Repr

/-- A system call that the library has made, as logged in the `World`. -/
inductive Syscall where
  | socket (fd : Int)
  | connect (fd : Int) (index : Int)
  | send (fd : Int) (bytes : List Nat)
  | close (fd : Int)
deriving DecidableEq, Repr

/-- The environment of the handle: the clock, the scripted answers of the operating system
to the successive system calls, and the log of the calls made.  An exhausted script answers
"would block" (`send`, `recv`), "in progress" (`connect`), "no error" (`getsockopt`) and
"timed out" (`poll`). -/
structure World where
  now : timeval
  next_fd : Int
  connect_results : List (Int × Int)
  sockopt_results : List (Int × Int)
  send_results : List SendResult
  recv_results : List RecvResult
  poll_results : List Int
  next_xid : Int
  log : List Syscall
deriving DecidableEq, Repr

/-- The `zhandle_t` of `zk_adaptor.h`, with the fields that `zookeeper.c` uses.  `trace` and
`world` are not C fields: they hold the user-visible invocations made so far and the
environment.  `freed` records that `zookeeper_close` has released the handle. -/
structure zhandle_t where
  fd : Int
  addrs_count : Int
  watcher : watcher_fn
  last_recv : timeval
  recv_timeout : Int
  input_buffer : input_buffer_t
  to_process : List buffer_list_t
  to_send : List buffer_list_t
  sent_requests : List completion_list_t
  completions_to_process : List completion_list_t
  connect_index : Int
  client_id : clientid_t
  last_zxid : Int
  outstanding_sync : Int
  primer_buffer : buffer_list_t
  primer_storage : prime_struct
  state : Int
  context : Nat
  auth : auth_info
  ref_counter : Int
  close_requested : Int
  freed : Bool
  trace : List Event
  world : World
deriving DecidableEq, Repr

/-! ## System calls -/

/-- The call `gettimeofday(&tv, 0)`. -/
def gettimeofday (w : World) : timeval := w.now

/-- The call `send(fd, bytes, |bytes|, 0)`: result, `errno`, and the world afterwards.  The
bytes accepted are logged. -/
def send (w : World) (fd : Int) (bytes : List Nat) : Int × Int × World :=
  match w.send_results with
  | [] => (-1, EAGAIN, w)
  | SendResult.error e :: rest => (-1, e, { w with send_results := rest })
  | SendResult.accept n :: rest =>
    let sent := bytes.take n
    ((sent.length : Int), 0,
      { w with send_results := rest, log := w.log ++ [Syscall.send fd sent] })

/-- The call `recv(fd, p, n, 0)`: result, `errno`, the bytes stored at `p`, and the world
afterwards.  Bytes that do not fit in `n` stay in the socket. -/
def recv (w : World) (_fd : Int) (n : Int) : Int × Int × List Nat × World :=
  match w.recv_results with
  | [] => (-1, EAGAIN, [], w)
  | RecvResult.error e :: rest => (-1, e, [], { w with recv_results := rest })
  | RecvResult.data bs :: rest =>
    let got := bs.take n.toNat
    let left := bs.drop n.toNat
    ((got.length : Int), 0, got,
      { w with recv_results := if left = [] then rest else RecvResult.data left :: rest })

/-- The call `close(fd)`. -/
def close (w : World) (fd : Int) : World := { w with log := w.log ++ [Syscall.close fd] }

/-- The call `socket(PF_INET, SOCK_STREAM, 0)`. -/
def socket (w : World) : Int × World :=
  (w.next_fd, { w with log := w.log ++ [Syscall.socket w.next_fd] })

/-- The call `connect(fd, &zh->addrs[index], ...)`: result, `errno`, world afterwards. -/
def connect (w : World) (fd : Int) (index : Int) : Int × Int × World :=
  match w.connect_results with
  | [] => (-1, EINPROGRESS, { w with log := w.log ++ [Syscall.connect fd index] })
  | (rc, e) :: rest =>
    (rc, e, { w with connect_results := rest, log := w.log ++ [Syscall.connect fd index] })

/-- The call `getsockopt(fd, SOL_SOCKET, SO_ERROR, &error, &len)`: result, `error`, world
afterwards. -/
def getsockopt (w : World) : Int × Int × World :=
  match w.sockopt_results with
  | [] => (0, 0, w)
  | (rc, e) :: rest => (rc, e, { w with sockopt_results := rest })

/-- The call `poll(&fds, 1, timeout)`: result and world afterwards. -/
def poll (w : World) : Int × World :=
  match w.poll_results with
  | [] => (0, w)
  | rc :: rest => (rc, { w with poll_results := rest })

/-! ## Frames and queues (lines 424-525) -/

/-- Lines 424-435.  The payload pointer `buff` may be null. -/
def allocate_buffer (buff : Option (List Nat)) (len : Int) : buffer_list_t :=
  { buffer := buff, len := if len = 0 then SIZEOF_BUFFER_LIST else len, curr_offset := 0 }

/-- Lines 448-462. -/
def dequeue_buffer (list : List buffer_list_t) : Option buffer_list_t × List buffer_list_t :=
  match list with
  | [] => (none, [])
  | b :: rest => (some b, rest)

/-- Lines 464-472. -/
def remove_buffer (list : List buffer_list_t) : Int × List buffer_list_t :=
  match dequeue_buffer list with
  | (none, l) => (0, l)
  | (some _, l) => (1, l)

/-- Lines 474-495. -/
def queue_buffer (list : List buffer_list_t) (b : buffer_list_t) (add_to_front : Int) :
    List buffer_list_t :=
  match list with
  | _ :: _ => if add_to_front ≠ 0 then b :: list else list ++ [b]
  | [] => [b]

/-- Lines 497-504. -/
def queue_buffer_bytes (list : List buffer_list_t) (buff : List Nat) (len : Int) :
    Int × List buffer_list_t :=
  (ZOK, queue_buffer list (allocate_buffer (some buff) len) 0)

/-- Lines 506-513. -/
def queue_front_buffer_bytes (list : List buffer_list_t) (buff : List Nat) (len : Int) :
    Int × List buffer_list_t :=
  (ZOK, queue_buffer list (allocate_buffer (some buff) len) 1)

/-- Lines 620-624: `remove_buffer` is applied until the list is empty. -/
def free_buffers : List buffer_list_t → List buffer_list_t
  | [] => []
  | _ :: rest => free_buffers rest

/-! ## Frame codec (lines 526-618) -/

/-- Lines 552-564 of `send_buffer`: the payload part and the return value.  The bytes handed
to `send` are those of the payload buffer from `off` on, at most `len - off` of them; a
buffer shorter than `len` would be read past its end in C. -/
def send_buffer_payload (w : World) (fd : Int) (buff : buffer_list_t) :
    Int × buffer_list_t × World :=
  let len := buff.len
  if buff.curr_offset ≥ 4 then
    let off := buff.curr_offset - 4
    match send w fd (((buff.buffer.getD []).drop off.toNat).take (len - off).toNat) with
    | (rc, errno, w1) =>
      if rc = -1 then
        if errno ≠ EAGAIN then (-1, buff, w1)
        else ((if buff.curr_offset = len + 4 then 1 else 0), buff, w1)
      else
        let buff1 := { buff with curr_offset := buff.curr_offset + rc }
        ((if buff1.curr_offset = len + 4 then 1 else 0), buff1, w1)
  else ((if buff.curr_offset = len + 4 then 1 else 0), buff, w)

/-- Lines 531-565.  Returns -1 if the send failed, 0 if it would block or was incomplete,
1 on success, with the frame and the world afterwards. -/
def send_buffer (w : World) (fd : Int) (buff : buffer_list_t) : Int × buffer_list_t × World :=
  if buff.curr_offset < 4 then
    match send w fd ((be32 buff.len).drop buff.curr_offset.toNat) with
    | (rc, errno, w1) =>
      if rc = -1 then
        if errno ≠ EAGAIN then (-1, buff, w1) else (0, buff, w1)
      else
        send_buffer_payload w1 fd { buff with curr_offset := buff.curr_offset + rc }
  else send_buffer_payload w fd buff

/-- Lines 600-617 of `recv_buffer`: the payload part and the return value.  The cursor
`curr_offset` is an `int`: `buff->curr_offset += rc` wraps past `2^31 - 1`, so that the
cursor never equals `len + 4` when `len` is above `2^31 - 5`. -/
def recv_buffer_payload (w : World) (fd : Int) (buff : buffer_list_t) :
    Int × buffer_list_t × World :=
  match buff.buffer with
  | some mem =>
    let off := buff.curr_offset - 4
    match recv w fd (buff.len - off) with
    | (rc, errno, bytes, w1) =>
      if rc = 0 then
        if EHOSTDOWN = EAGAIN then ((if buff.curr_offset = buff.len + 4 then 1 else 0), buff, w1)
        else (-1, buff, w1)
      else if rc = -1 then
        if errno = EAGAIN then ((if buff.curr_offset = buff.len + 4 then 1 else 0), buff, w1)
        else (-1, buff, w1)
      else
        let buff1 := { buff with
          buffer := some (mem_write mem off.toNat bytes),
          curr_offset := int_wrap (buff.curr_offset + rc) }
        ((if buff1.curr_offset = buff1.len + 4 then 1 else 0), buff1, w1)
  | none => ((if buff.curr_offset = buff.len + 4 then 1 else 0), buff, w)

/-- Lines 572-618.  Returns -1 if the recv failed (or the peer closed), 0 if it would block,
1 when the frame is complete, with the frame and the world afterwards.  While the length is
being read the received bytes overwrite the memory of `buff->len`; the payload buffer
`calloc(1, len)` is null when `len` is negative. -/
def recv_buffer (w : World) (fd : Int) (buff : buffer_list_t) : Int × buffer_list_t × World :=
  if buff.curr_offset < 4 then
    match recv w fd (4 - buff.curr_offset) with
    | (rc, errno, bytes, w1) =>
      if rc = 0 then
        (if EHOSTDOWN = EAGAIN then 0 else -1, buff, w1)
      else if rc = -1 then
        (if errno = EAGAIN then 0 else -1, buff, w1)
      else
        let buff1 := { buff with
          len := int_of_mem (mem_write (int_mem buff.len) buff.curr_offset.toNat bytes),
          curr_offset := buff.curr_offset + rc }
        let buff2 :=
          if buff1.curr_offset = 4 then
            let len := i32_of_be (int_mem buff1.len)
            { buff1 with
              len := len,
              buffer := if 0 ≤ len then some (List.replicate len.toNat 0) else none }
          else buff1
        recv_buffer_payload w1 fd buff2
  else recv_buffer_payload w fd buff

/-! ## Records of the serialization layer

The record (de)serializers of `zookeeper.jute.h` are not under `src/`.  The two headers and
the watcher event, whose wire layout the spec fixes, are decoded here; every other record
is represented by the bytes of the frame that hold it. -/

/-- The `struct RequestHeader` of `zookeeper.jute.h`. -/
structure RequestHeader where
  xid : Int
  type : Int
deriving DecidableEq, Repr

/-- The `struct ReplyHeader` of `zookeeper.jute.h`. -/
structure ReplyHeader where
  xid : Int
  zxid : Int
  err : Int
deriving DecidableEq, Repr

/-- The `struct WatcherEvent` of `zookeeper.jute.h`. -/
structure WatcherEvent where
  type : Int
  state : Int
  path : Option (List Nat)
deriving DecidableEq, Repr

/-- Modelled from the spec: `serialize_RequestHeader`, which is not under `src/`; a request
frame payload starts with `RequestHeader{ xid:i32, type:i32 }`, big-endian. -/
def serialize_RequestHeader (h : RequestHeader) : List Nat := be32 h.xid ++ be32 h.type

/-- Modelled from the spec: `deserialize_ReplyHeader`, which is not under `src/`; a response
frame payload starts with `ReplyHeader{ xid:i32, zxid:i64, err:i32 }`, big-endian.  The
source ignores the result code of the decoder; bytes missing from a short frame read as
zero. -/
def deserialize_ReplyHeader (frame : List Nat) : ReplyHeader :=
  { xid := i32_of_be frame, zxid := i64_of_be (frame.drop 4), err := i32_of_be (frame.drop 12) }

/-- Modelled from the spec: the decoder of a length-prefixed string or buffer of the
serialization layer (`i32` length, then the bytes; a negative length is a null value). -/
def deserialize_String (bytes : List Nat) : Option (List Nat) :=
  let len := i32_of_be bytes
  if len < 0 then none else some ((bytes.drop 4).take len.toNat)

/-- Modelled from the spec: `deserialize_WatcherEvent`, which is not under `src/`; the body is
`WatcherEvent{ type:i32, state:i32, path:string }`. -/
def deserialize_WatcherEvent (body : List Nat) : WatcherEvent :=
  { type := i32_of_be body, state := i32_of_be (body.drop 4),
    path := deserialize_String (body.drop 8) }

/-- Modelled from the spec: `serialize_AuthPacket`, which is not under `src/`: the record
`{ type:i32, scheme:string, auth:buffer }` in the encoding of the serialization layer. -/
def serialize_AuthPacket (type : Int) (scheme : List Nat) (auth : List Nat) : List Nat :=
  be32 type ++ be32 scheme.length ++ scheme ++ be32 auth.length ++ auth

/-- The bytes of a reply frame that follow the 16-byte `ReplyHeader`. -/
def reply_body (frame : List Nat) : List Nat := frame.drop 16

/-- The C `strlen`: the number of bytes before the first NUL. -/
def strlen : List Nat → Nat
  | [] => 0
  | b :: rest => if b = 0 then 0 else strlen rest + 1

/-! ## Adaptor functions

`zk_adaptor.h` declares functions that `st_adaptor.c` and `mt_adaptor.c` define; neither
file is under `src/`. -/

/-- The part of the adaptor that the spec leaves open: `process_async(outstanding_sync)`
tells `zookeeper_process` whether to dispatch the ready completions inline (caller-driven
discipline) or to leave them to the completion thread (library-driven discipline). -/
structure Adaptor where
  process_async : Int → Int

/-- Modelled from the spec: `inc_ref_counter`, which is not under `src/`; the handle is
reference-counted, the counter moves by the sign of `i` and its new value is returned. -/
def inc_ref_counter (zh : zhandle_t) (i : Int) : Int × zhandle_t :=
  let n := zh.ref_counter + (if i < 0 then -1 else if i > 0 then 1 else 0)
  (n, { zh with ref_counter := n })

/-- Modelled from the spec: `get_xid`, which is not under `src/`; xids come from a monotonic
process-wide counter. -/
def get_xid (w : World) : Int × World := (w.next_xid, { w with next_xid := w.next_xid + 1 })

/-- The call `zh->watcher(zh, type, state, path)`. -/
def call_watcher (zh : zhandle_t) (type state : Int) (path : Option (List Nat)) : zhandle_t :=
  { zh with trace := zh.trace ++ [Event.watcher zh.watcher type state path] }

/-- A call through a completion callback slot. -/
def call_completion (zh : zhandle_t) (fn : FnPtr) (completion_type rc : Int)
    (result : Option (List Nat)) (data : Nat) : zhandle_t :=
  { zh with trace := zh.trace ++ [Event.completion fn completion_type rc result data] }

/-- The call `notify_sync_completion(sc)` for the `struct sync_completion` at `data`. -/
def notify_sync_completion (zh : zhandle_t) (data : Nat) (sc : sync_completion) : zhandle_t :=
  { zh with trace := zh.trace ++ [Event.notify_sync_completion data sc] }

/-! ## Small operations (lines 157-195, 356-372) -/

/-- Lines 174-182. -/
def init_auth_info : auth_info :=
  { scheme := none, auth := [], state := 0, completion := FnPtr.null, data := 0 }

/-- Lines 184-190. -/
def free_auth_info (_auth : auth_info) : auth_info := init_auth_info

/-- Lines 192-195. -/
def is_unrecoverable (zh : zhandle_t) : Int :=
  if zh.state < 0 then ZINVALIDSTATE else ZOK

/-- Lines 363-372: returns the old watcher and the handle with the new one; `newFn` is
`none` for a null pointer. -/
def zoo_set_watcher (zh : zhandle_t) (newFn : Option Nat) : watcher_fn × zhandle_t :=
  let oldWatcher := zh.watcher
  match newFn with
  | some f => (oldWatcher, { zh with watcher := watcher_fn.user f })
  | none => (oldWatcher, { zh with watcher := watcher_fn.null_watcher_fn })

/-- Lines 1360-1365, for a non-null handle. -/
def zoo_state (zh : zhandle_t) : Int := zh.state

/-! ## Completion queues (lines 1095-1109, 1367-1476) -/

/-- A `struct sync_completion` with every member zero. -/
def sync_completion.zero : sync_completion :=
  { rc := 0, str := [], str_len := 0, buffer := [], buff_len := 0, stat := none, strs := none,
    acl := none }

/-- Lines 1367-1401.  `sc` is the `struct sync_completion` that `data` points to. -/
def create_completion_entry (xid : Int) (completion_type : Int) (dc : FnPtr) (data : Nat)
    (sc : sync_completion) : completion_list_t :=
  { xid := xid, completion_type := completion_type,
    c := if completion_type = COMPLETION_VOID then dc
         else if completion_type = COMPLETION_STRING then dc
         else if completion_type = COMPLETION_DATA then dc
         else if completion_type = COMPLETION_STAT then dc
         else if completion_type = COMPLETION_STRINGLIST then dc
         else if completion_type = COMPLETION_ACLLIST then dc
         else FnPtr.null,
    data := data, sc := sc, buffer := none }

/-- Lines 1403-1426. -/
def queue_completion (list : List completion_list_t) (c : completion_list_t)
    (add_to_front : Int) : List completion_list_t :=
  match list with
  | _ :: _ => if add_to_front = 0 then list ++ [c] else c :: list
  | [] => [c]

/-- Lines 1095-1109. -/
def dequeue_completion (list : List completion_list_t) :
    Option completion_list_t × List completion_list_t :=
  match list with
  | [] => (none, [])
  | cptr :: rest => (some cptr, rest)

/-- Lines 1428-1440. -/
def add_completion (zh : zhandle_t) (xid : Int) (completion_type : Int) (dc : FnPtr)
    (data : Nat) (sc : sync_completion) (add_to_front : Int) : Int × zhandle_t :=
  let c := create_completion_entry xid completion_type dc data sc
  let zh := { zh with sent_requests := queue_completion zh.sent_requests c add_to_front }
  if dc = FnPtr.SYNCHRONOUS_MARKER then
    (ZOK, { zh with outstanding_sync := zh.outstanding_sync + 1 })
  else (ZOK, zh)

/-- Lines 1442-1446. -/
def add_data_completion (zh : zhandle_t) (xid : Int) (dc : FnPtr) (data : Nat)
    (sc : sync_completion) : Int × zhandle_t :=
  add_completion zh xid COMPLETION_DATA dc data sc 0

/-- Lines 1448-1452. -/
def add_stat_completion (zh : zhandle_t) (xid : Int) (dc : FnPtr) (data : Nat)
    (sc : sync_completion) : Int × zhandle_t :=
  add_completion zh xid COMPLETION_STAT dc data sc 0

/-- Lines 1454-1458. -/
def add_strings_completion (zh : zhandle_t) (xid : Int) (dc : FnPtr) (data : Nat)
    (sc : sync_completion) : Int × zhandle_t :=
  add_completion zh xid COMPLETION_STRINGLIST dc data sc 0

/-- Lines 1460-1464. -/
def add_acl_completion (zh : zhandle_t) (xid : Int) (dc : FnPtr) (data : Nat)
    (sc : sync_completion) : Int × zhandle_t :=
  add_completion zh xid COMPLETION_ACLLIST dc data sc 0

/-- Lines 1466-1470. -/
def add_void_completion (zh : zhandle_t) (xid : Int) (dc : FnPtr) (data : Nat)
    (sc : sync_completion) : Int × zhandle_t :=
  add_completion zh xid COMPLETION_VOID dc data sc 0

/-- Lines 1472-1476. -/
def add_string_completion (zh : zhandle_t) (xid : Int) (dc : FnPtr) (data : Nat)
    (sc : sync_completion) : Int × zhandle_t :=
  add_completion zh xid COMPLETION_STRING dc data sc 0

/-! ## Drain and connection teardown (lines 626-725) -/

/-- Lines 635-674: the body of the loop of `free_completions` for the entry `cptr`. -/
def free_completion (zh : zhandle_t) (callCompletion : Int) (rc : Int)
    (cptr : completion_list_t) : zhandle_t :=
  if cptr.c = FnPtr.SYNCHRONOUS_MARKER then
    let sc := { cptr.sc with rc := rc }
    let zh := notify_sync_completion zh cptr.data sc
    { zh with outstanding_sync := zh.outstanding_sync - 1 }
  else if callCompletion ≠ 0 then
    if cptr.completion_type = COMPLETION_DATA then
      call_completion zh cptr.c COMPLETION_DATA rc none cptr.data
    else if cptr.completion_type = COMPLETION_STAT then
      call_completion zh cptr.c COMPLETION_STAT rc none cptr.data
    else if cptr.completion_type = COMPLETION_STRINGLIST then
      call_completion zh cptr.c COMPLETION_STRINGLIST rc none cptr.data
    else if cptr.completion_type = COMPLETION_STRING then
      call_completion zh cptr.c COMPLETION_STRING rc none cptr.data
    else if cptr.completion_type = COMPLETION_ACLLIST then
      call_completion zh cptr.c COMPLETION_ACLLIST rc none cptr.data
    else if cptr.completion_type = COMPLETION_VOID then
      if cptr.xid ≠ PING_XID then call_completion zh cptr.c COMPLETION_VOID rc none cptr.data
      else zh
    else zh
  else zh

/-- Lines 634-675: the loop of `free_completions` over the detached list `tmp_list`. -/
def free_completions_loop (callCompletion : Int) (rc : Int) :
    List completion_list_t → zhandle_t → zhandle_t
  | [], zh => zh
  | cptr :: rest, zh =>
    free_completions_loop callCompletion rc rest (free_completion zh callCompletion rc cptr)

/-- Lines 626-676. -/
def free_completions (zh : zhandle_t) (callCompletion : Int) (rc : Int) : zhandle_t :=
  let tmp_list := zh.sent_requests
  let zh := { zh with sent_requests := [] }
  free_completions_loop callCompletion rc tmp_list zh

/-- Lines 678-689. -/
def cleanup_bufs (zh : zhandle_t) (callCompletion : Int) (rc : Int) : zhandle_t :=
  let zh := { zh with to_send := free_buffers zh.to_send }
  let zh := { zh with to_process := free_buffers zh.to_process }
  let zh := free_completions zh callCompletion rc
  match zh.input_buffer with
  | input_buffer_t.heap _ => { zh with input_buffer := input_buffer_t.null }
  | _ => zh

/-- Lines 691-708. -/
def handle_error (zh : zhandle_t) (rc : Int) : zhandle_t :=
  let zh := { zh with world := close zh.world zh.fd }
  let zh :=
    if is_unrecoverable zh ≠ 0 then call_watcher zh SESSION_EVENT zh.state none
    else if zh.state = CONNECTED_STATE then call_watcher zh SESSION_EVENT CONNECTING_STATE none
    else zh
  let zh := cleanup_bufs zh 1 rc
  let zh := { zh with fd := -1 }
  let zh := { zh with connect_index := zh.connect_index + 1 }
  if is_unrecoverable zh = 0 then { zh with state := 0 } else zh

/-- Lines 710-725; the log message is not modelled. -/
def handle_socket_error_msg (zh : zhandle_t) (rc : Int) : Int × zhandle_t :=
  (rc, handle_error zh rc)

/-- Lines 200-221, for a non-null handle. -/
def destroy (zh : zhandle_t) : zhandle_t :=
  let zh := cleanup_bufs zh 1 ZCLOSING
  let zh :=
    if zh.fd ≠ -1 then { zh with world := close zh.world zh.fd, fd := -1, state := 0 } else zh
  { zh with auth := free_auth_info zh.auth }

/-! ## Auth sub-protocol and handshake (lines 727-860) -/

/-- Lines 727-745, for a non-null handle. -/
def auth_completion_func (rc : Int) (zh : zhandle_t) : zhandle_t :=
  let zh :=
    if rc ≠ 0 then { zh with state := AUTH_FAILED_STATE }
    else { zh with auth := { zh.auth with state := 1 } }
  if zh.auth.completion ≠ FnPtr.null then
    let zh := { zh with
      trace := zh.trace ++ [Event.auth_completion zh.auth.completion rc zh.auth.data] }
    { zh with auth := { zh.auth with completion := FnPtr.null } }
  else zh

/-- Lines 747-771. -/
def send_auth_info (zh : zhandle_t) : Int × zhandle_t :=
  let h : RequestHeader := { xid := AUTH_XID, type := SETAUTH_OP }
  match zh.auth.scheme with
  | none => (ZOK, zh)
  | some scheme =>
    let oa := serialize_RequestHeader h ++ serialize_AuthPacket 0 scheme zh.auth.auth
    let rc : Int := 0
    match (if rc < 0 then (rc, zh.to_send)
           else queue_front_buffer_bytes zh.to_send oa oa.length) with
    | (rc, to_send) =>
      (if rc < 0 then ZMARSHALLINGERROR else ZOK, { zh with to_send := to_send })

/-- Lines 773-799: the bytes written to `buffer`. -/
def serialize_prime_connect (req : connect_req) : List Nat :=
  be32 req.protocolVersion ++ be64 req.lastZxidSeen ++ be32 req.timeOut ++
    be64 req.sessionId ++ be32 req.passwd_len ++ take_padded 16 req.passwd

/-- Lines 801-826. -/
def deserialize_prime_response (buffer : List Nat) : prime_struct :=
  { len := i32_of_be buffer,
    protocolVersion := i32_of_be (buffer.drop 4),
    timeOut := i32_of_be (buffer.drop 8),
    sessionId := i64_of_be (buffer.drop 12),
    passwd_len := i32_of_be (buffer.drop 20),
    passwd := take_padded 16 (buffer.drop 24) }

/-- Lines 835-841 of `prime_connection`: the handshake request that it builds. -/
def prime_connection_req (zh : zhandle_t) : connect_req :=
  { protocolVersion := 0,
    sessionId := zh.client_id.client_id,
    passwd_len := 16,
    passwd := take_padded 16 zh.client_id.passwd,
    timeOut := zh.recv_timeout,
    lastZxidSeen := zh.last_zxid }

/-- Lines 828-860. -/
def prime_connection (zh : zhandle_t) : Int × zhandle_t :=
  let len := HANDSHAKE_REQ_SIZE
  let req := prime_connection_req zh
  let hlen := be32 len
  match send zh.world zh.fd hlen with
  | (rc, _, w1) =>
    let buffer_req := serialize_prime_connect req
    match (if rc < 0 then (rc, w1)
           else match send w1 zh.fd (buffer_req.take len.toNat) with
             | (rc2, _, w2) => (rc2, w2)) with
    | (rc, w2) =>
      let zh := { zh with world := w2 }
      if rc < 0 then handle_socket_error_msg zh ZCONNECTIONLOSS
      else
        let zh := { zh with state := ASSOCIATING_STATE }
        let zh := { zh with input_buffer := input_buffer_t.primer }
        let zh := { zh with primer_buffer := { zh.primer_buffer with curr_offset := 4 } }
        (ZOK, zh)

/-! ## Time (lines 862-882) -/

/-- Lines 862-871, with the truncating division of C. -/
def calculate_interval (start : timeval) (end_ : timeval) : Int :=
  let i : timeval :=
    { tv_sec := end_.tv_sec - start.tv_sec, tv_usec := end_.tv_usec - start.tv_usec }
  i.tv_sec * 1000 + Int.tdiv i.tv_usec 1000

/-- Lines 873-882. -/
def get_timeval (interval : Int) : timeval :=
  let interval := if interval < 0 then 0 else interval
  { tv_sec := Int.tdiv interval 1000, tv_usec := Int.tmod interval 1000 * 1000 }

/-! ## Flushing the send queue (lines 1810-1861) -/

/-- Lines 1844-1857 of `flush_send_queue`: the head frame `head` (followed by `rest` in
`to_send`) is offered to the socket.  The first component is the value of `rc` with which
the loop is left, or `none` when the loop goes on. -/
def flush_send_queue_send (timeout : Int) (zh : zhandle_t) (head : buffer_list_t)
    (rest : List buffer_list_t) : Option Int × zhandle_t :=
  match send_buffer zh.world zh.fd head with
  | (rc, head1, w1) =>
    let zh := { zh with world := w1, to_send := head1 :: rest }
    if rc = 0 ∧ timeout = 0 then (some ZOK, zh)
    else if rc < 0 then (some ZCONNECTIONLOSS, zh)
    else if rc > 0 then (none, { zh with to_send := (remove_buffer zh.to_send).2 })
    else (none, zh)

/-- Lines 1823-1857 of `flush_send_queue`: one iteration of the loop, with `head :: rest`
the contents of `to_send`. -/
def flush_send_queue_body (timeout : Int) (started : timeval) (zh : zhandle_t)
    (head : buffer_list_t) (rest : List buffer_list_t) : Option Int × zhandle_t :=
  if timeout ≠ 0 then
    let now := gettimeofday zh.world
    let elapsed := calculate_interval started now
    if elapsed > timeout then (some ZOPERATIONTIMEOUT, zh)
    else
      match poll zh.world with
      | (rc, w1) =>
        let zh := { zh with world := w1 }
        if rc ≤ 0 then (some (if rc = 0 then ZOPERATIONTIMEOUT else ZSYSTEMERROR), zh)
        else flush_send_queue_send timeout zh head rest
  else flush_send_queue_send timeout zh head rest

/-- Lines 1822-1858: the loop of `flush_send_queue`.  The first argument bounds the number
of iterations; an iteration either leaves the loop, or removes a frame from `to_send`, or
consumes an answer of `poll`. -/
def flush_send_queue_loop (timeout : Int) (started : timeval) :
    Nat → zhandle_t → Int × zhandle_t
  | 0, zh => (ZOK, zh)
  | fuel + 1, zh =>
    match zh.to_send with
    | [] => (ZOK, zh)
    | head :: rest =>
      if zh.state ≠ CONNECTED_STATE then (ZOK, zh)
      else
        match flush_send_queue_body timeout started zh head rest with
        | (some rc, zh) => (rc, zh)
        | (none, zh) => flush_send_queue_loop timeout started fuel zh

/-- Lines 1812-1861.  A timeout of 0 makes the function non-blocking. -/
def flush_send_queue (zh : zhandle_t) (timeout : Int) : Int × zhandle_t :=
  let started := gettimeofday zh.world
  flush_send_queue_loop timeout started
    (zh.to_send.length + zh.world.poll_results.length + 1) zh

/-- Modelled from the spec: `adaptor_send_queue`, which is not under `src/`; an operation
"opportunistically attempts a non-blocking flush of the send queue", and close flushes with
a timeout. -/
def adaptor_send_queue (zh : zhandle_t) (timeout : Int) : Int × zhandle_t :=
  flush_send_queue zh timeout

/-! ## Closing and reference counting (lines 1058-1068, 1478-1519) -/

/-- Lines 1478-1519, for a non-null handle.  `adaptor_finish` and `adaptor_destroy` act on
threads only; `free(zh)` is recorded in `freed`. -/
def zookeeper_close (zh : zhandle_t) : Int × zhandle_t :=
  let zh := { zh with close_requested := 1 }
  if (inc_ref_counter zh 0).1 ≠ 0 then (ZOK, (inc_ref_counter zh 0).2)
  else
    let zh := (inc_ref_counter zh 0).2
    if zh.state = CONNECTED_STATE then
      match get_xid zh.world with
      | (xid, w1) =>
        let zh := { zh with world := w1 }
        let h : RequestHeader := { xid := xid, type := CLOSE_OP }
        let oa := serialize_RequestHeader h
        let rc : Int := 0
        match (if rc < 0 then (rc, zh.to_send)
               else queue_buffer_bytes zh.to_send oa oa.length) with
        | (rc, to_send) =>
          let zh := { zh with to_send := to_send }
          if rc < 0 then (ZMARSHALLINGERROR, { destroy zh with freed := true })
          else
            match adaptor_send_queue zh 3000 with
            | (rc, zh) => (rc, { destroy zh with freed := true })
    else (ZOK, { destroy zh with freed := true })

/-- Lines 1058-1061. -/
def api_prolog (zh : zhandle_t) : zhandle_t := (inc_ref_counter zh 1).2

/-- Lines 1063-1068. -/
def api_epilog (zh : zhandle_t) (rc : Int) : Int × zhandle_t :=
  match inc_ref_counter zh (-1) with
  | (n, zh) =>
    if n = 0 ∧ zh.close_requested ≠ 0 then (rc, (zookeeper_close zh).2) else (rc, zh)

/-! ## The reactor: `zookeeper_interest` (lines 889-980) -/

/-- The three result parameters `*fd`, `*interest` and `*tv` of `zookeeper_interest`. -/
structure interest_args where
  fd : Int
  interest : Int
  tv : timeval
deriving DecidableEq, Repr

/-- Lines 973-979 of `zookeeper_interest`: the timeout and the interest mask are reported
and the function returns ZOK. -/
def zookeeper_interest_report (zh : zhandle_t) (out : interest_args) (to_ms : Int) :
    Int × interest_args × zhandle_t :=
  let out := { out with tv := get_timeval to_ms }
  let out := { out with interest := ZOOKEEPER_READ }
  let out :=
    if zh.to_send ≠ [] ∨ zh.state = CONNECTING_STATE then
      { out with interest := Int.lor out.interest ZOOKEEPER_WRITE }
    else out
  match api_epilog zh ZOK with
  | (rc, zh) => (rc, out, zh)

/-- Lines 932-979 of `zookeeper_interest`: ping pacing and the idle timeout.  The product
`zh->recv_timeout*2` of line 961 is an `int`: it wraps when `recv_timeout` is `2^30` or more. -/
def zookeeper_interest_timers (zh : zhandle_t) (out : interest_args) :
    Int × interest_args × zhandle_t :=
  if zh.fd ≠ -1 then
    let now := gettimeofday zh.world
    let idle_interval := calculate_interval zh.last_recv now
    if zh.sent_requests = [] ∧ zh.state = CONNECTED_STATE then
      let to_ms := Int.tdiv zh.recv_timeout 3 - idle_interval
      if to_ms ≤ 0 then
        let h : RequestHeader := { xid := PING_XID, type := PING_OP }
        let oa := serialize_RequestHeader h
        let rc : Int := 0
        match (if rc < 0 then (rc, zh)
               else add_void_completion zh h.xid FnPtr.null 0 sync_completion.zero) with
        | (rc, zh) =>
          match (if rc < 0 then (rc, zh.to_send)
                 else queue_buffer_bytes zh.to_send oa oa.length) with
          | (rc, to_send) =>
            let zh := { zh with to_send := to_send }
            if rc < 0 then
              match api_epilog zh ZMARSHALLINGERROR with
              | (rc, zh) => (rc, out, zh)
            else
              let to_ms := Int.tdiv zh.recv_timeout 3
              zookeeper_interest_report zh out to_ms
      else zookeeper_interest_report zh out to_ms
    else
      let to_ms := Int.tdiv (int_wrap (zh.recv_timeout * 2)) 3 - idle_interval
      if to_ms ≤ 0 then
        let out := { out with fd := -1 }
        let out := { out with interest := 0 }
        let out := { out with tv := get_timeval to_ms }
        match handle_socket_error_msg zh ZOPERATIONTIMEOUT with
        | (rc, zh) =>
          match api_epilog zh rc with
          | (rc, zh) => (rc, out, zh)
      else zookeeper_interest_report zh out to_ms
  else
    match api_epilog zh ZOK with
    | (rc, zh) => (rc, out, zh)

/-- Lines 928-931 of `zookeeper_interest`, followed by the rest of the function. -/
def zookeeper_interest_connected (zh : zhandle_t) (out : interest_args) :
    Int × interest_args × zhandle_t :=
  let out := { out with fd := zh.fd }
  let out := { out with tv := get_timeval (Int.tdiv zh.recv_timeout 3) }
  let zh := { zh with last_recv := gettimeofday zh.world }
  zookeeper_interest_timers zh out

/-- Lines 889-980, for non-null arguments; `out` holds the values of `*fd`, `*interest` and
`*tv` on entry. -/
def zookeeper_interest (zh : zhandle_t) (out : interest_args) :
    Int × interest_args × zhandle_t :=
  if is_unrecoverable zh ≠ 0 then (ZINVALIDSTATE, out, zh)
  else
    let zh := api_prolog zh
    let out := { out with fd := zh.fd }
    let out := { out with interest := 0 }
    let out := { out with tv := { tv_sec := 0, tv_usec := 0 } }
    if out.fd = -1 then
      if zh.connect_index = zh.addrs_count then
        let zh := { zh with connect_index := 0 }
        zookeeper_interest_connected zh out
      else
        match socket zh.world with
        | (fd, w1) =>
          let zh := { zh with fd := fd, world := w1 }
          match connect zh.world zh.fd zh.connect_index with
          | (rc, errno, w2) =>
            let zh := { zh with world := w2 }
            if rc = -1 then
              if errno = EWOULDBLOCK ∨ errno = EINPROGRESS then
                let zh := { zh with state := CONNECTING_STATE }
                zookeeper_interest_connected zh out
              else
                match handle_socket_error_msg zh ZCONNECTIONLOSS with
                | (rc, zh) =>
                  match api_epilog zh rc with
                  | (rc, zh) => (rc, out, zh)
            else
              match prime_connection zh with
              | (rc, zh) =>
                if rc ≠ 0 then
                  match api_epilog zh rc with
                  | (rc, zh) => (rc, out, zh)
                else zookeeper_interest_connected zh out
    else zookeeper_interest_timers zh out

/-! ## The reactor: `check_events` (lines 982-1056) -/

/-- Lines 1020-1053 of `check_events`: a frame has been read completely (`rc > 0`); the
input buffer is not null here. -/
def check_events_complete (zh : zhandle_t) : Int × zhandle_t :=
  let zh := { zh with last_recv := gettimeofday zh.world }
  match zh.input_buffer with
  | input_buffer_t.primer =>
    let zh := { zh with
      primer_storage := deserialize_prime_response (zh.primer_buffer.buffer.getD []) }
    let oldid := zh.client_id.client_id
    let newid := zh.primer_storage.sessionId
    if oldid ≠ 0 ∧ oldid ≠ newid then
      let zh := { zh with state := EXPIRED_SESSION_STATE }
      handle_socket_error_msg zh ZSESSIONEXPIRED
    else
      let zh := { zh with recv_timeout := zh.primer_storage.timeOut }
      let zh := { zh with client_id := { zh.client_id with client_id := newid } }
      let zh := { zh with
        client_id := { zh.client_id with passwd := take_padded 16 zh.primer_storage.passwd } }
      let zh := { zh with state := CONNECTED_STATE }
      let zh := (send_auth_info zh).2
      let zh := { zh with input_buffer := input_buffer_t.null }
      let zh := call_watcher zh SESSION_EVENT CONNECTED_STATE none
      (ZOK, { zh with input_buffer := input_buffer_t.null })
  | input_buffer_t.heap b =>
    let zh := { zh with to_process := queue_buffer zh.to_process b 0 }
    (ZOK, { zh with input_buffer := input_buffer_t.null })
  | input_buffer_t.null => (ZOK, zh)

/-- Lines 1009-1055 of `check_events`: the READ part and the final return.  After line 1012
the input buffer is not null, so the third case of the inner match is never taken. -/
def check_events_read (zh : zhandle_t) (events : Int) : Int × zhandle_t :=
  if Int.land events ZOOKEEPER_READ ≠ 0 then
    let zh :=
      if zh.input_buffer = input_buffer_t.null then
        { zh with input_buffer := input_buffer_t.heap (allocate_buffer none 0) }
      else zh
    match (match zh.input_buffer with
           | input_buffer_t.primer =>
             match recv_buffer zh.world zh.fd zh.primer_buffer with
             | (rc, b, w) => (rc, { zh with primer_buffer := b, world := w })
           | input_buffer_t.heap b0 =>
             match recv_buffer zh.world zh.fd b0 with
             | (rc, b, w) => (rc, { zh with input_buffer := input_buffer_t.heap b, world := w })
           | input_buffer_t.null => (0, zh)) with
    | (rc, zh) =>
      if rc < 0 then handle_socket_error_msg zh ZCONNECTIONLOSS
      else if rc > 0 then check_events_complete zh
      else (ZOK, zh)
  else (ZOK, zh)

/-- Lines 982-1056. -/
def check_events (zh : zhandle_t) (events : Int) : Int × zhandle_t :=
  if zh.fd = -1 then (ZINVALIDSTATE, zh)
  else if Int.land events ZOOKEEPER_WRITE ≠ 0 ∧ zh.state = CONNECTING_STATE then
    match getsockopt zh.world with
    | (rc, error, w1) =>
      let zh := { zh with world := w1 }
      if rc < 0 ∨ error ≠ 0 then handle_socket_error_msg zh ZCONNECTIONLOSS
      else
        match prime_connection zh with
        | (rc, zh) => if rc ≠ 0 then (rc, zh) else (ZOK, zh)
  else if zh.to_send ≠ [] ∧ Int.land events ZOOKEEPER_WRITE ≠ 0 then
    match flush_send_queue zh 0 with
    | (rc, zh) =>
      if rc < 0 then handle_socket_error_msg zh ZCONNECTIONLOSS
      else check_events_read zh events
  else check_events_read zh events

/-! ## Dispatch of completions (lines 1111-1207) -/

/-- Lines 1115-1205: the body of the loop of `process_completions` for the entry `cptr`.
Entries of `completions_to_process` carry their reply frame (lines 1231 and 1268); a missing
frame reads as an empty one. -/
def process_completion (zh : zhandle_t) (cptr : completion_list_t) : zhandle_t :=
  let frame := ((cptr.buffer.map (fun b => b.buffer.getD [])).getD [])
  let hdr := deserialize_ReplyHeader frame
  let zh := { zh with last_zxid := hdr.zxid }
  if hdr.xid = -1 then
    let evt := deserialize_WatcherEvent (reply_body frame)
    let type := evt.type
    let state := evt.state
    call_watcher zh type state evt.path
  else
    let rc := hdr.err
    if cptr.completion_type = COMPLETION_DATA then
      if rc ≠ 0 then call_completion zh cptr.c COMPLETION_DATA rc none cptr.data
      else call_completion zh cptr.c COMPLETION_DATA rc (some (reply_body frame)) cptr.data
    else if cptr.completion_type = COMPLETION_STAT then
      if rc ≠ 0 then call_completion zh cptr.c COMPLETION_STAT rc none cptr.data
      else call_completion zh cptr.c COMPLETION_STAT rc (some (reply_body frame)) cptr.data
    else if cptr.completion_type = COMPLETION_STRINGLIST then
      if rc ≠ 0 then call_completion zh cptr.c COMPLETION_STRINGLIST rc none cptr.data
      else call_completion zh cptr.c COMPLETION_STRINGLIST rc (some (reply_body frame)) cptr.data
    else if cptr.completion_type = COMPLETION_STRING then
      if rc ≠ 0 then call_completion zh cptr.c COMPLETION_STRING rc none cptr.data
      else call_completion zh cptr.c COMPLETION_STRING rc (some (reply_body frame)) cptr.data
    else if cptr.completion_type = COMPLETION_ACLLIST then
      if rc ≠ 0 then call_completion zh cptr.c COMPLETION_ACLLIST rc none cptr.data
      else call_completion zh cptr.c COMPLETION_ACLLIST rc (some (reply_body frame)) cptr.data
    else if cptr.completion_type = COMPLETION_VOID then
      if hdr.xid = PING_XID then zh
      else call_completion zh cptr.c COMPLETION_VOID rc none cptr.data
    else zh

/-- Lines 1114-1206: the loop of `process_completions`; the first argument is the queue
`completions_to_process` of the handle. -/
def process_completions_loop : List completion_list_t → zhandle_t → zhandle_t
  | [], zh => zh
  | cptr :: rest, zh =>
    process_completions_loop rest
      (process_completion { zh with completions_to_process := rest } cptr)

/-- Lines 1111-1207. -/
def process_completions (zh : zhandle_t) : zhandle_t :=
  process_completions_loop zh.completions_to_process zh

/-! ## The reactor: `zookeeper_process` (lines 1209-1358) -/

/-- Modelled from the spec: the decoder of the `data` buffer that starts a
`GetDataResponse` (`i32` length, then the bytes): the length and the bytes. -/
def deserialize_Buffer (bytes : List Nat) : Int × List Nat :=
  let len := i32_of_be bytes
  (len, (bytes.drop 4).take len.toNat)

/-- Lines 1272-1347 of `zookeeper_process`: the reply `frame`, with header result `rc`, of
the synchronous entry `cptr`. -/
def process_sync_reply (zh : zhandle_t) (cptr : completion_list_t) (rc : Int)
    (frame : List Nat) : zhandle_t :=
  let sc := { cptr.sc with rc := rc }
  let body := reply_body frame
  match (
    if cptr.completion_type = COMPLETION_DATA then
      if rc = 0 then
        let res_data := deserialize_Buffer body
        let len := if res_data.1 ≤ sc.buff_len then res_data.1 else sc.buff_len
        let sc := { sc with buff_len := len }
        let sc := { sc with buffer := mem_write sc.buffer 0 (res_data.2.take len.toNat) }
        (zh, { sc with stat := some (body.drop (4 + res_data.2.length)) })
      else (zh, sc)
    else if cptr.completion_type = COMPLETION_STAT then
      if rc = 0 then (zh, { sc with stat := some body }) else (zh, sc)
    else if cptr.completion_type = COMPLETION_STRINGLIST then
      if rc = 0 then (zh, { sc with strs := some body }) else (zh, sc)
    else if cptr.completion_type = COMPLETION_STRING then
      if rc = 0 then
        let path := (deserialize_String body).getD []
        let len : Int :=
          if sc.str_len % 18446744073709551616 > (strlen path : Int) then (strlen path : Int)
          else sc.str_len
        let sc := { sc with str := mem_write sc.str 0 (path.take len.toNat) }
        (zh, { sc with str := mem_write sc.str len.toNat [0] })
      else (zh, sc)
    else if cptr.completion_type = COMPLETION_ACLLIST then
      if rc = 0 then
        let zh := call_completion zh cptr.c COMPLETION_ACLLIST rc (some body) cptr.data
        let sc := { sc with acl := some body }
        (zh, { sc with stat := some body })
      else (zh, sc)
    else (zh, sc)) with
  | (zh, sc) =>
    let zh := notify_sync_completion zh cptr.data sc
    { zh with outstanding_sync := zh.outstanding_sync - 1 }

/-- How the loop of `zookeeper_process` ends. -/
inductive Outcome where
  /-- The assertion `assert(cptr)` of line 1249 failed. -/
  | abort
  /-- A `return` statement inside the loop was executed. -/
  | ret (rc : Int) (zh : zhandle_t)
  /-- The queue `to_process` is empty and control reaches line 1354. -/
  | next (zh : zhandle_t)
deriving DecidableEq, Repr

/-- Lines 1222-1353: the loop of `zookeeper_process`; the first argument is the queue
`to_process` of the handle. -/
def zookeeper_process_loop : List buffer_list_t → zhandle_t → Outcome
  | [], zh => Outcome.next zh
  | bptr :: rest, zh =>
    let zh := { zh with to_process := rest }
    let frame := bptr.buffer.getD []
    let hdr := deserialize_ReplyHeader frame
    let zh := { zh with last_zxid := hdr.zxid }
    if hdr.xid = -1 then
      let c := create_completion_entry (-1) (-1) FnPtr.null 0 sync_completion.zero
      let c := { c with buffer := some bptr }
      let zh := { zh with
        completions_to_process := queue_completion zh.completions_to_process c 0 }
      zookeeper_process_loop rest zh
    else if hdr.xid = AUTH_XID then
      let zh := auth_completion_func hdr.err zh
      if is_unrecoverable zh ≠ 0 then
        let zh := handle_error zh ZAUTHFAILED
        match api_epilog zh ZAUTHFAILED with
        | (rc, zh) => Outcome.ret rc zh
      else zookeeper_process_loop rest zh
    else
      let rc := hdr.err
      match dequeue_completion zh.sent_requests with
      | (none, _) => Outcome.abort
      | (some cptr, sent_requests) =>
        let zh := { zh with sent_requests := sent_requests }
        if cptr.xid ≠ hdr.xid then
          let zh := { zh with sent_requests := queue_completion zh.sent_requests cptr 1 }
          match handle_socket_error_msg zh ZRUNTIMEINCONSISTENCY with
          | (rc, zh) => Outcome.ret rc zh
        else if cptr.c ≠ FnPtr.SYNCHRONOUS_MARKER then
          if hdr.xid = PING_XID then zookeeper_process_loop rest zh
          else
            let cptr := { cptr with buffer := some bptr }
            let zh := { zh with
              completions_to_process := queue_completion zh.completions_to_process cptr 0 }
            zookeeper_process_loop rest zh
        else zookeeper_process_loop rest (process_sync_reply zh cptr rc frame)

/-- Lines 1209-1358, for a non-null handle.  The result is `none` when the assertion of
line 1249 fails. -/
def zookeeper_process (ad : Adaptor) (zh : zhandle_t) (events : Int) :
    Option (Int × zhandle_t) :=
  if is_unrecoverable zh ≠ 0 then some (ZINVALIDSTATE, zh)
  else
    let zh := api_prolog zh
    match check_events zh events with
    | (rc, zh) =>
      if rc ≠ ZOK then some (api_epilog zh rc)
      else
        match zookeeper_process_loop zh.to_process zh with
        | Outcome.abort => none
        | Outcome.ret rc zh => some (rc, zh)
        | Outcome.next zh =>
          let zh :=
            if ad.process_async zh.outstanding_sync ≠ 0 then process_completions zh else zh
          some (api_epilog zh ZOK)

/-! ## Asynchronous operations (lines 1521-1808, 1915-1940) -/

/-- The body shared by the nine asynchronous request operations (for `zoo_aget`, lines
1524-1548), for a non-null handle: `type` is the operation code, `add` the function that
registers the completion, `req_rc` and `req` the result code and the bytes produced by the
serializer of the request record, `dc` the callback, `data` its context and `sc` the
`struct sync_completion` behind `data` when `dc` is the synchronous marker. -/
def zoo_arequest (type : Int)
    (add : zhandle_t → Int → FnPtr → Nat → sync_completion → Int × zhandle_t)
    (zh : zhandle_t) (req_rc : Int) (req : List Nat) (dc : FnPtr) (data : Nat)
    (sc : sync_completion) : Int × zhandle_t :=
  match get_xid zh.world with
  | (xid, w1) =>
    let zh := { zh with world := w1 }
    let h : RequestHeader := { xid := xid, type := type }
    if is_unrecoverable zh ≠ 0 then (ZINVALIDSTATE, zh)
    else
      let oa := serialize_RequestHeader h ++ req
      let rc : Int := 0
      let rc := if rc < 0 then rc else req_rc
      match (if rc < 0 then (rc, zh) else add zh h.xid dc data sc) with
      | (rc, zh) =>
        match (if rc < 0 then (rc, zh.to_send)
               else queue_buffer_bytes zh.to_send oa oa.length) with
        | (rc, to_send) =>
          let zh := { zh with to_send := to_send }
          let zh := (adaptor_send_queue zh 0).2
          (if rc < 0 then ZMARSHALLINGERROR else ZOK, zh)

/-- Lines 1521-1549. -/
def zoo_aget := zoo_arequest GETDATA_OP add_data_completion
/-- Lines 1551-1582. -/
def zoo_aset := zoo_arequest SETDATA_OP add_stat_completion
/-- Lines 1584-1622. -/
def zoo_acreate := zoo_arequest CREATE_OP add_string_completion
/-- Lines 1624-1653. -/
def zoo_adelete := zoo_arequest DELETE_OP add_void_completion
/-- Lines 1655-1684. -/
def zoo_aexists := zoo_arequest EXISTS_OP add_stat_completion
/-- Lines 1686-1715. -/
def zoo_aget_children := zoo_arequest GETCHILDREN_OP add_strings_completion
/-- Lines 1717-1745. -/
def zoo_async := zoo_arequest SYNC_OP add_string_completion
/-- Lines 1748-1776. -/
def zoo_aget_acl := zoo_arequest GETACL_OP add_acl_completion
/-- Lines 1778-1808. -/
def zoo_aset_acl := zoo_arequest SETACL_OP add_void_completion

/-- Lines 1915-1940, for a non-null handle and a non-null scheme; `cert` is `none` for a
null pointer. -/
def zoo_add_auth (zh : zhandle_t) (scheme : List Nat) (cert : Option (List Nat))
    (certLen : Int) (completion : FnPtr) (data : Nat) : Int × zhandle_t :=
  if is_unrecoverable zh ≠ 0 then (ZINVALIDSTATE, zh)
  else
    let zh := { zh with auth := free_auth_info zh.auth }
    let zh := { zh with auth := { zh.auth with scheme := some scheme } }
    let zh :=
      match cert with
      | some bytes =>
        if certLen ≠ 0 then { zh with auth := { zh.auth with auth := take_padded certLen.toNat bytes } }
        else zh
      | none => zh
    let zh := { zh with auth := { zh.auth with completion := completion } }
    let zh := { zh with auth := { zh.auth with data := data } }
    if zh.state = CONNECTED_STATE ∨ zh.state = ASSOCIATING_STATE then send_auth_info zh
    else (ZOK, zh)

/-! ## Handle creation (lines 377-422) -/

/-- Lines 377-422, when `getaddrs` has resolved `addrs_count` endpoints and `adaptor_init`
succeeds; `watcher` and `clientid` are `none` for null pointers, and `w` is the environment
in which the handle lives. -/
def zookeeper_init (addrs_count : Int) (watcher : Option Nat) (recv_timeout : Int)
    (clientid : Option clientid_t) (context : Nat) (w : World) : zhandle_t :=
  { fd := -1,
    state := 0,
    context := context,
    recv_timeout := recv_timeout,
    watcher :=
      match watcher with
      | some f => watcher_fn.user f
      | none => watcher_fn.null_watcher_fn,
    addrs_count := addrs_count,
    connect_index := 0,
    client_id :=
      match clientid with
      | some c => c
      | none => { client_id := 0, passwd := List.replicate 16 0 },
    primer_buffer :=
      { buffer := some (List.replicate PRIMER_STORAGE_SIZE.toNat 0), curr_offset := 0,
        len := PRIMER_STORAGE_SIZE },
    last_zxid := 0,
    last_recv := { tv_sec := 0, tv_usec := 0 },
    input_buffer := input_buffer_t.null,
    to_process := [],
    to_send := [],
    sent_requests := [],
    completions_to_process := [],
    outstanding_sync := 0,
    primer_storage :=
      { len := 0, protocolVersion := 0, timeOut := 0, sessionId := 0, passwd_len := 0,
        passwd := List.replicate 16 0 },
    auth := init_auth_info,
    ref_counter := 0,
    close_requested := 0,
    freed := false,
    trace := [],
    world := w }

/-! ## Vocabulary of the statements -/

/-- The user-visible invocation by which the drain fails the pending entry `c` with the
code `rc`: a synchronous entry is signalled, with `rc` stored in its `sync_completion`; an
asynchronous entry of one of the six completion kinds has its callback called with `rc` and
null result arguments, except the Void entry with the PING xid, which has no invocation; an
entry of no known kind has none either. -/
def failure_of (rc : Int) (c : completion_list_t) : List Event :=
  if c.c = FnPtr.SYNCHRONOUS_MARKER then
    [Event.notify_sync_completion c.data { c.sc with rc := rc }]
  else if c.completion_type = COMPLETION_VOID ∧ c.xid = PING_XID then []
  else if c.completion_type ∈ [COMPLETION_VOID, COMPLETION_STAT, COMPLETION_DATA,
      COMPLETION_STRINGLIST, COMPLETION_ACLLIST, COMPLETION_STRING] then
    [Event.completion c.c c.completion_type rc none c.data]
  else []

/-- The number of synchronous entries of a queue. -/
def sync_count (l : List completion_list_t) : Int :=
  ((l.filter (fun c => c.c = FnPtr.SYNCHRONOUS_MARKER)).length : Int)

/-- An environment with the clock at zero and no scripted answers. -/
def World.idle : World :=
  { now := { tv_sec := 0, tv_usec := 0 }, next_fd := 3, connect_results := [],
    sockopt_results := [], send_results := [], recv_results := [], poll_results := [],
    next_xid := 1, log := [] }

/-! ## Concrete inputs and further vocabulary of the statements -/

/-- A handle in CONNECTED_STATE on descriptor 3, with one endpoint, a user watcher and a
receive timeout of 9000 ms, otherwise as `zookeeper_init` leaves it. -/
def connected_handle : zhandle_t :=
  { zookeeper_init 1 (some 0) 9000 none 0 World.idle with fd := 3, state := CONNECTED_STATE }

/-- An asynchronous Data entry with xid 7, callback 70 and context 700. -/
def data_entry : completion_list_t :=
  { xid := 7, completion_type := COMPLETION_DATA, c := FnPtr.fn 70, data := 700,
    sc := sync_completion.zero, buffer := none }

/-- A synchronous Stat entry with xid 8 whose `sync_completion` is at address 800. -/
def sync_entry : completion_list_t :=
  { xid := 8, completion_type := COMPLETION_STAT, c := FnPtr.SYNCHRONOUS_MARKER, data := 800,
    sc := sync_completion.zero, buffer := none }

/-- The entry that `zookeeper_interest` registers for a PING (line 948). -/
def ping_entry : completion_list_t :=
  create_completion_entry PING_XID COMPLETION_VOID FnPtr.null 0 sync_completion.zero

/-- A handle whose session has expired: state EXPIRED_SESSION_STATE and no socket, as
`handle_error` leaves it. -/
def expired_handle : zhandle_t :=
  { zookeeper_init 1 (some 0) 9000 none 0 World.idle with state := EXPIRED_SESSION_STATE }

/-- The 40 bytes of a prime response that announces the negotiated timeout `timeOut`, the
session id `sessionId` and the password `passwd`, with its length prefix (36). -/
def prime_response_bytes (timeOut sessionId : Int) (passwd : List Nat) : List Nat :=
  be32 36 ++ be32 0 ++ be32 timeOut ++ be64 sessionId ++ be32 16 ++ take_padded 16 passwd

/-- A handle that awaits the prime response on descriptor 3 after presenting the session
id 0x1234, with one asynchronous request pending, in an environment where the next `recv`
delivers the bytes `response`. -/
def associating_handle (response : List Nat) : zhandle_t :=
  let zh := zookeeper_init 1 (some 0) 9000
    (some { client_id := 4660, passwd := List.replicate 16 1 }) 0
    { World.idle with recv_results := [RecvResult.data response] }
  { zh with
    fd := 3, state := ASSOCIATING_STATE, input_buffer := input_buffer_t.primer,
    primer_buffer := { zh.primer_buffer with curr_offset := 4 },
    sent_requests := [data_entry] }

/-- The user-visible invocation that `process_completions` makes for the ready entry `c`,
read off the reply frame attached to it: the watcher call for a watch event (xid -1),
otherwise the callback of the entry with the `err` of the reply header and, when `err` is 0
and the kind has result arguments, the result decoded from the body; none for a Void entry
whose reply carries the PING xid and for an entry of no known kind. -/
def dispatch_of (w : watcher_fn) (c : completion_list_t) : List Event :=
  let frame := (c.buffer.map (fun b => b.buffer.getD [])).getD []
  let hdr := deserialize_ReplyHeader frame
  if hdr.xid = -1 then
    [Event.watcher w (deserialize_WatcherEvent (reply_body frame)).type
      (deserialize_WatcherEvent (reply_body frame)).state
      (deserialize_WatcherEvent (reply_body frame)).path]
  else if c.completion_type = COMPLETION_VOID then
    if hdr.xid = PING_XID then [] else [Event.completion c.c COMPLETION_VOID hdr.err none c.data]
  else if c.completion_type ∈ [COMPLETION_STAT, COMPLETION_DATA, COMPLETION_STRINGLIST,
      COMPLETION_ACLLIST, COMPLETION_STRING] then
    [Event.completion c.c c.completion_type hdr.err
      (if hdr.err ≠ 0 then none else some (reply_body frame)) c.data]
  else []

/-- The callback invocation that delivers the reply frame with payload `frame` to the
asynchronous entry `c`: the callback of the entry is called with the `err` of the reply
header, its context and, when `err` is 0 and the kind has result arguments (every kind but
Void), the result decoded from the body of the frame; null results otherwise. -/
def reply_event (c : completion_list_t) (frame : List Nat) : Event :=
  Event.completion c.c c.completion_type (deserialize_ReplyHeader frame).err
    (if c.completion_type = COMPLETION_VOID ∨ (deserialize_ReplyHeader frame).err ≠ 0 then none
     else some (reply_body frame)) c.data

/-- The `last_zxid` left by the dispatch of the ready entries `l`. -/
def last_zxid_of_completions (l : List completion_list_t) (z : Int) : Int :=
  l.foldl (fun _ c =>
    (deserialize_ReplyHeader ((c.buffer.map (fun b => b.buffer.getD [])).getD [])).zxid) z

/-- The `last_zxid` left by the decoding of the reply frames `l`. -/
def last_zxid_of_frames (l : List buffer_list_t) (z : Int) : Int :=
  l.foldl (fun _ b => (deserialize_ReplyHeader (b.buffer.getD [])).zxid) z

/-- A complete reply frame, as `recv_buffer` leaves it: the payload is the `ReplyHeader`
`(xid, zxid, err)` followed by `body`. -/
def reply_frame (xid zxid err : Int) (body : List Nat) : buffer_list_t :=
  { buffer := some (be32 xid ++ be64 zxid ++ be32 err ++ body),
    len := 16 + body.length, curr_offset := 16 + body.length + 4 }

/-- The bytes on the wire of a reply frame: the length prefix and the payload. -/
def reply_wire (xid zxid err : Int) (body : List Nat) : List Nat :=
  be32 (16 + body.length) ++ (be32 xid ++ be64 zxid ++ be32 err ++ body)

/-- The reply frame `f` answers the pending entry `c`: the entry is asynchronous, of one of
the six completion kinds, its xid is none of the reserved values -1 (watch event), -2
(PING) and -4 (AUTH), and the header of the frame carries that xid. -/
def answers (c : completion_list_t) (f : buffer_list_t) : Prop :=
  c.c ≠ FnPtr.SYNCHRONOUS_MARKER ∧
  c.completion_type ∈ [COMPLETION_VOID, COMPLETION_STAT, COMPLETION_DATA,
    COMPLETION_STRINGLIST, COMPLETION_ACLLIST, COMPLETION_STRING] ∧
  c.xid ≠ -1 ∧ c.xid ≠ PING_XID ∧ c.xid ≠ AUTH_XID ∧
  (deserialize_ReplyHeader (f.buffer.getD [])).xid = c.xid

instance (c : completion_list_t) (f : buffer_list_t) : Decidable (answers c f) := by
  unfold answers
  infer_instance

/-- The entry `c` with the reply frame `f` attached (line 1268). -/
def attach (c : completion_list_t) (f : buffer_list_t) : completion_list_t :=
  { c with buffer := some f }

/-- An asynchronous Void entry with xid 9, callback 90 and context 900. -/
def void_entry : completion_list_t :=
  { xid := 9, completion_type := COMPLETION_VOID, c := FnPtr.fn 90, data := 900,
    sc := sync_completion.zero, buffer := none }

/-- The body of a watch event `(CHANGED_EVENT, CONNECTED_STATE, "/x")`. -/
def changed_x_body : List Nat := be32 3 ++ be32 3 ++ be32 2 ++ [47, 120]

/-- The adaptor of the library-driven discipline: completions are left to the completion
thread. -/
def threaded_adaptor : Adaptor := { process_async := fun _ => 0 }

/-- The adaptor of the caller-driven discipline: completions are dispatched inline. -/
def inline_adaptor : Adaptor := { process_async := fun _ => 1 }

/-- The connected handle with the Data request (xid 7) and the Void request (xid 9) pending,
in this order, in an environment where the next `recv` calls deliver the bytes `wire`. -/
def two_pending_handle (wire : List Nat) : zhandle_t :=
  { connected_handle with
    sent_requests := [data_entry, void_entry],
    world := { World.idle with recv_results := [RecvResult.data wire] } }

/-- The handle `zh2` has the pending completions, the trace, the watcher and the state of
`zh`: what happened between them was not visible to the user and touched no completion. -/
def same_pending (zh zh2 : zhandle_t) : Prop :=
  zh2.trace = zh.trace ∧ zh2.sent_requests = zh.sent_requests ∧ zh2.watcher = zh.watcher ∧
    zh2.state = zh.state

/-- The connection of `zh` has been torn down with the code `rc`, leaving `zh2`: there is no
socket, `sent_requests` is empty, and the user-visible invocations made are, possibly after
the watcher call `(SESSION_EVENT, CONNECTING_STATE, null)`, the failures with `rc` of the
entries that were pending, in queue order. -/
def torn_down (zh zh2 : zhandle_t) (rc : Int) : Prop :=
  zh2.fd = -1 ∧ zh2.sent_requests = [] ∧
  ∃ pre, (pre = [] ∨ pre = [Event.watcher zh.watcher SESSION_EVENT CONNECTING_STATE none]) ∧
    zh2.trace = zh.trace ++ pre ++ zh.sent_requests.flatMap (failure_of rc)

/-- A connected handle with nothing pending, whose socket accepts the next two writes and
then delivers the successful reply to the request with xid 1. -/
def lost_reply_start : zhandle_t :=
  { connected_handle with
    world := { World.idle with
      send_results := [SendResult.accept 4, SendResult.accept 100],
      recv_results := [RecvResult.data (reply_wire 1 5 0 [1, 2, 3])] } }

/-- The handle after `zoo_aget(zh, "/x", 0, callback 70, context 700)` on
`lost_reply_start`. -/
def lost_reply_enqueued : zhandle_t :=
  (zoo_aget lost_reply_start 0 [0, 0, 0, 2, 47, 120, 0] (FnPtr.fn 70) 700
    sync_completion.zero).2

/-! ## Runs of the API, the endpoint cursor and the xid counter -/

/-- The values of `*fd`, `*interest` and `*tv` before a call: all zero. -/
def no_args : interest_args :=
  { fd := 0, interest := 0, tv := { tv_sec := 0, tv_usec := 0 } }

/-- The connected handle when the clock shows `sec` seconds; its `last_recv` is 0. -/
def idle_handle (sec : Int) : zhandle_t :=
  { connected_handle with world := { World.idle with now := { tv_sec := sec, tv_usec := 0 } } }

/-- A handle with three endpoints and no socket whose cursor is `c`, in the environment `w`,
otherwise as `zookeeper_init` leaves it. -/
def three_endpoint_handle (c : Int) (w : World) : zhandle_t :=
  { zookeeper_init 3 (some 0) 9000 none 0 w with connect_index := c }

/-- An environment in which the next `connect` is refused at once (ECONNREFUSED). -/
def refusing_world : World := { World.idle with connect_results := [(-1, 111)] }

/-- The endpoint indices of the `connect` calls of a log, in order. -/
def connect_targets (log : List Syscall) : List Int :=
  log.filterMap (fun s =>
    match s with
    | Syscall.connect _ index => some index
    | _ => none)

/-- The first `k` endpoint indices tried by a client with `N` endpoints whose cursor is `c`
when every attempt is followed by one increment of the cursor and a cursor equal to `N`
wraps to 0 before the attempt. -/
def rotation (N : Int) : Int → Nat → List Int
  | _, 0 => []
  | c, k + 1 => (if c = N then 0 else c) :: rotation N ((if c = N then 0 else c) + 1) k

/-- The cursor value with which the next connect attempt is decided: the cursor itself when
the handle has no socket, the cursor plus one while it has one, since losing the socket
advances the cursor (line 704). -/
def next_cursor (zh : zhandle_t) : Int :=
  if zh.fd = -1 then zh.connect_index else zh.connect_index + 1

/-- What a step of the library that neither opens a socket nor releases the handle does to
the endpoint cursor and to the pending completions, from `zh` to `zh2`: the endpoint set and
`close_requested` are kept; no `connect` is made; the xid counter does not go back; an entry
of `sent_requests` was already pending, or is the PING entry of line 948, or is of one of the
six completion kinds and carries an xid allocated during the step; and either the socket and
the cursor are kept, or the socket is dropped and the cursor advances by one. -/
def evolves (zh zh2 : zhandle_t) : Prop :=
  zh2.addrs_count = zh.addrs_count ∧ zh2.close_requested = zh.close_requested ∧
  connect_targets zh2.world.log = connect_targets zh.world.log ∧
  zh.world.next_xid ≤ zh2.world.next_xid ∧
  (∀ c ∈ zh2.sent_requests, c ∈ zh.sent_requests ∨ c = ping_entry ∨
    (zh.world.next_xid ≤ c.xid ∧ c.xid < zh2.world.next_xid ∧
      c.completion_type ∈ [COMPLETION_VOID, COMPLETION_STAT, COMPLETION_DATA,
        COMPLETION_STRINGLIST, COMPLETION_ACLLIST, COMPLETION_STRING])) ∧
  ((zh2.fd = zh.fd ∧ zh2.connect_index = zh.connect_index) ∨
   (zh.fd ≠ -1 ∧ zh2.fd = -1 ∧ zh2.connect_index = zh.connect_index + 1))

/-- The nine asynchronous request operations. -/
inductive Op where
  | aget | aset | acreate | adelete | aexists | aget_children | async | aget_acl | aset_acl
deriving DecidableEq, Repr

/-- The function of the library behind each request operation. -/
def Op.call : Op → zhandle_t → Int → List Nat → FnPtr → Nat → sync_completion →
    Int × zhandle_t
  | Op.aget => zoo_aget
  | Op.aset => zoo_aset
  | Op.acreate => zoo_acreate
  | Op.adelete => zoo_adelete
  | Op.aexists => zoo_aexists
  | Op.aget_children => zoo_aget_children
  | Op.async => zoo_async
  | Op.aget_acl => zoo_aget_acl
  | Op.aset_acl => zoo_aset_acl

/-- A call of the API on a live handle, with the environment in which it is made (`env`: the
clock and the answers that the operating system will give) and its arguments. -/
inductive Call where
  | interest (env : World) (out : interest_args)
  | process (env : World) (events : Int)
  | request (env : World) (op : Op) (req_rc : Int) (req : List Nat) (dc : FnPtr) (data : Nat)
      (sc : sync_completion)
  | add_auth (env : World) (scheme : List Nat) (cert : Option (List Nat)) (certLen : Int)
      (completion : FnPtr) (data : Nat)
  | set_watcher (newFn : Option Nat)

/-- The environment of a call. -/
def Call.env : Call → Option World
  | Call.interest env _ => some env
  | Call.process env _ => some env
  | Call.request env _ _ _ _ _ _ => some env
  | Call.add_auth env _ _ _ _ _ => some env
  | Call.set_watcher _ => none

/-- The handle `zh` in the environment `env`: the clock and the scripted answers are those
of `env`; the log of the calls made and the xid counter of the process stay. -/
def install (env : World) (zh : zhandle_t) : zhandle_t :=
  { zh with world := { env with log := zh.world.log, next_xid := zh.world.next_xid } }

/-- The handle after one call, or `none` when the call aborts the process (line 1249). -/
def run_call (ad : Adaptor) (c : Call) (zh : zhandle_t) : Option zhandle_t :=
  match c with
  | Call.interest env out => some (zookeeper_interest (install env zh) out).2.2
  | Call.process env events => (zookeeper_process ad (install env zh) events).map Prod.snd
  | Call.request env op req_rc req dc data sc =>
    some (op.call (install env zh) req_rc req dc data sc).2
  | Call.add_auth env scheme cert certLen completion data =>
    some (zoo_add_auth (install env zh) scheme cert certLen completion data).2
  | Call.set_watcher newFn => some (zoo_set_watcher zh newFn).2

/-- The handle after a sequence of calls. -/
def run (ad : Adaptor) : List Call → zhandle_t → Option zhandle_t
  | [], zh => some zh
  | c :: cs, zh => (run_call ad c zh).bind (run ad cs)

/-- The connect attempts of the handle `zh` follow the rotation that starts at the cursor
`c0` over `N` endpoints: the handle has `N` endpoints and is not being closed, the cursor of
its next attempt is in `[0, N]`, and the attempts logged after the earlier attempts `base`,
followed by the attempts still to come, are the rotation from `c0`. -/
def rotating (N c0 : Int) (base : List Int) (zh : zhandle_t) : Prop :=
  zh.addrs_count = N ∧ zh.close_requested = 0 ∧ 0 ≤ next_cursor zh ∧ next_cursor zh ≤ N ∧
  ∃ T, connect_targets zh.world.log = base ++ T ∧
    ∀ k, T ++ rotation N (next_cursor zh) k = rotation N c0 (T.length + k)

/-- The connected handle with the Data request 7 and the Void request 9 pending, after
`zoo_add_auth` has sent the credentials `("digest", "u:p")` with the completion 40 and the
context 400, when the reply frame `f` has been read. -/
def auth_pending_handle (f : buffer_list_t) : zhandle_t :=
  { connected_handle with
    sent_requests := [data_entry, void_entry],
    auth :=
      { scheme := some [100, 105, 103, 101, 115, 116], auth := [117, 58, 112], state := 0,
        completion := FnPtr.fn 40, data := 400 },
    to_process := [f] }

/-- The frame of the request `zoo_aget(zh, "/x", 0, ...)` with xid 1. -/
def get_x_frame : buffer_list_t :=
  allocate_buffer
    (some (serialize_RequestHeader { xid := 1, type := GETDATA_OP } ++ [0, 0, 0, 2, 47, 120, 0]))
    15

/-- A handle that awaits the prime response `response` on descriptor 3, with the credentials
`("digest", "u:p")` set and the frame `get_x_frame` already queued in `to_send`; its socket
accepts the next writes in full. -/
def credentialed_handle (response : List Nat) : zhandle_t :=
  { associating_handle response with
    auth :=
      { scheme := some [100, 105, 103, 101, 115, 116], auth := [117, 58, 112], state := 0,
        completion := FnPtr.fn 40, data := 400 },
    to_send := [get_x_frame],
    world :=
      { World.idle with
        recv_results := [RecvResult.data response],
        send_results := List.replicate 4 (SendResult.accept 100) } }

/-- The xids of the pending completions come from the xid counter: the counter is not
negative, and every entry of `sent_requests` is a PING entry or carries an xid below the
counter. -/
def pending_fresh (zh : zhandle_t) : Prop :=
  0 ≤ zh.world.next_xid ∧
  ∀ c ∈ zh.sent_requests, c.xid = PING_XID ∨ c.xid < zh.world.next_xid

/-- The connected handle with nothing pending, in an environment where `poll` reports the
socket writable and the socket accepts the next writes in full. -/
def writable_handle : zhandle_t :=
  { connected_handle with
    world :=
      { World.idle with
        poll_results := [1, 1, 1],
        send_results := List.replicate 4 (SendResult.accept 100) } }

/-! ## Repeated calls of the frame codec -/

/-- The bytes that the socket has accepted, in order: the stream that the peer reads. -/
def wire_bytes (log : List Syscall) : List Nat :=
  log.flatMap (fun s =>
    match s with
    | Syscall.send _ bytes => bytes
    | _ => [])

/-- The bytes that the scripted `recv` answers deliver, in order. -/
def stream_of (rs : List RecvResult) : List Nat :=
  rs.flatMap (fun r =>
    match r with
    | RecvResult.data bytes => bytes
    | RecvResult.error _ => [])

/-- The scripted `recv` answers deliver a stream in chunks: every answer is a non-empty
chunk of bytes or "would block". -/
def chunked (rs : List RecvResult) : Bool :=
  rs.all (fun r =>
    match r with
    | RecvResult.data bytes => decide (bytes ≠ [])
    | RecvResult.error e => decide (e = EAGAIN))

/-- The call `send_buffer(fd, buff)` is repeated, at most `n` times, as long as it
returns 0. -/
def send_until : Nat → World → Int → buffer_list_t → Int × buffer_list_t × World
  | 0, w, _, buff => (0, buff, w)
  | n + 1, w, fd, buff =>
    match send_buffer w fd buff with
    | (rc, buff1, w1) => if rc = 0 then send_until n w1 fd buff1 else (rc, buff1, w1)

/-- The call `recv_buffer(fd, buff)` is repeated, at most `n` times, as long as it
returns 0. -/
def recv_until : Nat → World → Int → buffer_list_t → Int × buffer_list_t × World
  | 0, w, _, buff => (0, buff, w)
  | n + 1, w, fd, buff =>
    match recv_buffer w fd buff with
    | (rc, buff1, w1) => if rc = 0 then recv_until n w1 fd buff1 else (rc, buff1, w1)

/-- The receive frame `buff` when the first `k` bytes of the wire image of the payload `B`
(the length prefix, then `B`) have been stored into a fresh frame: the cursor is `k`; while
the prefix is incomplete there is no payload buffer and the memory of `len` holds the bytes
received so far followed by what is left of the initial value; afterwards `len` is the
length of `B` and the payload buffer holds the bytes of `B` received so far, then zeros. -/
def receiving (B : List Nat) (k : Nat) (buff : buffer_list_t) : Prop :=
  buff.curr_offset = (k : Int) ∧
  (k < 4 → buff.buffer = none ∧
    int_mem buff.len = (be32 B.length).take k ++ (int_mem SIZEOF_BUFFER_LIST).drop k) ∧
  (4 ≤ k → buff.len = (B.length : Int) ∧
    buff.buffer = some (B.take (k - 4) ++ List.replicate (B.length - (k - 4)) 0))

/-- An environment whose socket accepts the written bytes in the chunks 3, 1, (would block),
2 and the rest. -/
def choppy_send_world : World :=
  { World.idle with
    send_results :=
      [SendResult.accept 3, SendResult.accept 1, SendResult.error EAGAIN, SendResult.accept 2,
       SendResult.accept 100] }

/-- An environment whose socket delivers the wire image of the payload `[1, 2, 3, 4, 5]` in
the chunks `[0, 0]`, (would block), `[0, 5, 1]` and `[2, 3, 4, 5]`. -/
def choppy_recv_world : World :=
  { World.idle with
    recv_results :=
      [RecvResult.data [0, 0], RecvResult.error EAGAIN, RecvResult.data [0, 5, 1],
       RecvResult.data [2, 3, 4, 5]] }

/-! ## Synchronous replies, the interest mask and the idle clock -/

/-- A synchronous AclList entry with xid 8 whose `sync_completion` is at address 800, as
`zoo_get_acl` registers it (line 2109). -/
def sync_acl_entry : completion_list_t :=
  { xid := 8, completion_type := COMPLETION_ACLLIST, c := FnPtr.SYNCHRONOUS_MARKER,
    data := 800, sc := sync_completion.zero, buffer := none }

/-- A synchronous String entry with xid 8, as `zoo_create` registers it (lines 1986-1989) for
a caller buffer `realpath` of `n` bytes, all of them 255 before the call. -/
def sync_create_entry (n : Nat) : completion_list_t :=
  { xid := 8, completion_type := COMPLETION_STRING, c := FnPtr.SYNCHRONOUS_MARKER,
    data := 800,
    sc := { sync_completion.zero with str := List.replicate n 255, str_len := n },
    buffer := none }

/-- The body of a successful `CreateResponse` that carries the path `p`. -/
def create_body (p : List Nat) : List Nat := be32 p.length ++ p

/-- What `zookeeper_interest` has reported in `out` matches the handle `zh` that it leaves:
with a socket, `*fd` is the descriptor and `*interest` is ZOOKEEPER_READ, joined with
ZOOKEEPER_WRITE exactly when `to_send` is not empty or the state is CONNECTING_STATE; without
a socket, `*fd` is -1 and `*interest` is 0. -/
def mask_reported (out : interest_args) (zh : zhandle_t) : Prop :=
  (zh.fd ≠ -1 →
    out.fd = zh.fd ∧
    out.interest =
      if zh.to_send ≠ [] ∨ zh.state = CONNECTING_STATE then
        Int.lor ZOOKEEPER_READ ZOOKEEPER_WRITE
      else ZOOKEEPER_READ) ∧
  (zh.fd = -1 → out.fd = -1 ∧ out.interest = 0)

/-- The frame into which the READ part of `check_events` reads (lines 1011-1015): the frame
that `zh->input_buffer` points to, a fresh one when the pointer is null. -/
def read_frame (zh : zhandle_t) : buffer_list_t :=
  match zh.input_buffer with
  | input_buffer_t.primer => zh.primer_buffer
  | input_buffer_t.heap b => b
  | input_buffer_t.null => allocate_buffer none 0

/-- The connected handle, whose `last_recv` is 0, when the clock shows 5 s and the socket
delivers the two bytes `[0, 0]`, the start of the length prefix of a reply. -/
def partial_read_handle : zhandle_t :=
  { connected_handle with
    world :=
      { World.idle with
        now := { tv_sec := 5, tv_usec := 0 }, recv_results := [RecvResult.data [0, 0]] } }

/-- An adaptor that dispatches the ready completions inline only while no synchronous
request is outstanding. -/
def sync_aware_adaptor : Adaptor := { process_async := fun n => if n = 0 then 1 else 0 }

/-- The connected handle with the asynchronous Data request 7 and the synchronous Stat
request 8 pending, in this order. -/
def async_then_sync_handle : zhandle_t :=
  { connected_handle with sent_requests := [data_entry, sync_entry], outstanding_sync := 1 }

/-- The connected handle with the Data request 7 pending, when the frame of its reply, with
zxid 5, has been read. -/
def data_reply_handle : zhandle_t :=
  { connected_handle with
    sent_requests := [data_entry], to_process := [reply_frame 7 5 0 [1, 2, 3]] }

/-! ## What is written before the session is established -/

/-- The system call `s` writes nothing but a piece of the handshake request `req`: if it is a
`send`, the bytes accepted are the beginning of the four bytes of the length 44 or of the 44
bytes of the serialized request. -/
def handshake_piece (req : connect_req) (s : Syscall) : Prop :=
  match s with
  | Syscall.send _ bytes =>
    bytes <+: be32 HANDSHAKE_REQ_SIZE ∨ bytes <+: serialize_prime_connect req
  | _ => True

/-- From `zh` to `zh2` the log has only grown, and every `send` made in between has written
a piece of the handshake request `req`. -/
def quiet (req : connect_req) (zh zh2 : zhandle_t) : Prop :=
  ∃ more, zh2.world.log = zh.world.log ++ more ∧ ∀ s ∈ more, handshake_piece req s

/-- A handle as `zookeeper_init` leaves it (one endpoint, no socket yet), with the request
`get_x_frame` queued, in an environment where the connection is established at once and the
socket accepts what is written. -/
def queued_fresh_handle : zhandle_t :=
  { zookeeper_init 1 (some 0) 9000 none 0
      { World.idle with
        connect_results := [(0, 0)],
        send_results := List.replicate 4 (SendResult.accept 100) } with
    to_send := [get_x_frame] }

/-! ## The send queue as a byte stream -/

/-- The bytes of the frame `f` on the wire: the four bytes of its length, then its payload. -/
def frame_image (f : buffer_list_t) : List Nat := be32 f.len ++ f.buffer.getD []

/-- On the connected handle: `zoo_aget(zh, "/x", 0, ...)` while the socket would block; a
`zookeeper_process` with the WRITE event on a socket that accepts 3 bytes. -/
def partial_get_calls : List Call :=
  [Call.request World.idle Op.aget 0 [0, 0, 0, 2, 47, 120, 0] (FnPtr.fn 70) 700
      sync_completion.zero,
    Call.process { World.idle with send_results := [SendResult.accept 3] } ZOOKEEPER_WRITE]

/-- The handle after `partial_get_calls`: the frame of the request is at the head of
`to_send`, three bytes of its length written. -/
def partly_sent_handle : zhandle_t :=
  (run inline_adaptor partial_get_calls connected_handle).getD connected_handle

/-- After `partial_get_calls`: `zoo_add_auth(zh, "digest", "u:p", 3, ...)`, then a
`zookeeper_process` with the WRITE event on a socket that accepts all that is offered. -/
def add_auth_calls : List Call :=
  [Call.add_auth World.idle [100, 105, 103, 101, 115, 116] (some [117, 58, 112]) 3
      (FnPtr.fn 40) 400,
    Call.process { World.idle with send_results := List.replicate 4 (SendResult.accept 100) }
      ZOOKEEPER_WRITE]

/-! ## The bounds of the endpoint cursor -/

/-- The endpoint cursor of the handle `zh` is within its `N` endpoints: the handle has `N`
endpoints and is not being closed, the cursor is in `[0, N]` and below `N` while the handle
has a socket, and every `connect` logged after the earlier attempts `base` was made with an
endpoint index in `[0, N)`. -/
def cursor_bounded (N : Int) (base : List Int) (zh : zhandle_t) : Prop :=
  zh.addrs_count = N ∧ zh.close_requested = 0 ∧ 0 ≤ zh.connect_index ∧
  zh.connect_index ≤ N ∧ (zh.fd ≠ -1 → zh.connect_index < N) ∧
  ∃ T, connect_targets zh.world.log = base ++ T ∧ ∀ t ∈ T, 0 ≤ t ∧ t < N

/-- Four calls of `zookeeper_interest`: in the first three the connection is refused at
once, in the last one `socket` fails too. -/
def refused_calls : List Call :=
  [Call.interest refusing_world no_args, Call.interest refusing_world no_args,
    Call.interest refusing_world no_args,
    Call.interest { refusing_world with next_fd := -1 } no_args]

/-! ## A session with a very long timeout -/

/-- On a handle that awaits the prime response: a `zookeeper_process` that reads a prime
response granting the timeout `2^30` ms, then a `zookeeper_interest`, both at time 0. -/
def long_timeout_calls : List Call :=
  [Call.process
      { World.idle with
        recv_results :=
          [RecvResult.data (prime_response_bytes 1073741824 4660 (List.replicate 16 2))] }
      ZOOKEEPER_READ,
    Call.interest World.idle no_args]

/-- The handle of `long_timeout_calls` after its first call: the session is established, the
timeout is `2^30` ms and the request 7 is still pending. -/
def long_timeout_handle : zhandle_t :=
  (run inline_adaptor (long_timeout_calls.take 1) (associating_handle [])).getD
    (associating_handle [])

/-! ## A frame too long for the cursor -/

/-- A payload of `2^31 - 4` bytes, the shortest for which `len + 4` is not an `int`. -/
def long_payload : List Nat := List.replicate 2147483644 7

/-- The receive frame that holds `long_payload` in full, with the cursor where the last
`curr_offset += rc` has left it. -/
def long_frame_received : buffer_list_t :=
  { buffer := some long_payload, len := 2147483644, curr_offset := -2147483648 }

/-- An environment in which the socket delivers the frame of `long_payload`: its length
prefix, then the payload in one piece. -/
def long_frame_world : World :=
  { World.idle with
    recv_results := [RecvResult.data (be32 2147483644), RecvResult.data long_payload] }

/-! ## The statements of a request operation, one by one -/

/-- Lines 1521-1549 (`zoo_aget`; the eight other request operations are alike), statement by
statement: the handle after `get_xid()` (line 1525), after the `add_*_completion` call (line
1537), after `queue_buffer_bytes` (line 1538) and after `adaptor_send_queue` (line 1547), in
the order in which the statements are executed.  A call that returns at the
`is_unrecoverable` test (line 1531) has the first of them only. -/
def zoo_arequest_steps (type : Int)
    (add : zhandle_t → Int → FnPtr → Nat → sync_completion → Int × zhandle_t)
    (zh : zhandle_t) (req_rc : Int) (req : List Nat) (dc : FnPtr) (data : Nat)
    (sc : sync_completion) : List zhandle_t :=
  match get_xid zh.world with
  | (xid, w1) =>
    let zh0 := { zh with world := w1 }
    let h : RequestHeader := { xid := xid, type := type }
    if is_unrecoverable zh0 ≠ 0 then [zh0]
    else
      let oa := serialize_RequestHeader h ++ req
      let rc : Int := 0
      let rc := if rc < 0 then rc else req_rc
      match (if rc < 0 then (rc, zh0) else add zh0 h.xid dc data sc) with
      | (rc, zh1) =>
        match (if rc < 0 then (rc, zh1.to_send)
               else queue_buffer_bytes zh1.to_send oa oa.length) with
        | (_, to_send) =>
          let zh2 := { zh1 with to_send := to_send }
          [zh0, zh1, zh2, (adaptor_send_queue zh2 0).2]

/-- The statements of each request operation. -/
def Op.steps : Op → zhandle_t → Int → List Nat → FnPtr → Nat → sync_completion →
    List zhandle_t
  | Op.aget => zoo_arequest_steps GETDATA_OP add_data_completion
  | Op.aset => zoo_arequest_steps SETDATA_OP add_stat_completion
  | Op.acreate => zoo_arequest_steps CREATE_OP add_string_completion
  | Op.adelete => zoo_arequest_steps DELETE_OP add_void_completion
  | Op.aexists => zoo_arequest_steps EXISTS_OP add_stat_completion
  | Op.aget_children => zoo_arequest_steps GETCHILDREN_OP add_strings_completion
  | Op.async => zoo_arequest_steps SYNC_OP add_string_completion
  | Op.aget_acl => zoo_arequest_steps GETACL_OP add_acl_completion
  | Op.aset_acl => zoo_arequest_steps SETACL_OP add_void_completion

/-! ## Connection-level errors -/

/-- The next `recv` fails: it returns -1 with an `errno` other than EAGAIN (a recv failure),
or it returns 0 (the peer has closed the connection). -/
def recv_fails (w : World) : Bool :=
  match w.recv_results with
  | RecvResult.error e :: _ => decide (e ≠ EAGAIN)
  | RecvResult.data [] :: _ => true
  | _ => false

/-- The next `send` fails: it returns -1 with an `errno` other than EAGAIN. -/
def send_fails (w : World) : Bool :=
  match w.send_results with
  | SendResult.error e :: _ => decide (e ≠ EAGAIN)
  | _ => false

/-- The next `send` does not go through: it returns -1, whatever the `errno`. -/
def send_refused (w : World) : Bool :=
  match w.send_results with
  | SendResult.accept _ :: _ => false
  | _ => true

/-- The next `connect` fails at once: it returns -1 with an `errno` other than EWOULDBLOCK
and EINPROGRESS (for instance ECONNREFUSED). -/
def connect_fails (w : World) : Bool :=
  match w.connect_results with
  | (rc, e) :: _ => decide (rc = -1 ∧ e ≠ EWOULDBLOCK ∧ e ≠ EINPROGRESS)
  | [] => false

/-- The connect in progress has failed: the next `getsockopt(SO_ERROR)` fails or reports an
error. -/
def connect_has_failed (w : World) : Bool :=
  match w.sockopt_results with
  | (rc, e) :: _ => decide (rc < 0 ∨ e ≠ 0)
  | [] => false

/-- The call `recv_buffer(fd, buff)` reads from the socket: the length of the frame is
incomplete, or the frame has its payload buffer. -/
def reads (buff : buffer_list_t) : Bool :=
  decide (buff.curr_offset < 4) || buff.buffer.isSome

/-- A handle without a socket, with the requests 7 and 9 pending, whose next `connect` is
refused (`errno` 111, ECONNREFUSED). -/
def refused_connect_handle : zhandle_t :=
  { connected_handle with
    fd := -1, state := 0,
    sent_requests := [data_entry, void_entry],
    world := { World.idle with connect_results := [(-1, 111)] } }

/-- A connected handle with the requests 7 and 9 pending and one frame to send, whose next
`send` fails (`errno` 32, EPIPE). -/
def failed_send_handle : zhandle_t :=
  { connected_handle with
    sent_requests := [data_entry, void_entry],
    to_send := [allocate_buffer (some [0, 0, 0, 9, 0, 0, 0, 11]) 8],
    world := { World.idle with send_results := [SendResult.error 32] } }

/-- The pending entries of `zh` are as the library registers them: each is the PING entry of
line 948 (asynchronous, Void, xid -2), or an entry of one of the six completion kinds whose
xid came from `get_xid` and is not negative. -/
def registered (zh : zhandle_t) : Prop :=
  ∀ c ∈ zh.sent_requests, c = ping_entry ∨
    (0 ≤ c.xid ∧
      c.completion_type ∈ [COMPLETION_VOID, COMPLETION_STAT, COMPLETION_DATA,
        COMPLETION_STRINGLIST, COMPLETION_ACLLIST, COMPLETION_STRING])

/-! # Theorems -/

theorem int_wrap_id (x : Int) (h0 : -2147483648 ≤ x) (h1 : x < 2147483648) :
    int_wrap x = x := by
  unfold int_wrap
  omega


/-! ## Basic facts about the drain -/

theorem free_buffers_eq_nil (l : List buffer_list_t) : free_buffers l = [] := by
  induction l with
  | nil => rfl
  | cons b rest ih => simpa [free_buffers] using ih

theorem sync_count_nil : sync_count [] = 0 := rfl

theorem sync_count_cons (c : completion_list_t) (l : List completion_list_t) :
    sync_count (c :: l) = (if c.c = FnPtr.SYNCHRONOUS_MARKER then 1 else 0) + sync_count l := by
  unfold sync_count
  by_cases h : c.c = FnPtr.SYNCHRONOUS_MARKER
  · simp [List.filter_cons, h]; ring
  · simp [List.filter_cons, h]

theorem free_completion_eq (zh : zhandle_t) (rc : Int) (c : completion_list_t) :
    free_completion zh 1 rc c =
      { zh with
        trace := zh.trace ++ failure_of rc c,
        outstanding_sync := zh.outstanding_sync - sync_count [c] } := by
  rw [sync_count_cons, sync_count_nil]
  unfold free_completion failure_of notify_sync_completion call_completion
  by_cases hs : c.c = FnPtr.SYNCHRONOUS_MARKER
  · simp [hs]
  · simp only [hs, if_false]
    by_cases h0 : c.completion_type = COMPLETION_VOID
    · by_cases hx : c.xid = PING_XID <;>
        simp [h0, hx, COMPLETION_VOID, COMPLETION_DATA, COMPLETION_STAT, COMPLETION_STRINGLIST,
          COMPLETION_STRING, COMPLETION_ACLLIST]
    · by_cases h1 : c.completion_type = COMPLETION_STAT
      · simp [h1, COMPLETION_VOID, COMPLETION_DATA, COMPLETION_STAT, COMPLETION_STRINGLIST,
          COMPLETION_STRING, COMPLETION_ACLLIST]
      · by_cases h2 : c.completion_type = COMPLETION_DATA
        · simp [h2, COMPLETION_VOID, COMPLETION_DATA, COMPLETION_STAT, COMPLETION_STRINGLIST,
            COMPLETION_STRING, COMPLETION_ACLLIST]
        · by_cases h3 : c.completion_type = COMPLETION_STRINGLIST
          · simp [h3, COMPLETION_VOID, COMPLETION_DATA, COMPLETION_STAT, COMPLETION_STRINGLIST,
              COMPLETION_STRING, COMPLETION_ACLLIST]
          · by_cases h4 : c.completion_type = COMPLETION_ACLLIST
            · simp [h4, COMPLETION_VOID, COMPLETION_DATA, COMPLETION_STAT, COMPLETION_STRINGLIST,
                COMPLETION_STRING, COMPLETION_ACLLIST]
            · by_cases h5 : c.completion_type = COMPLETION_STRING
              · simp [h5, COMPLETION_VOID, COMPLETION_DATA, COMPLETION_STAT,
                  COMPLETION_STRINGLIST, COMPLETION_STRING, COMPLETION_ACLLIST]
              · simp [h0, h1, h2, h3, h4, h5]

theorem free_completions_loop_eq (rc : Int) (l : List completion_list_t) (zh : zhandle_t) :
    free_completions_loop 1 rc l zh =
      { zh with
        trace := zh.trace ++ l.flatMap (failure_of rc),
        outstanding_sync := zh.outstanding_sync - sync_count l } := by
  induction l generalizing zh with
  | nil => simp [free_completions_loop, sync_count_nil]
  | cons c rest ih =>
    rw [free_completions_loop, ih, free_completion_eq, sync_count_cons c rest,
      sync_count_cons c [], sync_count_nil]
    simp only [List.flatMap_cons, List.append_assoc, zhandle_t.mk.injEq, true_and, and_true]
    omega

theorem cleanup_bufs_eq (zh : zhandle_t) (rc : Int) :
    cleanup_bufs zh 1 rc =
      { zh with
        to_send := [], to_process := [], sent_requests := [],
        input_buffer :=
          match zh.input_buffer with
          | input_buffer_t.heap _ => input_buffer_t.null
          | b => b,
        trace := zh.trace ++ zh.sent_requests.flatMap (failure_of rc),
        outstanding_sync := zh.outstanding_sync - sync_count zh.sent_requests } := by
  unfold cleanup_bufs free_completions
  simp only [free_buffers_eq_nil, free_completions_loop_eq]
  cases h : zh.input_buffer <;> simp

theorem handle_error_eq (zh : zhandle_t) (rc : Int) :
    handle_error zh rc =
      { zh with
        world := close zh.world zh.fd,
        to_send := [], to_process := [], sent_requests := [],
        input_buffer :=
          match zh.input_buffer with
          | input_buffer_t.heap _ => input_buffer_t.null
          | b => b,
        trace := zh.trace ++
          (if zh.state < 0 then [Event.watcher zh.watcher SESSION_EVENT zh.state none]
           else if zh.state = CONNECTED_STATE then
             [Event.watcher zh.watcher SESSION_EVENT CONNECTING_STATE none]
           else []) ++ zh.sent_requests.flatMap (failure_of rc),
        outstanding_sync := zh.outstanding_sync - sync_count zh.sent_requests,
        fd := -1,
        connect_index := zh.connect_index + 1,
        state := if zh.state < 0 then zh.state else 0 } := by
  unfold handle_error
  simp only [cleanup_bufs_eq, is_unrecoverable, call_watcher]
  by_cases h : zh.state < 0
  · simp [h, ZINVALIDSTATE, ZOK]
  · by_cases h3 : zh.state = CONNECTED_STATE
    · have h3n : zh.state = 3 := h3
      simp [h3n, ZINVALIDSTATE, ZOK, CONNECTED_STATE]
    · simp [h, h3, ZINVALIDSTATE, ZOK]

theorem flush_send_queue_not_connected (zh : zhandle_t) (timeout : Int)
    (h : zh.state ≠ CONNECTED_STATE) : flush_send_queue zh timeout = (ZOK, zh) := by
  unfold flush_send_queue
  simp only []
  rw [flush_send_queue_loop]
  cases hs : zh.to_send with
  | nil => rfl
  | cons b rest => simp [h]

theorem destroy_eq (zh : zhandle_t) :
    destroy zh =
      { zh with
        to_send := [], to_process := [], sent_requests := [],
        input_buffer :=
          match zh.input_buffer with
          | input_buffer_t.heap _ => input_buffer_t.null
          | b => b,
        trace := zh.trace ++ zh.sent_requests.flatMap (failure_of ZCLOSING),
        outstanding_sync := zh.outstanding_sync - sync_count zh.sent_requests,
        world := if zh.fd ≠ -1 then close zh.world zh.fd else zh.world,
        fd := -1,
        state := if zh.fd ≠ -1 then 0 else zh.state,
        auth := init_auth_info } := by
  unfold destroy free_auth_info
  simp only [cleanup_bufs_eq]
  by_cases h : zh.fd = -1
  · simp [h]
  · simp [h]

theorem api_epilog_fst (zh : zhandle_t) (rc : Int) : (api_epilog zh rc).1 = rc := by
  unfold api_epilog
  simp only []
  split <;> rfl

theorem api_epilog_open (zh : zhandle_t) (rc : Int) (h : zh.close_requested = 0) :
    api_epilog zh rc = (rc, { zh with ref_counter := zh.ref_counter - 1 }) := by
  unfold api_epilog inc_ref_counter
  simp [h]
  rfl

theorem zookeeper_close_not_connected (zh : zhandle_t) (h : zh.state ≠ CONNECTED_STATE) :
    zookeeper_close zh =
      if zh.ref_counter ≠ 0 then (ZOK, { zh with close_requested := 1 })
      else (ZOK, { destroy { zh with close_requested := 1 } with freed := true }) := by
  unfold zookeeper_close inc_ref_counter
  by_cases hr : zh.ref_counter = 0
  · simp [hr, h]
  · simp [hr]

/-- C9 (drain): take a handle whose pending entries are as the library registers them: each
is of one of the six completion kinds, and an entry with the PING xid is the asynchronous Void
entry of line 948, the only one registered with that xid (so it is in every state that the
calls of the library reach from an initialised handle: `registered_run`,
`registered_entries`).  For every error code `rc`,
`cleanup_bufs(zh, 1, rc)` leaves `to_send`, `to_process` and `sent_requests` empty and visits
each entry that was in `sent_requests` exactly once, in queue order: a synchronous entry has
`rc` stored in its `sync_completion` and is signalled, and `outstanding_sync` is decremented
for it; an asynchronous entry has its callback invoked once with `rc` and null result
arguments; and an entry with the PING xid causes no invocation. -/
theorem cleanup_bufs_drains (zh : zhandle_t) (rc : Int)
    (hkind : ∀ c ∈ zh.sent_requests,
      c.completion_type ∈ [COMPLETION_VOID, COMPLETION_STAT, COMPLETION_DATA,
        COMPLETION_STRINGLIST, COMPLETION_ACLLIST, COMPLETION_STRING])
    (hping : ∀ c ∈ zh.sent_requests, c.xid = PING_XID →
      c.c ≠ FnPtr.SYNCHRONOUS_MARKER ∧ c.completion_type = COMPLETION_VOID) :
    (cleanup_bufs zh 1 rc).to_send = [] ∧
    (cleanup_bufs zh 1 rc).to_process = [] ∧
    (cleanup_bufs zh 1 rc).sent_requests = [] ∧
    (cleanup_bufs zh 1 rc).trace = zh.trace ++ zh.sent_requests.flatMap (failure_of rc) ∧
    (cleanup_bufs zh 1 rc).outstanding_sync =
      zh.outstanding_sync - sync_count zh.sent_requests ∧
    (∀ c ∈ zh.sent_requests,
      (c.c = FnPtr.SYNCHRONOUS_MARKER →
        failure_of rc c = [Event.notify_sync_completion c.data { c.sc with rc := rc }]) ∧
      (c.c ≠ FnPtr.SYNCHRONOUS_MARKER → c.xid ≠ PING_XID →
        failure_of rc c = [Event.completion c.c c.completion_type rc none c.data]) ∧
      (c.xid = PING_XID → failure_of rc c = [])) := by
  rw [cleanup_bufs_eq]
  refine ⟨rfl, rfl, rfl, rfl, rfl, fun c hc => ⟨fun hs => ?_, fun hs hx => ?_, fun hx => ?_⟩⟩
  · simp [failure_of, hs]
  · unfold failure_of
    rw [if_neg hs, if_neg (fun h => hx h.2), if_pos (hkind c hc)]
  · obtain ⟨hs, hv⟩ := hping c hc hx
    simp [failure_of, hs, hv, hx]

/-- C9 (instance): the drain of a queue holding an asynchronous Data entry, a synchronous
Stat entry and the PING entry, in this order. -/
theorem cleanup_bufs_drains_witness :
    (∀ c ∈ ({ connected_handle with
        sent_requests := [data_entry, sync_entry, ping_entry],
        outstanding_sync := 1 } : zhandle_t).sent_requests,
      c.completion_type ∈ [COMPLETION_VOID, COMPLETION_STAT, COMPLETION_DATA,
        COMPLETION_STRINGLIST, COMPLETION_ACLLIST, COMPLETION_STRING]) ∧
    (∀ c ∈ ({ connected_handle with
        sent_requests := [data_entry, sync_entry, ping_entry],
        outstanding_sync := 1 } : zhandle_t).sent_requests, c.xid = PING_XID →
      c.c ≠ FnPtr.SYNCHRONOUS_MARKER ∧ c.completion_type = COMPLETION_VOID) ∧
    (cleanup_bufs { connected_handle with
        sent_requests := [data_entry, sync_entry, ping_entry], outstanding_sync := 1 } 1
        ZCONNECTIONLOSS).trace =
      [Event.completion (FnPtr.fn 70) COMPLETION_DATA ZCONNECTIONLOSS none 700,
       Event.notify_sync_completion 800 { sync_completion.zero with rc := ZCONNECTIONLOSS }] ∧
    (cleanup_bufs { connected_handle with
        sent_requests := [data_entry, sync_entry, ping_entry], outstanding_sync := 1 } 1
        ZCONNECTIONLOSS).outstanding_sync = 0 ∧
    failure_of ZCONNECTIONLOSS ping_entry = [] :=
  have h := cleanup_bufs_drains { connected_handle with
        sent_requests := [data_entry, sync_entry, ping_entry], outstanding_sync := 1 }
        ZCONNECTIONLOSS (by decide) (by decide)
  ⟨by decide, by decide, h.2.2.2.1.trans (by decide), h.2.2.2.2.1.trans (by decide),
    (h.2.2.2.2.2 ping_entry (by decide)).2.2 (by decide)⟩

/-- C10: for every handle in CONNECTED_STATE, the trace of user-visible invocations that
`handle_error` produces starts with the watcher call `(SESSION_EVENT, CONNECTING_STATE,
null)`; everything after it is a completion callback or a sync signal (the failures of the
pending completions, in queue order). -/
theorem handle_error_notifies_before_failing (zh : zhandle_t) (rc : Int)
    (h : zh.state = CONNECTED_STATE) :
    (handle_error zh rc).trace =
      zh.trace ++ Event.watcher zh.watcher SESSION_EVENT CONNECTING_STATE none ::
        zh.sent_requests.flatMap (failure_of rc) ∧
    ∀ e ∈ zh.sent_requests.flatMap (failure_of rc),
      (∃ fn t r res d, e = Event.completion fn t r res d) ∨
      (∃ d sc, e = Event.notify_sync_completion d sc) := by
  constructor
  · rw [handle_error_eq]
    have h3 : zh.state = 3 := h
    simp [h3, CONNECTED_STATE]
  · intro e he
    rw [List.mem_flatMap] at he
    obtain ⟨c, _, hc⟩ := he
    unfold failure_of at hc
    split at hc
    · simp only [List.mem_singleton] at hc
      exact Or.inr ⟨_, _, hc⟩
    · split at hc
      · simp at hc
      · split at hc
        · simp only [List.mem_singleton] at hc
          exact Or.inl ⟨_, _, _, _, _, hc⟩
        · simp at hc

/-- C10 (instance): a connected handle with an asynchronous and a synchronous entry
pending. -/
theorem handle_error_notifies_before_failing_witness :
    ({ connected_handle with sent_requests := [data_entry, sync_entry] } : zhandle_t).state =
      CONNECTED_STATE ∧
    (handle_error { connected_handle with sent_requests := [data_entry, sync_entry] }
        ZCONNECTIONLOSS).trace =
      [Event.watcher (watcher_fn.user 0) SESSION_EVENT CONNECTING_STATE none,
       Event.completion (FnPtr.fn 70) COMPLETION_DATA ZCONNECTIONLOSS none 700,
       Event.notify_sync_completion 800 { sync_completion.zero with rc := ZCONNECTIONLOSS }] :=
  ⟨by decide,
   (handle_error_notifies_before_failing
      { connected_handle with sent_requests := [data_entry, sync_entry] } ZCONNECTIONLOSS
      (by decide)).1.trans (by decide)⟩

theorem zoo_arequest_unrecoverable (type : Int)
    (add : zhandle_t → Int → FnPtr → Nat → sync_completion → Int × zhandle_t)
    (zh : zhandle_t) (req_rc : Int) (req : List Nat) (dc : FnPtr) (data : Nat)
    (sc : sync_completion) (h : zh.state < 0) :
    zoo_arequest type add zh req_rc req dc data sc =
      (ZINVALIDSTATE, { zh with world := (get_xid zh.world).2 }) := by
  unfold zoo_arequest is_unrecoverable
  simp [get_xid, h, ZINVALIDSTATE]

theorem state_neg_of_terminal (zh : zhandle_t)
    (h : zh.state = EXPIRED_SESSION_STATE ∨ zh.state = AUTH_FAILED_STATE) : zh.state < 0 := by
  rcases h with h | h <;> rw [h] <;> decide

/-- C3 (counterexample): `zookeeper_close` on a handle in EXPIRED_SESSION_STATE returns ZOK,
which is not ZINVALIDSTATE. -/
theorem zookeeper_close_expired_returns_ZOK :
    expired_handle.state = EXPIRED_SESSION_STATE ∧
    (zookeeper_close expired_handle).1 = ZOK ∧ ZOK ≠ ZINVALIDSTATE := by
  decide

/-- C3 (amended): on a handle whose state is EXPIRED_SESSION_STATE or AUTH_FAILED_STATE,
`zookeeper_interest`, `zookeeper_process`, the nine asynchronous request operations and
`zoo_add_auth` return ZINVALIDSTATE, whereas `zookeeper_close` returns ZOK. -/
theorem terminal_state_calls (ad : Adaptor) (zh : zhandle_t) (out : interest_args)
    (events : Int) (req_rc : Int) (req : List Nat) (dc : FnPtr) (data : Nat)
    (sc : sync_completion) (scheme : List Nat) (cert : Option (List Nat)) (certLen : Int)
    (h : zh.state = EXPIRED_SESSION_STATE ∨ zh.state = AUTH_FAILED_STATE) :
    (zookeeper_interest zh out).1 = ZINVALIDSTATE ∧
    (zookeeper_process ad zh events).map Prod.fst = some ZINVALIDSTATE ∧
    (zoo_aget zh req_rc req dc data sc).1 = ZINVALIDSTATE ∧
    (zoo_aset zh req_rc req dc data sc).1 = ZINVALIDSTATE ∧
    (zoo_acreate zh req_rc req dc data sc).1 = ZINVALIDSTATE ∧
    (zoo_adelete zh req_rc req dc data sc).1 = ZINVALIDSTATE ∧
    (zoo_aexists zh req_rc req dc data sc).1 = ZINVALIDSTATE ∧
    (zoo_aget_children zh req_rc req dc data sc).1 = ZINVALIDSTATE ∧
    (zoo_async zh req_rc req dc data sc).1 = ZINVALIDSTATE ∧
    (zoo_aget_acl zh req_rc req dc data sc).1 = ZINVALIDSTATE ∧
    (zoo_aset_acl zh req_rc req dc data sc).1 = ZINVALIDSTATE ∧
    (zoo_add_auth zh scheme cert certLen dc data).1 = ZINVALIDSTATE ∧
    (zookeeper_close zh).1 = ZOK := by
  have hneg := state_neg_of_terminal zh h
  have hne : zh.state ≠ CONNECTED_STATE := by
    intro h3; rw [h3] at hneg; exact absurd hneg (by decide)
  refine ⟨?_, ?_, ?_, ?_, ?_, ?_, ?_, ?_, ?_, ?_, ?_, ?_, ?_⟩
  · simp [zookeeper_interest, is_unrecoverable, hneg, ZINVALIDSTATE]
  · simp [zookeeper_process, is_unrecoverable, hneg, ZINVALIDSTATE]
  · simp [zoo_aget, zoo_arequest_unrecoverable _ _ _ _ _ _ _ _ hneg]
  · simp [zoo_aset, zoo_arequest_unrecoverable _ _ _ _ _ _ _ _ hneg]
  · simp [zoo_acreate, zoo_arequest_unrecoverable _ _ _ _ _ _ _ _ hneg]
  · simp [zoo_adelete, zoo_arequest_unrecoverable _ _ _ _ _ _ _ _ hneg]
  · simp [zoo_aexists, zoo_arequest_unrecoverable _ _ _ _ _ _ _ _ hneg]
  · simp [zoo_aget_children, zoo_arequest_unrecoverable _ _ _ _ _ _ _ _ hneg]
  · simp [zoo_async, zoo_arequest_unrecoverable _ _ _ _ _ _ _ _ hneg]
  · simp [zoo_aget_acl, zoo_arequest_unrecoverable _ _ _ _ _ _ _ _ hneg]
  · simp [zoo_aset_acl, zoo_arequest_unrecoverable _ _ _ _ _ _ _ _ hneg]
  · simp [zoo_add_auth, is_unrecoverable, hneg, ZINVALIDSTATE]
  · rw [zookeeper_close_not_connected zh hne]
    split <;> rfl

/-- C3 (instance): the calls on the expired handle. -/
theorem terminal_state_calls_witness :
    (expired_handle.state = EXPIRED_SESSION_STATE ∨
      expired_handle.state = AUTH_FAILED_STATE) ∧
    (zookeeper_interest expired_handle
      { fd := 0, interest := 0, tv := { tv_sec := 0, tv_usec := 0 } }).1 = ZINVALIDSTATE ∧
    (zoo_aget expired_handle 0 [47, 120, 0] (FnPtr.fn 70) 700 sync_completion.zero).1 =
      ZINVALIDSTATE ∧
    (zookeeper_close expired_handle).1 = ZOK :=
  have h := terminal_state_calls { process_async := fun _ => 0 } expired_handle
    { fd := 0, interest := 0, tv := { tv_sec := 0, tv_usec := 0 } } 2 0 [47, 120, 0]
    (FnPtr.fn 70) 700 sync_completion.zero [100] none 0 (Or.inl (by decide))
  ⟨Or.inl (by decide), h.1, h.2.2.1, h.2.2.2.2.2.2.2.2.2.2.2.2⟩

/-- C4: on a handle whose state field is EXPIRED_SESSION_STATE or AUTH_FAILED_STATE, none of
`zookeeper_interest`, `zookeeper_process`, `handle_error`, the nine asynchronous request
operations, `zoo_add_auth` and `zoo_set_watcher` changes the state field (and
`zookeeper_process` does return). -/
theorem terminal_state_absorbing (ad : Adaptor) (zh : zhandle_t) (out : interest_args)
    (events : Int) (rc : Int) (req_rc : Int) (req : List Nat) (dc : FnPtr) (data : Nat)
    (sc : sync_completion) (scheme : List Nat) (cert : Option (List Nat)) (certLen : Int)
    (newFn : Option Nat)
    (h : zh.state = EXPIRED_SESSION_STATE ∨ zh.state = AUTH_FAILED_STATE) :
    (zookeeper_interest zh out).2.2.state = zh.state ∧
    (∃ r, zookeeper_process ad zh events = some r ∧ r.2.state = zh.state) ∧
    (handle_error zh rc).state = zh.state ∧
    (zoo_aget zh req_rc req dc data sc).2.state = zh.state ∧
    (zoo_aset zh req_rc req dc data sc).2.state = zh.state ∧
    (zoo_acreate zh req_rc req dc data sc).2.state = zh.state ∧
    (zoo_adelete zh req_rc req dc data sc).2.state = zh.state ∧
    (zoo_aexists zh req_rc req dc data sc).2.state = zh.state ∧
    (zoo_aget_children zh req_rc req dc data sc).2.state = zh.state ∧
    (zoo_async zh req_rc req dc data sc).2.state = zh.state ∧
    (zoo_aget_acl zh req_rc req dc data sc).2.state = zh.state ∧
    (zoo_aset_acl zh req_rc req dc data sc).2.state = zh.state ∧
    (zoo_add_auth zh scheme cert certLen dc data).2.state = zh.state ∧
    (zoo_set_watcher zh newFn).2.state = zh.state := by
  have hneg := state_neg_of_terminal zh h
  refine ⟨?_, ?_, ?_, ?_, ?_, ?_, ?_, ?_, ?_, ?_, ?_, ?_, ?_, ?_⟩
  · simp [zookeeper_interest, is_unrecoverable, hneg, ZINVALIDSTATE]
  · exact ⟨(ZINVALIDSTATE, zh),
      by simp [zookeeper_process, is_unrecoverable, hneg, ZINVALIDSTATE], rfl⟩
  · rw [handle_error_eq]; simp [hneg]
  · simp [zoo_aget, zoo_arequest_unrecoverable _ _ _ _ _ _ _ _ hneg]
  · simp [zoo_aset, zoo_arequest_unrecoverable _ _ _ _ _ _ _ _ hneg]
  · simp [zoo_acreate, zoo_arequest_unrecoverable _ _ _ _ _ _ _ _ hneg]
  · simp [zoo_adelete, zoo_arequest_unrecoverable _ _ _ _ _ _ _ _ hneg]
  · simp [zoo_aexists, zoo_arequest_unrecoverable _ _ _ _ _ _ _ _ hneg]
  · simp [zoo_aget_children, zoo_arequest_unrecoverable _ _ _ _ _ _ _ _ hneg]
  · simp [zoo_async, zoo_arequest_unrecoverable _ _ _ _ _ _ _ _ hneg]
  · simp [zoo_aget_acl, zoo_arequest_unrecoverable _ _ _ _ _ _ _ _ hneg]
  · simp [zoo_aset_acl, zoo_arequest_unrecoverable _ _ _ _ _ _ _ _ hneg]
  · simp [zoo_add_auth, is_unrecoverable, hneg, ZINVALIDSTATE]
  · unfold zoo_set_watcher; cases newFn <;> rfl

/-- C4 (instance): the expired handle stays expired under `handle_error` and
`zookeeper_interest`. -/
theorem terminal_state_absorbing_witness :
    (expired_handle.state = EXPIRED_SESSION_STATE ∨
      expired_handle.state = AUTH_FAILED_STATE) ∧
    (handle_error expired_handle ZCONNECTIONLOSS).state = EXPIRED_SESSION_STATE ∧
    (zookeeper_interest expired_handle
      { fd := 0, interest := 0, tv := { tv_sec := 0, tv_usec := 0 } }).2.2.state =
        EXPIRED_SESSION_STATE :=
  have h := terminal_state_absorbing { process_async := fun _ => 0 } expired_handle
    { fd := 0, interest := 0, tv := { tv_sec := 0, tv_usec := 0 } } 2 ZCONNECTIONLOSS 0
    [47, 120, 0] (FnPtr.fn 70) 700 sync_completion.zero [100] none 0 none
    (Or.inl (by decide))
  ⟨Or.inl (by decide), h.2.2.1, h.1⟩

theorem api_epilog_eq (zh : zhandle_t) (rc : Int) :
    api_epilog zh rc =
      if zh.ref_counter - 1 = 0 ∧ zh.close_requested ≠ 0 then
        (rc, (zookeeper_close { zh with ref_counter := zh.ref_counter - 1 }).2)
      else (rc, { zh with ref_counter := zh.ref_counter - 1 }) := by
  unfold api_epilog inc_ref_counter
  simp only [show ((-1 : Int) < 0) from by decide, if_true]
  rfl

theorem api_epilog_drained (zh : zhandle_t) (rc : Int) (hs : zh.sent_requests = [])
    (hfd : zh.fd = -1) (hst : zh.state ≠ CONNECTED_STATE) :
    (api_epilog zh rc).1 = rc ∧ (api_epilog zh rc).2.state = zh.state ∧
    (api_epilog zh rc).2.trace = zh.trace ∧ (api_epilog zh rc).2.sent_requests = [] ∧
    (api_epilog zh rc).2.fd = -1 := by
  rw [api_epilog_eq]
  have hc := zookeeper_close_not_connected { zh with ref_counter := zh.ref_counter - 1 } hst
  split
  · rw [hc]
    split
    · simp [hs, hfd]
    · simp [destroy_eq, hs, hfd]
  · simp [hs, hfd]

theorem check_events_associating (zh : zhandle_t) (events : Int) (hfd : zh.fd ≠ -1)
    (hstate : zh.state = ASSOCIATING_STATE) :
    check_events zh events = check_events_read zh events := by
  have hnc : zh.state ≠ CONNECTING_STATE := by rw [hstate]; decide
  have hnn : zh.state ≠ CONNECTED_STATE := by rw [hstate]; decide
  unfold check_events
  rw [if_neg hfd, if_neg (fun h => hnc h.2)]
  split
  · rw [flush_send_queue_not_connected zh 0 hnn]
    simp [ZOK]
  · rfl

theorem check_events_read_primer (zh : zhandle_t) (events : Int) (b : buffer_list_t)
    (w : World) (hin : zh.input_buffer = input_buffer_t.primer)
    (hread : Int.land events ZOOKEEPER_READ ≠ 0)
    (hrecv : recv_buffer zh.world zh.fd zh.primer_buffer = (1, b, w)) :
    check_events_read zh events =
      check_events_complete { zh with primer_buffer := b, world := w } := by
  unfold check_events_read
  simp [hread, hin, hrecv]

theorem check_events_prime_expired (zh : zhandle_t) (events : Int) (b : buffer_list_t)
    (w : World) (hfd : zh.fd ≠ -1) (hstate : zh.state = ASSOCIATING_STATE)
    (hin : zh.input_buffer = input_buffer_t.primer)
    (hread : Int.land events ZOOKEEPER_READ ≠ 0)
    (hrecv : recv_buffer zh.world zh.fd zh.primer_buffer = (1, b, w))
    (hold : zh.client_id.client_id ≠ 0)
    (hnew : (deserialize_prime_response (b.buffer.getD [])).sessionId ≠
      zh.client_id.client_id) :
    check_events zh events =
      (ZSESSIONEXPIRED,
        handle_error { zh with
          primer_buffer := b, world := w, last_recv := gettimeofday w,
          primer_storage := deserialize_prime_response (b.buffer.getD []),
          state := EXPIRED_SESSION_STATE } ZSESSIONEXPIRED) := by
  rw [check_events_associating zh events hfd hstate,
    check_events_read_primer zh events b w hin hread hrecv]
  unfold check_events_complete handle_socket_error_msg
  simp only [hin]
  rw [if_pos ⟨hold, fun h => hnew h.symm⟩]

theorem api_prolog_eq (zh : zhandle_t) :
    api_prolog zh = { zh with ref_counter := zh.ref_counter + 1 } := by
  unfold api_prolog inc_ref_counter
  simp

theorem handle_error_sent_requests (zh : zhandle_t) (rc : Int) :
    (handle_error zh rc).sent_requests = [] := by
  rw [handle_error_eq]

theorem handle_error_fd (zh : zhandle_t) (rc : Int) : (handle_error zh rc).fd = -1 := by
  rw [handle_error_eq]

theorem handle_error_state (zh : zhandle_t) (rc : Int) :
    (handle_error zh rc).state = if zh.state < 0 then zh.state else 0 := by
  rw [handle_error_eq]

theorem handle_error_state_ne_connected (zh : zhandle_t) (rc : Int) :
    (handle_error zh rc).state ≠ CONNECTED_STATE := by
  rw [handle_error_state]
  split
  · intro h
    rename_i hneg
    rw [h] at hneg
    exact absurd hneg (by decide)
  · decide

theorem handle_error_trace (zh : zhandle_t) (rc : Int) :
    (handle_error zh rc).trace =
      zh.trace ++
        (if zh.state < 0 then [Event.watcher zh.watcher SESSION_EVENT zh.state none]
         else if zh.state = CONNECTED_STATE then
           [Event.watcher zh.watcher SESSION_EVENT CONNECTING_STATE none]
         else []) ++ zh.sent_requests.flatMap (failure_of rc) := by
  rw [handle_error_eq]

theorem api_epilog_handle_error (zh : zhandle_t) (rc rc2 : Int) :
    (api_epilog (handle_error zh rc) rc2).1 = rc2 ∧
    (api_epilog (handle_error zh rc) rc2).2.state = (handle_error zh rc).state ∧
    (api_epilog (handle_error zh rc) rc2).2.trace = (handle_error zh rc).trace ∧
    (api_epilog (handle_error zh rc) rc2).2.sent_requests = [] ∧
    (api_epilog (handle_error zh rc) rc2).2.fd = -1 :=
  api_epilog_drained _ _ (handle_error_sent_requests zh rc) (handle_error_fd zh rc)
    (handle_error_state_ne_connected zh rc)

theorem zookeeper_process_check_failed (ad : Adaptor) (zh : zhandle_t) (events : Int)
    (rc : Int) (zh1 : zhandle_t) (hun : 0 ≤ zh.state)
    (hce : check_events (api_prolog zh) events = (rc, zh1)) (hrc : rc ≠ ZOK) :
    zookeeper_process ad zh events = some (rc, (api_epilog zh1 rc).2) := by
  unfold zookeeper_process is_unrecoverable
  rw [if_neg (not_lt.mpr hun)]
  simp only [hce]
  rw [if_neg (by decide), if_pos hrc]
  congr 1
  exact Prod.ext (api_epilog_fst zh1 rc) rfl

/-- C1: on a handle that awaits the prime response (ASSOCIATING_STATE, the primer buffer
installed as receive target) and presented a non-zero `client_id`, when READ readiness
completes the prime response and its `sessionId` differs from `client_id`, `check_events`
returns ZSESSIONEXPIRED with the state set to EXPIRED_SESSION_STATE (-112), the watcher
invoked with `(SESSION_EVENT, EXPIRED_SESSION_STATE, null)` and then every entry of
`sent_requests` failed with ZSESSIONEXPIRED, in queue order, leaving the queue empty; and
`zookeeper_process` returns ZSESSIONEXPIRED with the same effects. -/
theorem session_expiration (ad : Adaptor) (zh : zhandle_t) (events : Int)
    (b : buffer_list_t) (w : World) (hfd : zh.fd ≠ -1) (hstate : zh.state = ASSOCIATING_STATE)
    (hin : zh.input_buffer = input_buffer_t.primer)
    (hread : Int.land events ZOOKEEPER_READ ≠ 0)
    (hrecv : recv_buffer zh.world zh.fd zh.primer_buffer = (1, b, w))
    (hold : zh.client_id.client_id ≠ 0)
    (hnew : (deserialize_prime_response (b.buffer.getD [])).sessionId ≠
      zh.client_id.client_id) :
    EXPIRED_SESSION_STATE = -112 ∧
    (check_events zh events).1 = ZSESSIONEXPIRED ∧
    (check_events zh events).2.state = EXPIRED_SESSION_STATE ∧
    (check_events zh events).2.trace =
      zh.trace ++ Event.watcher zh.watcher SESSION_EVENT EXPIRED_SESSION_STATE none ::
        zh.sent_requests.flatMap (failure_of ZSESSIONEXPIRED) ∧
    (check_events zh events).2.sent_requests = [] ∧
    ∃ zh', zookeeper_process ad zh events = some (ZSESSIONEXPIRED, zh') ∧
      zh'.state = EXPIRED_SESSION_STATE ∧
      zh'.trace =
        zh.trace ++ Event.watcher zh.watcher SESSION_EVENT EXPIRED_SESSION_STATE none ::
          zh.sent_requests.flatMap (failure_of ZSESSIONEXPIRED) ∧
      zh'.sent_requests = [] := by
  have hE : EXPIRED_SESSION_STATE < 0 := by decide
  refine ⟨rfl, ?_, ?_, ?_, ?_, ?_⟩
  · rw [check_events_prime_expired zh events b w hfd hstate hin hread hrecv hold hnew]
  · rw [check_events_prime_expired zh events b w hfd hstate hin hread hrecv hold hnew,
      handle_error_state]
    simp [hE]
  · rw [check_events_prime_expired zh events b w hfd hstate hin hread hrecv hold hnew,
      handle_error_trace]
    simp [hE]
  · rw [check_events_prime_expired zh events b w hfd hstate hin hread hrecv hold hnew,
      handle_error_sent_requests]
  · have hun : 0 ≤ zh.state := by rw [hstate]; decide
    have hce := check_events_prime_expired (api_prolog zh) events b w hfd hstate hin hread
      hrecv hold hnew
    refine ⟨_, zookeeper_process_check_failed ad zh events _ _ hun hce (by decide), ?_⟩
    have hd := api_epilog_handle_error
      { api_prolog zh with
        primer_buffer := b, world := w, last_recv := gettimeofday w,
        primer_storage := deserialize_prime_response (b.buffer.getD []),
        state := EXPIRED_SESSION_STATE } ZSESSIONEXPIRED ZSESSIONEXPIRED
    rw [hd.2.1, hd.2.2.1, hd.2.2.2.1, handle_error_state, handle_error_trace]
    simp [hE, api_prolog_eq]

/-- C1 (instance): the handle presented session 0x1234 and the server answers with session
0x5678: the watcher is told EXPIRED_SESSION_STATE and the pending request fails with
ZSESSIONEXPIRED. -/
theorem session_expiration_witness :
    ((associating_handle (prime_response_bytes 9000 22136 (List.replicate 16 2))).fd ≠ -1 ∧
      (associating_handle (prime_response_bytes 9000 22136 (List.replicate 16 2))).state =
        ASSOCIATING_STATE ∧
      (associating_handle
        (prime_response_bytes 9000 22136 (List.replicate 16 2))).client_id.client_id ≠ 0) ∧
    (check_events (associating_handle (prime_response_bytes 9000 22136 (List.replicate 16 2)))
      ZOOKEEPER_READ).1 = ZSESSIONEXPIRED ∧
    (check_events (associating_handle (prime_response_bytes 9000 22136 (List.replicate 16 2)))
      ZOOKEEPER_READ).2.trace =
      [Event.watcher (watcher_fn.user 0) SESSION_EVENT EXPIRED_SESSION_STATE none,
       Event.completion (FnPtr.fn 70) COMPLETION_DATA ZSESSIONEXPIRED none 700] :=
  have h := session_expiration { process_async := fun _ => 0 }
    (associating_handle (prime_response_bytes 9000 22136 (List.replicate 16 2)))
    ZOOKEEPER_READ
    (recv_buffer (associating_handle
        (prime_response_bytes 9000 22136 (List.replicate 16 2))).world 3
      (associating_handle
        (prime_response_bytes 9000 22136 (List.replicate 16 2))).primer_buffer).2.1
    (recv_buffer (associating_handle
        (prime_response_bytes 9000 22136 (List.replicate 16 2))).world 3
      (associating_handle
        (prime_response_bytes 9000 22136 (List.replicate 16 2))).primer_buffer).2.2
    (by decide) (by decide) (by decide) (by decide) (by decide) (by decide) (by decide)
  ⟨⟨by decide, by decide, by decide⟩, h.2.1, h.2.2.2.1.trans (by decide)⟩

theorem take_padded_length (n : Nat) (l : List Nat) : (take_padded n l).length = n := by
  unfold take_padded
  simp

theorem take_padded_of_length (n : Nat) (l : List Nat) (h : l.length = n) :
    take_padded n l = l := by
  unfold take_padded
  rw [List.take_append_of_le_length (by omega), ← h, List.take_length]

theorem take_padded_idem (n : Nat) (l : List Nat) :
    take_padded n (take_padded n l) = take_padded n l :=
  take_padded_of_length n _ (take_padded_length n l)

theorem send_auth_info_fields (zh : zhandle_t) :
    (send_auth_info zh).2 = { zh with to_send := (send_auth_info zh).2.to_send } := by
  unfold send_auth_info
  cases h : zh.auth.scheme <;> simp

theorem send_auth_info_to_send_congr (zh1 zh2 : zhandle_t) (ha : zh1.auth = zh2.auth)
    (hs : zh1.to_send = zh2.to_send) :
    (send_auth_info zh1).2.to_send = (send_auth_info zh2).2.to_send := by
  unfold send_auth_info
  rw [ha, hs]
  cases h : zh2.auth.scheme <;> simp [hs]

theorem check_events_prime_adopted (zh : zhandle_t) (events : Int) (b : buffer_list_t)
    (w : World) (hfd : zh.fd ≠ -1) (hstate : zh.state = ASSOCIATING_STATE)
    (hin : zh.input_buffer = input_buffer_t.primer)
    (hread : Int.land events ZOOKEEPER_READ ≠ 0)
    (hrecv : recv_buffer zh.world zh.fd zh.primer_buffer = (1, b, w))
    (hid : zh.client_id.client_id = 0 ∨
      (deserialize_prime_response (b.buffer.getD [])).sessionId = zh.client_id.client_id) :
    check_events zh events =
      (ZOK,
        { zh with
          primer_buffer := b, world := w, last_recv := gettimeofday w,
          primer_storage := deserialize_prime_response (b.buffer.getD []),
          recv_timeout := (deserialize_prime_response (b.buffer.getD [])).timeOut,
          client_id :=
            { client_id := (deserialize_prime_response (b.buffer.getD [])).sessionId,
              passwd := (deserialize_prime_response (b.buffer.getD [])).passwd },
          state := CONNECTED_STATE,
          to_send :=
            (send_auth_info { zh with state := CONNECTED_STATE }).2.to_send,
          input_buffer := input_buffer_t.null,
          trace := zh.trace ++ [Event.watcher zh.watcher SESSION_EVENT CONNECTED_STATE none] })
      := by
  rw [check_events_associating zh events hfd hstate,
    check_events_read_primer zh events b w hin hread hrecv]
  unfold check_events_complete
  simp only [hin]
  have hc : ¬ (zh.client_id.client_id ≠ 0 ∧
      zh.client_id.client_id ≠ (deserialize_prime_response (b.buffer.getD [])).sessionId) := by
    rintro ⟨h1, h2⟩
    rcases hid with h | h
    · exact h1 h
    · exact h2 h.symm
  rw [if_neg hc]
  rw [send_auth_info_fields]
  simp only [call_watcher, deserialize_prime_response, take_padded_idem]
  congr 2
  exact send_auth_info_to_send_congr _ _ rfl rfl

/-- C2: on a handle that awaits the prime response, if `client_id` is 0 or the response's
`sessionId` equals `client_id`, then once READ readiness has completed the response
`check_events` returns ZOK with the state CONNECTED_STATE, `recv_timeout` equal to the
response's `timeOut`, `client_id` equal to the response's `(sessionId, passwd)` and the
watcher invoked with `(SESSION_EVENT, CONNECTED_STATE, null)`; and the handshake request
that `prime_connection` builds from the resulting handle, also after a connection drop
(`handle_error`), carries exactly that `sessionId` and `passwd`. -/
theorem session_adoption (zh : zhandle_t) (events : Int) (b : buffer_list_t) (w : World)
    (rc : Int) (hfd : zh.fd ≠ -1) (hstate : zh.state = ASSOCIATING_STATE)
    (hin : zh.input_buffer = input_buffer_t.primer)
    (hread : Int.land events ZOOKEEPER_READ ≠ 0)
    (hrecv : recv_buffer zh.world zh.fd zh.primer_buffer = (1, b, w))
    (hid : zh.client_id.client_id = 0 ∨
      (deserialize_prime_response (b.buffer.getD [])).sessionId = zh.client_id.client_id) :
    (check_events zh events).1 = ZOK ∧
    (check_events zh events).2.state = CONNECTED_STATE ∧
    (check_events zh events).2.recv_timeout =
      (deserialize_prime_response (b.buffer.getD [])).timeOut ∧
    (check_events zh events).2.client_id =
      { client_id := (deserialize_prime_response (b.buffer.getD [])).sessionId,
        passwd := (deserialize_prime_response (b.buffer.getD [])).passwd } ∧
    (check_events zh events).2.trace =
      zh.trace ++ [Event.watcher zh.watcher SESSION_EVENT CONNECTED_STATE none] ∧
    (prime_connection_req (check_events zh events).2).sessionId =
      (deserialize_prime_response (b.buffer.getD [])).sessionId ∧
    (prime_connection_req (check_events zh events).2).passwd =
      (deserialize_prime_response (b.buffer.getD [])).passwd ∧
    (prime_connection_req (handle_error (check_events zh events).2 rc)).sessionId =
      (deserialize_prime_response (b.buffer.getD [])).sessionId ∧
    (prime_connection_req (handle_error (check_events zh events).2 rc)).passwd =
      (deserialize_prime_response (b.buffer.getD [])).passwd := by
  rw [check_events_prime_adopted zh events b w hfd hstate hin hread hrecv hid]
  refine ⟨rfl, rfl, rfl, rfl, rfl, rfl, ?_, ?_, ?_⟩
  · simp [prime_connection_req, deserialize_prime_response, take_padded_idem]
  · rw [handle_error_eq]
    simp [prime_connection_req]
  · rw [handle_error_eq]
    simp [prime_connection_req, deserialize_prime_response, take_padded_idem]

/-- C2 (instance): the handle presented session 0x1234 and the server echoes it with a new
password and a timeout of 6000 ms. -/
theorem session_adoption_witness :
    ((associating_handle (prime_response_bytes 6000 4660 (List.replicate 16 2))).fd ≠ -1 ∧
      (associating_handle (prime_response_bytes 6000 4660 (List.replicate 16 2))).state =
        ASSOCIATING_STATE) ∧
    (check_events (associating_handle (prime_response_bytes 6000 4660 (List.replicate 16 2)))
      ZOOKEEPER_READ).2.state = CONNECTED_STATE ∧
    (check_events (associating_handle (prime_response_bytes 6000 4660 (List.replicate 16 2)))
      ZOOKEEPER_READ).2.recv_timeout = 6000 ∧
    (check_events (associating_handle (prime_response_bytes 6000 4660 (List.replicate 16 2)))
      ZOOKEEPER_READ).2.client_id = { client_id := 4660, passwd := List.replicate 16 2 } ∧
    (prime_connection_req (handle_error (check_events
      (associating_handle (prime_response_bytes 6000 4660 (List.replicate 16 2)))
      ZOOKEEPER_READ).2 ZCONNECTIONLOSS)).passwd = List.replicate 16 2 :=
  have h := session_adoption
    (associating_handle (prime_response_bytes 6000 4660 (List.replicate 16 2)))
    ZOOKEEPER_READ
    (recv_buffer (associating_handle
        (prime_response_bytes 6000 4660 (List.replicate 16 2))).world 3
      (associating_handle
        (prime_response_bytes 6000 4660 (List.replicate 16 2))).primer_buffer).2.1
    (recv_buffer (associating_handle
        (prime_response_bytes 6000 4660 (List.replicate 16 2))).world 3
      (associating_handle
        (prime_response_bytes 6000 4660 (List.replicate 16 2))).primer_buffer).2.2
    ZCONNECTIONLOSS
    (by decide) (by decide) (by decide) (by decide) (by decide) (Or.inr (by decide))
  ⟨⟨by decide, by decide⟩, h.2.1, h.2.2.1.trans (by decide), h.2.2.2.1.trans (by decide),
    h.2.2.2.2.2.2.2.2.trans (by decide)⟩

theorem process_completion_eq (zh : zhandle_t) (c : completion_list_t) :
    process_completion zh c =
      { zh with
        last_zxid := (deserialize_ReplyHeader
          ((c.buffer.map (fun b => b.buffer.getD [])).getD [])).zxid,
        trace := zh.trace ++ dispatch_of zh.watcher c } := by
  unfold process_completion dispatch_of call_watcher call_completion
  simp only []
  split
  · rfl
  · by_cases h0 : c.completion_type = COMPLETION_VOID
    · have h0n : c.completion_type = 0 := h0
      by_cases hp : (deserialize_ReplyHeader
          ((c.buffer.map (fun b => b.buffer.getD [])).getD [])).xid = PING_XID <;>
        simp [h0n, hp, COMPLETION_VOID, COMPLETION_DATA, COMPLETION_STAT,
          COMPLETION_STRINGLIST, COMPLETION_STRING, COMPLETION_ACLLIST]
    · by_cases h1 : c.completion_type = COMPLETION_STAT
      · have h1n : c.completion_type = 1 := h1
        by_cases he : (deserialize_ReplyHeader
            ((c.buffer.map (fun b => b.buffer.getD [])).getD [])).err = 0 <;>
          simp [h1n, he, COMPLETION_VOID, COMPLETION_DATA, COMPLETION_STAT,
            COMPLETION_STRINGLIST, COMPLETION_STRING, COMPLETION_ACLLIST]
      · by_cases h2 : c.completion_type = COMPLETION_DATA
        · have h2n : c.completion_type = 2 := h2
          by_cases he : (deserialize_ReplyHeader
              ((c.buffer.map (fun b => b.buffer.getD [])).getD [])).err = 0 <;>
            simp [h2n, he, COMPLETION_VOID, COMPLETION_DATA, COMPLETION_STAT,
              COMPLETION_STRINGLIST, COMPLETION_STRING, COMPLETION_ACLLIST]
        · by_cases h3 : c.completion_type = COMPLETION_STRINGLIST
          · have h3n : c.completion_type = 3 := h3
            by_cases he : (deserialize_ReplyHeader
                ((c.buffer.map (fun b => b.buffer.getD [])).getD [])).err = 0 <;>
              simp [h3n, he, COMPLETION_VOID, COMPLETION_DATA, COMPLETION_STAT,
                COMPLETION_STRINGLIST, COMPLETION_STRING, COMPLETION_ACLLIST]
          · by_cases h4 : c.completion_type = COMPLETION_ACLLIST
            · have h4n : c.completion_type = 4 := h4
              by_cases he : (deserialize_ReplyHeader
                  ((c.buffer.map (fun b => b.buffer.getD [])).getD [])).err = 0 <;>
                simp [h4n, he, COMPLETION_VOID, COMPLETION_DATA, COMPLETION_STAT,
                  COMPLETION_STRINGLIST, COMPLETION_STRING, COMPLETION_ACLLIST]
            · by_cases h5 : c.completion_type = COMPLETION_STRING
              · have h5n : c.completion_type = 5 := h5
                by_cases he : (deserialize_ReplyHeader
                    ((c.buffer.map (fun b => b.buffer.getD [])).getD [])).err = 0 <;>
                  simp [h5n, he, COMPLETION_VOID, COMPLETION_DATA, COMPLETION_STAT,
                    COMPLETION_STRINGLIST, COMPLETION_STRING, COMPLETION_ACLLIST]
              · simp [h0, h1, h2, h3, h4, h5]

theorem process_completions_loop_eq (l : List completion_list_t) (zh : zhandle_t) :
    process_completions_loop l zh =
      { zh with
        completions_to_process := if l = [] then zh.completions_to_process else [],
        last_zxid := last_zxid_of_completions l zh.last_zxid,
        trace := zh.trace ++ l.flatMap (dispatch_of zh.watcher) } := by
  induction l generalizing zh with
  | nil => simp [process_completions_loop, last_zxid_of_completions]
  | cons c rest ih =>
    rw [process_completions_loop, ih, process_completion_eq]
    cases rest with
    | nil => simp [last_zxid_of_completions]
    | cons d rest2 => simp [last_zxid_of_completions]

theorem process_completions_eq (zh : zhandle_t) :
    process_completions zh =
      { zh with
        completions_to_process := [],
        last_zxid := last_zxid_of_completions zh.completions_to_process zh.last_zxid,
        trace := zh.trace ++ zh.completions_to_process.flatMap (dispatch_of zh.watcher) } := by
  unfold process_completions
  rw [process_completions_loop_eq]
  by_cases h : zh.completions_to_process = []
  · simp [h]
  · simp [h]

theorem queue_completion_back (l : List completion_list_t) (c : completion_list_t) :
    queue_completion l c 0 = l ++ [c] := by
  cases l <;> simp [queue_completion]

theorem queue_completion_front (l : List completion_list_t) (c : completion_list_t) :
    queue_completion l c 1 = c :: l := by
  cases l <;> simp [queue_completion]

theorem zookeeper_process_loop_fifo (cs : List completion_list_t) (fs : List buffer_list_t)
    (h : List.Forall₂ answers cs fs) (zh : zhandle_t) (rest : List completion_list_t)
    (hsr : zh.sent_requests = cs ++ rest) (htp : zh.to_process = fs) :
    zookeeper_process_loop fs zh =
      Outcome.next { zh with
        to_process := [], sent_requests := rest,
        last_zxid := last_zxid_of_frames fs zh.last_zxid,
        completions_to_process := zh.completions_to_process ++ List.zipWith attach cs fs } := by
  induction h generalizing zh with
  | nil =>
    simp only [List.nil_append] at hsr
    rw [zookeeper_process_loop]
    simp only [List.zipWith_nil_left, List.append_nil, last_zxid_of_frames, List.foldl_nil]
    rw [← hsr, ← htp]
  | @cons c f cs fs hcf _ ih =>
    obtain ⟨hasync, _, h1, h2, h4, hx⟩ := hcf
    rw [zookeeper_process_loop]
    simp only [hx, h1, h4, if_false, hsr, List.cons_append, dequeue_completion]
    rw [if_neg (by simp), if_pos hasync, if_neg h2, queue_completion_back]
    rw [ih _ rfl rfl]
    simp [last_zxid_of_frames, attach]

theorem dispatch_of_attach (w : watcher_fn) (c : completion_list_t) (f : buffer_list_t)
    (h : answers c f) : dispatch_of w (attach c f) = [reply_event c (f.buffer.getD [])] := by
  obtain ⟨_, hk, h1, h2, _, hx⟩ := h
  unfold dispatch_of reply_event attach
  simp only [Option.map_some', Option.getD_some, hx, h1, h2, if_false]
  by_cases h0 : c.completion_type = COMPLETION_VOID
  · simp [h0]
  · rw [if_neg h0]
    have hk' : c.completion_type ∈ [COMPLETION_STAT, COMPLETION_DATA, COMPLETION_STRINGLIST,
        COMPLETION_ACLLIST, COMPLETION_STRING] := by
      simp only [List.mem_cons] at hk ⊢
      rcases hk with hk | hk
      · exact absurd hk h0
      · exact hk
    rw [if_pos hk']
    simp [h0]

theorem flatMap_dispatch_of_attach (w : watcher_fn) (cs : List completion_list_t)
    (fs : List buffer_list_t) (h : List.Forall₂ answers cs fs) :
    (List.zipWith attach cs fs).flatMap (dispatch_of w) =
      List.zipWith (fun c f => reply_event c (f.buffer.getD [])) cs fs := by
  induction h with
  | nil => rfl
  | cons hcf _ ih =>
    simp only [List.zipWith_cons_cons, List.flatMap_cons, ih, dispatch_of_attach w _ _ hcf]
    rfl

theorem zookeeper_process_of_loop_next (ad : Adaptor) (zh zh1 zh2 : zhandle_t) (events : Int)
    (hun : 0 ≤ zh.state) (hce : check_events (api_prolog zh) events = (ZOK, zh1))
    (hloop : zookeeper_process_loop zh1.to_process zh1 = Outcome.next zh2) :
    zookeeper_process ad zh events =
      some (api_epilog
        (if ad.process_async zh2.outstanding_sync ≠ 0 then process_completions zh2 else zh2)
        ZOK) := by
  unfold zookeeper_process is_unrecoverable
  rw [if_neg (not_lt.mpr hun)]
  simp only [hce]
  rw [if_neg (by decide), if_neg (by simp)]
  simp only [hloop]

theorem zookeeper_process_of_loop_ret (ad : Adaptor) (zh zh1 zh2 : zhandle_t) (events : Int)
    (rc : Int) (hun : 0 ≤ zh.state) (hce : check_events (api_prolog zh) events = (ZOK, zh1))
    (hloop : zookeeper_process_loop zh1.to_process zh1 = Outcome.ret rc zh2) :
    zookeeper_process ad zh events = some (rc, zh2) := by
  unfold zookeeper_process is_unrecoverable
  rw [if_neg (not_lt.mpr hun)]
  simp only [hce]
  rw [if_neg (by decide), if_neg (by simp)]
  simp only [hloop]

/-- C6 (FIFO preservation): if, when `zookeeper_process` starts to drain `to_process` (after
`check_events` has returned ZOK on a handle that is not being closed), `sent_requests` holds
asynchronous entries with xids x1..xn in that order, as the request operations register them
(one of the six completion kinds, and an xid from `get_xid`: none of the reserved values -1,
-2 (PING) and -4; see `registered_run` and `registered_entries`), and `to_process` holds
reply frames whose headers carry x1..xn in the same order, then `zookeeper_process` returns
ZOK, and with the following `process_completions` the user-visible invocations are, after
those of the completions that were already ready, exactly the n callbacks in the order 1..n,
callback i receiving the `err` of reply frame i and the result decoded from the body of
frame i (a reply has a body only when its `err` is 0, and a Void callback takes no result:
null results then); `sent_requests` is empty afterwards. -/
theorem fifo_preservation (ad : Adaptor) (zh zh1 : zhandle_t) (events : Int)
    (cs : List completion_list_t) (fs : List buffer_list_t)
    (hun : 0 ≤ zh.state) (hce : check_events (api_prolog zh) events = (ZOK, zh1))
    (hopen : zh1.close_requested = 0)
    (hsr : zh1.sent_requests = cs) (htp : zh1.to_process = fs)
    (hpair : List.Forall₂ answers cs fs) :
    ∃ zh2, zookeeper_process ad zh events = some (ZOK, zh2) ∧
      (process_completions zh2).trace =
        zh1.trace ++ zh1.completions_to_process.flatMap (dispatch_of zh1.watcher) ++
          List.zipWith (fun c f => reply_event c (f.buffer.getD [])) cs fs ∧
      (process_completions zh2).sent_requests = [] ∧
      (process_completions zh2).completions_to_process = [] := by
  have hloop := zookeeper_process_loop_fifo cs fs hpair zh1 [] (by simp [hsr]) htp
  rw [← htp] at hloop
  have hp := zookeeper_process_of_loop_next ad zh zh1 _ events hun hce hloop
  rw [api_epilog_eq] at hp
  by_cases ha : ad.process_async zh1.outstanding_sync = 0
  · simp only [ha, ne_eq, not_true_eq_false, if_false, hopen, and_false] at hp
    refine ⟨_, hp, ?_⟩
    rw [process_completions_eq]
    simp [List.flatMap_append, flatMap_dispatch_of_attach zh1.watcher cs fs hpair, htp]
  · simp only [ha, ne_eq, not_false_eq_true, if_true] at hp
    rw [process_completions_eq] at hp
    simp only [hopen, ne_eq, not_true_eq_false, and_false, if_false] at hp
    refine ⟨_, hp, ?_⟩
    rw [process_completions_eq]
    simp [List.flatMap_append, flatMap_dispatch_of_attach zh1.watcher cs fs hpair, htp]

/-- C6 (instance): a Data request (xid 7) and a Void request (xid 9) are pending and their
replies are queued in the same order, the first successful, the second with error -101. -/
theorem fifo_preservation_witness :
    List.Forall₂ answers [data_entry, void_entry]
      [reply_frame 7 1 0 [1, 2, 3], reply_frame 9 2 (-101) []] ∧
    (zookeeper_process threaded_adaptor
        { connected_handle with
          sent_requests := [data_entry, void_entry],
          to_process := [reply_frame 7 1 0 [1, 2, 3], reply_frame 9 2 (-101) []] } 0).map
      (fun r => (r.1, (process_completions r.2).trace)) =
      some (ZOK,
        [Event.completion (FnPtr.fn 70) COMPLETION_DATA 0 (some [1, 2, 3]) 700,
         Event.completion (FnPtr.fn 90) COMPLETION_VOID (-101) none 900]) :=
  have hp : List.Forall₂ answers [data_entry, void_entry]
      [reply_frame 7 1 0 [1, 2, 3], reply_frame 9 2 (-101) []] :=
    List.Forall₂.cons (by decide) (List.Forall₂.cons (by decide) List.Forall₂.nil)
  have h := fifo_preservation threaded_adaptor
    { connected_handle with
      sent_requests := [data_entry, void_entry],
      to_process := [reply_frame 7 1 0 [1, 2, 3], reply_frame 9 2 (-101) []] }
    (api_prolog { connected_handle with
      sent_requests := [data_entry, void_entry],
      to_process := [reply_frame 7 1 0 [1, 2, 3], reply_frame 9 2 (-101) []] })
    0 [data_entry, void_entry] [reply_frame 7 1 0 [1, 2, 3], reply_frame 9 2 (-101) []]
    (by decide) (by decide) (by decide) (by decide) (by decide) hp
  ⟨hp, by
    obtain ⟨zh2, h1, h2, _⟩ := h
    rw [h1]
    simp only [Option.map_some']
    rw [h2]
    decide⟩

theorem zookeeper_process_loop_mismatch (zh : zhandle_t) (c : completion_list_t)
    (cs : List completion_list_t) (f : buffer_list_t) (fs : List buffer_list_t)
    (hsr : zh.sent_requests = c :: cs)
    (h1 : (deserialize_ReplyHeader (f.buffer.getD [])).xid ≠ -1)
    (h4 : (deserialize_ReplyHeader (f.buffer.getD [])).xid ≠ AUTH_XID)
    (hne : (deserialize_ReplyHeader (f.buffer.getD [])).xid ≠ c.xid) :
    zookeeper_process_loop (f :: fs) zh =
      Outcome.ret ZRUNTIMEINCONSISTENCY
        (handle_error { zh with
          to_process := fs,
          last_zxid := (deserialize_ReplyHeader (f.buffer.getD [])).zxid }
          ZRUNTIMEINCONSISTENCY) := by
  rw [zookeeper_process_loop]
  simp only [h1, h4, if_false, hsr, dequeue_completion]
  rw [if_pos (fun h => hne h.symm), queue_completion_front]
  simp only [handle_socket_error_msg]

/-- C7: when `zookeeper_process` drains `to_process` on a handle in CONNECTED_STATE (after
`check_events` has returned ZOK) with a non-empty `sent_requests` queue, and the first reply
frame carries an xid that is none of -1 and -4 and differs from the xid of the head pending
completion, then `zookeeper_process` returns ZRUNTIMEINCONSISTENCY, the watcher receives
`(SESSION_EVENT, CONNECTING_STATE, null)`, and then every entry that was in `sent_requests`,
the popped and pushed-back head included, is failed once with ZRUNTIMEINCONSISTENCY in its
original queue order, leaving `sent_requests` empty, `fd = -1` and the state CLOSED (0). -/
theorem out_of_order_reply (ad : Adaptor) (zh zh1 : zhandle_t) (events : Int)
    (c : completion_list_t) (cs : List completion_list_t) (f : buffer_list_t)
    (fs : List buffer_list_t)
    (hun : 0 ≤ zh.state) (hce : check_events (api_prolog zh) events = (ZOK, zh1))
    (hconn : zh1.state = CONNECTED_STATE)
    (hsr : zh1.sent_requests = c :: cs) (htp : zh1.to_process = f :: fs)
    (h1 : (deserialize_ReplyHeader (f.buffer.getD [])).xid ≠ -1)
    (h4 : (deserialize_ReplyHeader (f.buffer.getD [])).xid ≠ -4)
    (hne : (deserialize_ReplyHeader (f.buffer.getD [])).xid ≠ c.xid) :
    ∃ zh2, zookeeper_process ad zh events = some (ZRUNTIMEINCONSISTENCY, zh2) ∧
      zh2.trace =
        zh1.trace ++ Event.watcher zh1.watcher SESSION_EVENT CONNECTING_STATE none ::
          (c :: cs).flatMap (failure_of ZRUNTIMEINCONSISTENCY) ∧
      zh2.sent_requests = [] ∧ zh2.fd = -1 ∧ zh2.state = 0 := by
  have hloop := zookeeper_process_loop_mismatch zh1 c cs f fs hsr h1 h4 hne
  rw [← htp] at hloop
  refine ⟨_, zookeeper_process_of_loop_ret ad zh zh1 _ events _ hun hce hloop, ?_, ?_, ?_, ?_⟩
  · rw [handle_error_trace]
    have h3 : zh1.state = 3 := hconn
    simp [h3, hsr, CONNECTED_STATE]
  · exact handle_error_sent_requests _ _
  · exact handle_error_fd _ _
  · rw [handle_error_state]
    have h3 : zh1.state = 3 := hconn
    simp [h3]

/-- C7 (instance): requests 7 and 9 are pending and the reply to 9 arrives first. -/
theorem out_of_order_reply_witness :
    (check_events (api_prolog (two_pending_handle (reply_wire 9 2 0 []))) ZOOKEEPER_READ).1 =
      ZOK ∧
    (zookeeper_process threaded_adaptor (two_pending_handle (reply_wire 9 2 0 []))
        ZOOKEEPER_READ).map (fun r => (r.1, r.2.trace, r.2.sent_requests, r.2.fd, r.2.state)) =
      some (ZRUNTIMEINCONSISTENCY,
        [Event.watcher (watcher_fn.user 0) SESSION_EVENT CONNECTING_STATE none,
         Event.completion (FnPtr.fn 70) COMPLETION_DATA ZRUNTIMEINCONSISTENCY none 700,
         Event.completion (FnPtr.fn 90) COMPLETION_VOID ZRUNTIMEINCONSISTENCY none 900],
        [], -1, 0) :=
  have h := out_of_order_reply threaded_adaptor (two_pending_handle (reply_wire 9 2 0 []))
    (check_events (api_prolog (two_pending_handle (reply_wire 9 2 0 []))) ZOOKEEPER_READ).2
    ZOOKEEPER_READ data_entry [void_entry] (reply_frame 9 2 0 []) []
    (by decide) (by decide) (by decide) (by decide) (by decide) (by decide) (by decide)
    (by decide)
  ⟨by decide, by
    obtain ⟨zh2, h1, h2, h3, h4, h5⟩ := h
    rw [h1]
    simp only [Option.map_some']
    rw [h2, h3, h4, h5]
    decide⟩

theorem same_pending_refl (zh : zhandle_t) : same_pending zh zh := ⟨rfl, rfl, rfl, rfl⟩

theorem same_pending_trans {a b c : zhandle_t} (h1 : same_pending a b)
    (h2 : same_pending b c) : same_pending a c :=
  ⟨h2.1.trans h1.1, h2.2.1.trans h1.2.1, h2.2.2.1.trans h1.2.2.1, h2.2.2.2.trans h1.2.2.2⟩

theorem flush_send_queue_send_same_pending (timeout : Int) (zh : zhandle_t)
    (head : buffer_list_t) (rest : List buffer_list_t) :
    same_pending zh (flush_send_queue_send timeout zh head rest).2 := by
  unfold flush_send_queue_send
  simp only []
  split <;> [skip; split <;> [skip; split]] <;> exact ⟨rfl, rfl, rfl, rfl⟩

theorem flush_send_queue_body_same_pending (timeout : Int) (started : timeval)
    (zh : zhandle_t) (head : buffer_list_t) (rest : List buffer_list_t) :
    same_pending zh (flush_send_queue_body timeout started zh head rest).2 := by
  unfold flush_send_queue_body
  simp only []
  split
  · split
    · exact same_pending_refl zh
    · split
      · exact ⟨rfl, rfl, rfl, rfl⟩
      · exact same_pending_trans (b := { zh with world := (poll zh.world).2 })
          ⟨rfl, rfl, rfl, rfl⟩ (flush_send_queue_send_same_pending _ _ _ _)
  · exact flush_send_queue_send_same_pending _ _ _ _

theorem flush_send_queue_loop_same_pending (timeout : Int) (started : timeval) (fuel : Nat)
    (zh : zhandle_t) :
    same_pending zh (flush_send_queue_loop timeout started fuel zh).2 := by
  induction fuel generalizing zh with
  | zero => exact same_pending_refl zh
  | succ n ih =>
    rw [flush_send_queue_loop]
    cases hs : zh.to_send with
    | nil => exact same_pending_refl zh
    | cons head rest =>
      simp only []
      split
      · exact same_pending_refl zh
      · have hb := flush_send_queue_body_same_pending timeout started zh head rest
        split
        · rename_i rc zh2 heq
          rw [heq] at hb
          exact hb
        · rename_i zh2 heq
          rw [heq] at hb
          exact same_pending_trans hb (ih zh2)

theorem flush_send_queue_same_pending (zh : zhandle_t) (timeout : Int) :
    same_pending zh (flush_send_queue zh timeout).2 :=
  flush_send_queue_loop_same_pending _ _ _ _

theorem prime_connection_cases (zh : zhandle_t) :
    ((prime_connection zh).1 = ZOK ∧ (prime_connection zh).2.trace = zh.trace ∧
      (prime_connection zh).2.sent_requests = zh.sent_requests ∧
      (prime_connection zh).2.watcher = zh.watcher ∧
      (prime_connection zh).2.state = ASSOCIATING_STATE) ∨
    ((prime_connection zh).1 = ZCONNECTIONLOSS ∧
      ∃ zhm, same_pending zh zhm ∧
        (prime_connection zh).2 = handle_error zhm ZCONNECTIONLOSS) := by
  unfold prime_connection handle_socket_error_msg
  rcases h1 : send zh.world zh.fd (be32 HANDSHAKE_REQ_SIZE) with ⟨rc1, e1, w1⟩
  simp only [h1]
  by_cases hneg : rc1 < 0
  · simp only [hneg, if_true]
    exact Or.inr ⟨trivial, { zh with world := w1 }, ⟨rfl, rfl, rfl, rfl⟩, rfl⟩
  · simp only [hneg, if_false]
    rcases h2 : send w1 zh.fd (List.take HANDSHAKE_REQ_SIZE.toNat
      (serialize_prime_connect (prime_connection_req zh))) with ⟨rc2, e2, w2⟩
    simp only []
    by_cases hneg2 : rc2 < 0
    · simp only [hneg2, if_true]
      exact Or.inr ⟨trivial, { zh with world := w2 }, ⟨rfl, rfl, rfl, rfl⟩, rfl⟩
    · simp only [hneg2, if_false]
      refine Or.inl ⟨?_, ?_, ?_, ?_, ?_⟩ <;> trivial

theorem check_events_complete_code (zh : zhandle_t) :
    (check_events_complete zh).1 = ZOK ∨ (check_events_complete zh).1 = ZSESSIONEXPIRED := by
  unfold check_events_complete handle_socket_error_msg
  cases zh.input_buffer with
  | null => exact Or.inl rfl
  | heap b => exact Or.inl rfl
  | primer =>
    dsimp only
    split
    · exact Or.inr rfl
    · exact Or.inl rfl

theorem check_events_read_after_recv (zh zhr : zhandle_t) (rc : Int)
    (h : (if rc < 0 then handle_socket_error_msg zhr ZCONNECTIONLOSS
          else if rc > 0 then check_events_complete zhr else (ZOK, zhr)).1 = ZCONNECTIONLOSS)
    (hp : same_pending zh zhr) :
    ∃ zhm, same_pending zh zhm ∧
      (if rc < 0 then handle_socket_error_msg zhr ZCONNECTIONLOSS
        else if rc > 0 then check_events_complete zhr else (ZOK, zhr)).2 =
        handle_error zhm ZCONNECTIONLOSS := by
  by_cases h1 : rc < 0
  · simp only [h1, if_true, handle_socket_error_msg]
    exact ⟨zhr, hp, rfl⟩
  · simp only [h1, if_false] at h ⊢
    by_cases h2 : rc > 0
    · simp only [h2, if_true] at h
      rcases check_events_complete_code zhr with hc | hc
      · rw [hc] at h; exact absurd h (by decide)
      · rw [hc] at h; exact absurd h (by decide)
    · simp only [h2, if_false] at h
      exact absurd h (by decide)

theorem check_events_read_connection_loss (zh : zhandle_t) (events : Int)
    (h : (check_events_read zh events).1 = ZCONNECTIONLOSS) :
    ∃ zhm, same_pending zh zhm ∧
      (check_events_read zh events).2 = handle_error zhm ZCONNECTIONLOSS := by
  unfold check_events_read at h ⊢
  by_cases hr : Int.land events ZOOKEEPER_READ ≠ 0
  · rw [if_pos hr] at h ⊢
    cases hin : zh.input_buffer with
    | null =>
      simp only [hin, if_true] at h ⊢
      rcases hb : recv_buffer zh.world zh.fd (allocate_buffer none 0) with ⟨rc, b, w⟩
      simp only [hb] at h ⊢
      exact check_events_read_after_recv zh _ rc h ⟨rfl, rfl, rfl, rfl⟩
    | primer =>
      simp only [hin, reduceCtorEq, if_false] at h ⊢
      rcases hb : recv_buffer zh.world zh.fd zh.primer_buffer with ⟨rc, b, w⟩
      simp only [hb] at h ⊢
      exact check_events_read_after_recv zh _ rc h ⟨rfl, rfl, rfl, rfl⟩
    | heap b0 =>
      simp only [hin, reduceCtorEq, if_false] at h ⊢
      rcases hb : recv_buffer zh.world zh.fd b0 with ⟨rc, b, w⟩
      simp only [hb] at h ⊢
      exact check_events_read_after_recv zh _ rc h ⟨rfl, rfl, rfl, rfl⟩
  · rw [if_neg hr] at h
    exact absurd (show ZOK = ZCONNECTIONLOSS from h) (by decide)

theorem check_events_connection_loss (zh : zhandle_t) (events : Int)
    (h : (check_events zh events).1 = ZCONNECTIONLOSS) :
    ∃ zhm, same_pending zh zhm ∧
      (check_events zh events).2 = handle_error zhm ZCONNECTIONLOSS := by
  unfold check_events at h ⊢
  by_cases hfd : zh.fd = -1
  · rw [if_pos hfd] at h
    exact absurd (show ZINVALIDSTATE = ZCONNECTIONLOSS from h) (by decide)
  · rw [if_neg hfd] at h ⊢
    by_cases hc : Int.land events ZOOKEEPER_WRITE ≠ 0 ∧ zh.state = CONNECTING_STATE
    · rw [if_pos hc] at h ⊢
      rcases hg : getsockopt zh.world with ⟨rc, error, w1⟩
      simp only [hg] at h ⊢
      by_cases he : rc < 0 ∨ error ≠ 0
      · rw [if_pos he]
        exact ⟨{ zh with world := w1 }, ⟨rfl, rfl, rfl, rfl⟩, rfl⟩
      · rw [if_neg he] at h ⊢
        rcases prime_connection_cases { zh with world := w1 } with ⟨h0, _⟩ | ⟨_, zhm, hp, hz⟩
        · simp only [h0, ne_eq, ZOK, not_true_eq_false, if_false] at h
          exact absurd h (by decide)
        · refine ⟨zhm, same_pending_trans (b := { zh with world := w1 }) ⟨rfl, rfl, rfl, rfl⟩ hp,
            ?_⟩
          split
          · exact hz
          · exact hz
    · rw [if_neg hc] at h ⊢
      by_cases hw : zh.to_send ≠ [] ∧ Int.land events ZOOKEEPER_WRITE ≠ 0
      · rw [if_pos hw] at h ⊢
        have hf := flush_send_queue_same_pending zh 0
        rcases hfl : flush_send_queue zh 0 with ⟨rc, zhf⟩
        rw [hfl] at hf
        simp only [hfl] at h ⊢
        by_cases hneg : rc < 0
        · rw [if_pos hneg]
          exact ⟨zhf, hf, rfl⟩
        · rw [if_neg hneg] at h ⊢
          obtain ⟨zhm, hp, hz⟩ := check_events_read_connection_loss zhf events h
          exact ⟨zhm, same_pending_trans hf hp, hz⟩
      · rw [if_neg hw] at h ⊢
        exact check_events_read_connection_loss zh events h

theorem torn_down_of_handle_error (zh zhm : zhandle_t) (rc : Int)
    (h1 : zhm.trace = zh.trace) (h2 : zhm.sent_requests = zh.sent_requests)
    (h3 : zhm.watcher = zh.watcher) (h4 : 0 ≤ zhm.state) :
    torn_down zh (handle_error zhm rc) rc := by
  refine ⟨handle_error_fd _ _, handle_error_sent_requests _ _, ?_⟩
  rw [handle_error_trace, if_neg (not_lt.mpr h4), h1, h2, h3]
  by_cases hc : zhm.state = CONNECTED_STATE
  · exact ⟨_, Or.inr rfl, by rw [if_pos hc]⟩
  · exact ⟨_, Or.inl rfl, by rw [if_neg hc]⟩

theorem torn_down_of_api_epilog (zh zhm : zhandle_t) (rc rc2 : Int)
    (h1 : zhm.trace = zh.trace) (h2 : zhm.sent_requests = zh.sent_requests)
    (h3 : zhm.watcher = zh.watcher) (h4 : 0 ≤ zhm.state) :
    torn_down zh (api_epilog (handle_error zhm rc) rc2).2 rc := by
  obtain ⟨_, _, ht, hs, hf⟩ := api_epilog_handle_error zhm rc rc2
  obtain ⟨_, _, pre, hpre, htr⟩ := torn_down_of_handle_error zh zhm rc h1 h2 h3 h4
  exact ⟨hf, hs, pre, hpre, ht.trans htr⟩

theorem zookeeper_interest_report_code (zh : zhandle_t) (out : interest_args) (to_ms : Int) :
    (zookeeper_interest_report zh out to_ms).1 = ZOK := by
  unfold zookeeper_interest_report
  simp only []
  exact api_epilog_fst _ _

theorem zookeeper_interest_timers_ping (zh : zhandle_t) (out : interest_args)
    (hfd : zh.fd ≠ -1) (hping : zh.sent_requests = [] ∧ zh.state = CONNECTED_STATE) :
    (zookeeper_interest_timers zh out).1 = ZOK := by
  unfold zookeeper_interest_timers
  rw [if_pos hfd]
  simp only []
  rw [if_pos hping]
  split
  · simp [add_void_completion, add_completion, queue_buffer_bytes, ZOK,
      zookeeper_interest_report_code]
  · exact zookeeper_interest_report_code _ _ _

theorem zookeeper_interest_timers_teardown (zh0 zh : zhandle_t) (out : interest_args)
    (rc : Int) (hrc : rc = ZCONNECTIONLOSS ∨ rc = ZOPERATIONTIMEOUT)
    (h1 : zh.trace = zh0.trace) (h2 : zh.sent_requests = zh0.sent_requests)
    (h3 : zh.watcher = zh0.watcher) (h4 : 0 ≤ zh.state)
    (h : (zookeeper_interest_timers zh out).1 = rc) :
    torn_down zh0 (zookeeper_interest_timers zh out).2.2 rc := by
  have hne : ZOK ≠ rc := by rcases hrc with h | h <;> rw [h] <;> decide
  by_cases hfd : zh.fd ≠ -1
  · by_cases hping : zh.sent_requests = [] ∧ zh.state = CONNECTED_STATE
    · rw [zookeeper_interest_timers_ping zh out hfd hping] at h
      exact absurd h hne
    · unfold zookeeper_interest_timers at h ⊢
      rw [if_pos hfd] at h ⊢
      simp only [] at h ⊢
      rw [if_neg hping] at h ⊢
      split at h
      · rename_i hto
        rw [if_pos hto]
        simp only [handle_socket_error_msg] at h ⊢
        have hcode : ZOPERATIONTIMEOUT = rc := by
          rw [api_epilog_fst] at h; exact h
        rw [← hcode]
        exact torn_down_of_api_epilog zh0 zh _ _ h1 h2 h3 h4
      · rw [zookeeper_interest_report_code] at h
        exact absurd h hne
  · unfold zookeeper_interest_timers at h
    rw [if_neg hfd] at h
    simp only [] at h
    rw [api_epilog_fst] at h
    exact absurd h hne

theorem zookeeper_interest_connected_teardown (zh0 zh : zhandle_t) (out : interest_args)
    (rc : Int) (hrc : rc = ZCONNECTIONLOSS ∨ rc = ZOPERATIONTIMEOUT)
    (h1 : zh.trace = zh0.trace) (h2 : zh.sent_requests = zh0.sent_requests)
    (h3 : zh.watcher = zh0.watcher) (h4 : 0 ≤ zh.state)
    (h : (zookeeper_interest_connected zh out).1 = rc) :
    torn_down zh0 (zookeeper_interest_connected zh out).2.2 rc := by
  unfold zookeeper_interest_connected at h ⊢
  exact zookeeper_interest_timers_teardown zh0 _ _ rc hrc h1 h2 h3 h4 h

theorem zookeeper_interest_teardown (zh : zhandle_t) (out : interest_args) (rc : Int)
    (hrc : rc = ZCONNECTIONLOSS ∨ rc = ZOPERATIONTIMEOUT)
    (h : (zookeeper_interest zh out).1 = rc) :
    torn_down zh (zookeeper_interest zh out).2.2 rc := by
  have hne : ZINVALIDSTATE ≠ rc := by rcases hrc with h | h <;> rw [h] <;> decide
  unfold zookeeper_interest at h ⊢
  by_cases hun : is_unrecoverable zh ≠ 0
  · rw [if_pos hun] at h
    exact absurd h hne
  · rw [if_neg hun] at h ⊢
    have hst : 0 ≤ zh.state := by
      unfold is_unrecoverable at hun
      by_contra hc
      rw [if_pos (not_le.mp hc)] at hun
      exact hun (by decide)
    rw [api_prolog_eq] at h ⊢
    simp only [] at h ⊢
    by_cases hfd : zh.fd = -1
    · rw [if_pos hfd] at h ⊢
      by_cases hidx : zh.connect_index = zh.addrs_count
      · rw [if_pos hidx] at h ⊢
        exact zookeeper_interest_connected_teardown zh _ _ rc hrc rfl rfl rfl hst h
      · rw [if_neg hidx] at h ⊢
        simp only [socket] at h ⊢
        rcases hc : connect { zh.world with log := zh.world.log ++ [Syscall.socket zh.world.next_fd] }
          zh.world.next_fd zh.connect_index with ⟨crc, errno, w2⟩
        simp only [hc] at h ⊢
        by_cases hc1 : crc = -1
        · rw [if_pos hc1] at h ⊢
          by_cases hc2 : errno = EWOULDBLOCK ∨ errno = EINPROGRESS
          · rw [if_pos hc2] at h ⊢
            exact zookeeper_interest_connected_teardown zh _ _ rc hrc rfl rfl rfl
              (show (0 : Int) ≤ CONNECTING_STATE from by decide) h
          · rw [if_neg hc2] at h ⊢
            simp only [handle_socket_error_msg] at h ⊢
            have hcode : ZCONNECTIONLOSS = rc := by
              rw [api_epilog_fst] at h; exact h
            rw [← hcode]
            exact torn_down_of_api_epilog zh _ _ _ rfl rfl rfl hst
        · rw [if_neg hc1] at h ⊢
          rcases hpc : prime_connection { zh with
              fd := zh.world.next_fd, world := w2, ref_counter := zh.ref_counter + 1 }
            with ⟨prc, zhp⟩
          have hcases := prime_connection_cases { zh with
              fd := zh.world.next_fd, world := w2, ref_counter := zh.ref_counter + 1 }
          rw [hpc] at hcases
          simp only [hpc] at h ⊢
          rcases hcases with ⟨h0, ht, hs, hw, hstate⟩ | ⟨hcl, zhm, hp, hz⟩
          · have h0' : prc = ZOK := h0
            have hstate' : zhp.state = ASSOCIATING_STATE := hstate
            rw [if_neg (by rw [h0']; decide)] at h ⊢
            exact zookeeper_interest_connected_teardown zh zhp _ rc hrc ht hs hw
              (by rw [hstate']; decide) h
          · have hcl : prc = ZCONNECTIONLOSS := hcl
            have hz : zhp = handle_error zhm ZCONNECTIONLOSS := hz
            rw [if_pos (by rw [hcl]; decide)] at h ⊢
            have hcode : ZCONNECTIONLOSS = rc := by
              rw [api_epilog_fst] at h; rw [← hcl]; exact h
            rw [← hcode, hz, hcl]
            exact torn_down_of_api_epilog zh zhm _ _ hp.1 hp.2.1 hp.2.2.1
              (by rw [hp.2.2.2]; exact hst)
    · rw [if_neg hfd] at h ⊢
      exact zookeeper_interest_timers_teardown zh _ _ rc hrc rfl rfl rfl hst h

theorem zookeeper_process_loop_ret_code (l : List buffer_list_t) (zh zh2 : zhandle_t)
    (rc : Int) (h : zookeeper_process_loop l zh = Outcome.ret rc zh2) :
    rc = ZAUTHFAILED ∨ rc = ZRUNTIMEINCONSISTENCY := by
  induction l generalizing zh with
  | nil => simp [zookeeper_process_loop] at h
  | cons bptr rest ih =>
    rw [zookeeper_process_loop] at h
    simp only [] at h
    split at h
    · exact ih _ h
    · split at h
      · split at h
        · simp only [Outcome.ret.injEq] at h
          rw [api_epilog_fst] at h
          exact Or.inl h.1.symm
        · exact ih _ h
      · split at h
        · simp at h
        · split at h
          · simp only [handle_socket_error_msg, Outcome.ret.injEq] at h
            exact Or.inr h.1.symm
          · split at h
            · split at h
              · exact ih _ h
              · exact ih _ h
            · exact ih _ h

theorem check_events_teardown (zh : zhandle_t) (events : Int) (hst : 0 ≤ zh.state)
    (h : (check_events zh events).1 = ZCONNECTIONLOSS) :
    torn_down zh (check_events zh events).2 ZCONNECTIONLOSS := by
  obtain ⟨zhm, hp, hz⟩ := check_events_connection_loss zh events h
  rw [hz]
  exact torn_down_of_handle_error zh zhm _ hp.1 hp.2.1 hp.2.2.1 (by rw [hp.2.2.2]; exact hst)

theorem zookeeper_process_teardown (ad : Adaptor) (zh : zhandle_t) (events : Int)
    (r : Int × zhandle_t) (h : zookeeper_process ad zh events = some r)
    (hrc : r.1 = ZCONNECTIONLOSS) : torn_down zh r.2 ZCONNECTIONLOSS := by
  unfold zookeeper_process at h
  by_cases hun : is_unrecoverable zh ≠ 0
  · rw [if_pos hun] at h
    simp only [Option.some.injEq] at h
    rw [← h] at hrc
    exact absurd (show ZINVALIDSTATE = ZCONNECTIONLOSS from hrc) (by decide)
  · rw [if_neg hun] at h
    have hst : 0 ≤ zh.state := by
      unfold is_unrecoverable at hun
      by_contra hc
      rw [if_pos (not_le.mp hc)] at hun
      exact hun (by decide)
    rcases hce : check_events (api_prolog zh) events with ⟨crc, zh1⟩
    simp only [hce] at h
    by_cases hok : crc ≠ ZOK
    · rw [if_pos hok] at h
      simp only [Option.some.injEq] at h
      rw [← h, api_epilog_fst] at hrc
      have hc1 : (check_events (api_prolog zh) events).1 = ZCONNECTIONLOSS := by
        rw [hce]; exact hrc
      obtain ⟨zhm, hp, hz⟩ := check_events_connection_loss (api_prolog zh) events hc1
      rw [hce] at hz
      have hz' : zh1 = handle_error zhm ZCONNECTIONLOSS := hz
      rw [← h, hz', hrc]
      rw [api_prolog_eq] at hp
      exact torn_down_of_api_epilog zh zhm _ _ hp.1 hp.2.1 hp.2.2.1
        (by rw [hp.2.2.2]; exact hst)
    · rw [if_neg hok] at h
      split at h
      · simp at h
      · rename_i rc2 zh2 hloop
        simp only [Option.some.injEq] at h
        rw [← h] at hrc
        rcases zookeeper_process_loop_ret_code _ _ _ _ hloop with hc | hc
        · rw [hc] at hrc
          exact absurd (show ZAUTHFAILED = ZCONNECTIONLOSS from hrc) (by decide)
        · rw [hc] at hrc
          exact absurd (show ZRUNTIMEINCONSISTENCY = ZCONNECTIONLOSS from hrc) (by decide)
      · simp only [Option.some.injEq] at h
        rw [← h, api_epilog_fst] at hrc
        exact absurd hrc (by decide)

theorem recv_of_fails (w : World) (fd n : Int) (h : recv_fails w = true) :
    ((recv w fd n).1 = 0 ∨ ((recv w fd n).1 = -1 ∧ (recv w fd n).2.1 ≠ EAGAIN)) := by
  unfold recv_fails at h
  unfold recv
  cases hr : w.recv_results with
  | nil => rw [hr] at h; cases h
  | cons a rest =>
    rw [hr] at h
    cases a with
    | error e =>
      simp only [decide_eq_true_eq] at h
      exact Or.inr ⟨rfl, h⟩
    | data bs =>
      cases bs with
      | nil => exact Or.inl (by simp)
      | cons b bs => cases h

theorem recv_buffer_payload_fails (w : World) (fd : Int) (buff : buffer_list_t)
    (hb : buff.buffer.isSome = true) (h : recv_fails w = true) :
    (recv_buffer_payload w fd buff).1 = -1 := by
  unfold recv_buffer_payload
  cases hbuf : buff.buffer with
  | none => rw [hbuf] at hb; cases hb
  | some mem =>
    simp only []
    have hc := recv_of_fails w fd (buff.len - (buff.curr_offset - 4)) h
    rcases hr : recv w fd (buff.len - (buff.curr_offset - 4)) with ⟨rc, errno, bytes, w1⟩
    rw [hr] at hc
    simp only [] at hc ⊢
    rcases hc with h0 | ⟨h1, h2⟩
    · rw [if_pos h0, if_neg (by decide)]
    · rw [if_neg (by rw [h1]; decide), if_pos h1, if_neg h2]

theorem recv_buffer_fails (w : World) (fd : Int) (buff : buffer_list_t)
    (hb : reads buff = true) (h : recv_fails w = true) :
    (recv_buffer w fd buff).1 = -1 := by
  unfold recv_buffer
  by_cases h4 : buff.curr_offset < 4
  · rw [if_pos h4]
    have hc := recv_of_fails w fd (4 - buff.curr_offset) h
    rcases hr : recv w fd (4 - buff.curr_offset) with ⟨rc, errno, bytes, w1⟩
    rw [hr] at hc
    simp only [] at hc ⊢
    rcases hc with h0 | ⟨h1, h2⟩
    · rw [if_pos h0, if_neg (by decide)]
    · rw [if_neg (by rw [h1]; decide), if_pos h1, if_neg h2]
  · rw [if_neg h4]
    apply recv_buffer_payload_fails w fd buff _ h
    unfold reads at hb
    simpa [h4] using hb

theorem send_of_fails (w : World) (fd : Int) (bytes : List Nat) (h : send_fails w = true) :
    (send w fd bytes).1 = -1 ∧ (send w fd bytes).2.1 ≠ EAGAIN := by
  unfold send_fails at h
  unfold send
  cases hr : w.send_results with
  | nil => rw [hr] at h; cases h
  | cons a rest =>
    rw [hr] at h
    cases a with
    | error e =>
      simp only [decide_eq_true_eq] at h
      exact ⟨rfl, h⟩
    | accept n => cases h

theorem send_of_refused (w : World) (fd : Int) (bytes : List Nat)
    (h : send_refused w = true) : (send w fd bytes).1 = -1 := by
  unfold send_refused at h
  unfold send
  cases hr : w.send_results with
  | nil => rfl
  | cons a rest =>
    rw [hr] at h
    cases a with
    | error e => rfl
    | accept n => cases h

theorem send_buffer_fails (w : World) (fd : Int) (buff : buffer_list_t)
    (h : send_fails w = true) : (send_buffer w fd buff).1 = -1 := by
  unfold send_buffer
  by_cases h4 : buff.curr_offset < 4
  · rw [if_pos h4]
    have hc := send_of_fails w fd ((be32 buff.len).drop buff.curr_offset.toNat) h
    rcases hr : send w fd ((be32 buff.len).drop buff.curr_offset.toNat) with ⟨rc, errno, w1⟩
    rw [hr] at hc
    simp only [] at hc ⊢
    rw [if_pos hc.1, if_pos hc.2]
  · rw [if_neg h4]
    unfold send_buffer_payload
    simp only []
    rw [if_pos (not_lt.mp h4)]
    have hc := send_of_fails w fd
      (((buff.buffer.getD []).drop (buff.curr_offset - 4).toNat).take
        (buff.len - (buff.curr_offset - 4)).toNat) h
    rcases hr : send w fd
      (((buff.buffer.getD []).drop (buff.curr_offset - 4).toNat).take
        (buff.len - (buff.curr_offset - 4)).toNat) with ⟨rc, errno, w1⟩
    rw [hr] at hc
    simp only [] at hc ⊢
    rw [if_pos hc.1, if_pos hc.2]

theorem flush_send_queue_fails (zh : zhandle_t) (hst : zh.state = CONNECTED_STATE)
    (hts : zh.to_send ≠ []) (h : send_fails zh.world = true) :
    (flush_send_queue zh 0).1 = ZCONNECTIONLOSS := by
  unfold flush_send_queue
  rw [flush_send_queue_loop]
  cases hq : zh.to_send with
  | nil => exact absurd hq hts
  | cons head rest =>
    simp only []
    rw [if_neg (not_not.mpr hst)]
    unfold flush_send_queue_body
    simp only [ne_eq, not_true_eq_false, if_false]
    unfold flush_send_queue_send
    have hc := send_buffer_fails zh.world zh.fd head h
    rcases hr : send_buffer zh.world zh.fd head with ⟨rc, head1, w1⟩
    rw [hr] at hc
    simp only [] at hc ⊢
    rw [hc]
    simp only [show ¬ ((-1 : Int) = 0) from by decide, false_and, if_false,
      show ((-1 : Int) < 0) from by decide, if_true]

theorem prime_connection_fails (zh : zhandle_t) (h : send_refused zh.world = true) :
    (prime_connection zh).1 = ZCONNECTIONLOSS := by
  unfold prime_connection handle_socket_error_msg
  simp only []
  have hc := send_of_refused zh.world zh.fd (be32 HANDSHAKE_REQ_SIZE) h
  rcases hr : send zh.world zh.fd (be32 HANDSHAKE_REQ_SIZE) with ⟨rc, errno, w1⟩
  rw [hr] at hc
  simp only [] at hc ⊢
  rw [hc]
  simp only [show ((-1 : Int) < 0) from by decide, if_true]

theorem send_recv_results (w : World) (fd : Int) (bytes : List Nat) :
    (send w fd bytes).2.2.recv_results = w.recv_results := by
  unfold send
  split <;> rfl

theorem poll_recv_results (w : World) : (poll w).2.recv_results = w.recv_results := by
  unfold poll
  split <;> rfl

theorem send_buffer_payload_recv_results (w : World) (fd : Int) (buff : buffer_list_t) :
    (send_buffer_payload w fd buff).2.2.recv_results = w.recv_results := by
  unfold send_buffer_payload
  simp only []
  split
  · have h := send_recv_results w fd
      (((buff.buffer.getD []).drop (buff.curr_offset - 4).toNat).take
        (buff.len - (buff.curr_offset - 4)).toNat)
    split <;> [split; skip] <;> exact h
  · rfl

theorem send_buffer_recv_results (w : World) (fd : Int) (buff : buffer_list_t) :
    (send_buffer w fd buff).2.2.recv_results = w.recv_results := by
  unfold send_buffer
  split
  · have h := send_recv_results w fd ((be32 buff.len).drop buff.curr_offset.toNat)
    simp only []
    split
    · split <;> exact h
    · have h2 := send_buffer_payload_recv_results
        (send w fd ((be32 buff.len).drop buff.curr_offset.toNat)).2.2 fd
        { buff with curr_offset := buff.curr_offset +
            (send w fd ((be32 buff.len).drop buff.curr_offset.toNat)).1 }
      exact h2.trans h
  · exact send_buffer_payload_recv_results w fd buff

theorem flush_send_queue_send_recv (timeout : Int) (zh : zhandle_t) (head : buffer_list_t)
    (rest : List buffer_list_t) :
    ∃ ts w, (flush_send_queue_send timeout zh head rest).2 =
        { zh with to_send := ts, world := w } ∧ w.recv_results = zh.world.recv_results := by
  have h := send_buffer_recv_results zh.world zh.fd head
  unfold flush_send_queue_send
  simp only []
  split <;> [skip; split <;> [skip; split]] <;> exact ⟨_, _, rfl, h⟩

theorem flush_send_queue_body_recv (timeout : Int) (started : timeval) (zh : zhandle_t)
    (head : buffer_list_t) (rest : List buffer_list_t) :
    ∃ ts w, (flush_send_queue_body timeout started zh head rest).2 =
        { zh with to_send := ts, world := w } ∧ w.recv_results = zh.world.recv_results := by
  unfold flush_send_queue_body
  simp only []
  split
  · split
    · exact ⟨_, _, rfl, rfl⟩
    · split
      · exact ⟨_, _, rfl, poll_recv_results zh.world⟩
      · obtain ⟨ts, w, h, h2⟩ := flush_send_queue_send_recv timeout
          { zh with world := (poll zh.world).2 } head rest
        exact ⟨ts, w, h, h2.trans (poll_recv_results zh.world)⟩
  · exact flush_send_queue_send_recv timeout zh head rest

theorem flush_send_queue_loop_recv (timeout : Int) (started : timeval) (fuel : Nat)
    (zh : zhandle_t) :
    ∃ ts w, (flush_send_queue_loop timeout started fuel zh).2 =
        { zh with to_send := ts, world := w } ∧ w.recv_results = zh.world.recv_results := by
  induction fuel generalizing zh with
  | zero => exact ⟨_, _, rfl, rfl⟩
  | succ n ih =>
    rw [flush_send_queue_loop]
    split
    · exact ⟨zh.to_send, zh.world, rfl, rfl⟩
    · rename_i head rest hs
      split
      · exact ⟨zh.to_send, zh.world, rfl, rfl⟩
      · obtain ⟨ts, w, hb, hb2⟩ := flush_send_queue_body_recv timeout started zh head rest
        split
        · rename_i rc zh2 heq
          rw [heq] at hb
          exact ⟨ts, w, hb, hb2⟩
        · rename_i zh2 heq
          rw [heq] at hb
          have hb' : zh2 = { zh with to_send := ts, world := w } := hb
          obtain ⟨ts2, w2, hi, hi2⟩ := ih zh2
          refine ⟨ts2, w2, ?_, ?_⟩
          · rw [hi, hb']
          · rw [hi2, hb']; exact hb2

theorem flush_send_queue_recv (zh : zhandle_t) (timeout : Int) :
    ∃ ts w, (flush_send_queue zh timeout).2 = { zh with to_send := ts, world := w } ∧
      w.recv_results = zh.world.recv_results :=
  flush_send_queue_loop_recv _ _ _ _

theorem recv_fails_congr (w w2 : World) (h : w2.recv_results = w.recv_results) :
    recv_fails w2 = recv_fails w := by
  unfold recv_fails
  rw [h]

/-- The READ part of `check_events` on a failing `recv`. -/
theorem check_events_read_fails (zh : zhandle_t) (events : Int)
    (hr : Int.land events ZOOKEEPER_READ ≠ 0) (hb : reads (read_frame zh) = true)
    (hf : recv_fails zh.world = true) :
    (check_events_read zh events).1 = ZCONNECTIONLOSS := by
  unfold check_events_read
  rw [if_pos hr]
  unfold read_frame at hb
  cases hin : zh.input_buffer with
  | null =>
    rw [hin] at hb
    have hc := recv_buffer_fails zh.world zh.fd (allocate_buffer none 0) hb hf
    rcases hrb : recv_buffer zh.world zh.fd (allocate_buffer none 0) with ⟨rc, b, w⟩
    rw [hrb] at hc
    simp only [] at hc
    simp only [if_true, hrb, hc, show ((-1 : Int) < 0) from by decide, handle_socket_error_msg]
  | primer =>
    rw [hin] at hb
    have hc := recv_buffer_fails zh.world zh.fd zh.primer_buffer hb hf
    rcases hrb : recv_buffer zh.world zh.fd zh.primer_buffer with ⟨rc, b, w⟩
    rw [hrb] at hc
    simp only [] at hc
    simp only [hin, reduceCtorEq, if_false, hrb, hc, show ((-1 : Int) < 0) from by decide,
      if_true, handle_socket_error_msg]
  | heap b0 =>
    rw [hin] at hb
    have hc := recv_buffer_fails zh.world zh.fd b0 hb hf
    rcases hrb : recv_buffer zh.world zh.fd b0 with ⟨rc, b, w⟩
    rw [hrb] at hc
    simp only [] at hc
    simp only [hin, reduceCtorEq, if_false, hrb, hc, show ((-1 : Int) < 0) from by decide,
      if_true, handle_socket_error_msg]

/-- A failing `recv` in `check_events`: unless the call completes a connect (the WRITE event in
CONNECTING_STATE, after which nothing is read), it returns ZCONNECTIONLOSS. -/
theorem check_events_recv_fails (zh : zhandle_t) (events : Int) (hfd : zh.fd ≠ -1)
    (hr : Int.land events ZOOKEEPER_READ ≠ 0)
    (hc : ¬ (Int.land events ZOOKEEPER_WRITE ≠ 0 ∧ zh.state = CONNECTING_STATE))
    (hb : reads (read_frame zh) = true) (hf : recv_fails zh.world = true) :
    (check_events zh events).1 = ZCONNECTIONLOSS := by
  unfold check_events
  rw [if_neg hfd, if_neg hc]
  by_cases hw : zh.to_send ≠ [] ∧ Int.land events ZOOKEEPER_WRITE ≠ 0
  · rw [if_pos hw]
    obtain ⟨ts, w, hz, hw2⟩ := flush_send_queue_recv zh 0
    rcases hfl : flush_send_queue zh 0 with ⟨rc, zhf⟩
    rw [hfl] at hz
    simp only [] at hz ⊢
    by_cases hneg : rc < 0
    · rw [if_pos hneg]; rfl
    · rw [if_neg hneg]
      apply check_events_read_fails zhf events hr
      · rw [hz]; exact hb
      · rw [hz]
        exact (recv_fails_congr zh.world w hw2).trans hf
  · rw [if_neg hw]
    exact check_events_read_fails zh events hr hb hf

/-- A failing `send` in `check_events`. -/
theorem check_events_send_fails (zh : zhandle_t) (events : Int) (hfd : zh.fd ≠ -1)
    (hw : Int.land events ZOOKEEPER_WRITE ≠ 0) (hst : zh.state = CONNECTED_STATE)
    (hts : zh.to_send ≠ []) (hf : send_fails zh.world = true) :
    (check_events zh events).1 = ZCONNECTIONLOSS := by
  unfold check_events
  rw [if_neg hfd, if_neg (fun h => absurd (hst.symm.trans h.2) (by decide)),
    if_pos ⟨hts, hw⟩]
  have hc := flush_send_queue_fails zh hst hts hf
  rcases hfl : flush_send_queue zh 0 with ⟨rc, zhf⟩
  rw [hfl] at hc
  simp only [] at hc ⊢
  rw [hc, if_pos (by decide)]
  rfl

/-- A connect that has failed, or a handshake that cannot be sent, in `check_events`. -/
theorem check_events_connect_fails (zh : zhandle_t) (events : Int) (hfd : zh.fd ≠ -1)
    (hw : Int.land events ZOOKEEPER_WRITE ≠ 0) (hst : zh.state = CONNECTING_STATE)
    (hf : connect_has_failed zh.world = true ∨ send_refused (getsockopt zh.world).2.2 = true) :
    (check_events zh events).1 = ZCONNECTIONLOSS := by
  unfold check_events
  rw [if_neg hfd, if_pos ⟨hw, hst⟩]
  rcases hg : getsockopt zh.world with ⟨rc, error, w1⟩
  simp only []
  by_cases he : rc < 0 ∨ error ≠ 0
  · rw [if_pos he]; rfl
  · rw [if_neg he]
    rcases hf with hf | hf
    · exfalso
      unfold connect_has_failed at hf
      unfold getsockopt at hg
      cases hs : zh.world.sockopt_results with
      | nil => rw [hs] at hf; cases hf
      | cons a rest =>
        rw [hs] at hf hg
        simp only [decide_eq_true_eq] at hf
        simp only [Prod.mk.injEq] at hg
        apply he
        rw [← hg.1, ← hg.2.1]
        exact hf
    · rw [hg] at hf
      have hp := prime_connection_fails { zh with world := w1 } hf
      rcases hpc : prime_connection { zh with world := w1 } with ⟨rc2, zh2⟩
      rw [hpc] at hp
      simp only [] at hp ⊢
      rw [hp, if_pos (by decide)]

theorem not_unrecoverable (zh : zhandle_t) (hst : 0 ≤ zh.state) :
    ¬ (is_unrecoverable zh ≠ 0) := by
  unfold is_unrecoverable
  rw [if_neg (not_lt.mpr hst)]
  exact fun h => h rfl

/-- A failing `recv`, a failing `send`, a failed connect or a refused handshake in
`zookeeper_process`: the call returns what `check_events` returns. -/
theorem zookeeper_process_fails (ad : Adaptor) (zh : zhandle_t) (events : Int)
    (hst : 0 ≤ zh.state)
    (h : (check_events (api_prolog zh) events).1 = ZCONNECTIONLOSS) :
    ∃ r, zookeeper_process ad zh events = some r ∧ r.1 = ZCONNECTIONLOSS := by
  rcases hce : check_events (api_prolog zh) events with ⟨rc, zh1⟩
  rw [hce] at h
  have h' : rc = ZCONNECTIONLOSS := h
  refine ⟨_, zookeeper_process_check_failed ad zh events rc zh1 hst hce
    (by rw [h']; decide), h'⟩

/-- A connect that fails at once in `zookeeper_interest`. -/
theorem zookeeper_interest_connect_fails (zh : zhandle_t) (out : interest_args)
    (hst : 0 ≤ zh.state) (hfd : zh.fd = -1) (hidx : zh.connect_index ≠ zh.addrs_count)
    (hf : connect_fails zh.world = true) :
    (zookeeper_interest zh out).1 = ZCONNECTIONLOSS := by
  unfold zookeeper_interest
  rw [if_neg (not_unrecoverable zh hst), api_prolog_eq]
  simp only []
  rw [if_pos hfd, if_neg hidx]
  unfold connect_fails at hf
  unfold socket connect handle_socket_error_msg
  cases hs : zh.world.connect_results with
  | nil => rw [hs] at hf; cases hf
  | cons a rest =>
    rw [hs] at hf
    simp only [decide_eq_true_eq] at hf
    simp only [hs, hf.1, if_true, hf.2.1, hf.2.2, or_self, if_false, api_epilog_fst]

/-- A handshake that cannot be sent after an immediate connect in `zookeeper_interest`. -/
theorem zookeeper_interest_handshake_fails (zh : zhandle_t) (out : interest_args)
    (hst : 0 ≤ zh.state) (hfd : zh.fd = -1) (hidx : zh.connect_index ≠ zh.addrs_count)
    (hc : (connect (socket zh.world).2 (socket zh.world).1 zh.connect_index).1 ≠ -1)
    (hf : send_refused
      (connect (socket zh.world).2 (socket zh.world).1 zh.connect_index).2.2 = true) :
    (zookeeper_interest zh out).1 = ZCONNECTIONLOSS := by
  unfold zookeeper_interest
  rw [if_neg (not_unrecoverable zh hst), api_prolog_eq]
  simp only []
  rw [if_pos hfd, if_neg hidx]
  rcases hs : socket zh.world with ⟨fd, w1⟩
  rw [hs] at hc hf
  simp only [] at hc hf ⊢
  rcases hcn : connect w1 fd zh.connect_index with ⟨rc, errno, w2⟩
  rw [hcn] at hc hf
  simp only [] at hc hf ⊢
  rw [if_neg hc]
  have hp := prime_connection_fails
    { zh with ref_counter := zh.ref_counter + 1, fd := fd, world := w2 } hf
  rcases hpc : prime_connection
    { zh with ref_counter := zh.ref_counter + 1, fd := fd, world := w2 } with ⟨rc2, zh2⟩
  rw [hpc] at hp
  simp only [] at hp ⊢
  rw [hp, if_pos (by decide), api_epilog_fst]

/-- The idle timeout in `zookeeper_interest`. -/
theorem zookeeper_interest_idle (zh : zhandle_t) (out : interest_args)
    (hst : 0 ≤ zh.state) (hfd : zh.fd ≠ -1)
    (hp : ¬ (zh.sent_requests = [] ∧ zh.state = CONNECTED_STATE))
    (hto : Int.tdiv (int_wrap (zh.recv_timeout * 2)) 3 -
      calculate_interval zh.last_recv (gettimeofday zh.world) ≤ 0) :
    (zookeeper_interest zh out).1 = ZOPERATIONTIMEOUT := by
  unfold zookeeper_interest
  rw [if_neg (not_unrecoverable zh hst), api_prolog_eq]
  simp only []
  rw [if_neg hfd]
  unfold zookeeper_interest_timers handle_socket_error_msg
  simp only []
  rw [if_pos hfd, if_neg hp, if_pos hto, api_epilog_fst]

/-- C8 (counterexample): the idle timeout.  On a connected handle with one request pending,
a receive timeout of 9000 ms and no byte received for 7000 ms, `zookeeper_interest` tears the
connection down and fails the pending completion with ZOPERATIONTIMEOUT, which is not
ZCONNECTIONLOSS. -/
theorem idle_timeout_fails_with_ZOPERATIONTIMEOUT :
    (zookeeper_interest
        { connected_handle with
          sent_requests := [data_entry],
          world := { World.idle with now := { tv_sec := 7, tv_usec := 0 } } }
        { fd := 0, interest := 0, tv := { tv_sec := 0, tv_usec := 0 } }).1 =
      ZOPERATIONTIMEOUT ∧
    (zookeeper_interest
        { connected_handle with
          sent_requests := [data_entry],
          world := { World.idle with now := { tv_sec := 7, tv_usec := 0 } } }
        { fd := 0, interest := 0, tv := { tv_sec := 0, tv_usec := 0 } }).2.2.trace =
      [Event.watcher (watcher_fn.user 0) SESSION_EVENT CONNECTING_STATE none,
       Event.completion (FnPtr.fn 70) COMPLETION_DATA ZOPERATIONTIMEOUT none 700] ∧
    (zookeeper_interest
        { connected_handle with
          sent_requests := [data_entry],
          world := { World.idle with now := { tv_sec := 7, tv_usec := 0 } } }
        { fd := 0, interest := 0, tv := { tv_sec := 0, tv_usec := 0 } }).2.2.fd = -1 ∧
    ZOPERATIONTIMEOUT ≠ ZCONNECTIONLOSS := by
  decide

/-- C8 (amended): on a handle that is not in a terminal state, a connection-level error tears
the socket down and fails every pending completion in `sent_requests`, in queue order, with
the code of the teardown.  In `check_events` and `zookeeper_process` a failing or zero-byte
`recv`, a failing `send` of a queued frame, a connect found to have failed and a handshake
that cannot be sent all give ZCONNECTIONLOSS; in `zookeeper_interest` a connect that fails at
once and a handshake that cannot be sent give ZCONNECTIONLOSS, and the idle timeout (something
is pending or the session is not connected, and two thirds of the receive timeout, as the
`int` of line 961, have passed since the last receive) gives ZOPERATIONTIMEOUT.  Conversely,
whenever one of the three calls returns one of the two codes, the teardown used that code. -/
theorem teardown_error_codes (ad : Adaptor) (zh : zhandle_t) (events : Int)
    (out : interest_args) (hst : 0 ≤ zh.state) :
    (zh.fd ≠ -1 →
      ((Int.land events ZOOKEEPER_READ ≠ 0 ∧
          ¬ (Int.land events ZOOKEEPER_WRITE ≠ 0 ∧ zh.state = CONNECTING_STATE) ∧
          reads (read_frame zh) = true ∧ recv_fails zh.world = true) ∨
        (Int.land events ZOOKEEPER_WRITE ≠ 0 ∧ zh.state = CONNECTED_STATE ∧
          zh.to_send ≠ [] ∧ send_fails zh.world = true) ∨
        (Int.land events ZOOKEEPER_WRITE ≠ 0 ∧ zh.state = CONNECTING_STATE ∧
          (connect_has_failed zh.world = true ∨
            send_refused (getsockopt zh.world).2.2 = true))) →
      (check_events zh events).1 = ZCONNECTIONLOSS ∧
      torn_down zh (check_events zh events).2 ZCONNECTIONLOSS ∧
      ∃ r, zookeeper_process ad zh events = some r ∧ r.1 = ZCONNECTIONLOSS ∧
        torn_down zh r.2 ZCONNECTIONLOSS) ∧
    (zh.fd = -1 → zh.connect_index ≠ zh.addrs_count →
      (connect_fails zh.world = true ∨
        ((connect (socket zh.world).2 (socket zh.world).1 zh.connect_index).1 ≠ -1 ∧
          send_refused
            (connect (socket zh.world).2 (socket zh.world).1 zh.connect_index).2.2 = true)) →
      (zookeeper_interest zh out).1 = ZCONNECTIONLOSS ∧
      torn_down zh (zookeeper_interest zh out).2.2 ZCONNECTIONLOSS) ∧
    (zh.fd ≠ -1 → ¬ (zh.sent_requests = [] ∧ zh.state = CONNECTED_STATE) →
      Int.tdiv (int_wrap (zh.recv_timeout * 2)) 3 -
          calculate_interval zh.last_recv (gettimeofday zh.world) ≤ 0 →
      (zookeeper_interest zh out).1 = ZOPERATIONTIMEOUT ∧
      torn_down zh (zookeeper_interest zh out).2.2 ZOPERATIONTIMEOUT) ∧
    ((check_events zh events).1 = ZCONNECTIONLOSS →
      torn_down zh (check_events zh events).2 ZCONNECTIONLOSS) ∧
    (∀ r, zookeeper_process ad zh events = some r → r.1 = ZCONNECTIONLOSS →
      torn_down zh r.2 ZCONNECTIONLOSS) ∧
    ((zookeeper_interest zh out).1 = ZCONNECTIONLOSS →
      torn_down zh (zookeeper_interest zh out).2.2 ZCONNECTIONLOSS) ∧
    ((zookeeper_interest zh out).1 = ZOPERATIONTIMEOUT →
      torn_down zh (zookeeper_interest zh out).2.2 ZOPERATIONTIMEOUT) := by
  have key : ∀ z : zhandle_t, z.fd = zh.fd → z.state = zh.state → z.to_send = zh.to_send →
      z.world = zh.world → read_frame z = read_frame zh → zh.fd ≠ -1 →
      ((Int.land events ZOOKEEPER_READ ≠ 0 ∧
          ¬ (Int.land events ZOOKEEPER_WRITE ≠ 0 ∧ zh.state = CONNECTING_STATE) ∧
          reads (read_frame zh) = true ∧ recv_fails zh.world = true) ∨
        (Int.land events ZOOKEEPER_WRITE ≠ 0 ∧ zh.state = CONNECTED_STATE ∧
          zh.to_send ≠ [] ∧ send_fails zh.world = true) ∨
        (Int.land events ZOOKEEPER_WRITE ≠ 0 ∧ zh.state = CONNECTING_STATE ∧
          (connect_has_failed zh.world = true ∨
            send_refused (getsockopt zh.world).2.2 = true))) →
      (check_events z events).1 = ZCONNECTIONLOSS := by
    intro z h1 h2 h3 h4 h5 hfd ht
    rcases ht with ⟨a, b, c, d⟩ | ⟨a, b, c, d⟩ | ⟨a, b, c⟩
    · exact check_events_recv_fails z events (by rw [h1]; exact hfd) a (by rw [h2]; exact b)
        (by rw [h5]; exact c) (by rw [h4]; exact d)
    · exact check_events_send_fails z events (by rw [h1]; exact hfd) a (by rw [h2]; exact b)
        (by rw [h3]; exact c) (by rw [h4]; exact d)
    · exact check_events_connect_fails z events (by rw [h1]; exact hfd) a
        (by rw [h2]; exact b) (by rw [h4]; exact c)
  refine ⟨?_, ?_, ?_, check_events_teardown zh events hst,
    fun r h hrc => zookeeper_process_teardown ad zh events r h hrc,
    zookeeper_interest_teardown zh out _ (Or.inl rfl),
    zookeeper_interest_teardown zh out _ (Or.inr rfl)⟩
  · intro hfd ht
    have hc := key zh rfl rfl rfl rfl rfl hfd ht
    have hp := key (api_prolog zh) rfl rfl rfl rfl rfl hfd ht
    obtain ⟨r, hr, hrc⟩ := zookeeper_process_fails ad zh events hst hp
    exact ⟨hc, check_events_teardown zh events hst hc, r, hr, hrc,
      zookeeper_process_teardown ad zh events r hr hrc⟩
  · intro hfd hidx ht
    have hc : (zookeeper_interest zh out).1 = ZCONNECTIONLOSS := by
      rcases ht with a | ⟨a, b⟩
      · exact zookeeper_interest_connect_fails zh out hst hfd hidx a
      · exact zookeeper_interest_handshake_fails zh out hst hfd hidx a b
    exact ⟨hc, zookeeper_interest_teardown zh out _ (Or.inl rfl) hc⟩
  · intro hfd hp hto
    have hc := zookeeper_interest_idle zh out hst hfd hp hto
    exact ⟨hc, zookeeper_interest_teardown zh out _ (Or.inr rfl) hc⟩

/-- C8 (instances): the server closes the socket (zero-byte recv) while requests 7 and 9 are
pending: both fail with ZCONNECTIONLOSS after the watcher has been told CONNECTING_STATE.
The same two requests fail with ZCONNECTIONLOSS when the `send` of a queued frame fails and
when the connect is refused. -/
theorem teardown_error_codes_witness :
    0 ≤ (two_pending_handle []).state ∧
    recv_fails (two_pending_handle []).world = true ∧
    (check_events (two_pending_handle []) ZOOKEEPER_READ).1 = ZCONNECTIONLOSS ∧
    torn_down (two_pending_handle []) (check_events (two_pending_handle []) ZOOKEEPER_READ).2
      ZCONNECTIONLOSS ∧
    (check_events (two_pending_handle []) ZOOKEEPER_READ).2.trace =
      [Event.watcher (watcher_fn.user 0) SESSION_EVENT CONNECTING_STATE none,
       Event.completion (FnPtr.fn 70) COMPLETION_DATA ZCONNECTIONLOSS none 700,
       Event.completion (FnPtr.fn 90) COMPLETION_VOID ZCONNECTIONLOSS none 900] ∧
    send_fails failed_send_handle.world = true ∧
    (check_events failed_send_handle ZOOKEEPER_WRITE).1 = ZCONNECTIONLOSS ∧
    (check_events failed_send_handle ZOOKEEPER_WRITE).2.trace =
      [Event.watcher (watcher_fn.user 0) SESSION_EVENT CONNECTING_STATE none,
       Event.completion (FnPtr.fn 70) COMPLETION_DATA ZCONNECTIONLOSS none 700,
       Event.completion (FnPtr.fn 90) COMPLETION_VOID ZCONNECTIONLOSS none 900] ∧
    connect_fails refused_connect_handle.world = true ∧
    (zookeeper_interest refused_connect_handle
      { fd := 0, interest := 0, tv := { tv_sec := 0, tv_usec := 0 } }).1 = ZCONNECTIONLOSS ∧
    (zookeeper_interest refused_connect_handle
      { fd := 0, interest := 0, tv := { tv_sec := 0, tv_usec := 0 } }).2.2.trace =
      [Event.completion (FnPtr.fn 70) COMPLETION_DATA ZCONNECTIONLOSS none 700,
       Event.completion (FnPtr.fn 90) COMPLETION_VOID ZCONNECTIONLOSS none 900] :=
  ⟨by decide, by decide,
   ((teardown_error_codes threaded_adaptor (two_pending_handle []) ZOOKEEPER_READ
      { fd := 0, interest := 0, tv := { tv_sec := 0, tv_usec := 0 } } (by decide)).1
      (by decide) (Or.inl ⟨by decide, by decide, by decide, by decide⟩)).1,
   ((teardown_error_codes threaded_adaptor (two_pending_handle []) ZOOKEEPER_READ
      { fd := 0, interest := 0, tv := { tv_sec := 0, tv_usec := 0 } } (by decide)).1
      (by decide) (Or.inl ⟨by decide, by decide, by decide, by decide⟩)).2.1,
   by decide, by decide,
   ((teardown_error_codes threaded_adaptor failed_send_handle ZOOKEEPER_WRITE
      { fd := 0, interest := 0, tv := { tv_sec := 0, tv_usec := 0 } } (by decide)).1
      (by decide) (Or.inr (Or.inl ⟨by decide, by decide, by decide, by decide⟩))).1,
   by decide, by decide,
   ((teardown_error_codes threaded_adaptor refused_connect_handle 0
      { fd := 0, interest := 0, tv := { tv_sec := 0, tv_usec := 0 } } (by decide)).2.1
      (by decide) (by decide) (Or.inl (by decide))).1,
   by decide⟩

/-- C5 (failing input): under the library-driven discipline (`process_async` returns 0) an
asynchronous get is enqueued successfully (ZOK, its entry with xid 1 is in `sent_requests`),
`zookeeper_process` reads its reply and moves the entry to `completions_to_process`, and
`zookeeper_close` then releases the handle: no user-visible invocation has been made at all,
so the callback of the request is invoked zero times. -/
theorem close_strands_ready_completion :
    (zoo_aget lost_reply_start 0 [0, 0, 0, 2, 47, 120, 0] (FnPtr.fn 70) 700
      sync_completion.zero).1 = ZOK ∧
    lost_reply_enqueued.sent_requests.map (fun c => (c.xid, c.c)) = [(1, FnPtr.fn 70)] ∧
    (zookeeper_process threaded_adaptor lost_reply_enqueued ZOOKEEPER_READ).map
      (fun r => (r.1, r.2.sent_requests,
        r.2.completions_to_process.map (fun c => (c.xid, c.c)))) =
      some (ZOK, [], [(1, FnPtr.fn 70)]) ∧
    (zookeeper_process threaded_adaptor lost_reply_enqueued ZOOKEEPER_READ).map
      (fun r => ((zookeeper_close r.2).2.freed, (zookeeper_close r.2).2.trace)) =
      some (true, []) := by
  decide

/-! ## Timers of `zookeeper_interest` -/

theorem is_unrecoverable_of_nonneg (zh : zhandle_t) (h : 0 ≤ zh.state) :
    is_unrecoverable zh = 0 := by
  unfold is_unrecoverable
  rw [if_neg (not_lt.mpr h)]
  rfl

theorem zookeeper_interest_socket (zh : zhandle_t) (out : interest_args) (hst : 0 ≤ zh.state)
    (hfd : zh.fd ≠ -1) :
    zookeeper_interest zh out =
      zookeeper_interest_timers { zh with ref_counter := zh.ref_counter + 1 }
        { fd := zh.fd, interest := 0, tv := { tv_sec := 0, tv_usec := 0 } } := by
  unfold zookeeper_interest
  rw [if_neg (by rw [is_unrecoverable_of_nonneg zh hst]; decide), api_prolog_eq]
  simp only []
  rw [if_neg hfd]

theorem api_epilog_balanced (zh : zhandle_t) (rc : Int)
    (h : zh.close_requested = 0 ∨ zh.ref_counter ≠ 0) :
    api_epilog { zh with ref_counter := zh.ref_counter + 1 } rc = (rc, zh) := by
  rw [api_epilog_eq, if_neg]
  · simp
  · rintro ⟨h1, h2⟩
    have h1' : zh.ref_counter + 1 - 1 = 0 := h1
    rcases h with h | h
    · exact h2 h
    · exact h (by omega)

theorem api_epilog_live (zh : zhandle_t) (rc : Int)
    (h : zh.close_requested = 0 ∨ zh.ref_counter ≠ 1) :
    api_epilog zh rc = (rc, { zh with ref_counter := zh.ref_counter - 1 }) := by
  rw [api_epilog_eq, if_neg]
  rintro ⟨h1, h2⟩
  rcases h with h | h
  · exact h2 h
  · exact h (by omega)

theorem get_timeval_ms (t : Int) (h : 0 ≤ t) :
    (get_timeval t).tv_sec * 1000000 + (get_timeval t).tv_usec = t * 1000 := by
  unfold get_timeval
  simp only [if_neg (not_lt.mpr h)]
  have := Int.tdiv_add_tmod t 1000
  omega


theorem queue_buffer_back (l : List buffer_list_t) (b : buffer_list_t) :
    queue_buffer l b 0 = l ++ [b] := by
  cases l <;> simp [queue_buffer]

theorem queue_buffer_front (l : List buffer_list_t) (b : buffer_list_t) :
    queue_buffer l b 1 = b :: l := by
  cases l <;> simp [queue_buffer]

theorem zookeeper_interest_report_out (zh : zhandle_t) (out : interest_args) (to_ms : Int) :
    (zookeeper_interest_report zh out to_ms).2.1 =
      { fd := out.fd,
        interest :=
          if zh.to_send ≠ [] ∨ zh.state = CONNECTING_STATE then
            Int.lor ZOOKEEPER_READ ZOOKEEPER_WRITE
          else ZOOKEEPER_READ,
        tv := get_timeval to_ms } := by
  unfold zookeeper_interest_report
  simp only []
  split <;> rfl

theorem zookeeper_interest_report_handle (zh : zhandle_t) (out : interest_args) (to_ms : Int) :
    (zookeeper_interest_report zh out to_ms).2.2 = (api_epilog zh ZOK).2 := by
  unfold zookeeper_interest_report
  rfl

theorem connect_targets_append (l1 l2 : List Syscall) :
    connect_targets (l1 ++ l2) = connect_targets l1 ++ connect_targets l2 := by
  unfold connect_targets
  exact List.filterMap_append _ _ _

theorem send_world (w : World) (fd : Int) (bytes : List Nat) :
    connect_targets (send w fd bytes).2.2.log = connect_targets w.log ∧
    (send w fd bytes).2.2.next_xid = w.next_xid := by
  unfold send
  split
  · exact ⟨rfl, rfl⟩
  · exact ⟨rfl, rfl⟩
  · simp [connect_targets_append, connect_targets]

theorem recv_world (w : World) (fd : Int) (n : Int) :
    (recv w fd n).2.2.2.log = w.log ∧ (recv w fd n).2.2.2.next_xid = w.next_xid := by
  unfold recv
  split <;> exact ⟨rfl, rfl⟩

theorem close_world (w : World) (fd : Int) :
    connect_targets (close w fd).log = connect_targets w.log ∧
    (close w fd).next_xid = w.next_xid := by
  simp [close, connect_targets_append, connect_targets]

theorem getsockopt_world (w : World) :
    (getsockopt w).2.2.log = w.log ∧ (getsockopt w).2.2.next_xid = w.next_xid := by
  unfold getsockopt
  split <;> exact ⟨rfl, rfl⟩

theorem poll_world (w : World) :
    (poll w).2.log = w.log ∧ (poll w).2.next_xid = w.next_xid := by
  unfold poll
  split <;> exact ⟨rfl, rfl⟩

theorem send_buffer_payload_world (w : World) (fd : Int) (buff : buffer_list_t) :
    connect_targets (send_buffer_payload w fd buff).2.2.log = connect_targets w.log ∧
    (send_buffer_payload w fd buff).2.2.next_xid = w.next_xid := by
  unfold send_buffer_payload
  simp only []
  split
  · have h := send_world w fd (((buff.buffer.getD []).drop (buff.curr_offset - 4).toNat).take
      (buff.len - (buff.curr_offset - 4)).toNat)
    split <;> [split; skip] <;> exact h
  · exact ⟨rfl, rfl⟩

theorem send_buffer_world (w : World) (fd : Int) (buff : buffer_list_t) :
    connect_targets (send_buffer w fd buff).2.2.log = connect_targets w.log ∧
    (send_buffer w fd buff).2.2.next_xid = w.next_xid := by
  unfold send_buffer
  split
  · have h := send_world w fd ((be32 buff.len).drop buff.curr_offset.toNat)
    simp only []
    split
    · split <;> exact h
    · have h2 := send_buffer_payload_world
        (send w fd ((be32 buff.len).drop buff.curr_offset.toNat)).2.2 fd
        { buff with curr_offset := buff.curr_offset +
            (send w fd ((be32 buff.len).drop buff.curr_offset.toNat)).1 }
      exact ⟨h2.1.trans h.1, h2.2.trans h.2⟩
  · exact send_buffer_payload_world w fd buff

theorem recv_buffer_payload_world (w : World) (fd : Int) (buff : buffer_list_t) :
    (recv_buffer_payload w fd buff).2.2.log = w.log ∧
    (recv_buffer_payload w fd buff).2.2.next_xid = w.next_xid := by
  unfold recv_buffer_payload
  split
  · rename_i mem hm
    have h := recv_world w fd (buff.len - (buff.curr_offset - 4))
    simp only []
    split <;> [split; (split <;> [split; skip])] <;> exact h
  · exact ⟨rfl, rfl⟩

theorem recv_buffer_world (w : World) (fd : Int) (buff : buffer_list_t) :
    (recv_buffer w fd buff).2.2.log = w.log ∧
    (recv_buffer w fd buff).2.2.next_xid = w.next_xid := by
  unfold recv_buffer
  split
  · have h := recv_world w fd (4 - buff.curr_offset)
    simp only []
    split
    · exact h
    · split
      · exact h
      · have h2 := recv_buffer_payload_world (recv w fd (4 - buff.curr_offset)).2.2.2 fd
        exact ⟨(h2 _).1.trans h.1, (h2 _).2.trans h.2⟩
  · exact recv_buffer_payload_world w fd buff

theorem evolves_refl (zh : zhandle_t) : evolves zh zh :=
  ⟨rfl, rfl, rfl, le_refl _, fun _ hc => Or.inl hc, Or.inl ⟨rfl, rfl⟩⟩

theorem evolves_trans {a b c : zhandle_t} (h1 : evolves a b) (h2 : evolves b c) :
    evolves a c := by
  obtain ⟨a1, a2, a3, a4, a5, a6⟩ := h1
  obtain ⟨b1, b2, b3, b4, b5, b6⟩ := h2
  refine ⟨b1.trans a1, b2.trans a2, b3.trans a3, le_trans a4 b4, ?_, ?_⟩
  · intro x hx
    rcases b5 x hx with h | h | h
    · rcases a5 x h with h | h | h
      · exact Or.inl h
      · exact Or.inr (Or.inl h)
      · exact Or.inr (Or.inr ⟨h.1, lt_of_lt_of_le h.2.1 b4, h.2.2⟩)
    · exact Or.inr (Or.inl h)
    · exact Or.inr (Or.inr ⟨le_trans a4 h.1, h.2⟩)
  · rcases a6 with ⟨f1, i1⟩ | ⟨f0, f1, i1⟩
    · rcases b6 with ⟨f2, i2⟩ | ⟨g0, f2, i2⟩
      · exact Or.inl ⟨f2.trans f1, i2.trans i1⟩
      · exact Or.inr ⟨by rw [← f1]; exact g0, f2, by rw [i2, i1]⟩
    · rcases b6 with ⟨f2, i2⟩ | ⟨g0, f2, i2⟩
      · exact Or.inr ⟨f0, f2.trans f1, by rw [i2, i1]⟩
      · exact absurd f1 g0

theorem evolves_of_fields (zh zh2 : zhandle_t) (h1 : zh2.addrs_count = zh.addrs_count)
    (h2 : zh2.close_requested = zh.close_requested)
    (h3 : connect_targets zh2.world.log = connect_targets zh.world.log)
    (h4 : zh2.world.next_xid = zh.world.next_xid)
    (h5 : zh2.sent_requests = zh.sent_requests) (h6 : zh2.fd = zh.fd)
    (h7 : zh2.connect_index = zh.connect_index) : evolves zh zh2 :=
  ⟨h1, h2, h3, le_of_eq h4.symm, fun _ hc => Or.inl (h5 ▸ hc), Or.inl ⟨h6, h7⟩⟩

theorem evolves_handle_error (zh : zhandle_t) (rc : Int) (hfd : zh.fd ≠ -1) :
    evolves zh (handle_error zh rc) := by
  rw [handle_error_eq]
  exact ⟨rfl, rfl, (close_world zh.world zh.fd).1, le_of_eq (close_world zh.world zh.fd).2.symm,
    fun _ hc => absurd hc (List.not_mem_nil _), Or.inr ⟨hfd, rfl, rfl⟩⟩

theorem flush_send_queue_send_fields (timeout : Int) (zh : zhandle_t) (head : buffer_list_t)
    (rest : List buffer_list_t) :
    ∃ ts w, (flush_send_queue_send timeout zh head rest).2 =
        { zh with to_send := ts, world := w } ∧
      connect_targets w.log = connect_targets zh.world.log ∧ w.next_xid = zh.world.next_xid := by
  have h := send_buffer_world zh.world zh.fd head
  unfold flush_send_queue_send
  simp only []
  split <;> [skip; split <;> [skip; split]] <;> exact ⟨_, _, rfl, h⟩

theorem flush_send_queue_body_fields (timeout : Int) (started : timeval) (zh : zhandle_t)
    (head : buffer_list_t) (rest : List buffer_list_t) :
    ∃ ts w, (flush_send_queue_body timeout started zh head rest).2 =
        { zh with to_send := ts, world := w } ∧
      connect_targets w.log = connect_targets zh.world.log ∧ w.next_xid = zh.world.next_xid := by
  unfold flush_send_queue_body
  simp only []
  split
  · split
    · exact ⟨_, _, rfl, rfl, rfl⟩
    · split
      · exact ⟨_, _, rfl, congrArg connect_targets (poll_world zh.world).1,
          (poll_world zh.world).2⟩
      · obtain ⟨ts, w, h, h2, h3⟩ := flush_send_queue_send_fields timeout
          { zh with world := (poll zh.world).2 } head rest
        exact ⟨ts, w, h, h2.trans (congrArg connect_targets (poll_world zh.world).1),
          h3.trans (poll_world zh.world).2⟩
  · exact flush_send_queue_send_fields timeout zh head rest

theorem flush_send_queue_loop_fields (timeout : Int) (started : timeval) (fuel : Nat)
    (zh : zhandle_t) :
    ∃ ts w, (flush_send_queue_loop timeout started fuel zh).2 =
        { zh with to_send := ts, world := w } ∧
      connect_targets w.log = connect_targets zh.world.log ∧ w.next_xid = zh.world.next_xid := by
  induction fuel generalizing zh with
  | zero => exact ⟨_, _, rfl, rfl, rfl⟩
  | succ n ih =>
    rw [flush_send_queue_loop]
    split
    · exact ⟨zh.to_send, zh.world, rfl, rfl, rfl⟩
    · rename_i head rest hs
      split
      · exact ⟨zh.to_send, zh.world, rfl, rfl, rfl⟩
      · obtain ⟨ts, w, hb, hb2, hb3⟩ :=
          flush_send_queue_body_fields timeout started zh head rest
        split
        · rename_i rc zh2 heq
          rw [heq] at hb
          exact ⟨ts, w, hb, hb2, hb3⟩
        · rename_i zh2 heq
          rw [heq] at hb
          have hb' : zh2 = { zh with to_send := ts, world := w } := hb
          obtain ⟨ts2, w2, hi, hi2, hi3⟩ := ih zh2
          refine ⟨ts2, w2, ?_, ?_, ?_⟩
          · rw [hi, hb']
          · rw [hi2, hb']; exact hb2
          · rw [hi3, hb']; exact hb3

theorem flush_send_queue_fields (zh : zhandle_t) (timeout : Int) :
    ∃ ts w, (flush_send_queue zh timeout).2 = { zh with to_send := ts, world := w } ∧
      connect_targets w.log = connect_targets zh.world.log ∧ w.next_xid = zh.world.next_xid :=
  flush_send_queue_loop_fields _ _ _ _

theorem evolves_flush_send_queue (zh : zhandle_t) (timeout : Int) :
    evolves zh (flush_send_queue zh timeout).2 := by
  obtain ⟨ts, w, h1, h2, h3⟩ := flush_send_queue_fields zh timeout
  rw [h1]
  exact evolves_of_fields _ _ rfl rfl h2 h3 rfl rfl rfl

theorem evolves_send_auth_info (zh : zhandle_t) : evolves zh (send_auth_info zh).2 := by
  rw [send_auth_info_fields]
  exact evolves_of_fields _ _ rfl rfl rfl rfl rfl rfl rfl

theorem evolves_prime_connection (zh : zhandle_t) (hfd : zh.fd ≠ -1) :
    evolves zh (prime_connection zh).2 := by
  unfold prime_connection handle_socket_error_msg
  have h1 := send_world zh.world zh.fd (be32 HANDSHAKE_REQ_SIZE)
  have h2 := send_world (send zh.world zh.fd (be32 HANDSHAKE_REQ_SIZE)).2.2 zh.fd
    (List.take HANDSHAKE_REQ_SIZE.toNat (serialize_prime_connect (prime_connection_req zh)))
  simp only []
  by_cases hneg : (send zh.world zh.fd (be32 HANDSHAKE_REQ_SIZE)).1 < 0
  · simp only [hneg, if_true]
    exact evolves_trans
      (evolves_of_fields zh { zh with world := (send zh.world zh.fd (be32 HANDSHAKE_REQ_SIZE)).2.2 }
        rfl rfl h1.1 h1.2 rfl rfl rfl)
      (evolves_handle_error _ _ hfd)
  · simp only [hneg, if_false]
    split
    · exact evolves_trans
        (evolves_of_fields zh { zh with world := (send
          (send zh.world zh.fd (be32 HANDSHAKE_REQ_SIZE)).2.2 zh.fd
          (List.take HANDSHAKE_REQ_SIZE.toNat
            (serialize_prime_connect (prime_connection_req zh)))).2.2 }
          rfl rfl (h2.1.trans h1.1) (h2.2.trans h1.2) rfl rfl rfl)
        (evolves_handle_error _ _ hfd)
    · exact evolves_of_fields _ _ rfl rfl (h2.1.trans h1.1) (h2.2.trans h1.2) rfl rfl rfl

theorem evolves_check_events_complete (zh : zhandle_t) (hfd : zh.fd ≠ -1) :
    evolves zh (check_events_complete zh).2 := by
  unfold check_events_complete handle_socket_error_msg call_watcher
  simp only []
  split
  · split
    · exact evolves_trans (b := { zh with
          last_recv := gettimeofday zh.world,
          primer_storage := deserialize_prime_response (zh.primer_buffer.buffer.getD []),
          state := EXPIRED_SESSION_STATE })
        (evolves_of_fields _ _ rfl rfl rfl rfl rfl rfl rfl) (evolves_handle_error _ _ hfd)
    · refine evolves_trans (b := (send_auth_info _).2) (evolves_trans (b := _) ?_
        (evolves_send_auth_info _)) (evolves_of_fields _ _ rfl rfl rfl rfl rfl rfl rfl)
      exact evolves_of_fields _ _ rfl rfl rfl rfl rfl rfl rfl
  · exact evolves_of_fields _ _ rfl rfl rfl rfl rfl rfl rfl
  · exact evolves_of_fields _ _ rfl rfl rfl rfl rfl rfl rfl

theorem evolves_after_recv (zh zhr : zhandle_t) (rc : Int) (h : evolves zh zhr)
    (hfd : zhr.fd ≠ -1) :
    evolves zh
      (if rc < 0 then handle_socket_error_msg zhr ZCONNECTIONLOSS
        else if rc > 0 then check_events_complete zhr else (ZOK, zhr)).2 := by
  split
  · exact evolves_trans h (evolves_handle_error _ _ hfd)
  · split
    · exact evolves_trans h (evolves_check_events_complete _ hfd)
    · exact h

theorem evolves_check_events_read (zh : zhandle_t) (events : Int) (hfd : zh.fd ≠ -1) :
    evolves zh (check_events_read zh events).2 := by
  unfold check_events_read
  by_cases hr : Int.land events ZOOKEEPER_READ ≠ 0
  · rw [if_pos hr]
    cases hin : zh.input_buffer with
    | null =>
      simp only [hin, if_true]
      have hw := recv_buffer_world zh.world zh.fd (allocate_buffer none 0)
      rcases hb : recv_buffer zh.world zh.fd (allocate_buffer none 0) with ⟨rc, b, w⟩
      rw [hb] at hw
      simp only []
      exact evolves_after_recv zh _ rc
        (evolves_of_fields _ _ rfl rfl (congrArg connect_targets hw.1) hw.2 rfl rfl rfl) hfd
    | primer =>
      simp only [hin, reduceCtorEq, if_false]
      have hw := recv_buffer_world zh.world zh.fd zh.primer_buffer
      rcases hb : recv_buffer zh.world zh.fd zh.primer_buffer with ⟨rc, b, w⟩
      rw [hb] at hw
      simp only []
      exact evolves_after_recv zh _ rc
        (evolves_of_fields _ _ rfl rfl (congrArg connect_targets hw.1) hw.2 rfl rfl rfl) hfd
    | heap b0 =>
      simp only [hin, reduceCtorEq, if_false]
      have hw := recv_buffer_world zh.world zh.fd b0
      rcases hb : recv_buffer zh.world zh.fd b0 with ⟨rc, b, w⟩
      rw [hb] at hw
      simp only []
      exact evolves_after_recv zh _ rc
        (evolves_of_fields _ _ rfl rfl (congrArg connect_targets hw.1) hw.2 rfl rfl rfl) hfd
  · rw [if_neg hr]
    exact evolves_refl zh

theorem evolves_fd_of_ne (zh zh2 : zhandle_t) (h : evolves zh zh2) (hfd : zh2.fd ≠ -1) :
    zh.fd ≠ -1 := by
  rcases h.2.2.2.2.2 with ⟨f, _⟩ | ⟨f0, _, _⟩
  · rw [← f]; exact hfd
  · exact f0

theorem evolves_check_events (zh : zhandle_t) (events : Int) :
    evolves zh (check_events zh events).2 := by
  unfold check_events
  by_cases hfd : zh.fd = -1
  · rw [if_pos hfd]
    exact evolves_refl zh
  · rw [if_neg hfd]
    by_cases hc : Int.land events ZOOKEEPER_WRITE ≠ 0 ∧ zh.state = CONNECTING_STATE
    · rw [if_pos hc]
      have hw := getsockopt_world zh.world
      rcases hg : getsockopt zh.world with ⟨rc, error, w1⟩
      rw [hg] at hw
      simp only [handle_socket_error_msg]
      have h1 : evolves zh { zh with world := w1 } :=
        evolves_of_fields _ _ rfl rfl (congrArg connect_targets hw.1) hw.2 rfl rfl rfl
      by_cases he : rc < 0 ∨ error ≠ 0
      · rw [if_pos he]
        exact evolves_trans h1 (evolves_handle_error _ _ hfd)
      · rw [if_neg he]
        have h2 := evolves_prime_connection { zh with world := w1 } hfd
        split <;> exact evolves_trans h1 h2
    · rw [if_neg hc]
      by_cases hw : zh.to_send ≠ [] ∧ Int.land events ZOOKEEPER_WRITE ≠ 0
      · rw [if_pos hw]
        obtain ⟨ts, w, hf, hf2, hf3⟩ := flush_send_queue_fields zh 0
        have he := evolves_flush_send_queue zh 0
        rcases hfl : flush_send_queue zh 0 with ⟨rc, zhf⟩
        rw [hfl] at hf he
        have hf' : zhf = { zh with to_send := ts, world := w } := hf
        have hfd2 : zhf.fd ≠ -1 := by rw [hf']; exact hfd
        simp only [handle_socket_error_msg]
        by_cases hneg : rc < 0
        · rw [if_pos hneg]
          exact evolves_trans he (evolves_handle_error _ _ hfd2)
        · rw [if_neg hneg]
          exact evolves_trans he (evolves_check_events_read zhf events hfd2)
      · rw [if_neg hw]
        exact evolves_check_events_read zh events hfd

theorem prime_connection_ok_fd (zh : zhandle_t) (h : (prime_connection zh).1 = ZOK) :
    (prime_connection zh).2.fd = zh.fd := by
  unfold prime_connection handle_socket_error_msg at h ⊢
  simp only [] at h ⊢
  by_cases hneg : (send zh.world zh.fd (be32 HANDSHAKE_REQ_SIZE)).1 < 0
  · simp only [hneg, if_true] at h
    exact absurd (show ZCONNECTIONLOSS = ZOK from h) (by decide)
  · simp only [hneg, if_false] at h ⊢
    split at h
    · exact absurd (show ZCONNECTIONLOSS = ZOK from h) (by decide)
    · rename_i h2
      rw [if_neg h2]

theorem check_events_complete_ok_fd (zh : zhandle_t) (h : (check_events_complete zh).1 = ZOK) :
    (check_events_complete zh).2.fd = zh.fd := by
  unfold check_events_complete handle_socket_error_msg call_watcher at h ⊢
  simp only [] at h ⊢
  cases hin : zh.input_buffer with
  | null => rfl
  | heap b => rfl
  | primer =>
    simp only [hin] at h ⊢
    split at h
    · exact absurd (show ZSESSIONEXPIRED = ZOK from h) (by decide)
    · rename_i hid
      rw [if_neg hid]
      simp only []
      rw [send_auth_info_fields]

theorem after_recv_ok_fd (zhr : zhandle_t) (rc : Int)
    (h : (if rc < 0 then handle_socket_error_msg zhr ZCONNECTIONLOSS
        else if rc > 0 then check_events_complete zhr else (ZOK, zhr)).1 = ZOK) :
    (if rc < 0 then handle_socket_error_msg zhr ZCONNECTIONLOSS
        else if rc > 0 then check_events_complete zhr else (ZOK, zhr)).2.fd = zhr.fd := by
  split at h
  · exact absurd (show ZCONNECTIONLOSS = ZOK from h) (by decide)
  · rename_i h1
    rw [if_neg h1]
    split at h
    · rename_i h2
      rw [if_pos h2]
      exact check_events_complete_ok_fd zhr h
    · rename_i h2
      rw [if_neg h2]

theorem check_events_read_ok_fd (zh : zhandle_t) (events : Int)
    (h : (check_events_read zh events).1 = ZOK) :
    (check_events_read zh events).2.fd = zh.fd := by
  unfold check_events_read at h ⊢
  by_cases hr : Int.land events ZOOKEEPER_READ ≠ 0
  · rw [if_pos hr] at h ⊢
    cases hin : zh.input_buffer with
    | null =>
      simp only [hin, if_true] at h ⊢
      rcases hb : recv_buffer zh.world zh.fd (allocate_buffer none 0) with ⟨rc, b, w⟩
      simp only [hb] at h ⊢
      exact after_recv_ok_fd _ rc h
    | primer =>
      simp only [hin, reduceCtorEq, if_false] at h ⊢
      rcases hb : recv_buffer zh.world zh.fd zh.primer_buffer with ⟨rc, b, w⟩
      simp only [hb] at h ⊢
      exact after_recv_ok_fd _ rc h
    | heap b0 =>
      simp only [hin, reduceCtorEq, if_false] at h ⊢
      rcases hb : recv_buffer zh.world zh.fd b0 with ⟨rc, b, w⟩
      simp only [hb] at h ⊢
      exact after_recv_ok_fd _ rc h
  · rw [if_neg hr]

theorem check_events_ok_fd (zh : zhandle_t) (events : Int)
    (h : (check_events zh events).1 = ZOK) :
    (check_events zh events).2.fd = zh.fd ∧ zh.fd ≠ -1 := by
  unfold check_events at h ⊢
  by_cases hfd : zh.fd = -1
  · rw [if_pos hfd] at h
    exact absurd (show ZINVALIDSTATE = ZOK from h) (by decide)
  · rw [if_neg hfd] at h ⊢
    refine ⟨?_, hfd⟩
    by_cases hc : Int.land events ZOOKEEPER_WRITE ≠ 0 ∧ zh.state = CONNECTING_STATE
    · rw [if_pos hc] at h ⊢
      rcases hg : getsockopt zh.world with ⟨rc, error, w1⟩
      simp only [hg] at h ⊢
      by_cases he : rc < 0 ∨ error ≠ 0
      · rw [if_pos he] at h
        exact absurd (show ZCONNECTIONLOSS = ZOK from h) (by decide)
      · rw [if_neg he] at h ⊢
        by_cases hp : (prime_connection { zh with world := w1 }).1 ≠ 0
        · rw [if_pos hp] at h
          exact absurd h hp
        · rw [if_neg hp]
          exact prime_connection_ok_fd { zh with world := w1 } (not_not.mp hp)
    · rw [if_neg hc] at h ⊢
      by_cases hw : zh.to_send ≠ [] ∧ Int.land events ZOOKEEPER_WRITE ≠ 0
      · rw [if_pos hw] at h ⊢
        obtain ⟨ts, w, hf, _, _⟩ := flush_send_queue_fields zh 0
        rcases hfl : flush_send_queue zh 0 with ⟨rc, zhf⟩
        rw [hfl] at hf
        have hf' : zhf = { zh with to_send := ts, world := w } := hf
        simp only [hfl] at h ⊢
        by_cases hneg : rc < 0
        · rw [if_pos hneg] at h
          exact absurd (show ZCONNECTIONLOSS = ZOK from h) (by decide)
        · rw [if_neg hneg] at h ⊢
          rw [check_events_read_ok_fd zhf events h, hf']
      · rw [if_neg hw] at h ⊢
        exact check_events_read_ok_fd zh events h

theorem evolves_of_sub (zh zh2 : zhandle_t) (h1 : zh2.addrs_count = zh.addrs_count)
    (h2 : zh2.close_requested = zh.close_requested)
    (h3 : connect_targets zh2.world.log = connect_targets zh.world.log)
    (h4 : zh2.world.next_xid = zh.world.next_xid)
    (h5 : ∀ c ∈ zh2.sent_requests, c ∈ zh.sent_requests) (h6 : zh2.fd = zh.fd)
    (h7 : zh2.connect_index = zh.connect_index) : evolves zh zh2 :=
  ⟨h1, h2, h3, le_of_eq h4.symm, fun c hc => Or.inl (h5 c hc), Or.inl ⟨h6, h7⟩⟩

theorem evolves_api_epilog (zh : zhandle_t) (rc : Int) (hopen : zh.close_requested = 0) :
    evolves zh (api_epilog zh rc).2 := by
  rw [api_epilog_open zh rc hopen]
  exact evolves_of_fields _ _ rfl rfl rfl rfl rfl rfl rfl

theorem evolves_auth_completion_func (rc : Int) (zh : zhandle_t) :
    evolves zh (auth_completion_func rc zh) ∧ (auth_completion_func rc zh).fd = zh.fd := by
  unfold auth_completion_func
  simp only []
  split <;> split <;> exact ⟨evolves_of_fields _ _ rfl rfl rfl rfl rfl rfl rfl, rfl⟩

theorem evolves_process_sync_reply (zh : zhandle_t) (cptr : completion_list_t) (rc : Int)
    (frame : List Nat) :
    evolves zh (process_sync_reply zh cptr rc frame) ∧
      (process_sync_reply zh cptr rc frame).fd = zh.fd ∧
      (process_sync_reply zh cptr rc frame).close_requested = zh.close_requested := by
  unfold process_sync_reply notify_sync_completion call_completion
  simp only []
  repeat' split
  all_goals exact ⟨evolves_of_fields _ _ rfl rfl rfl rfl rfl rfl rfl, rfl, rfl⟩

theorem evolves_zookeeper_process_loop (l : List buffer_list_t) (zh : zhandle_t)
    (hfd : zh.fd ≠ -1) (hopen : zh.close_requested = 0) :
    (∀ rc zh2, zookeeper_process_loop l zh = Outcome.ret rc zh2 → evolves zh zh2) ∧
    (∀ zh2, zookeeper_process_loop l zh = Outcome.next zh2 → evolves zh zh2) := by
  induction l generalizing zh with
  | nil =>
    rw [zookeeper_process_loop]
    refine ⟨fun _ _ h => ?_, fun zh2 h => ?_⟩
    · cases h
    · cases h
      exact evolves_refl _
  | cons bptr rest ih =>
    have step : ∀ zh1, evolves zh zh1 → zh1.fd ≠ -1 → zh1.close_requested = 0 →
        ((∀ rc zh2, zookeeper_process_loop rest zh1 = Outcome.ret rc zh2 → evolves zh zh2) ∧
         (∀ zh2, zookeeper_process_loop rest zh1 = Outcome.next zh2 → evolves zh zh2)) :=
      fun zh1 he hf ho =>
        ⟨fun rc zh2 h => evolves_trans he ((ih zh1 hf ho).1 rc zh2 h),
         fun zh2 h => evolves_trans he ((ih zh1 hf ho).2 zh2 h)⟩
    rw [zookeeper_process_loop]
    simp only []
    split
    · exact step _ (evolves_of_fields _ _ rfl rfl rfl rfl rfl rfl rfl) hfd hopen
    · split
      · obtain ⟨zh0, hzh0⟩ : ∃ z : zhandle_t, z =
            { zh with
              to_process := rest,
              last_zxid := (deserialize_ReplyHeader (bptr.buffer.getD [])).zxid } := ⟨_, rfl⟩
        rw [← hzh0]
        have he0 : evolves zh zh0 := by
          rw [hzh0]; exact evolves_of_fields _ _ rfl rfl rfl rfl rfl rfl rfl
        have hfd0 : zh0.fd ≠ -1 := by rw [hzh0]; exact hfd
        have hopen0 : zh0.close_requested = 0 := by rw [hzh0]; exact hopen
        have ha := evolves_auth_completion_func
          (deserialize_ReplyHeader (bptr.buffer.getD [])).err zh0
        have hfa : (auth_completion_func (deserialize_ReplyHeader (bptr.buffer.getD [])).err
            zh0).fd ≠ -1 := by
          rw [ha.2]; exact hfd0
        have hoa : (auth_completion_func (deserialize_ReplyHeader (bptr.buffer.getD [])).err
            zh0).close_requested = 0 := by
          rw [ha.1.2.1]; exact hopen0
        split
        · refine ⟨fun rc zh2 h => ?_, fun zh2 h => by cases h⟩
          cases h
          refine evolves_trans (evolves_trans he0 ha.1)
            (evolves_trans (evolves_handle_error _ ZAUTHFAILED hfa) (evolves_api_epilog _ _ ?_))
          rw [(evolves_handle_error _ ZAUTHFAILED hfa).2.1]
          exact hoa
        · exact step _ (evolves_trans he0 ha.1) hfa hoa
      · cases hsr : zh.sent_requests with
        | nil =>
          simp only [dequeue_completion]
          exact ⟨fun _ _ h => (by cases h), fun _ h => (by cases h)⟩
        | cons cptr tl =>
          simp only [dequeue_completion, handle_socket_error_msg]
          have hsub : ∀ c ∈ tl, c ∈ zh.sent_requests := fun c hc => by
            rw [hsr]; exact List.mem_cons_of_mem _ hc
          split
          · refine ⟨fun rc zh2 h => ?_, fun zh2 h => by cases h⟩
            cases h
            rw [handle_error_eq]
            exact ⟨rfl, rfl, (close_world zh.world zh.fd).1,
              le_of_eq (close_world zh.world zh.fd).2.symm,
              fun _ hc => absurd hc (List.not_mem_nil _), Or.inr ⟨hfd, rfl, rfl⟩⟩
          · split
            · split
              · exact step _ (evolves_of_sub _ _ rfl rfl rfl rfl hsub rfl rfl) hfd hopen
              · exact step _ (evolves_of_sub _ _ rfl rfl rfl rfl hsub rfl rfl) hfd hopen
            · obtain ⟨zh0, hzh0⟩ : ∃ z : zhandle_t, z =
                  { zh with
                    to_process := rest,
                    last_zxid := (deserialize_ReplyHeader (bptr.buffer.getD [])).zxid,
                    sent_requests := tl } := ⟨_, rfl⟩
              rw [← hzh0]
              have hp := evolves_process_sync_reply zh0 cptr
                (deserialize_ReplyHeader (bptr.buffer.getD [])).err (bptr.buffer.getD [])
              have he0 : evolves zh zh0 := by
                rw [hzh0]; exact evolves_of_sub _ _ rfl rfl rfl rfl hsub rfl rfl
              exact step _ (evolves_trans he0 hp.1)
                (by rw [hp.2.1, hzh0]; exact hfd) (by rw [hp.2.2, hzh0]; exact hopen)

theorem evolves_process_completions (zh : zhandle_t) : evolves zh (process_completions zh) := by
  rw [process_completions_eq]
  exact evolves_of_fields _ _ rfl rfl rfl rfl rfl rfl rfl

theorem evolves_api_prolog (zh : zhandle_t) : evolves zh (api_prolog zh) := by
  rw [api_prolog_eq]
  exact evolves_of_fields _ _ rfl rfl rfl rfl rfl rfl rfl

theorem evolves_zookeeper_process (ad : Adaptor) (zh : zhandle_t) (events : Int)
    (r : Int × zhandle_t) (hopen : zh.close_requested = 0)
    (h : zookeeper_process ad zh events = some r) : evolves zh r.2 := by
  unfold zookeeper_process at h
  by_cases hun : is_unrecoverable zh ≠ 0
  · rw [if_pos hun] at h
    cases h
    exact evolves_refl zh
  · rw [if_neg hun] at h
    simp only [] at h
    have hp := evolves_api_prolog zh
    have hc := evolves_check_events (api_prolog zh) events
    have hfd := check_events_ok_fd (api_prolog zh) events
    rcases hce : check_events (api_prolog zh) events with ⟨rc1, zh1⟩
    rw [hce] at hc hfd h
    simp only [] at h hc hfd
    have he1 : evolves zh zh1 := evolves_trans hp hc
    have ho1 : zh1.close_requested = 0 := he1.2.1.trans hopen
    by_cases hrc : rc1 ≠ ZOK
    · rw [if_pos hrc] at h
      cases h
      exact evolves_trans he1 (evolves_api_epilog zh1 rc1 ho1)
    · rw [if_neg hrc] at h
      have hfd1 : zh1.fd ≠ -1 := by
        obtain ⟨e1, e2⟩ := hfd (not_not.mp hrc)
        rw [e1]; exact e2
      have hl := evolves_zookeeper_process_loop zh1.to_process zh1 hfd1 ho1
      cases hloop : zookeeper_process_loop zh1.to_process zh1 with
      | abort =>
        rw [hloop] at h
        cases h
      | ret rc zh2 =>
        rw [hloop] at h
        cases h
        exact evolves_trans he1 (hl.1 rc zh2 hloop)
      | next zh2 =>
        rw [hloop] at h
        simp only [] at h
        cases h
        have he2 : evolves zh zh2 := evolves_trans he1 (hl.2 zh2 hloop)
        have ho2 : zh2.close_requested = 0 := he2.2.1.trans hopen
        split
        · exact evolves_trans (evolves_trans he2 (evolves_process_completions zh2))
            (evolves_api_epilog _ _ ((evolves_process_completions zh2).2.1.trans ho2))
        · exact evolves_trans he2 (evolves_api_epilog _ _ ho2)

theorem evolves_zookeeper_interest_report (zh : zhandle_t) (out : interest_args) (to_ms : Int)
    (hopen : zh.close_requested = 0) :
    evolves zh (zookeeper_interest_report zh out to_ms).2.2 := by
  rw [zookeeper_interest_report_handle]
  exact evolves_api_epilog zh ZOK hopen

theorem evolves_zookeeper_interest_timers (zh : zhandle_t) (out : interest_args)
    (hopen : zh.close_requested = 0) :
    evolves zh (zookeeper_interest_timers zh out).2.2 := by
  unfold zookeeper_interest_timers
  by_cases hfd : zh.fd ≠ -1
  · rw [if_pos hfd]
    simp only []
    split
    · split
      · obtain ⟨zh1, hzh1⟩ : ∃ z : zhandle_t, z =
            { zh with
              sent_requests := queue_completion zh.sent_requests
                (create_completion_entry PING_XID COMPLETION_VOID FnPtr.null 0
                  sync_completion.zero) 0,
              to_send := queue_buffer zh.to_send
                (allocate_buffer
                  (some (serialize_RequestHeader { xid := PING_XID, type := PING_OP }))
                  (serialize_RequestHeader { xid := PING_XID, type := PING_OP }).length) 0 } :=
          ⟨_, rfl⟩
        have he : evolves zh zh1 := by
          rw [hzh1]
          refine ⟨rfl, rfl, rfl, le_refl _, ?_, Or.inl ⟨rfl, rfl⟩⟩
          intro c hc
          rw [queue_completion_back] at hc
          rcases List.mem_append.mp hc with h | h
          · exact Or.inl h
          · rw [List.mem_singleton.mp h]
            exact Or.inr (Or.inl rfl)
        have : (add_void_completion zh PING_XID FnPtr.null 0 sync_completion.zero) =
            (ZOK, { zh with
              sent_requests := queue_completion zh.sent_requests
                (create_completion_entry PING_XID COMPLETION_VOID FnPtr.null 0
                  sync_completion.zero) 0 }) := by
          simp [add_void_completion, add_completion]
        simp only [show ¬ ((0 : Int) < 0) from by decide, if_false, this, queue_buffer_bytes,
          show ¬ (ZOK < 0) from by decide]
        rw [← hzh1]
        exact evolves_trans he (evolves_zookeeper_interest_report zh1 out _
          (he.2.1.trans hopen))
      · exact evolves_zookeeper_interest_report zh out _ hopen
    · split
      · simp only [handle_socket_error_msg]
        exact evolves_trans (evolves_handle_error zh _ hfd)
          (evolves_api_epilog _ _ ((evolves_handle_error zh _ hfd).2.1.trans hopen))
      · exact evolves_zookeeper_interest_report zh out _ hopen
  · rw [if_neg hfd]
    exact evolves_api_epilog zh ZOK hopen

theorem evolves_zookeeper_interest_connected (zh : zhandle_t) (out : interest_args)
    (hopen : zh.close_requested = 0) :
    evolves zh (zookeeper_interest_connected zh out).2.2 := by
  unfold zookeeper_interest_connected
  exact evolves_trans (b := { zh with last_recv := gettimeofday zh.world })
    (evolves_of_fields _ _ rfl rfl rfl rfl rfl rfl rfl)
    (evolves_zookeeper_interest_timers _ _ hopen)

theorem connect_world (w : World) (fd index : Int) :
    (connect w fd index).2.2.log = w.log ++ [Syscall.connect fd index] ∧
    (connect w fd index).2.2.next_xid = w.next_xid := by
  unfold connect
  split <;> exact ⟨rfl, rfl⟩

theorem zookeeper_interest_link (zh : zhandle_t) (out : interest_args)
    (hopen : zh.close_requested = 0) (hnf : zh.world.next_fd ≠ -1) :
    evolves zh (zookeeper_interest zh out).2.2 ∨
    (zh.fd = -1 ∧ zh.connect_index = zh.addrs_count ∧
      evolves { zh with connect_index := 0 } (zookeeper_interest zh out).2.2) ∨
    (zh.fd = -1 ∧ zh.connect_index ≠ zh.addrs_count ∧
      evolves
        { zh with
          fd := zh.world.next_fd,
          world := { zh.world with
            log := zh.world.log ++ [Syscall.socket zh.world.next_fd,
              Syscall.connect zh.world.next_fd zh.connect_index] } }
        (zookeeper_interest zh out).2.2) := by
  unfold zookeeper_interest
  by_cases hun : is_unrecoverable zh ≠ 0
  · rw [if_pos hun]
    exact Or.inl (evolves_refl zh)
  · rw [if_neg hun, api_prolog_eq]
    simp only []
    by_cases hfd : zh.fd = -1
    · rw [if_pos hfd]
      by_cases hidx : zh.connect_index = zh.addrs_count
      · rw [if_pos hidx]
        refine Or.inr (Or.inl ⟨hfd, hidx, ?_⟩)
        exact evolves_trans (b := { zh with ref_counter := zh.ref_counter + 1, connect_index := 0 })
          (evolves_of_fields _ _ rfl rfl rfl rfl rfl rfl rfl)
          (evolves_zookeeper_interest_connected _ _ hopen)
      · rw [if_neg hidx]
        refine Or.inr (Or.inr ⟨hfd, hidx, ?_⟩)
        simp only [socket]
        have hcw := connect_world
          { zh.world with log := zh.world.log ++ [Syscall.socket zh.world.next_fd] }
          zh.world.next_fd zh.connect_index
        rcases hc : connect { zh.world with log := zh.world.log ++ [Syscall.socket zh.world.next_fd] }
          zh.world.next_fd zh.connect_index with ⟨crc, errno, w2⟩
        rw [hc] at hcw
        simp only [] at hcw
        have hlog : w2.log = zh.world.log ++ [Syscall.socket zh.world.next_fd,
            Syscall.connect zh.world.next_fd zh.connect_index] := by
          rw [hcw.1]; simp
        simp only []
        obtain ⟨zhc, hzhc⟩ : ∃ z : zhandle_t, z =
            { zh with
              fd := zh.world.next_fd,
              world := { zh.world with
                log := zh.world.log ++ [Syscall.socket zh.world.next_fd,
                  Syscall.connect zh.world.next_fd zh.connect_index] } } := ⟨_, rfl⟩
        rw [← hzhc]
        obtain ⟨zhp, hzhp⟩ : ∃ z : zhandle_t, z =
            { zh with
              fd := zh.world.next_fd, world := w2,
              ref_counter := zh.ref_counter + 1 } := ⟨_, rfl⟩
        have hb : evolves zhc zhp := by
          rw [hzhp, hzhc]
          exact evolves_of_fields _ _ rfl rfl (by rw [hlog]) hcw.2 rfl rfl rfl
        have hfdp : zhp.fd ≠ -1 := by rw [hzhp]; exact hnf
        have hop : zhp.close_requested = 0 := by rw [hzhp]; exact hopen
        rw [← hzhp]
        by_cases hc1 : crc = -1
        · rw [if_pos hc1]
          by_cases hc2 : errno = EWOULDBLOCK ∨ errno = EINPROGRESS
          · rw [if_pos hc2]
            refine evolves_trans ?_ (evolves_zookeeper_interest_connected _ _ hopen)
            rw [hzhc]
            exact evolves_of_fields _ _ rfl rfl (by rw [hlog]) hcw.2 rfl rfl rfl
          · rw [if_neg hc2]
            simp only [handle_socket_error_msg]
            refine evolves_trans hb
              (evolves_trans (evolves_handle_error zhp _ hfdp) (evolves_api_epilog _ _ ?_))
            rw [(evolves_handle_error zhp _ hfdp).2.1]
            exact hop
        · rw [if_neg hc1]
          have hp := evolves_prime_connection zhp hfdp
          have ho : (prime_connection zhp).2.close_requested = 0 := by
            rw [hp.2.1]; exact hop
          split
          · exact evolves_trans hb (evolves_trans hp (evolves_api_epilog _ _ ho))
          · exact evolves_trans hb (evolves_trans hp
              (evolves_zookeeper_interest_connected _ _ ho))
    · rw [if_neg hfd]
      exact Or.inl (evolves_trans (b := { zh with ref_counter := zh.ref_counter + 1 })
        (evolves_of_fields _ _ rfl rfl rfl rfl rfl rfl rfl)
        (evolves_zookeeper_interest_timers _ _ hopen))

theorem zoo_arequest_eq (type kind : Int)
    (add : zhandle_t → Int → FnPtr → Nat → sync_completion → Int × zhandle_t)
    (hadd : ∀ zh xid dc data sc, add zh xid dc data sc = add_completion zh xid kind dc data sc 0)
    (zh : zhandle_t) (req_rc : Int) (req : List Nat) (dc : FnPtr) (data : Nat)
    (sc : sync_completion) (hst : 0 ≤ zh.state) :
    zoo_arequest type add zh req_rc req dc data sc =
      if req_rc < 0 then
        (ZMARSHALLINGERROR,
          (flush_send_queue
            { zh with world := { zh.world with next_xid := zh.world.next_xid + 1 } } 0).2)
      else
        (ZOK,
          (flush_send_queue
            { zh with
              world := { zh.world with next_xid := zh.world.next_xid + 1 },
              sent_requests := zh.sent_requests ++
                [create_completion_entry zh.world.next_xid kind dc data sc],
              outstanding_sync :=
                if dc = FnPtr.SYNCHRONOUS_MARKER then zh.outstanding_sync + 1
                else zh.outstanding_sync,
              to_send := zh.to_send ++
                [{ buffer := some
                     (serialize_RequestHeader { xid := zh.world.next_xid, type := type } ++ req),
                   len := 8 + req.length, curr_offset := 0 }] } 0).2) := by
  unfold zoo_arequest get_xid
  simp only []
  rw [if_neg (by
    rw [show is_unrecoverable { zh with
      world := { zh.world with next_xid := zh.world.next_xid + 1 } } = 0 from
      is_unrecoverable_of_nonneg _ hst]
    decide)]
  simp only [show ¬ ((0 : Int) < 0) from by decide, if_false, adaptor_send_queue]
  by_cases hr : req_rc < 0
  · simp only [hr, if_true]
  · simp only [hr, if_false, hadd, add_completion, queue_buffer_bytes, queue_completion_back,
      queue_buffer_back]
    have hlen : ((serialize_RequestHeader { xid := zh.world.next_xid, type := type } ++ req).length
        : Int) = 8 + req.length := by
      simp [serialize_RequestHeader, be32, be_bytes]
      ring
    have hal : allocate_buffer
        (some (serialize_RequestHeader { xid := zh.world.next_xid, type := type } ++ req))
        ((serialize_RequestHeader { xid := zh.world.next_xid, type := type } ++ req).length) =
        { buffer := some
            (serialize_RequestHeader { xid := zh.world.next_xid, type := type } ++ req),
          len := 8 + req.length, curr_offset := 0 } := by
      unfold allocate_buffer
      rw [hlen, if_neg (by omega)]
    rw [hal]
    by_cases hd : dc = FnPtr.SYNCHRONOUS_MARKER
    · simp [hd, ZOK]
    · simp [hd, ZOK]

theorem Op_call_eq (op : Op) :
    ∃ type kind, ∀ zh req_rc req dc data sc,
      op.call zh req_rc req dc data sc =
        zoo_arequest type (fun zh xid dc data sc => add_completion zh xid kind dc data sc 0)
          zh req_rc req dc data sc := by
  cases op
  · exact ⟨GETDATA_OP, COMPLETION_DATA, fun _ _ _ _ _ _ => rfl⟩
  · exact ⟨SETDATA_OP, COMPLETION_STAT, fun _ _ _ _ _ _ => rfl⟩
  · exact ⟨CREATE_OP, COMPLETION_STRING, fun _ _ _ _ _ _ => rfl⟩
  · exact ⟨DELETE_OP, COMPLETION_VOID, fun _ _ _ _ _ _ => rfl⟩
  · exact ⟨EXISTS_OP, COMPLETION_STAT, fun _ _ _ _ _ _ => rfl⟩
  · exact ⟨GETCHILDREN_OP, COMPLETION_STRINGLIST, fun _ _ _ _ _ _ => rfl⟩
  · exact ⟨SYNC_OP, COMPLETION_STRING, fun _ _ _ _ _ _ => rfl⟩
  · exact ⟨GETACL_OP, COMPLETION_ACLLIST, fun _ _ _ _ _ _ => rfl⟩
  · exact ⟨SETACL_OP, COMPLETION_VOID, fun _ _ _ _ _ _ => rfl⟩

theorem Op_call_kind (op : Op) :
    ∃ type kind,
      kind ∈ [COMPLETION_VOID, COMPLETION_STAT, COMPLETION_DATA,
        COMPLETION_STRINGLIST, COMPLETION_ACLLIST, COMPLETION_STRING] ∧
      ∀ zh req_rc req dc data sc,
        op.call zh req_rc req dc data sc =
          zoo_arequest type (fun zh xid dc data sc => add_completion zh xid kind dc data sc 0)
            zh req_rc req dc data sc := by
  cases op
  · exact ⟨GETDATA_OP, COMPLETION_DATA, by decide, fun _ _ _ _ _ _ => rfl⟩
  · exact ⟨SETDATA_OP, COMPLETION_STAT, by decide, fun _ _ _ _ _ _ => rfl⟩
  · exact ⟨CREATE_OP, COMPLETION_STRING, by decide, fun _ _ _ _ _ _ => rfl⟩
  · exact ⟨DELETE_OP, COMPLETION_VOID, by decide, fun _ _ _ _ _ _ => rfl⟩
  · exact ⟨EXISTS_OP, COMPLETION_STAT, by decide, fun _ _ _ _ _ _ => rfl⟩
  · exact ⟨GETCHILDREN_OP, COMPLETION_STRINGLIST, by decide, fun _ _ _ _ _ _ => rfl⟩
  · exact ⟨SYNC_OP, COMPLETION_STRING, by decide, fun _ _ _ _ _ _ => rfl⟩
  · exact ⟨GETACL_OP, COMPLETION_ACLLIST, by decide, fun _ _ _ _ _ _ => rfl⟩
  · exact ⟨SETACL_OP, COMPLETION_VOID, by decide, fun _ _ _ _ _ _ => rfl⟩

theorem evolves_zoo_arequest (type kind : Int) (zh : zhandle_t) (req_rc : Int)
    (req : List Nat) (dc : FnPtr) (data : Nat) (sc : sync_completion)
    (hkind : kind ∈ [COMPLETION_VOID, COMPLETION_STAT, COMPLETION_DATA,
      COMPLETION_STRINGLIST, COMPLETION_ACLLIST, COMPLETION_STRING]) :
    evolves zh
      (zoo_arequest type (fun zh xid dc data sc => add_completion zh xid kind dc data sc 0)
        zh req_rc req dc data sc).2 := by
  by_cases hst : zh.state < 0
  · rw [zoo_arequest_unrecoverable _ _ _ _ _ _ _ _ hst]
    exact ⟨rfl, rfl, rfl, by simp [get_xid], fun _ hc => Or.inl hc, Or.inl ⟨rfl, rfl⟩⟩
  · rw [zoo_arequest_eq type kind _ (fun _ _ _ _ _ => rfl) zh req_rc req dc data sc
      (not_lt.mp hst)]
    split
    · refine evolves_trans ?_ (evolves_flush_send_queue _ 0)
      exact ⟨rfl, rfl, rfl, by simp, fun _ hc => Or.inl hc, Or.inl ⟨rfl, rfl⟩⟩
    · refine evolves_trans ?_ (evolves_flush_send_queue _ 0)
      refine ⟨rfl, rfl, rfl, by simp, ?_, Or.inl ⟨rfl, rfl⟩⟩
      intro c hc
      rcases List.mem_append.mp hc with h | h
      · exact Or.inl h
      · rw [List.mem_singleton.mp h]
        refine Or.inr (Or.inr ⟨le_refl _, ?_, hkind⟩)
        show zh.world.next_xid < zh.world.next_xid + 1
        omega

theorem evolves_op_call (op : Op) (zh : zhandle_t) (req_rc : Int) (req : List Nat)
    (dc : FnPtr) (data : Nat) (sc : sync_completion) :
    evolves zh (op.call zh req_rc req dc data sc).2 := by
  obtain ⟨type, kind, hkind, h⟩ := Op_call_kind op
  rw [h]
  exact evolves_zoo_arequest type kind zh req_rc req dc data sc hkind

theorem evolves_zoo_add_auth (zh : zhandle_t) (scheme : List Nat) (cert : Option (List Nat))
    (certLen : Int) (completion : FnPtr) (data : Nat) :
    evolves zh (zoo_add_auth zh scheme cert certLen completion data).2 := by
  unfold zoo_add_auth
  split
  · exact evolves_refl zh
  · cases cert with
    | none =>
      simp only []
      split
      · exact evolves_trans (evolves_of_fields _ _ rfl rfl rfl rfl rfl rfl rfl)
          (evolves_send_auth_info _)
      · exact evolves_of_fields _ _ rfl rfl rfl rfl rfl rfl rfl
    | some bytes =>
      by_cases hl : certLen ≠ 0
      · simp only [if_pos hl]
        split
        · exact evolves_trans (evolves_of_fields _ _ rfl rfl rfl rfl rfl rfl rfl)
            (evolves_send_auth_info _)
        · exact evolves_of_fields _ _ rfl rfl rfl rfl rfl rfl rfl
      · simp only [if_neg hl]
        split
        · exact evolves_trans (evolves_of_fields _ _ rfl rfl rfl rfl rfl rfl rfl)
            (evolves_send_auth_info _)
        · exact evolves_of_fields _ _ rfl rfl rfl rfl rfl rfl rfl

theorem evolves_zoo_set_watcher (zh : zhandle_t) (newFn : Option Nat) :
    evolves zh (zoo_set_watcher zh newFn).2 := by
  unfold zoo_set_watcher
  split <;> exact evolves_of_fields _ _ rfl rfl rfl rfl rfl rfl rfl

theorem evolves_install (env : World) (zh : zhandle_t) : evolves zh (install env zh) :=
  evolves_of_fields _ _ rfl rfl rfl rfl rfl rfl rfl

/-! ## The rotation of the endpoint cursor -/

theorem next_cursor_evolves (zh zh2 : zhandle_t) (h : evolves zh zh2) :
    next_cursor zh2 = next_cursor zh := by
  unfold next_cursor
  rcases h.2.2.2.2.2 with ⟨f, i⟩ | ⟨f0, f, i⟩
  · rw [f, i]
  · rw [if_pos f, if_neg f0, i]

theorem rotating_evolves (N c0 : Int) (base : List Int) (zh zh2 : zhandle_t)
    (h : evolves zh zh2) (hr : rotating N c0 base zh) : rotating N c0 base zh2 := by
  obtain ⟨r1, r2, r3, r4, T, r5, r6⟩ := hr
  have hn := next_cursor_evolves zh zh2 h
  refine ⟨h.1.trans r1, h.2.1.trans r2, by rw [hn]; exact r3, by rw [hn]; exact r4, T, ?_, ?_⟩
  · rw [h.2.2.1]; exact r5
  · rw [hn]; exact r6

theorem rotation_succ (N c : Int) (k : Nat) :
    rotation N c (k + 1) =
      (if c = N then 0 else c) :: rotation N ((if c = N then 0 else c) + 1) k := rfl

theorem rotation_wrap (N : Int) (k : Nat) : rotation N N k = rotation N 0 k := by
  cases k with
  | zero => rfl
  | succ k =>
    simp only [rotation, if_true]
    split <;> rfl

theorem rotating_wrap (N c0 : Int) (base : List Int) (zh : zhandle_t) (hfd : zh.fd = -1)
    (hidx : zh.connect_index = zh.addrs_count) (hr : rotating N c0 base zh) :
    rotating N c0 base { zh with connect_index := 0 } := by
  obtain ⟨r1, r2, r3, r4, T, r5, r6⟩ := hr
  have hn : next_cursor zh = N := by
    unfold next_cursor
    rw [if_pos hfd, hidx, r1]
  have hn2 : next_cursor { zh with connect_index := 0 } = 0 := by
    unfold next_cursor
    rw [if_pos hfd]
  refine ⟨r1, r2, by rw [hn2], by rw [hn2, ← hn]; exact r3, T, r5, ?_⟩
  intro k
  have h := r6 k
  rw [hn] at h
  rw [hn2, ← rotation_wrap]
  exact h

theorem rotating_attempt (N c0 : Int) (base : List Int) (zh : zhandle_t) (hfd : zh.fd = -1)
    (hidx : zh.connect_index ≠ zh.addrs_count) (hnf : zh.world.next_fd ≠ -1)
    (hr : rotating N c0 base zh) :
    rotating N c0 base
      { zh with
        fd := zh.world.next_fd,
        world := { zh.world with
          log := zh.world.log ++ [Syscall.socket zh.world.next_fd,
            Syscall.connect zh.world.next_fd zh.connect_index] } } := by
  obtain ⟨r1, r2, r3, r4, T, r5, r6⟩ := hr
  have hn : next_cursor zh = zh.connect_index := by
    unfold next_cursor
    rw [if_pos hfd]
  have hne : zh.connect_index ≠ N := by rw [← r1]; exact hidx
  rw [hn] at r3 r4 r6
  obtain ⟨zhc, hzhc⟩ : ∃ z : zhandle_t, z =
      { zh with
        fd := zh.world.next_fd,
        world := { zh.world with
          log := zh.world.log ++ [Syscall.socket zh.world.next_fd,
            Syscall.connect zh.world.next_fd zh.connect_index] } } := ⟨_, rfl⟩
  rw [← hzhc]
  have hn2 : next_cursor zhc = zh.connect_index + 1 := by
    rw [hzhc]
    unfold next_cursor
    rw [if_neg hnf]
  have hlog : connect_targets zhc.world.log = base ++ (T ++ [zh.connect_index]) := by
    rw [hzhc]
    simp only [connect_targets_append, r5]
    simp [connect_targets]
  have hlt : zh.connect_index < N := lt_of_le_of_ne r4 hne
  refine ⟨by rw [hzhc]; exact r1, by rw [hzhc]; exact r2, by rw [hn2]; omega,
    by rw [hn2]; omega, T ++ [zh.connect_index], hlog, ?_⟩
  intro k
  rw [hn2]
  have h := r6 (k + 1)
  rw [rotation_succ N zh.connect_index k, if_neg hne] at h
  rw [List.append_assoc, List.singleton_append, h, List.length_append, List.length_singleton,
    Nat.add_assoc, Nat.add_comm 1 k]

theorem rotating_interest (N c0 : Int) (base : List Int) (zh : zhandle_t)
    (out : interest_args) (hnf : zh.world.next_fd ≠ -1) (hr : rotating N c0 base zh) :
    rotating N c0 base (zookeeper_interest zh out).2.2 := by
  rcases zookeeper_interest_link zh out hr.2.1 hnf with h | ⟨hfd, hidx, h⟩ | ⟨hfd, hidx, h⟩
  · exact rotating_evolves N c0 base _ _ h hr
  · exact rotating_evolves N c0 base _ _ h (rotating_wrap N c0 base zh hfd hidx hr)
  · exact rotating_evolves N c0 base _ _ h (rotating_attempt N c0 base zh hfd hidx hnf hr)

theorem rotating_run_call (ad : Adaptor) (N c0 : Int) (base : List Int) (c : Call)
    (zh zh2 : zhandle_t) (henv : ∀ env, c.env = some env → env.next_fd ≠ -1)
    (hr : rotating N c0 base zh) (h : run_call ad c zh = some zh2) :
    rotating N c0 base zh2 := by
  cases c with
  | interest env out =>
    simp only [run_call, Option.some.injEq] at h
    rw [← h]
    exact rotating_interest N c0 base _ out (henv env rfl)
      (rotating_evolves N c0 base _ _ (evolves_install env zh) hr)
  | process env events =>
    simp only [run_call, Option.map_eq_some'] at h
    obtain ⟨r, hz, hz2⟩ := h
    have hi := rotating_evolves N c0 base _ _ (evolves_install env zh) hr
    rw [← hz2]
    exact rotating_evolves N c0 base _ _
      (evolves_zookeeper_process ad _ events r hi.2.1 hz) hi
  | request env op req_rc req dc data sc =>
    simp only [run_call, Option.some.injEq] at h
    rw [← h]
    exact rotating_evolves N c0 base _ _ (evolves_op_call op _ req_rc req dc data sc)
      (rotating_evolves N c0 base _ _ (evolves_install env zh) hr)
  | add_auth env scheme cert certLen completion data =>
    simp only [run_call, Option.some.injEq] at h
    rw [← h]
    exact rotating_evolves N c0 base _ _ (evolves_zoo_add_auth _ scheme cert certLen completion data)
      (rotating_evolves N c0 base _ _ (evolves_install env zh) hr)
  | set_watcher newFn =>
    simp only [run_call, Option.some.injEq] at h
    rw [← h]
    exact rotating_evolves N c0 base _ _ (evolves_zoo_set_watcher zh newFn) hr

theorem rotating_run (ad : Adaptor) (N c0 : Int) (base : List Int) (calls : List Call)
    (zh zh2 : zhandle_t) (henv : ∀ c ∈ calls, ∀ env, c.env = some env → env.next_fd ≠ -1)
    (hr : rotating N c0 base zh) (h : run ad calls zh = some zh2) :
    rotating N c0 base zh2 := by
  induction calls generalizing zh with
  | nil =>
    simp only [run, Option.some.injEq] at h
    rw [← h]; exact hr
  | cons c cs ih =>
    simp only [run, Option.bind_eq_some] at h
    obtain ⟨zh1, h1, h2⟩ := h
    exact ih zh1 (fun c' hc' => henv c' (List.mem_cons_of_mem _ hc'))
      (rotating_run_call ad N c0 base c zh zh1 (henv c (List.mem_cons_self _ _)) hr h1) h2

theorem rotation_eq_map (N : Int) (hN : 0 < N) (k : Nat) (c : Int) (h0 : 0 ≤ c) (h1 : c ≤ N) :
    rotation N c k = (List.range k).map (fun j : Nat => (c + (j : Int)) % N) := by
  induction k generalizing c with
  | zero => rfl
  | succ k ih =>
    have hc : (if c = N then 0 else c) = c % N := by
      split
      · rename_i h; rw [h, Int.emod_self]
      · rename_i h; exact (Int.emod_eq_of_lt h0 (lt_of_le_of_ne h1 h)).symm
    have hlt : c % N < N := Int.emod_lt_of_pos c hN
    have hge : 0 ≤ c % N := Int.emod_nonneg c (ne_of_gt hN)
    rw [rotation_succ, hc, ih (c % N + 1) (by omega) (by omega), List.range_succ_eq_map,
      List.map_cons, List.map_map]
    congr 1
    · simp
    · apply List.map_congr_left
      intro j _
      simp only [Function.comp, Nat.cast_succ]
      rw [add_assoc, Int.emod_add_emod]
      congr 1
      ring

theorem rotation_nodup (N : Int) (hN : 0 < N) (c : Int) (h0 : 0 ≤ c) (h1 : c ≤ N) :
    (rotation N c N.toNat).Nodup := by
  rw [rotation_eq_map N hN _ c h0 h1]
  apply List.Nodup.map_on _ (List.nodup_range _)
  intro x hx y hy hxy
  have hx' : (x : Int) < N := by
    have := List.mem_range.mp hx
    omega
  have hy' : (y : Int) < N := by
    have := List.mem_range.mp hy
    omega
  have key : ∀ a b : Nat, (a : Int) < N → (b : Int) < N → b ≤ a →
      (c + (a : Int)) % N = (c + (b : Int)) % N → a = b := by
    intro a b ha hb hab h
    have h2 := (Int.emod_emod_of_dvd (c + a - (c + b)) (dvd_refl N)).symm
    have h3 : (c + (a : Int) - (c + b)) % N = 0 :=
      Int.emod_eq_emod_iff_emod_sub_eq_zero.mp h
    have h4 : (c + (a : Int) - (c + b)) % N = (a : Int) - b := by
      rw [show c + (a : Int) - (c + b) = (a : Int) - b from by ring]
      exact Int.emod_eq_of_lt (by omega) (by omega)
    omega
  rcases Nat.le_total y x with h | h
  · exact key x y hx' hy' h hxy
  · exact (key y x hy' hx' h hxy.symm).symm

theorem rotation_mem (N : Int) (hN : 0 < N) (c : Int) (h0 : 0 ≤ c) (h1 : c ≤ N) (i : Int)
    (hi0 : 0 ≤ i) (hi1 : i < N) : i ∈ rotation N c N.toNat := by
  rw [rotation_eq_map N hN _ c h0 h1]
  apply List.mem_map.mpr
  have hlt : (i - c) % N < N := Int.emod_lt_of_pos _ hN
  have hge : 0 ≤ (i - c) % N := Int.emod_nonneg _ (ne_of_gt hN)
  refine ⟨((i - c) % N).toNat, List.mem_range.mpr (by omega), ?_⟩
  rw [Int.toNat_of_nonneg hge, Int.add_emod_emod, show c + (i - c) = i from by ring]
  exact Int.emod_eq_of_lt hi0 hi1

theorem rotation_take (N : Int) (n m : Nat) (c : Int) (h : m ≤ n) :
    (rotation N c n).take m = rotation N c m := by
  induction m generalizing n c with
  | zero => simp [rotation]
  | succ m ih =>
    cases n with
    | zero => omega
    | succ n =>
      rw [rotation_succ, rotation_succ, List.take_succ_cons, ih n _ (by omega)]

/-- C14 (endpoint rotation): take a handle with `N >= 1` endpoints, no socket and a cursor
`c` in `[0, N]`, on which close has not been requested, and any sequence of calls of
`zookeeper_interest`, `zookeeper_process`, the request operations, `zoo_add_auth` and
`zoo_set_watcher`, in environments where `socket()` yields a descriptor; whatever the
answers of the operating system, so in particular when every connect attempt fails, at once
or later through SO_ERROR or the idle timeout.  Then the connect attempts made during the
run target, in order, the endpoints `(c + j) mod N` for `j = 0, 1, ...`; so when at least
`N` attempts have been made the first `N` of them target pairwise distinct indices, and
every endpoint index in `[0, N)` is among them. -/
theorem endpoint_rotation (ad : Adaptor) (zh zh2 : zhandle_t) (calls : List Call)
    (hN : 1 ≤ zh.addrs_count) (hfd : zh.fd = -1) (hc0 : 0 ≤ zh.connect_index)
    (hc1 : zh.connect_index ≤ zh.addrs_count) (hopen : zh.close_requested = 0)
    (henv : ∀ c ∈ calls, c.env.map World.next_fd ≠ some (-1))
    (hrun : run ad calls zh = some zh2) :
    ∃ T, connect_targets zh2.world.log = connect_targets zh.world.log ++ T ∧
      T = (List.range T.length).map
        (fun j : Nat => (zh.connect_index + (j : Int)) % zh.addrs_count) ∧
      (zh.addrs_count.toNat ≤ T.length →
        (T.take zh.addrs_count.toNat).Nodup ∧
        ∀ i, 0 ≤ i → i < zh.addrs_count → i ∈ T.take zh.addrs_count.toNat) := by
  have hn : next_cursor zh = zh.connect_index := by
    unfold next_cursor
    rw [if_pos hfd]
  have hstart : rotating zh.addrs_count zh.connect_index (connect_targets zh.world.log) zh :=
    ⟨rfl, hopen, by rw [hn]; exact hc0, by rw [hn]; exact hc1, [], by simp,
      fun k => by rw [hn]; simp⟩
  have henv2 : ∀ c ∈ calls, ∀ env, c.env = some env → env.next_fd ≠ -1 := by
    intro c hc env he hf
    apply henv c hc
    rw [he, Option.map_some', hf]
  obtain ⟨_, _, _, _, T, hT, hrot⟩ :=
    rotating_run ad _ _ _ calls zh zh2 henv2 hstart hrun
  have hT2 : T = rotation zh.addrs_count zh.connect_index T.length := by
    have := hrot 0
    simpa [rotation] using this
  refine ⟨T, hT, ?_, ?_⟩
  · rw [← rotation_eq_map _ (by omega) _ _ hc0 hc1]
    exact hT2
  · intro hlen
    have htake : T.take zh.addrs_count.toNat =
        rotation zh.addrs_count zh.connect_index zh.addrs_count.toNat := by
      rw [hT2, rotation_take _ _ _ _ hlen]
    rw [htake]
    exact ⟨rotation_nodup _ (by omega) _ hc0 hc1,
      fun i hi0 hi1 => rotation_mem _ (by omega) _ hc0 hc1 i hi0 hi1⟩

/-- C14 (instance): three endpoints, cursor 1, every connect refused at once: four calls of
`zookeeper_interest` make the attempts 1, 2, (wrap) 0. -/
theorem endpoint_rotation_witness :
    1 ≤ (three_endpoint_handle 1 World.idle).addrs_count ∧
    (three_endpoint_handle 1 World.idle).fd = -1 ∧
    0 ≤ (three_endpoint_handle 1 World.idle).connect_index ∧
    (three_endpoint_handle 1 World.idle).connect_index ≤
      (three_endpoint_handle 1 World.idle).addrs_count ∧
    (three_endpoint_handle 1 World.idle).close_requested = 0 ∧
    (∀ c ∈ List.replicate 4 (Call.interest refusing_world no_args),
      c.env.map World.next_fd ≠ some (-1)) ∧
    ((run threaded_adaptor (List.replicate 4 (Call.interest refusing_world no_args))
      (three_endpoint_handle 1 World.idle)).map
        (fun z => connect_targets z.world.log)) = some [1, 2, 0] ∧
    ∃ T : List Int, T = [1, 2, 0] ∧ (T.take 3).Nodup ∧
      ∀ i : Int, 0 ≤ i → i < 3 → i ∈ T.take 3 := by
  have hrun : run threaded_adaptor (List.replicate 4 (Call.interest refusing_world no_args))
      (three_endpoint_handle 1 World.idle) =
      some ((run threaded_adaptor (List.replicate 4 (Call.interest refusing_world no_args))
        (three_endpoint_handle 1 World.idle)).getD (three_endpoint_handle 1 World.idle)) := by
    decide
  have henv : ∀ c ∈ List.replicate 4 (Call.interest refusing_world no_args),
      c.env.map World.next_fd ≠ some (-1) := by
    intro c hc
    rw [(List.mem_replicate.mp hc).2]
    decide
  obtain ⟨T, h1, _, h3⟩ := endpoint_rotation threaded_adaptor (three_endpoint_handle 1 World.idle)
    _ (List.replicate 4 (Call.interest refusing_world no_args)) (by decide) (by decide)
    (by decide) (by decide) (by decide) henv hrun
  have hlog : connect_targets ((run threaded_adaptor
      (List.replicate 4 (Call.interest refusing_world no_args))
      (three_endpoint_handle 1 World.idle)).getD
        (three_endpoint_handle 1 World.idle)).world.log = [1, 2, 0] := by decide
  have hT : T = [1, 2, 0] := by
    rw [hlog] at h1
    simpa [connect_targets, three_endpoint_handle, zookeeper_init, World.idle] using h1.symm
  refine ⟨by decide, by decide, by decide, by decide, by decide, henv, by decide, T, ?_, ?_⟩
  · exact hT
  · exact h3 (by rw [hT]; decide)

/-! ## Idle timeout and cursor wrap -/

theorem destroy_cursor (zh : zhandle_t) :
    (destroy zh).connect_index = zh.connect_index ∧
    connect_targets (destroy zh).world.log = connect_targets zh.world.log := by
  rw [destroy_eq]
  refine ⟨rfl, ?_⟩
  simp only []
  split
  · exact (close_world zh.world zh.fd).1
  · rfl

theorem zookeeper_close_cursor (zh : zhandle_t) :
    (zookeeper_close zh).2.connect_index = zh.connect_index ∧
    connect_targets (zookeeper_close zh).2.world.log = connect_targets zh.world.log := by
  by_cases hst : zh.state = CONNECTED_STATE
  · unfold zookeeper_close inc_ref_counter get_xid
    simp only [show ¬ ((0 : Int) < 0) from by decide, show ¬ ((0 : Int) > 0) from by decide,
      if_false, add_zero, queue_buffer_bytes, adaptor_send_queue,
      show ¬ (ZOK < 0) from by decide]
    split
    · exact ⟨rfl, rfl⟩
    · simp only []
      obtain ⟨zhq, hzhq⟩ : ∃ z : zhandle_t, z =
          { zh with
            close_requested := 1,
            world := { zh.world with next_xid := zh.world.next_xid + 1 },
            to_send := queue_buffer zh.to_send
              (allocate_buffer
                (some (serialize_RequestHeader { xid := zh.world.next_xid, type := CLOSE_OP }))
                (serialize_RequestHeader
                  { xid := zh.world.next_xid, type := CLOSE_OP }).length) 0 } := ⟨_, rfl⟩
      have hd := destroy_cursor (flush_send_queue zhq 3000).2
      obtain ⟨ts, w, hf, hf2, _⟩ := flush_send_queue_fields zhq 3000
      have h1 : (flush_send_queue zhq 3000).2.connect_index = zh.connect_index := by
        rw [hf, hzhq]
      have h2 : connect_targets (flush_send_queue zhq 3000).2.world.log =
          connect_targets zh.world.log := by
        rw [hf]
        simp only []
        rw [hf2, hzhq]
      rw [hzhq] at hd h1 h2
      exact ⟨hd.1.trans h1, hd.2.trans h2⟩
  · rw [zookeeper_close_not_connected zh hst]
    split
    · exact ⟨rfl, rfl⟩
    · exact destroy_cursor { zh with close_requested := 1 }

theorem api_epilog_cursor (zh : zhandle_t) (rc : Int) :
    (api_epilog zh rc).2.connect_index = zh.connect_index ∧
    connect_targets (api_epilog zh rc).2.world.log = connect_targets zh.world.log := by
  rw [api_epilog_eq]
  split
  · exact zookeeper_close_cursor { zh with ref_counter := zh.ref_counter - 1 }
  · exact ⟨rfl, rfl⟩

theorem get_timeval_nonpos (t : Int) (h : t ≤ 0) :
    get_timeval t = { tv_sec := 0, tv_usec := 0 } := by
  unfold get_timeval
  by_cases h0 : t < 0
  · simp [h0]
  · have : t = 0 := by omega
    simp [this]

/-- C12 (code bug): for a handle in CONNECTED_STATE with a socket and a non-empty
`sent_requests`, `zookeeper_interest` computes `to = (recv_timeout*2)/3 - idle` with the
truncating division of C and the product taken in `int`.  If `to > 0` it returns ZOK and
reports the timeout `get_timeval(to)`, which is `to` ms.  If `to <= 0` it returns
ZOPERATIONTIMEOUT with `*fd = -1`, `*interest = 0` and a zero timeout, and leaves the handle
with `fd = -1`, state 0 (CLOSED), the cursor advanced by one and `sent_requests` empty, after
telling the watcher `(SESSION_EVENT, CONNECTING_STATE, null)` and failing every pending entry
with ZOPERATIONTIMEOUT.  While `-2^30 <= recv_timeout < 2^30` the product is
`2*recv_timeout`.  From `recv_timeout = 2^30` on it wraps: with `recv_timeout = 2^30` it is
`-2^31`, so that `to` is negative and the connection is dropped however short the silence
has been, where `(2*recv_timeout)/3 - idle` is positive. -/
theorem idle_timeout (zh : zhandle_t) (out : interest_args)
    (hst : zh.state = CONNECTED_STATE) (hfd : zh.fd ≠ -1) (hsr : zh.sent_requests ≠ []) :
    (-1073741824 ≤ zh.recv_timeout → zh.recv_timeout < 1073741824 →
      int_wrap (zh.recv_timeout * 2) = 2 * zh.recv_timeout) ∧
    (zh.recv_timeout = 1073741824 →
      Int.tdiv (int_wrap (zh.recv_timeout * 2)) 3 = -715827882 ∧
      Int.tdiv (2 * zh.recv_timeout) 3 = 715827882) ∧
    (0 < Int.tdiv (int_wrap (zh.recv_timeout * 2)) 3 -
        calculate_interval zh.last_recv zh.world.now →
      (zookeeper_interest zh out).1 = ZOK ∧
      (zookeeper_interest zh out).2.1.tv =
        get_timeval (Int.tdiv (int_wrap (zh.recv_timeout * 2)) 3 -
          calculate_interval zh.last_recv zh.world.now) ∧
      (zookeeper_interest zh out).2.1.tv.tv_sec * 1000000 +
          (zookeeper_interest zh out).2.1.tv.tv_usec =
        (Int.tdiv (int_wrap (zh.recv_timeout * 2)) 3 -
          calculate_interval zh.last_recv zh.world.now) * 1000) ∧
    (Int.tdiv (int_wrap (zh.recv_timeout * 2)) 3 -
        calculate_interval zh.last_recv zh.world.now ≤ 0 →
      (zookeeper_interest zh out).1 = ZOPERATIONTIMEOUT ∧
      (zookeeper_interest zh out).2.1 =
        { fd := -1, interest := 0, tv := { tv_sec := 0, tv_usec := 0 } } ∧
      (zookeeper_interest zh out).2.2.fd = -1 ∧
      (zookeeper_interest zh out).2.2.state = 0 ∧
      (zookeeper_interest zh out).2.2.connect_index = zh.connect_index + 1 ∧
      (zookeeper_interest zh out).2.2.sent_requests = [] ∧
      (zookeeper_interest zh out).2.2.trace =
        zh.trace ++ [Event.watcher zh.watcher SESSION_EVENT CONNECTING_STATE none] ++
          zh.sent_requests.flatMap (failure_of ZOPERATIONTIMEOUT)) := by
  have hst3 : zh.state = 3 := hst
  have hnn : 0 ≤ zh.state := by rw [hst3]; decide
  have hnp : ¬ (zh.sent_requests = [] ∧ zh.state = CONNECTED_STATE) := fun h => hsr h.1
  rw [zookeeper_interest_socket zh out hnn hfd]
  refine ⟨fun h0 h1 => ?_, fun h => ?_, ?_, ?_⟩
  · rw [int_wrap_id _ (by omega) (by omega), mul_comm]
  · rw [h]
    decide
  · intro hto
    have hr : zookeeper_interest_timers { zh with ref_counter := zh.ref_counter + 1 }
          { fd := zh.fd, interest := 0, tv := { tv_sec := 0, tv_usec := 0 } } =
        zookeeper_interest_report { zh with ref_counter := zh.ref_counter + 1 }
          { fd := zh.fd, interest := 0, tv := { tv_sec := 0, tv_usec := 0 } }
          (Int.tdiv (int_wrap (zh.recv_timeout * 2)) 3 -
            calculate_interval zh.last_recv zh.world.now) := by
      unfold zookeeper_interest_timers
      rw [if_pos hfd]
      simp only [gettimeofday]
      rw [if_neg hnp, if_neg (not_le.mpr hto)]
    rw [hr, zookeeper_interest_report_out]
    exact ⟨zookeeper_interest_report_code _ _ _, rfl, get_timeval_ms _ (le_of_lt hto)⟩
  · intro hto
    have hr : zookeeper_interest_timers { zh with ref_counter := zh.ref_counter + 1 }
          { fd := zh.fd, interest := 0, tv := { tv_sec := 0, tv_usec := 0 } } =
        ((api_epilog (handle_error { zh with ref_counter := zh.ref_counter + 1 }
            ZOPERATIONTIMEOUT) ZOPERATIONTIMEOUT).1,
          { fd := -1, interest := 0,
            tv := get_timeval (Int.tdiv (int_wrap (zh.recv_timeout * 2)) 3 -
              calculate_interval zh.last_recv zh.world.now) },
          (api_epilog (handle_error { zh with ref_counter := zh.ref_counter + 1 }
            ZOPERATIONTIMEOUT) ZOPERATIONTIMEOUT).2) := by
      unfold zookeeper_interest_timers
      rw [if_pos hfd]
      simp only [gettimeofday]
      rw [if_neg hnp, if_pos hto]
      rfl
    rw [hr]
    obtain ⟨e1, e2, e3, e4, e5⟩ := api_epilog_handle_error
      { zh with ref_counter := zh.ref_counter + 1 } ZOPERATIONTIMEOUT ZOPERATIONTIMEOUT
    have e6 := (api_epilog_cursor (handle_error { zh with ref_counter := zh.ref_counter + 1 }
      ZOPERATIONTIMEOUT) ZOPERATIONTIMEOUT).1
    refine ⟨e1, ?_, e5, ?_, ?_, e4, ?_⟩
    · simp only [get_timeval_nonpos _ hto]
    · rw [e2, handle_error_state]
      simp [hst3]
    · rw [e6, handle_error_eq]
    · rw [e3, handle_error_trace]
      simp [hst3, CONNECTED_STATE]

/-- C12 (failing input): a client whose session is established with a negotiated timeout of
`2^30` ms while the request 7 is pending: the prime response is read at time 0, and
`zookeeper_interest` is called at once.  The idle interval is 0 and
`(2*recv_timeout)/3 - idle` is 715827882, but the call returns ZOPERATIONTIMEOUT, drops the
socket and fails the request with ZOPERATIONTIMEOUT.  With 9000 ms and 7 s of silence the
timeout is due (`6000 - 7000 <= 0`); after 5 s the call reports 1 s. -/
theorem idle_timeout_witness :
    (run inline_adaptor long_timeout_calls (associating_handle [])).map
      (fun z => (z.fd, z.state, z.trace)) =
      some (-1, 0,
        [Event.watcher (watcher_fn.user 0) SESSION_EVENT CONNECTED_STATE none,
         Event.watcher (watcher_fn.user 0) SESSION_EVENT CONNECTING_STATE none,
         Event.completion (FnPtr.fn 70) COMPLETION_DATA ZOPERATIONTIMEOUT none 700]) ∧
    long_timeout_handle.recv_timeout = 1073741824 ∧
    long_timeout_handle.state = CONNECTED_STATE ∧ long_timeout_handle.fd ≠ -1 ∧
    long_timeout_handle.sent_requests ≠ [] ∧
    calculate_interval long_timeout_handle.last_recv long_timeout_handle.world.now = 0 ∧
    0 < Int.tdiv (2 * long_timeout_handle.recv_timeout) 3 -
      calculate_interval long_timeout_handle.last_recv long_timeout_handle.world.now ∧
    (zookeeper_interest long_timeout_handle no_args).1 = ZOPERATIONTIMEOUT ∧
    (zookeeper_interest long_timeout_handle no_args).2.2.fd = -1 ∧
    (zookeeper_interest { idle_handle 7 with sent_requests := [data_entry] } no_args).1 =
      ZOPERATIONTIMEOUT ∧
    (zookeeper_interest { idle_handle 5 with sent_requests := [data_entry] } no_args).2.1.tv =
      { tv_sec := 1, tv_usec := 0 } :=
  have h := idle_timeout long_timeout_handle no_args (by decide) (by decide) (by decide)
  have h7 := idle_timeout { idle_handle 7 with sent_requests := [data_entry] } no_args
    (by decide) (by decide) (by decide)
  have h5 := idle_timeout { idle_handle 5 with sent_requests := [data_entry] } no_args
    (by decide) (by decide) (by decide)
  ⟨by decide, by decide, by decide, by decide, by decide, by decide, by decide,
    (h.2.2.2 (by decide)).1, (h.2.2.2 (by decide)).2.2.1, (h7.2.2.2 (by decide)).1,
    (h5.2.2.1 (by decide)).2.1.trans (by decide)⟩

/-- C13 (counterexample): a handle in state 0 with three endpoints, no socket, the cursor at
3 and a receive timeout of 9000 ms.  `zookeeper_interest` returns ZOK with `*fd = -1`,
`*interest = 0` and resets the cursor, but the timeout that it reports is 3 s, not zero. -/
theorem cursor_wrap_reports_a_third_of_recv_timeout :
    0 ≤ (three_endpoint_handle 3 World.idle).state ∧
    (three_endpoint_handle 3 World.idle).fd = -1 ∧
    (three_endpoint_handle 3 World.idle).connect_index =
      (three_endpoint_handle 3 World.idle).addrs_count ∧
    (zookeeper_interest (three_endpoint_handle 3 World.idle) no_args).1 = ZOK ∧
    (zookeeper_interest (three_endpoint_handle 3 World.idle) no_args).2.2.connect_index = 0 ∧
    (zookeeper_interest (three_endpoint_handle 3 World.idle) no_args).2.1 =
      { fd := -1, interest := 0, tv := { tv_sec := 3, tv_usec := 0 } } ∧
    (zookeeper_interest (three_endpoint_handle 3 World.idle) no_args).2.1.tv ≠
      { tv_sec := 0, tv_usec := 0 } := by
  decide

/-- C13 (amended): for a non-terminal handle with no socket whose cursor equals the number
of endpoints, `zookeeper_interest` resets the cursor to 0, attempts no connect, and returns
ZOK with `*fd = -1`, `*interest = 0` and the timeout `get_timeval(recv_timeout/3)`, that is
`recv_timeout/3` ms when `recv_timeout` is not negative (zero only when `recv_timeout < 3`).
On a live handle (close has not been requested, or another call still holds a reference)
the only other change to the handle is that `last_recv` is set to the current time. -/
theorem cursor_wrap (zh : zhandle_t) (out : interest_args) (hst : 0 ≤ zh.state)
    (hfd : zh.fd = -1) (hidx : zh.connect_index = zh.addrs_count) :
    (zookeeper_interest zh out).1 = ZOK ∧
    (zookeeper_interest zh out).2.1 =
      { fd := -1, interest := 0, tv := get_timeval (Int.tdiv zh.recv_timeout 3) } ∧
    (0 ≤ zh.recv_timeout →
      (zookeeper_interest zh out).2.1.tv.tv_sec * 1000000 +
          (zookeeper_interest zh out).2.1.tv.tv_usec =
        Int.tdiv zh.recv_timeout 3 * 1000) ∧
    (zookeeper_interest zh out).2.2.connect_index = 0 ∧
    connect_targets (zookeeper_interest zh out).2.2.world.log =
      connect_targets zh.world.log ∧
    (zh.close_requested = 0 ∨ zh.ref_counter ≠ 0 →
      (zookeeper_interest zh out).2.2 =
        { zh with connect_index := 0, last_recv := zh.world.now }) := by
  have hr : zookeeper_interest zh out =
      ((api_epilog { zh with
          ref_counter := zh.ref_counter + 1, connect_index := 0,
          last_recv := zh.world.now } ZOK).1,
        { fd := -1, interest := 0, tv := get_timeval (Int.tdiv zh.recv_timeout 3) },
        (api_epilog { zh with
          ref_counter := zh.ref_counter + 1, connect_index := 0,
          last_recv := zh.world.now } ZOK).2) := by
    unfold zookeeper_interest
    rw [if_neg (by rw [is_unrecoverable_of_nonneg zh hst]; decide), api_prolog_eq]
    simp only []
    rw [if_pos hfd, if_pos hidx]
    unfold zookeeper_interest_connected zookeeper_interest_timers
    simp only [gettimeofday, hfd, ne_eq, not_true_eq_false, if_false]
  rw [hr]
  obtain ⟨c1, c2⟩ := api_epilog_cursor { zh with
    ref_counter := zh.ref_counter + 1, connect_index := 0, last_recv := zh.world.now } ZOK
  refine ⟨api_epilog_fst _ _, rfl,
    fun h => get_timeval_ms _ (Int.tdiv_nonneg h (by decide)), c1, c2, ?_⟩
  intro hopen
  have he := api_epilog_balanced
    { zh with connect_index := 0, last_recv := zh.world.now } ZOK hopen
  exact congrArg Prod.snd he

/-- C13 (instance): the handle of the counterexample: the cursor goes from 3 to 0, no
connect is made, and the timeout is 3 s. -/
theorem cursor_wrap_witness :
    0 ≤ (three_endpoint_handle 3 World.idle).state ∧
    (three_endpoint_handle 3 World.idle).fd = -1 ∧
    (three_endpoint_handle 3 World.idle).connect_index =
      (three_endpoint_handle 3 World.idle).addrs_count ∧
    (zookeeper_interest (three_endpoint_handle 3 World.idle) no_args).2.2 =
      { three_endpoint_handle 3 World.idle with connect_index := 0 } ∧
    (zookeeper_interest (three_endpoint_handle 3 World.idle) no_args).2.1.tv =
      { tv_sec := 3, tv_usec := 0 } :=
  have h := cursor_wrap (three_endpoint_handle 3 World.idle) no_args (by decide) (by decide)
    (by decide)
  ⟨by decide, by decide, by decide, (h.2.2.2.2.2 (by decide)).trans (by decide),
   (congrArg interest_args.tv h.2.1).trans (by decide)⟩

/-! ## The handshake request -/

theorem be_bytes_length (n u : Nat) : (be_bytes n u).length = n := by
  induction n generalizing u with
  | zero => rfl
  | succ n ih => simp [be_bytes, ih]

theorem be32_length (x : Int) : (be32 x).length = 4 := be_bytes_length 4 _

theorem be64_length (x : Int) : (be64 x).length = 8 := be_bytes_length 8 _

theorem be32_eq (x : Int) :
    be32 x =
      [(x % 4294967296).toNat / 16777216 % 256, (x % 4294967296).toNat / 65536 % 256,
       (x % 4294967296).toNat / 256 % 256, (x % 4294967296).toNat % 256] := by
  simp [be32, be_bytes, Nat.div_div_eq_div_mul]

theorem be64_eq (x : Int) :
    be64 x =
      [(x % 18446744073709551616).toNat / 72057594037927936 % 256,
       (x % 18446744073709551616).toNat / 281474976710656 % 256,
       (x % 18446744073709551616).toNat / 1099511627776 % 256,
       (x % 18446744073709551616).toNat / 4294967296 % 256,
       (x % 18446744073709551616).toNat / 16777216 % 256,
       (x % 18446744073709551616).toNat / 65536 % 256,
       (x % 18446744073709551616).toNat / 256 % 256,
       (x % 18446744073709551616).toNat % 256] := by
  simp [be64, be_bytes, Nat.div_div_eq_div_mul]

theorem drop_take_segment (p s t : List Nat) (n m : Nat) (hp : p.length = n)
    (hs : s.length = m) : ((p ++ (s ++ t)).drop n).take m = s := by
  rw [List.drop_left' hp, List.take_left' hs]

theorem prime_connection_log (zh : zhandle_t) (a b : Nat) (rest : List SendResult)
    (hs : zh.world.send_results = SendResult.accept a :: SendResult.accept b :: rest)
    (ha : 4 ≤ a) (hb : 44 ≤ b) :
    (prime_connection zh).1 = ZOK ∧
    (prime_connection zh).2.world.log =
      zh.world.log ++ [Syscall.send zh.fd (be32 44),
        Syscall.send zh.fd (serialize_prime_connect (prime_connection_req zh))] := by
  have hl : (serialize_prime_connect (prime_connection_req zh)).length = 44 := by
    simp [serialize_prime_connect, be32_length, be64_length, take_padded_length]
  unfold prime_connection send
  simp only [hs, HANDSHAKE_REQ_SIZE]
  have h1 : List.take a (be32 44) = be32 44 :=
    List.take_of_length_le (by rw [be32_length]; exact ha)
  have h2 : List.take b (List.take (44 : Int).toNat
      (serialize_prime_connect (prime_connection_req zh))) =
      serialize_prime_connect (prime_connection_req zh) := by
    rw [List.take_of_length_le (by rw [List.length_take, hl]; omega),
      List.take_of_length_le (by rw [hl]; decide)]
  simp only [h1, h2, be32_length, hl]
  simp [ZOK]

/-- C16 (handshake request layout): `serialize_prime_connect` writes exactly 44 bytes: the
big-endian `protocolVersion` at offsets 0..3, `lastZxidSeen` at 4..11, `timeOut` at 12..15,
`sessionId` at 16..23, `passwd_len` at 24..27 and the 16 bytes of `passwd` unchanged at
28..43; `be32` and `be64` are the two's-complement bytes, most significant first.
`prime_connection` fills the record with `protocolVersion = 0`, `lastZxidSeen = last_zxid`,
`timeOut = recv_timeout`, `sessionId` and `passwd` from `client_id`, and `passwd_len = 16`,
and when the socket accepts them it sends the length prefix 44 and these 44 bytes. -/
theorem handshake_request_layout (req : connect_req) (zh : zhandle_t) :
    (serialize_prime_connect req).length = 44 ∧
    (serialize_prime_connect req).take 4 = be32 req.protocolVersion ∧
    ((serialize_prime_connect req).drop 4).take 8 = be64 req.lastZxidSeen ∧
    ((serialize_prime_connect req).drop 12).take 4 = be32 req.timeOut ∧
    ((serialize_prime_connect req).drop 16).take 8 = be64 req.sessionId ∧
    ((serialize_prime_connect req).drop 24).take 4 = be32 req.passwd_len ∧
    (req.passwd.length = 16 → (serialize_prime_connect req).drop 28 = req.passwd) ∧
    (∀ x : Int, be32 x =
      [(x % 4294967296).toNat / 16777216 % 256, (x % 4294967296).toNat / 65536 % 256,
       (x % 4294967296).toNat / 256 % 256, (x % 4294967296).toNat % 256]) ∧
    (∀ x : Int, be64 x =
      [(x % 18446744073709551616).toNat / 72057594037927936 % 256,
       (x % 18446744073709551616).toNat / 281474976710656 % 256,
       (x % 18446744073709551616).toNat / 1099511627776 % 256,
       (x % 18446744073709551616).toNat / 4294967296 % 256,
       (x % 18446744073709551616).toNat / 16777216 % 256,
       (x % 18446744073709551616).toNat / 65536 % 256,
       (x % 18446744073709551616).toNat / 256 % 256,
       (x % 18446744073709551616).toNat % 256]) ∧
    (prime_connection_req zh).protocolVersion = 0 ∧
    (prime_connection_req zh).lastZxidSeen = zh.last_zxid ∧
    (prime_connection_req zh).timeOut = zh.recv_timeout ∧
    (prime_connection_req zh).sessionId = zh.client_id.client_id ∧
    (prime_connection_req zh).passwd_len = 16 ∧
    (zh.client_id.passwd.length = 16 →
      (prime_connection_req zh).passwd = zh.client_id.passwd) ∧
    (∀ a b rest, zh.world.send_results = SendResult.accept a :: SendResult.accept b :: rest →
      4 ≤ a → 44 ≤ b →
      (prime_connection zh).2.world.log =
        zh.world.log ++ [Syscall.send zh.fd (be32 44),
          Syscall.send zh.fd (serialize_prime_connect (prime_connection_req zh))]) := by
  have l4 := be32_length
  have l8 := be64_length
  refine ⟨?_, ?_, ?_, ?_, ?_, ?_, ?_, be32_eq, be64_eq, rfl, rfl, rfl, rfl, rfl, ?_, ?_⟩
  · simp [serialize_prime_connect, l4, l8, take_padded_length]
  · unfold serialize_prime_connect
    simp only [List.append_assoc]
    rw [List.take_append_of_le_length (by rw [l4]), List.take_of_length_le (by rw [l4])]
  · unfold serialize_prime_connect
    simp only [List.append_assoc]
    rw [List.drop_append_of_le_length (by rw [l4]), List.drop_of_length_le (by rw [l4]),
      List.nil_append, List.take_append_of_le_length (by rw [l8]),
      List.take_of_length_le (by rw [l8])]
  · have e : serialize_prime_connect req =
        (be32 req.protocolVersion ++ be64 req.lastZxidSeen) ++ (be32 req.timeOut ++
          (be64 req.sessionId ++ be32 req.passwd_len ++ take_padded 16 req.passwd)) := by
      simp [serialize_prime_connect]
    rw [e]
    exact drop_take_segment _ _ _ 12 4 (by simp [l4, l8]) (l4 _)
  · have e : serialize_prime_connect req =
        (be32 req.protocolVersion ++ be64 req.lastZxidSeen ++ be32 req.timeOut) ++
          (be64 req.sessionId ++ (be32 req.passwd_len ++ take_padded 16 req.passwd)) := by
      simp [serialize_prime_connect]
    rw [e]
    exact drop_take_segment _ _ _ 16 8 (by simp [l4, l8]) (l8 _)
  · have e : serialize_prime_connect req =
        (be32 req.protocolVersion ++ be64 req.lastZxidSeen ++ be32 req.timeOut ++
          be64 req.sessionId) ++ (be32 req.passwd_len ++ take_padded 16 req.passwd) := by
      simp [serialize_prime_connect]
    rw [e]
    exact drop_take_segment _ _ _ 24 4 (by simp [l4, l8]) (l4 _)
  · intro h
    have e : serialize_prime_connect req =
        (be32 req.protocolVersion ++ be64 req.lastZxidSeen ++ be32 req.timeOut ++
          be64 req.sessionId ++ be32 req.passwd_len) ++ take_padded 16 req.passwd := by
      simp [serialize_prime_connect]
    rw [e, List.drop_left' (by simp [l4, l8]), take_padded_of_length 16 _ h]
  · intro h
    exact take_padded_of_length 16 _ h
  · intro a b rest hs ha hb
    exact (prime_connection_log zh a b rest hs ha hb).2

/-- C16 (instance): the request of the handle that resumes the session 0x1234 with the
password of sixteen 1 bytes, a timeout of 9000 ms and `last_zxid` 0. -/
theorem handshake_request_layout_witness :
    (associating_handle []).client_id.passwd.length = 16 ∧
    (prime_connection_req (associating_handle [])).passwd = List.replicate 16 1 ∧
    serialize_prime_connect (prime_connection_req (associating_handle [])) =
      [0, 0, 0, 0] ++ [0, 0, 0, 0, 0, 0, 0, 0] ++ [0, 0, 35, 40] ++
        [0, 0, 0, 0, 0, 0, 18, 52] ++ [0, 0, 0, 16] ++ List.replicate 16 1 ∧
    (serialize_prime_connect (prime_connection_req (associating_handle []))).drop 28 =
      (prime_connection_req (associating_handle [])).passwd :=
  have h := handshake_request_layout (prime_connection_req (associating_handle []))
    (associating_handle [])
  ⟨by decide, (h.2.2.2.2.2.2.2.2.2.2.2.2.2.2.1 (by decide)).trans (by decide), by decide,
   h.2.2.2.2.2.2.1 (by decide)⟩

/-! ## The log only grows while the send queue is flushed -/

theorem send_log (w : World) (fd : Int) (bytes : List Nat) :
    ∃ more, (send w fd bytes).2.2.log = w.log ++ more := by
  unfold send
  split
  · exact ⟨[], by simp⟩
  · exact ⟨[], by simp⟩
  · exact ⟨_, rfl⟩

theorem send_buffer_payload_log (w : World) (fd : Int) (buff : buffer_list_t) :
    ∃ more, (send_buffer_payload w fd buff).2.2.log = w.log ++ more := by
  unfold send_buffer_payload
  simp only []
  split
  · have h := send_log w fd (((buff.buffer.getD []).drop (buff.curr_offset - 4).toNat).take
      (buff.len - (buff.curr_offset - 4)).toNat)
    split <;> [split; skip] <;> exact h
  · exact ⟨[], by simp⟩

theorem send_buffer_log (w : World) (fd : Int) (buff : buffer_list_t) :
    ∃ more, (send_buffer w fd buff).2.2.log = w.log ++ more := by
  unfold send_buffer
  split
  · obtain ⟨m1, h1⟩ := send_log w fd ((be32 buff.len).drop buff.curr_offset.toNat)
    simp only []
    split
    · split <;> exact ⟨m1, h1⟩
    · obtain ⟨m2, h2⟩ := send_buffer_payload_log
        (send w fd ((be32 buff.len).drop buff.curr_offset.toNat)).2.2 fd
        { buff with curr_offset := buff.curr_offset +
            (send w fd ((be32 buff.len).drop buff.curr_offset.toNat)).1 }
      exact ⟨m1 ++ m2, by rw [h2, h1, List.append_assoc]⟩
  · exact send_buffer_payload_log w fd buff

theorem flush_send_queue_send_log (timeout : Int) (zh : zhandle_t) (head : buffer_list_t)
    (rest : List buffer_list_t) :
    ∃ more, (flush_send_queue_send timeout zh head rest).2.world.log =
      zh.world.log ++ more := by
  have h := send_buffer_log zh.world zh.fd head
  unfold flush_send_queue_send
  simp only []
  split <;> [skip; split <;> [skip; split]] <;> exact h

theorem flush_send_queue_body_log (timeout : Int) (started : timeval) (zh : zhandle_t)
    (head : buffer_list_t) (rest : List buffer_list_t) :
    ∃ more, (flush_send_queue_body timeout started zh head rest).2.world.log =
      zh.world.log ++ more := by
  unfold flush_send_queue_body
  simp only []
  split
  · split
    · exact ⟨[], by simp⟩
    · split
      · exact ⟨[], by simp [(poll_world zh.world).1]⟩
      · obtain ⟨m, h⟩ := flush_send_queue_send_log timeout
          { zh with world := (poll zh.world).2 } head rest
        exact ⟨m, by rw [h]; simp [(poll_world zh.world).1]⟩
  · exact flush_send_queue_send_log timeout zh head rest

theorem flush_send_queue_loop_log (timeout : Int) (started : timeval) (fuel : Nat)
    (zh : zhandle_t) :
    ∃ more, (flush_send_queue_loop timeout started fuel zh).2.world.log =
      zh.world.log ++ more := by
  induction fuel generalizing zh with
  | zero => exact ⟨[], by simp [flush_send_queue_loop]⟩
  | succ n ih =>
    rw [flush_send_queue_loop]
    split
    · exact ⟨[], by simp⟩
    · rename_i head rest hs
      split
      · exact ⟨[], by simp⟩
      · obtain ⟨m, hb⟩ := flush_send_queue_body_log timeout started zh head rest
        split
        · rename_i rc zh2 heq
          rw [heq] at hb
          exact ⟨m, hb⟩
        · rename_i zh2 heq
          rw [heq] at hb
          obtain ⟨m2, hi⟩ := ih zh2
          exact ⟨m ++ m2, by rw [hi, hb, List.append_assoc]⟩

/-- The first system call of a non-blocking flush on a connected handle whose head frame has
not been started, when the socket accepts at least four bytes: the length prefix of that
frame is sent. -/
theorem flush_send_queue_first_send (zh : zhandle_t) (f : buffer_list_t)
    (q : List buffer_list_t) (n : Nat) (rest : List SendResult)
    (hst : zh.state = CONNECTED_STATE) (hq : zh.to_send = f :: q) (hf : f.curr_offset = 0)
    (hs : zh.world.send_results = SendResult.accept n :: rest) (hn : 4 ≤ n) :
    ∃ more, (flush_send_queue zh 0).2.world.log =
      zh.world.log ++ Syscall.send zh.fd (be32 f.len) :: more := by
  unfold flush_send_queue
  rw [hq, List.length_cons, flush_send_queue_loop]
  simp only [hq]
  rw [if_neg (not_not.mpr hst)]
  have hsend : send zh.world zh.fd (be32 f.len) =
      (4, 0, { zh.world with
        send_results := rest, log := zh.world.log ++ [Syscall.send zh.fd (be32 f.len)] }) := by
    unfold send
    simp only [hs]
    rw [List.take_of_length_le (by rw [be32_length]; exact hn), be32_length]
    rfl
  have hsb : ∃ more, (send_buffer zh.world zh.fd f).2.2.log =
      zh.world.log ++ Syscall.send zh.fd (be32 f.len) :: more := by
    unfold send_buffer
    rw [if_pos (by rw [hf]; decide), hf]
    simp only [Int.toNat_zero, List.drop_zero, hsend]
    rw [if_neg (by decide)]
    obtain ⟨m, h⟩ := send_buffer_payload_log
      { zh.world with
        send_results := rest, log := zh.world.log ++ [Syscall.send zh.fd (be32 f.len)] }
      zh.fd { f with curr_offset := 0 + 4 }
    exact ⟨m, by rw [h]; simp⟩
  obtain ⟨m, hm⟩ := hsb
  have hbody : (flush_send_queue_body 0 (gettimeofday zh.world) zh f q).2.world.log =
      zh.world.log ++ Syscall.send zh.fd (be32 f.len) :: m := by
    unfold flush_send_queue_body flush_send_queue_send
    simp only [ne_eq, not_true_eq_false, if_false]
    split <;> [skip; split <;> [skip; split]] <;> exact hm
  split
  · rename_i rc zh2 heq
    rw [heq] at hbody
    exact ⟨m, hbody⟩
  · rename_i zh2 heq
    rw [heq] at hbody
    obtain ⟨m2, hi⟩ := flush_send_queue_loop_log 0 (gettimeofday zh.world)
      (q.length + zh.world.poll_results.length + 1) zh2
    have : q.length + 1 + zh.world.poll_results.length =
        q.length + zh.world.poll_results.length + 1 := by omega
    rw [this] at *
    exact ⟨m ++ m2, by rw [hi, hbody]; simp⟩

/-! ## What `check_events` keeps when it returns ZOK -/

theorem prime_connection_ok_pending (zh : zhandle_t) (h : (prime_connection zh).1 = ZOK) :
    (prime_connection zh).2.sent_requests = zh.sent_requests ∧
    (prime_connection zh).2.watcher = zh.watcher ∧ 0 ≤ (prime_connection zh).2.state := by
  rcases prime_connection_cases zh with ⟨_, _, h2, h3, h4⟩ | ⟨hc, _⟩
  · exact ⟨h2, h3, by rw [h4]; decide⟩
  · rw [hc] at h
    exact absurd h (by decide)

theorem check_events_complete_ok_pending (zh : zhandle_t)
    (h : (check_events_complete zh).1 = ZOK) :
    (check_events_complete zh).2.sent_requests = zh.sent_requests ∧
    (check_events_complete zh).2.watcher = zh.watcher ∧
    (0 ≤ zh.state → 0 ≤ (check_events_complete zh).2.state) := by
  unfold check_events_complete handle_socket_error_msg call_watcher at h ⊢
  simp only [] at h ⊢
  cases hin : zh.input_buffer with
  | null => exact ⟨rfl, rfl, fun h => h⟩
  | heap b => exact ⟨rfl, rfl, fun h => h⟩
  | primer =>
    simp only [hin] at h ⊢
    split at h
    · exact absurd (show ZSESSIONEXPIRED = ZOK from h) (by decide)
    · rename_i hid
      rw [if_neg hid]
      simp only []
      rw [send_auth_info_fields]
      exact ⟨rfl, rfl, fun _ => show (0 : Int) ≤ CONNECTED_STATE from by decide⟩

theorem after_recv_ok_pending (zhr : zhandle_t) (rc : Int)
    (h : (if rc < 0 then handle_socket_error_msg zhr ZCONNECTIONLOSS
        else if rc > 0 then check_events_complete zhr else (ZOK, zhr)).1 = ZOK) :
    (if rc < 0 then handle_socket_error_msg zhr ZCONNECTIONLOSS
        else if rc > 0 then check_events_complete zhr else (ZOK, zhr)).2.sent_requests =
      zhr.sent_requests ∧
    (if rc < 0 then handle_socket_error_msg zhr ZCONNECTIONLOSS
        else if rc > 0 then check_events_complete zhr else (ZOK, zhr)).2.watcher =
      zhr.watcher ∧
    (0 ≤ zhr.state →
      0 ≤ (if rc < 0 then handle_socket_error_msg zhr ZCONNECTIONLOSS
        else if rc > 0 then check_events_complete zhr else (ZOK, zhr)).2.state) := by
  split at h
  · exact absurd (show ZCONNECTIONLOSS = ZOK from h) (by decide)
  · rename_i h1
    rw [if_neg h1]
    split at h
    · rename_i h2
      rw [if_pos h2]
      exact check_events_complete_ok_pending zhr h
    · rename_i h2
      rw [if_neg h2]
      exact ⟨rfl, rfl, fun h => h⟩

theorem check_events_read_ok_pending (zh : zhandle_t) (events : Int)
    (h : (check_events_read zh events).1 = ZOK) :
    (check_events_read zh events).2.sent_requests = zh.sent_requests ∧
    (check_events_read zh events).2.watcher = zh.watcher ∧
    (0 ≤ zh.state → 0 ≤ (check_events_read zh events).2.state) := by
  unfold check_events_read at h ⊢
  by_cases hr : Int.land events ZOOKEEPER_READ ≠ 0
  · rw [if_pos hr] at h ⊢
    cases hin : zh.input_buffer with
    | null =>
      simp only [hin, if_true] at h ⊢
      rcases hb : recv_buffer zh.world zh.fd (allocate_buffer none 0) with ⟨rc, b, w⟩
      simp only [hb] at h ⊢
      exact after_recv_ok_pending _ rc h
    | primer =>
      simp only [hin, reduceCtorEq, if_false] at h ⊢
      rcases hb : recv_buffer zh.world zh.fd zh.primer_buffer with ⟨rc, b, w⟩
      simp only [hb] at h ⊢
      exact after_recv_ok_pending _ rc h
    | heap b0 =>
      simp only [hin, reduceCtorEq, if_false] at h ⊢
      rcases hb : recv_buffer zh.world zh.fd b0 with ⟨rc, b, w⟩
      simp only [hb] at h ⊢
      exact after_recv_ok_pending _ rc h
  · rw [if_neg hr]
    exact ⟨rfl, rfl, fun h => h⟩

theorem check_events_ok_pending (zh : zhandle_t) (events : Int)
    (h : (check_events zh events).1 = ZOK) :
    (check_events zh events).2.sent_requests = zh.sent_requests ∧
    (check_events zh events).2.watcher = zh.watcher ∧
    (0 ≤ zh.state → 0 ≤ (check_events zh events).2.state) := by
  unfold check_events at h ⊢
  by_cases hfd : zh.fd = -1
  · rw [if_pos hfd] at h
    exact absurd (show ZINVALIDSTATE = ZOK from h) (by decide)
  · rw [if_neg hfd] at h ⊢
    by_cases hc : Int.land events ZOOKEEPER_WRITE ≠ 0 ∧ zh.state = CONNECTING_STATE
    · rw [if_pos hc] at h ⊢
      rcases hg : getsockopt zh.world with ⟨rc, error, w1⟩
      simp only [hg] at h ⊢
      by_cases he : rc < 0 ∨ error ≠ 0
      · rw [if_pos he] at h
        exact absurd (show ZCONNECTIONLOSS = ZOK from h) (by decide)
      · rw [if_neg he] at h ⊢
        by_cases hp : (prime_connection { zh with world := w1 }).1 ≠ 0
        · rw [if_pos hp] at h
          exact absurd h hp
        · rw [if_neg hp]
          obtain ⟨p1, p2, p3⟩ :=
            prime_connection_ok_pending { zh with world := w1 } (not_not.mp hp)
          exact ⟨p1, p2, fun _ => p3⟩
    · rw [if_neg hc] at h ⊢
      by_cases hw : zh.to_send ≠ [] ∧ Int.land events ZOOKEEPER_WRITE ≠ 0
      · rw [if_pos hw] at h ⊢
        obtain ⟨ts, w, hf, _, _⟩ := flush_send_queue_fields zh 0
        rcases hfl : flush_send_queue zh 0 with ⟨rc, zhf⟩
        rw [hfl] at hf
        have hf' : zhf = { zh with to_send := ts, world := w } := hf
        simp only [hfl] at h ⊢
        by_cases hneg : rc < 0
        · rw [if_pos hneg] at h
          exact absurd (show ZCONNECTIONLOSS = ZOK from h) (by decide)
        · rw [if_neg hneg] at h ⊢
          obtain ⟨p1, p2, p3⟩ := check_events_read_ok_pending zhf events h
          rw [hf'] at p1 p2 p3
          rw [hf']
          exact ⟨p1, p2, p3⟩
      · rw [if_neg hw] at h ⊢
        exact check_events_read_ok_pending zh events h

/-! ## Watch events and auth replies -/

theorem zookeeper_process_loop_watch (f : buffer_list_t) (fs : List buffer_list_t)
    (zh : zhandle_t) (hx : (deserialize_ReplyHeader (f.buffer.getD [])).xid = -1) :
    zookeeper_process_loop (f :: fs) zh =
      zookeeper_process_loop fs
        { zh with
          to_process := fs,
          last_zxid := (deserialize_ReplyHeader (f.buffer.getD [])).zxid,
          completions_to_process := zh.completions_to_process ++
            [{ xid := -1, completion_type := -1, c := FnPtr.null, data := 0,
               sc := sync_completion.zero, buffer := some f }] } := by
  rw [zookeeper_process_loop]
  simp only [hx, if_true, queue_completion_back]
  rfl

theorem dispatch_of_watch (w : watcher_fn) (f : buffer_list_t)
    (hx : (deserialize_ReplyHeader (f.buffer.getD [])).xid = -1) :
    dispatch_of w
        { xid := -1, completion_type := -1, c := FnPtr.null, data := 0,
          sc := sync_completion.zero, buffer := some f } =
      [Event.watcher w (deserialize_WatcherEvent (reply_body (f.buffer.getD []))).type
        (deserialize_WatcherEvent (reply_body (f.buffer.getD []))).state
        (deserialize_WatcherEvent (reply_body (f.buffer.getD []))).path] := by
  unfold dispatch_of
  simp [hx]

/-- C18 (watch events): a reply frame `f` whose header xid is -1 never touches
`sent_requests`: whatever follows it in `to_process`, the loop of `zookeeper_process` only
appends one entry that carries `f` to `completions_to_process`.  When `f` is the frame that
`check_events` has delivered on a handle that the call does not release (close has not been
requested, or another call still holds a reference), `zookeeper_process` returns ZOK with
`sent_requests` as it was before the call, and the dispatch of the ready
completions (`process_completions`, run by `zookeeper_process` itself or after it) invokes
the watcher exactly once for `f`, with the `(type, state, path)` decoded from the
`WatcherEvent` body of the frame, and leaves `sent_requests` unchanged too. -/
theorem watch_event_dispatch (ad : Adaptor) (zh zh1 : zhandle_t) (events : Int)
    (f : buffer_list_t) (hun : 0 ≤ zh.state)
    (hce : check_events (api_prolog zh) events = (ZOK, zh1))
    (hlive : zh1.close_requested = 0 ∨ zh1.ref_counter ≠ 1) (htp : zh1.to_process = [f])
    (hx : (deserialize_ReplyHeader (f.buffer.getD [])).xid = -1) :
    (∀ fs z, zookeeper_process_loop (f :: fs) z =
      zookeeper_process_loop fs
        { z with
          to_process := fs,
          last_zxid := (deserialize_ReplyHeader (f.buffer.getD [])).zxid,
          completions_to_process := z.completions_to_process ++
            [{ xid := -1, completion_type := -1, c := FnPtr.null, data := 0,
               sc := sync_completion.zero, buffer := some f }] }) ∧
    ∃ zh2, zookeeper_process ad zh events = some (ZOK, zh2) ∧
      zh2.sent_requests = zh.sent_requests ∧
      (process_completions zh2).sent_requests = zh.sent_requests ∧
      (process_completions zh2).trace =
        zh1.trace ++ zh1.completions_to_process.flatMap (dispatch_of zh.watcher) ++
          [Event.watcher zh.watcher
            (deserialize_WatcherEvent (reply_body (f.buffer.getD []))).type
            (deserialize_WatcherEvent (reply_body (f.buffer.getD []))).state
            (deserialize_WatcherEvent (reply_body (f.buffer.getD []))).path] := by
  refine ⟨fun fs z => zookeeper_process_loop_watch f fs z hx, ?_⟩
  have hk := check_events_ok_pending (api_prolog zh) events (by rw [hce])
  rw [hce] at hk
  obtain ⟨k1, k2, _⟩ := hk
  have k1' : zh1.sent_requests = zh.sent_requests := by rw [k1, api_prolog_eq]
  have k2' : zh1.watcher = zh.watcher := by rw [k2, api_prolog_eq]
  have hloop : zookeeper_process_loop zh1.to_process zh1 = Outcome.next
      { zh1 with
        to_process := [],
        last_zxid := (deserialize_ReplyHeader (f.buffer.getD [])).zxid,
        completions_to_process := zh1.completions_to_process ++
          [{ xid := -1, completion_type := -1, c := FnPtr.null, data := 0,
             sc := sync_completion.zero, buffer := some f }] } := by
    rw [htp, zookeeper_process_loop_watch f [] zh1 hx, zookeeper_process_loop]
  have hp := zookeeper_process_of_loop_next ad zh zh1 _ events hun hce hloop
  have hno : ¬ (zh1.ref_counter - 1 = 0 ∧ ¬ zh1.close_requested = 0) := by
    rintro ⟨h1, h2⟩
    rcases hlive with h | h
    · exact h2 h
    · exact h (by omega)
  rw [api_epilog_eq] at hp
  by_cases ha : ad.process_async zh1.outstanding_sync = 0
  · simp only [ha, ne_eq, not_true_eq_false, if_false, hno] at hp
    refine ⟨_, hp, k1', ?_, ?_⟩
    · rw [process_completions_eq]
      exact k1'
    · rw [process_completions_eq]
      simp [List.flatMap_append, dispatch_of_watch _ f hx, k2']
  · simp only [ha, ne_eq, not_false_eq_true, if_true] at hp
    rw [process_completions_eq] at hp
    simp only [hno, ne_eq, if_false] at hp
    refine ⟨_, hp, k1', ?_, ?_⟩
    · rw [process_completions_eq]
      exact k1'
    · rw [process_completions_eq]
      simp [List.flatMap_append, dispatch_of_watch _ f hx, k2']

/-- C18 (instance): the Data request 7 and the Void request 9 are pending when the watch
event `(CHANGED, CONNECTED_STATE, "/x")` arrives: both stay pending and the watcher is
called once. -/
theorem watch_event_dispatch_witness :
    (deserialize_ReplyHeader
      ((reply_frame (-1) 5 0 changed_x_body).buffer.getD [])).xid = -1 ∧
    (zookeeper_process threaded_adaptor
        { connected_handle with
          sent_requests := [data_entry, void_entry],
          to_process := [reply_frame (-1) 5 0 changed_x_body] } 0).map
      (fun r => (r.1, r.2.sent_requests, (process_completions r.2).trace)) =
      some (ZOK, [data_entry, void_entry],
        [Event.watcher (watcher_fn.user 0) 3 3 (some [47, 120])]) :=
  have h := watch_event_dispatch threaded_adaptor
    { connected_handle with
      sent_requests := [data_entry, void_entry],
      to_process := [reply_frame (-1) 5 0 changed_x_body] }
    (api_prolog { connected_handle with
      sent_requests := [data_entry, void_entry],
      to_process := [reply_frame (-1) 5 0 changed_x_body] })
    0 (reply_frame (-1) 5 0 changed_x_body)
    (by decide) (by decide) (by decide) (by decide) (by decide)
  ⟨by decide, by
    obtain ⟨zh2, h1, h2, _, h4⟩ := h.2
    rw [h1]
    simp only [Option.map_some']
    rw [h2, h4]
    decide⟩

theorem auth_completion_func_eq (rc : Int) (zh : zhandle_t) :
    auth_completion_func rc zh =
      { zh with
        state := if rc ≠ 0 then AUTH_FAILED_STATE else zh.state,
        auth := { zh.auth with
          state := if rc ≠ 0 then zh.auth.state else 1,
          completion := FnPtr.null },
        trace := zh.trace ++
          (if zh.auth.completion ≠ FnPtr.null then
            [Event.auth_completion zh.auth.completion rc zh.auth.data]
           else []) } := by
  unfold auth_completion_func
  by_cases h : rc ≠ 0
  · by_cases hc : zh.auth.completion ≠ FnPtr.null
    · simp [h, hc]
    · have hc' : zh.auth.completion = FnPtr.null := not_not.mp hc
      simp [h, hc']
      rw [← hc']
  · by_cases hc : zh.auth.completion ≠ FnPtr.null
    · simp [h, hc]
    · have hc' : zh.auth.completion = FnPtr.null := not_not.mp hc
      simp [h, hc']

theorem zookeeper_process_loop_auth_ok (f : buffer_list_t) (fs : List buffer_list_t)
    (zh : zhandle_t) (hx : (deserialize_ReplyHeader (f.buffer.getD [])).xid = AUTH_XID)
    (herr : (deserialize_ReplyHeader (f.buffer.getD [])).err = 0) (hst : 0 ≤ zh.state) :
    zookeeper_process_loop (f :: fs) zh =
      zookeeper_process_loop fs
        { zh with
          to_process := fs,
          last_zxid := (deserialize_ReplyHeader (f.buffer.getD [])).zxid,
          auth := { zh.auth with state := 1, completion := FnPtr.null },
          trace := zh.trace ++
            (if zh.auth.completion ≠ FnPtr.null then
              [Event.auth_completion zh.auth.completion 0 zh.auth.data]
             else []) } := by
  rw [zookeeper_process_loop]
  have hx4 : (deserialize_ReplyHeader (f.buffer.getD [])).xid = -4 := hx
  simp only [hx4, AUTH_XID, show ¬ ((-4 : Int) = -1) from by decide, if_false, if_true, herr,
    auth_completion_func_eq, ne_eq, not_true_eq_false]
  rw [if_neg (by
    rw [is_unrecoverable_of_nonneg _ (by exact hst)]
    decide)]

theorem zookeeper_process_loop_auth_failed (f : buffer_list_t) (fs : List buffer_list_t)
    (zh : zhandle_t) (hx : (deserialize_ReplyHeader (f.buffer.getD [])).xid = AUTH_XID)
    (herr : (deserialize_ReplyHeader (f.buffer.getD [])).err ≠ 0) :
    zookeeper_process_loop (f :: fs) zh =
      Outcome.ret
        (api_epilog (handle_error
          { zh with
            to_process := fs,
            last_zxid := (deserialize_ReplyHeader (f.buffer.getD [])).zxid,
            state := AUTH_FAILED_STATE,
            auth := { zh.auth with completion := FnPtr.null },
            trace := zh.trace ++
              (if zh.auth.completion ≠ FnPtr.null then
                [Event.auth_completion zh.auth.completion
                  (deserialize_ReplyHeader (f.buffer.getD [])).err zh.auth.data]
               else []) } ZAUTHFAILED) ZAUTHFAILED).1
        (api_epilog (handle_error
          { zh with
            to_process := fs,
            last_zxid := (deserialize_ReplyHeader (f.buffer.getD [])).zxid,
            state := AUTH_FAILED_STATE,
            auth := { zh.auth with completion := FnPtr.null },
            trace := zh.trace ++
              (if zh.auth.completion ≠ FnPtr.null then
                [Event.auth_completion zh.auth.completion
                  (deserialize_ReplyHeader (f.buffer.getD [])).err zh.auth.data]
               else []) } ZAUTHFAILED) ZAUTHFAILED).2 := by
  rw [zookeeper_process_loop]
  have hx4 : (deserialize_ReplyHeader (f.buffer.getD [])).xid = -4 := hx
  simp only [hx4, AUTH_XID, show ¬ ((-4 : Int) = -1) from by decide, if_false, if_true,
    auth_completion_func_eq, ne_eq, herr, not_false_eq_true]
  rw [if_pos (by
    unfold is_unrecoverable
    simp [AUTH_FAILED_STATE, ZINVALIDSTATE])]

/-- C19 (auth reply handling): let `f` be the reply frame, with header xid -4, that
`check_events` has delivered.  `zookeeper_process` invokes the registered auth completion
(if there is one) exactly once, with the `err` of the header, and clears it.  If `err = 0`
(on a handle that the call does not release: close has not been requested, or another call
still holds a reference) it returns ZOK, no entry is popped from `sent_requests`, the
state is unchanged and the auth state is marked active (1).  If
`err` is not 0 it returns ZAUTHFAILED, the state is AUTH_FAILED_STATE (-113), the watcher is
invoked with `(SESSION_EVENT, AUTH_FAILED_STATE, null)`, and then every pending completion
is failed with ZAUTHFAILED, in queue order, leaving `sent_requests` empty. -/
theorem auth_reply_handling (ad : Adaptor) (zh zh1 : zhandle_t) (events : Int)
    (f : buffer_list_t) (hun : 0 ≤ zh.state)
    (hce : check_events (api_prolog zh) events = (ZOK, zh1)) (htp : zh1.to_process = [f])
    (hx : (deserialize_ReplyHeader (f.buffer.getD [])).xid = AUTH_XID) :
    ((deserialize_ReplyHeader (f.buffer.getD [])).err = 0 →
      (zh1.close_requested = 0 ∨ zh1.ref_counter ≠ 1) →
      ∃ zh2, zookeeper_process ad zh events = some (ZOK, zh2) ∧
        zh2.state = zh1.state ∧ zh2.auth.state = 1 ∧ zh2.auth.completion = FnPtr.null ∧
        zh2.sent_requests = zh.sent_requests ∧
        (process_completions zh2).trace =
          zh1.trace ++
            (if zh1.auth.completion ≠ FnPtr.null then
              [Event.auth_completion zh1.auth.completion 0 zh1.auth.data]
             else []) ++
            zh1.completions_to_process.flatMap (dispatch_of zh.watcher)) ∧
    ((deserialize_ReplyHeader (f.buffer.getD [])).err ≠ 0 →
      ∃ zh2, zookeeper_process ad zh events = some (ZAUTHFAILED, zh2) ∧
        zh2.state = AUTH_FAILED_STATE ∧ AUTH_FAILED_STATE = -113 ∧
        zh2.sent_requests = [] ∧
        zh2.trace =
          zh1.trace ++
            (if zh1.auth.completion ≠ FnPtr.null then
              [Event.auth_completion zh1.auth.completion
                (deserialize_ReplyHeader (f.buffer.getD [])).err zh1.auth.data]
             else []) ++
            [Event.watcher zh.watcher SESSION_EVENT AUTH_FAILED_STATE none] ++
            zh.sent_requests.flatMap (failure_of ZAUTHFAILED)) := by
  have hk := check_events_ok_pending (api_prolog zh) events (by rw [hce])
  rw [hce] at hk
  obtain ⟨k1, k2, k3⟩ := hk
  have k1' : zh1.sent_requests = zh.sent_requests := by rw [k1, api_prolog_eq]
  have k2' : zh1.watcher = zh.watcher := by rw [k2, api_prolog_eq]
  have k3' : 0 ≤ zh1.state := k3 (by rw [api_prolog_eq]; exact hun)
  constructor
  · intro herr hlive
    have hno : ¬ (zh1.ref_counter - 1 = 0 ∧ ¬ zh1.close_requested = 0) := by
      rintro ⟨h1, h2⟩
      rcases hlive with h | h
      · exact h2 h
      · exact h (by omega)
    have hloop := zookeeper_process_loop_auth_ok f [] zh1 hx herr k3'
    rw [zookeeper_process_loop, ← htp] at hloop
    have hp := zookeeper_process_of_loop_next ad zh zh1 _ events hun hce hloop
    rw [api_epilog_eq] at hp
    by_cases ha : ad.process_async zh1.outstanding_sync = 0
    · simp only [ha, ne_eq, not_true_eq_false, if_false, hno] at hp
      refine ⟨_, hp, rfl, rfl, rfl, k1', ?_⟩
      rw [process_completions_eq]
      simp [k2']
    · simp only [ha, ne_eq, not_false_eq_true, if_true] at hp
      rw [process_completions_eq] at hp
      simp only [hno, ne_eq, if_false] at hp
      refine ⟨_, hp, rfl, rfl, rfl, k1', ?_⟩
      rw [process_completions_eq]
      simp [k2']
  · intro herr
    have hloop := zookeeper_process_loop_auth_failed f [] zh1 hx herr
    rw [← htp] at hloop
    have hp := zookeeper_process_of_loop_ret ad zh zh1 _ events _ hun hce hloop
    obtain ⟨e1, e2, e3, e4, _⟩ := api_epilog_handle_error
      { zh1 with
        to_process := [],
        last_zxid := (deserialize_ReplyHeader (f.buffer.getD [])).zxid,
        state := AUTH_FAILED_STATE,
        auth := { zh1.auth with completion := FnPtr.null },
        trace := zh1.trace ++
          (if zh1.auth.completion ≠ FnPtr.null then
            [Event.auth_completion zh1.auth.completion
              (deserialize_ReplyHeader (f.buffer.getD [])).err zh1.auth.data]
           else []) } ZAUTHFAILED ZAUTHFAILED
    rw [e1] at hp
    refine ⟨_, hp, ?_, rfl, e4, ?_⟩
    · rw [e2, handle_error_state]
      simp [AUTH_FAILED_STATE]
    · rw [e3, handle_error_trace]
      simp [AUTH_FAILED_STATE, k1', k2']

/-- C19 (instance): requests 7 and 9 are pending and the credentials have been sent with
the completion 40.  A failed auth reply (err -115) calls the completion once, tells the
watcher AUTH_FAILED_STATE and fails both requests with ZAUTHFAILED; a successful one only
calls the completion and marks the credentials active. -/
theorem auth_reply_handling_witness :
    (deserialize_ReplyHeader ((reply_frame (-4) 0 (-115) []).buffer.getD [])).xid =
      AUTH_XID ∧
    (zookeeper_process threaded_adaptor (auth_pending_handle (reply_frame (-4) 0 (-115) []))
      0).map (fun r => (r.1, r.2.state, r.2.sent_requests, r.2.trace)) =
      some (ZAUTHFAILED, -113, [],
        [Event.auth_completion (FnPtr.fn 40) (-115) 400,
         Event.watcher (watcher_fn.user 0) SESSION_EVENT AUTH_FAILED_STATE none,
         Event.completion (FnPtr.fn 70) COMPLETION_DATA ZAUTHFAILED none 700,
         Event.completion (FnPtr.fn 90) COMPLETION_VOID ZAUTHFAILED none 900]) ∧
    (zookeeper_process threaded_adaptor (auth_pending_handle (reply_frame (-4) 0 0 []))
      0).map (fun r => (r.1, r.2.state, r.2.auth.state, r.2.sent_requests, r.2.trace)) =
      some (ZOK, CONNECTED_STATE, 1, [data_entry, void_entry],
        [Event.auth_completion (FnPtr.fn 40) 0 400]) :=
  have h := auth_reply_handling threaded_adaptor
    (auth_pending_handle (reply_frame (-4) 0 (-115) []))
    (api_prolog (auth_pending_handle (reply_frame (-4) 0 (-115) []))) 0
    (reply_frame (-4) 0 (-115) []) (by decide) (by decide) (by decide) (by decide)
  ⟨by decide, by
    obtain ⟨zh2, h1, h2, _, h4, h5⟩ := h.2 (by decide)
    rw [h1]
    simp only [Option.map_some']
    rw [h2, h4, h5]
    decide, by decide⟩

/-! ## Credentials go out first -/

theorem send_auth_info_to_send (zh : zhandle_t) (scheme : List Nat)
    (h : zh.auth.scheme = some scheme) :
    (send_auth_info zh).2.to_send =
      { buffer := some (serialize_RequestHeader { xid := -4, type := SETAUTH_OP } ++
          serialize_AuthPacket 0 scheme zh.auth.auth),
        len := 16 + (scheme.length + (4 + zh.auth.auth.length)), curr_offset := 0 } ::
        zh.to_send := by
  unfold send_auth_info
  simp only [h, show ¬ ((0 : Int) < 0) from by decide, if_false, queue_front_buffer_bytes,
    queue_buffer_front, AUTH_XID]
  unfold allocate_buffer
  have hl : ((serialize_RequestHeader { xid := -4, type := SETAUTH_OP } ++
      serialize_AuthPacket 0 scheme zh.auth.auth).length : Int) =
      16 + (scheme.length + (4 + zh.auth.auth.length)) := by
    simp [serialize_RequestHeader, serialize_AuthPacket, be32_length]
    ring
  rw [hl, if_neg (by omega)]

/-- C20 (auth ordering): on a handle that awaits the prime response with credentials set
(`auth.scheme` not null), whatever the contents `q` of `to_send`, once READ readiness has
completed a prime response that is accepted, the state is CONNECTED_STATE and `to_send` is
the SETAUTH frame followed by `q` in its original order; the payload of that frame starts
with the `RequestHeader` `(xid = -4, type = SETAUTH)` and goes on with the `AuthPacket`
`(0, scheme, auth)`.  So the next flush, when the socket accepts at least four bytes, starts
by sending the length prefix of the SETAUTH frame. -/
theorem auth_ordering (zh : zhandle_t) (events : Int) (b : buffer_list_t) (w : World)
    (scheme : List Nat) (hfd : zh.fd ≠ -1) (hstate : zh.state = ASSOCIATING_STATE)
    (hin : zh.input_buffer = input_buffer_t.primer)
    (hread : Int.land events ZOOKEEPER_READ ≠ 0)
    (hrecv : recv_buffer zh.world zh.fd zh.primer_buffer = (1, b, w))
    (hid : zh.client_id.client_id = 0 ∨
      (deserialize_prime_response (b.buffer.getD [])).sessionId = zh.client_id.client_id)
    (hauth : zh.auth.scheme = some scheme) :
    (check_events zh events).1 = ZOK ∧
    (check_events zh events).2.state = CONNECTED_STATE ∧
    (check_events zh events).2.to_send =
      { buffer := some (be32 (-4) ++ be32 SETAUTH_OP ++
          serialize_AuthPacket 0 scheme zh.auth.auth),
        len := 16 + (scheme.length + (4 + zh.auth.auth.length)), curr_offset := 0 } ::
        zh.to_send ∧
    (∀ n rest, w.send_results = SendResult.accept n :: rest → 4 ≤ n →
      ∃ more, (flush_send_queue (check_events zh events).2 0).2.world.log =
        w.log ++ Syscall.send zh.fd
          (be32 (16 + (scheme.length + (4 + zh.auth.auth.length)))) :: more) := by
  have hts : (send_auth_info { zh with state := CONNECTED_STATE }).2.to_send =
      { buffer := some (serialize_RequestHeader { xid := -4, type := SETAUTH_OP } ++
          serialize_AuthPacket 0 scheme zh.auth.auth),
        len := 16 + (scheme.length + (4 + zh.auth.auth.length)), curr_offset := 0 } ::
        zh.to_send :=
    send_auth_info_to_send { zh with state := CONNECTED_STATE } scheme hauth
  have hce := check_events_prime_adopted zh events b w hfd hstate hin hread hrecv hid
  obtain ⟨zc, hzc⟩ : ∃ z, z = (check_events zh events).2 := ⟨_, rfl⟩
  have h1 : zc.state = CONNECTED_STATE := by rw [hzc, hce]
  have h2 : zc.to_send =
      { buffer := some (serialize_RequestHeader { xid := -4, type := SETAUTH_OP } ++
          serialize_AuthPacket 0 scheme zh.auth.auth),
        len := 16 + (scheme.length + (4 + zh.auth.auth.length)), curr_offset := 0 } ::
        zh.to_send := by rw [hzc, hce]; exact hts
  have h3 : zc.world = w := by rw [hzc, hce]
  have h4 : zc.fd = zh.fd := by rw [hzc, hce]
  rw [← hzc]
  refine ⟨by rw [hce], h1, ?_, ?_⟩
  · rw [h2]
    simp only [serialize_RequestHeader]
  · intro n rest hs hn
    have hf := flush_send_queue_first_send zc _ zh.to_send n rest h1 h2 rfl
      (by rw [h3]; exact hs) hn
    rw [h3, h4] at hf
    exact hf

/-- C20 (instance): the request `get_x_frame` was queued before the session was
established; after the prime response the SETAUTH frame for `("digest", "u:p")` is at the
head of `to_send`, `get_x_frame` follows, and the flush puts the SETAUTH frame on the wire
first. -/
theorem auth_ordering_witness :
    (credentialed_handle (prime_response_bytes 6000 4660 (List.replicate 16 2))).auth.scheme =
      some [100, 105, 103, 101, 115, 116] ∧
    (check_events (credentialed_handle (prime_response_bytes 6000 4660 (List.replicate 16 2)))
      ZOOKEEPER_READ).2.to_send =
      [{ buffer := some ([255, 255, 255, 252, 0, 0, 0, 100] ++ [0, 0, 0, 0] ++
           [0, 0, 0, 6, 100, 105, 103, 101, 115, 116] ++ [0, 0, 0, 3, 117, 58, 112]),
         len := 29, curr_offset := 0 }, get_x_frame] ∧
    wire_bytes (flush_send_queue (check_events
      (credentialed_handle (prime_response_bytes 6000 4660 (List.replicate 16 2)))
      ZOOKEEPER_READ).2 0).2.world.log =
      [0, 0, 0, 29] ++ ([255, 255, 255, 252, 0, 0, 0, 100] ++ [0, 0, 0, 0] ++
        [0, 0, 0, 6, 100, 105, 103, 101, 115, 116] ++ [0, 0, 0, 3, 117, 58, 112]) ++
      [0, 0, 0, 15] ++ [0, 0, 0, 1, 0, 0, 0, 4, 0, 0, 0, 2, 47, 120, 0] :=
  have h := auth_ordering
    (credentialed_handle (prime_response_bytes 6000 4660 (List.replicate 16 2)))
    ZOOKEEPER_READ
    (recv_buffer (credentialed_handle
        (prime_response_bytes 6000 4660 (List.replicate 16 2))).world 3
      (credentialed_handle
        (prime_response_bytes 6000 4660 (List.replicate 16 2))).primer_buffer).2.1
    (recv_buffer (credentialed_handle
        (prime_response_bytes 6000 4660 (List.replicate 16 2))).world 3
      (credentialed_handle
        (prime_response_bytes 6000 4660 (List.replicate 16 2))).primer_buffer).2.2
    [100, 105, 103, 101, 115, 116]
    (by decide) (by decide) (by decide) (by decide) (by decide) (Or.inr (by decide))
    (by decide)
  ⟨by decide, h.2.2.1.trans (by decide), by decide⟩

/-! ## Completions are registered before their frames -/

theorem pending_fresh_evolves (zh zh2 : zhandle_t) (h : evolves zh zh2)
    (hf : pending_fresh zh) : pending_fresh zh2 := by
  obtain ⟨_, _, _, h4, h5, _⟩ := h
  refine ⟨le_trans hf.1 h4, fun c hc => ?_⟩
  rcases h5 c hc with h | h | h
  · rcases hf.2 c h with h' | h'
    · exact Or.inl h'
    · exact Or.inr (lt_of_lt_of_le h' h4)
  · exact Or.inl (by rw [h]; rfl)
  · exact Or.inr h.2.1

theorem pending_fresh_interest (zh : zhandle_t) (out : interest_args)
    (hopen : zh.close_requested = 0) (hnf : zh.world.next_fd ≠ -1) (hf : pending_fresh zh) :
    pending_fresh (zookeeper_interest zh out).2.2 ∧
    (zookeeper_interest zh out).2.2.close_requested = 0 := by
  rcases zookeeper_interest_link zh out hopen hnf with h | ⟨_, _, h⟩ | ⟨_, _, h⟩
  · exact ⟨pending_fresh_evolves _ _ h hf, h.2.1.trans hopen⟩
  · exact ⟨pending_fresh_evolves _ _ h hf, h.2.1.trans hopen⟩
  · exact ⟨pending_fresh_evolves _ _ h hf, h.2.1.trans hopen⟩

theorem pending_fresh_run_call (ad : Adaptor) (c : Call) (zh zh2 : zhandle_t)
    (henv : ∀ env, c.env = some env → env.next_fd ≠ -1)
    (hf : pending_fresh zh ∧ zh.close_requested = 0) (h : run_call ad c zh = some zh2) :
    pending_fresh zh2 ∧ zh2.close_requested = 0 := by
  have hev : ∀ z, evolves zh z → pending_fresh z ∧ z.close_requested = 0 :=
    fun z he => ⟨pending_fresh_evolves _ _ he hf.1, he.2.1.trans hf.2⟩
  cases c with
  | interest env out =>
    simp only [run_call, Option.some.injEq] at h
    rw [← h]
    have hi := hev _ (evolves_install env zh)
    exact pending_fresh_interest _ out hi.2 (henv env rfl) hi.1
  | process env events =>
    simp only [run_call, Option.map_eq_some'] at h
    obtain ⟨r, hz, hz2⟩ := h
    rw [← hz2]
    exact hev _ (evolves_trans (evolves_install env zh)
      (evolves_zookeeper_process ad _ events r
        ((evolves_install env zh).2.1.trans hf.2) hz))
  | request env op req_rc req dc data sc =>
    simp only [run_call, Option.some.injEq] at h
    rw [← h]
    exact hev _ (evolves_trans (evolves_install env zh)
      (evolves_op_call op _ req_rc req dc data sc))
  | add_auth env scheme cert certLen completion data =>
    simp only [run_call, Option.some.injEq] at h
    rw [← h]
    exact hev _ (evolves_trans (evolves_install env zh)
      (evolves_zoo_add_auth _ scheme cert certLen completion data))
  | set_watcher newFn =>
    simp only [run_call, Option.some.injEq] at h
    rw [← h]
    exact hev _ (evolves_zoo_set_watcher zh newFn)

theorem pending_fresh_run (ad : Adaptor) (calls : List Call) (zh zh2 : zhandle_t)
    (henv : ∀ c ∈ calls, ∀ env, c.env = some env → env.next_fd ≠ -1)
    (hf : pending_fresh zh ∧ zh.close_requested = 0) (h : run ad calls zh = some zh2) :
    pending_fresh zh2 ∧ zh2.close_requested = 0 := by
  induction calls generalizing zh with
  | nil =>
    simp only [run, Option.some.injEq] at h
    rw [← h]; exact hf
  | cons c cs ih =>
    simp only [run, Option.bind_eq_some] at h
    obtain ⟨zh1, h1, h2⟩ := h
    exact ih zh1 (fun c' hc' => henv c' (List.mem_cons_of_mem _ hc'))
      (pending_fresh_run_call ad c zh zh1 (henv c (List.mem_cons_self _ _)) hf h1) h2

/-! ## The pending entries are those that the library registers -/

theorem registered_evolves (zh zh2 : zhandle_t) (h : evolves zh zh2)
    (hx : 0 ≤ zh.world.next_xid) (hr : registered zh) : registered zh2 := by
  obtain ⟨_, _, _, _, h5, _⟩ := h
  intro c hc
  rcases h5 c hc with h | h | h
  · exact hr c h
  · exact Or.inl h
  · exact Or.inr ⟨le_trans hx h.1, h.2.2⟩

theorem registered_interest (zh : zhandle_t) (out : interest_args)
    (hopen : zh.close_requested = 0) (hnf : zh.world.next_fd ≠ -1)
    (hx : 0 ≤ zh.world.next_xid) (hr : registered zh) :
    registered (zookeeper_interest zh out).2.2 := by
  rcases zookeeper_interest_link zh out hopen hnf with h | ⟨_, _, h⟩ | ⟨_, _, h⟩
  · exact registered_evolves _ _ h hx hr
  · exact registered_evolves _ _ h hx hr
  · exact registered_evolves _ _ h hx hr

theorem registered_run_call (ad : Adaptor) (c : Call) (zh zh2 : zhandle_t)
    (henv : ∀ env, c.env = some env → env.next_fd ≠ -1)
    (hf : pending_fresh zh ∧ zh.close_requested = 0) (hr : registered zh)
    (h : run_call ad c zh = some zh2) : registered zh2 := by
  have hev : ∀ z, evolves zh z → registered z :=
    fun z he => registered_evolves _ _ he hf.1.1 hr
  cases c with
  | interest env out =>
    simp only [run_call, Option.some.injEq] at h
    rw [← h]
    have hi := evolves_install env zh
    exact registered_interest _ out (hi.2.1.trans hf.2) (henv env rfl)
      (le_trans hf.1.1 hi.2.2.2.1) (hev _ hi)
  | process env events =>
    simp only [run_call, Option.map_eq_some'] at h
    obtain ⟨r, hz, hz2⟩ := h
    rw [← hz2]
    exact hev _ (evolves_trans (evolves_install env zh)
      (evolves_zookeeper_process ad _ events r
        ((evolves_install env zh).2.1.trans hf.2) hz))
  | request env op req_rc req dc data sc =>
    simp only [run_call, Option.some.injEq] at h
    rw [← h]
    exact hev _ (evolves_trans (evolves_install env zh)
      (evolves_op_call op _ req_rc req dc data sc))
  | add_auth env scheme cert certLen completion data =>
    simp only [run_call, Option.some.injEq] at h
    rw [← h]
    exact hev _ (evolves_trans (evolves_install env zh)
      (evolves_zoo_add_auth _ scheme cert certLen completion data))
  | set_watcher newFn =>
    simp only [run_call, Option.some.injEq] at h
    rw [← h]
    exact hev _ (evolves_zoo_set_watcher zh newFn)

/-- In every state reached from a handle with nothing pending (as `zookeeper_init` returns
it, with an xid counter that is not negative) by calls of `zookeeper_interest`,
`zookeeper_process`, the request operations, `zoo_add_auth` and `zoo_set_watcher`, the pending
entries are those that the library registers. -/
theorem registered_run (ad : Adaptor) (calls : List Call) (zh zh2 : zhandle_t)
    (henv : ∀ c ∈ calls, ∀ env, c.env = some env → env.next_fd ≠ -1)
    (hf : pending_fresh zh ∧ zh.close_requested = 0) (hr : registered zh)
    (h : run ad calls zh = some zh2) : registered zh2 := by
  induction calls generalizing zh with
  | nil =>
    simp only [run, Option.some.injEq] at h
    rw [← h]; exact hr
  | cons c cs ih =>
    simp only [run, Option.bind_eq_some] at h
    obtain ⟨zh1, h1, h2⟩ := h
    exact ih zh1 (fun c' hc' => henv c' (List.mem_cons_of_mem _ hc'))
      (pending_fresh_run_call ad c zh zh1 (henv c (List.mem_cons_self _ _)) hf h1)
      (registered_run_call ad c zh zh1 (henv c (List.mem_cons_self _ _)) hf hr h1) h2

theorem registered_init (addrs_count : Int) (watcher : Option Nat) (recv_timeout : Int)
    (clientid : Option clientid_t) (context : Nat) (w : World) :
    registered (zookeeper_init addrs_count watcher recv_timeout clientid context w) := by
  intro c hc
  exact absurd hc (List.not_mem_nil _)

/-- What `registered` says of an entry: its kind is one of the six, the PING xid is carried by
the asynchronous Void entry only, and the xids -1 (watch event) and -4 (AUTH) are not
pending. -/
theorem registered_entries (zh : zhandle_t) (hr : registered zh) :
    ∀ c ∈ zh.sent_requests,
      c.completion_type ∈ [COMPLETION_VOID, COMPLETION_STAT, COMPLETION_DATA,
        COMPLETION_STRINGLIST, COMPLETION_ACLLIST, COMPLETION_STRING] ∧
      (c.xid = PING_XID → c.c ≠ FnPtr.SYNCHRONOUS_MARKER ∧ c.completion_type = COMPLETION_VOID) ∧
      c.xid ≠ -1 ∧ c.xid ≠ AUTH_XID := by
  intro c hc
  rcases hr c hc with h | ⟨h1, h2⟩
  · rw [h]
    decide
  · refine ⟨h2, fun hx => ?_, ?_, ?_⟩
    · rw [hx] at h1
      exact absurd h1 (by decide)
    · intro hx
      rw [hx] at h1
      exact absurd h1 (by decide)
    · intro hx
      rw [hx] at h1
      exact absurd h1 (by decide)

theorem pending_fresh_count (zh : zhandle_t) (e : completion_list_t)
    (hf : pending_fresh zh) (he : e.xid = zh.world.next_xid) :
    List.countP (fun c => decide (c.xid = e.xid)) (zh.sent_requests ++ [e]) = 1 := by
  rw [List.countP_append]
  have h0 : List.countP (fun c => decide (c.xid = e.xid)) zh.sent_requests = 0 := by
    rw [List.countP_eq_zero]
    intro c hc
    have hx := hf.1
    rcases hf.2 c hc with h | h
    · simp only [decide_eq_true_eq]
      rw [h, he]
      intro hp
      have : PING_XID = -2 := rfl
      omega
    · simp only [decide_eq_true_eq]
      omega
  rw [h0]
  simp

theorem zookeeper_close_connected (zh : zhandle_t) (hst : zh.state = CONNECTED_STATE)
    (href : zh.ref_counter = 0) :
    zookeeper_close zh =
      ((adaptor_send_queue
          { zh with
            close_requested := 1,
            world := { zh.world with next_xid := zh.world.next_xid + 1 },
            to_send := zh.to_send ++
              [{ buffer := some
                   (serialize_RequestHeader { xid := zh.world.next_xid, type := CLOSE_OP }),
                 len := 8, curr_offset := 0 }] } 3000).1,
        { destroy (adaptor_send_queue
            { zh with
              close_requested := 1,
              world := { zh.world with next_xid := zh.world.next_xid + 1 },
              to_send := zh.to_send ++
                [{ buffer := some
                     (serialize_RequestHeader { xid := zh.world.next_xid, type := CLOSE_OP }),
                   len := 8, curr_offset := 0 }] } 3000).2 with freed := true }) := by
  unfold zookeeper_close inc_ref_counter get_xid
  simp only [show ¬ ((0 : Int) < 0) from by decide, show ¬ ((0 : Int) > 0) from by decide,
    if_false, add_zero, queue_buffer_bytes, show ¬ (ZOK < 0) from by decide, href,
    ne_eq, not_true_eq_false, hst, if_true, queue_buffer_back]
  have hal : allocate_buffer
      (some (serialize_RequestHeader { xid := zh.world.next_xid, type := CLOSE_OP }))
      ((serialize_RequestHeader { xid := zh.world.next_xid, type := CLOSE_OP }).length) =
      { buffer := some (serialize_RequestHeader { xid := zh.world.next_xid, type := CLOSE_OP }),
        len := 8, curr_offset := 0 } := by
    unfold allocate_buffer
    simp [serialize_RequestHeader, be32_length]
  rw [hal]

/-- C17 (counterexample): `zookeeper_close` on a connected handle with nothing pending, whose
socket is writable.  The CLOSE request goes on the wire with the xid 1, which is not
negative, but no completion entry was registered for it: `sent_requests` was empty before the
call, and `destroy`, which fails every pending entry with ZCLOSING, makes no invocation at
all. -/
theorem close_request_has_no_completion :
    writable_handle.sent_requests = [] ∧
    (zookeeper_close writable_handle).1 = ZOK ∧
    (zookeeper_close writable_handle).2.world.log =
      [Syscall.send 3 (be32 8),
       Syscall.send 3 (serialize_RequestHeader { xid := 1, type := CLOSE_OP }),
       Syscall.close 3] ∧
    (0 : Int) ≤ ({ xid := 1, type := CLOSE_OP } : RequestHeader).xid ∧
    (zookeeper_close writable_handle).2.trace = [] ∧
    (destroy { writable_handle with sent_requests := [void_entry] }).trace =
      [Event.completion (FnPtr.fn 90) COMPLETION_VOID ZCLOSING none 900] := by
  decide

theorem zoo_arequest_steps_last (type : Int)
    (add : zhandle_t → Int → FnPtr → Nat → sync_completion → Int × zhandle_t)
    (zh : zhandle_t) (req_rc : Int) (req : List Nat) (dc : FnPtr) (data : Nat)
    (sc : sync_completion) :
    (zoo_arequest_steps type add zh req_rc req dc data sc).getLast? =
      some (zoo_arequest type add zh req_rc req dc data sc).2 := by
  unfold zoo_arequest_steps zoo_arequest
  simp only []
  split
  · rfl
  · rfl

theorem Op_steps_last (op : Op) (zh : zhandle_t) (req_rc : Int) (req : List Nat)
    (dc : FnPtr) (data : Nat) (sc : sync_completion) :
    (op.steps zh req_rc req dc data sc).getLast? =
      some (op.call zh req_rc req dc data sc).2 := by
  cases op <;> exact zoo_arequest_steps_last _ _ zh req_rc req dc data sc

theorem zoo_arequest_steps_eq (type kind : Int)
    (add : zhandle_t → Int → FnPtr → Nat → sync_completion → Int × zhandle_t)
    (hadd : ∀ zh xid dc data sc, add zh xid dc data sc = add_completion zh xid kind dc data sc 0)
    (zh : zhandle_t) (req_rc : Int) (req : List Nat) (dc : FnPtr) (data : Nat)
    (sc : sync_completion) (hst : 0 ≤ zh.state) (hrc : 0 ≤ req_rc) :
    zoo_arequest_steps type add zh req_rc req dc data sc =
      [{ zh with world := { zh.world with next_xid := zh.world.next_xid + 1 } },
       { zh with
          world := { zh.world with next_xid := zh.world.next_xid + 1 },
          sent_requests := zh.sent_requests ++
            [create_completion_entry zh.world.next_xid kind dc data sc],
          outstanding_sync :=
            if dc = FnPtr.SYNCHRONOUS_MARKER then zh.outstanding_sync + 1
            else zh.outstanding_sync },
       { zh with
          world := { zh.world with next_xid := zh.world.next_xid + 1 },
          sent_requests := zh.sent_requests ++
            [create_completion_entry zh.world.next_xid kind dc data sc],
          outstanding_sync :=
            if dc = FnPtr.SYNCHRONOUS_MARKER then zh.outstanding_sync + 1
            else zh.outstanding_sync,
          to_send := zh.to_send ++
            [{ buffer := some
                 (serialize_RequestHeader { xid := zh.world.next_xid, type := type } ++ req),
               len := 8 + req.length, curr_offset := 0 }] },
       (zoo_arequest type add zh req_rc req dc data sc).2] := by
  rw [zoo_arequest_eq type kind add hadd zh req_rc req dc data sc hst,
    if_neg (not_lt.mpr hrc)]
  unfold zoo_arequest_steps get_xid
  simp only []
  rw [if_neg (by
    rw [show is_unrecoverable { zh with
      world := { zh.world with next_xid := zh.world.next_xid + 1 } } = 0 from
      is_unrecoverable_of_nonneg _ hst]
    decide)]
  simp only [show ¬ ((0 : Int) < 0) from by decide, if_false, adaptor_send_queue,
    not_lt.mpr hrc, hadd, add_completion, queue_buffer_bytes, queue_completion_back,
    queue_buffer_back]
  have hlen : ((serialize_RequestHeader { xid := zh.world.next_xid, type := type } ++ req).length
      : Int) = 8 + req.length := by
    simp [serialize_RequestHeader, be32, be_bytes]
    ring
  have hal : allocate_buffer
      (some (serialize_RequestHeader { xid := zh.world.next_xid, type := type } ++ req))
      ((serialize_RequestHeader { xid := zh.world.next_xid, type := type } ++ req).length) =
      { buffer := some
          (serialize_RequestHeader { xid := zh.world.next_xid, type := type } ++ req),
        len := 8 + req.length, curr_offset := 0 } := by
    unfold allocate_buffer
    rw [hlen, if_neg (by omega)]
  rw [hal]
  by_cases hs : dc = FnPtr.SYNCHRONOUS_MARKER
  · simp only [hs, if_true, show ¬ (ZOK < 0) from by decide, if_false]
  · simp only [hs, if_false, show ¬ (ZOK < 0) from by decide]

theorem Op_steps_eq (op : Op) :
    ∃ type kind,
      (∀ zh req_rc req dc data sc,
        op.call zh req_rc req dc data sc =
          zoo_arequest type (fun zh xid dc data sc => add_completion zh xid kind dc data sc 0)
            zh req_rc req dc data sc) ∧
      (∀ zh req_rc req dc data sc,
        op.steps zh req_rc req dc data sc =
          zoo_arequest_steps type
            (fun zh xid dc data sc => add_completion zh xid kind dc data sc 0)
            zh req_rc req dc data sc) := by
  cases op
  · exact ⟨GETDATA_OP, COMPLETION_DATA, fun _ _ _ _ _ _ => rfl, fun _ _ _ _ _ _ => rfl⟩
  · exact ⟨SETDATA_OP, COMPLETION_STAT, fun _ _ _ _ _ _ => rfl, fun _ _ _ _ _ _ => rfl⟩
  · exact ⟨CREATE_OP, COMPLETION_STRING, fun _ _ _ _ _ _ => rfl, fun _ _ _ _ _ _ => rfl⟩
  · exact ⟨DELETE_OP, COMPLETION_VOID, fun _ _ _ _ _ _ => rfl, fun _ _ _ _ _ _ => rfl⟩
  · exact ⟨EXISTS_OP, COMPLETION_STAT, fun _ _ _ _ _ _ => rfl, fun _ _ _ _ _ _ => rfl⟩
  · exact ⟨GETCHILDREN_OP, COMPLETION_STRINGLIST, fun _ _ _ _ _ _ => rfl,
      fun _ _ _ _ _ _ => rfl⟩
  · exact ⟨SYNC_OP, COMPLETION_STRING, fun _ _ _ _ _ _ => rfl, fun _ _ _ _ _ _ => rfl⟩
  · exact ⟨GETACL_OP, COMPLETION_ACLLIST, fun _ _ _ _ _ _ => rfl, fun _ _ _ _ _ _ => rfl⟩
  · exact ⟨SETACL_OP, COMPLETION_VOID, fun _ _ _ _ _ _ => rfl, fun _ _ _ _ _ _ => rfl⟩

/-- C17 (amended): start from a handle whose pending xids come from the xid counter (as
after `zookeeper_init` with a counter that is not negative) and on which close has not been
requested, and make any sequence of calls of `zookeeper_interest`, `zookeeper_process`, the
request operations, `zoo_add_auth` and `zoo_set_watcher` (in environments where `socket()`
yields a descriptor).  In the state reached the pending xids still come from the counter, and
a request operation that goes through (non-terminal state, request serialized) registers its
completion before it queues its frame.  Statement by statement: after `get_xid()` only the
counter has moved; after the `add_*_completion` call one entry `e` with the fresh xid has
been appended to `sent_requests`, while `to_send` is still what it was; after
`queue_buffer_bytes` one frame, whose `RequestHeader` carries that xid, has been appended to
`to_send`; only then does `adaptor_send_queue` flush, and the call returns ZOK.  The xid is
not negative and `e` is the only pending entry with it.  `zookeeper_close`, however, queues
its CLOSE frame with a fresh, non-negative xid and registers no completion for it. -/
theorem completion_before_frame (ad : Adaptor) (zh0 zh : zhandle_t) (calls : List Call)
    (op : Op) (req_rc : Int) (req : List Nat) (dc : FnPtr) (data : Nat) (sc : sync_completion)
    (hfresh : pending_fresh zh0) (hopen : zh0.close_requested = 0)
    (henv : ∀ c ∈ calls, c.env.map World.next_fd ≠ some (-1))
    (hrun : run ad calls zh0 = some zh) :
    pending_fresh zh ∧
    (0 ≤ zh.state → 0 ≤ req_rc →
      ∃ e f,
        op.steps zh req_rc req dc data sc =
          [{ zh with world := { zh.world with next_xid := zh.world.next_xid + 1 } },
           { zh with
              world := { zh.world with next_xid := zh.world.next_xid + 1 },
              sent_requests := zh.sent_requests ++ [e],
              outstanding_sync :=
                if dc = FnPtr.SYNCHRONOUS_MARKER then zh.outstanding_sync + 1
                else zh.outstanding_sync },
           { zh with
              world := { zh.world with next_xid := zh.world.next_xid + 1 },
              sent_requests := zh.sent_requests ++ [e],
              outstanding_sync :=
                if dc = FnPtr.SYNCHRONOUS_MARKER then zh.outstanding_sync + 1
                else zh.outstanding_sync,
              to_send := zh.to_send ++ [f] },
           (op.call zh req_rc req dc data sc).2] ∧
        op.call zh req_rc req dc data sc =
          (ZOK,
            (adaptor_send_queue
              { zh with
                world := { zh.world with next_xid := zh.world.next_xid + 1 },
                sent_requests := zh.sent_requests ++ [e],
                outstanding_sync :=
                  if dc = FnPtr.SYNCHRONOUS_MARKER then zh.outstanding_sync + 1
                  else zh.outstanding_sync,
                to_send := zh.to_send ++ [f] } 0).2) ∧
        e.xid = zh.world.next_xid ∧ 0 ≤ e.xid ∧
        (f.buffer.getD []).take 4 = be32 e.xid ∧ f.curr_offset = 0 ∧
        (op.call zh req_rc req dc data sc).2.sent_requests = zh.sent_requests ++ [e] ∧
        List.countP (fun c => decide (c.xid = e.xid))
          (op.call zh req_rc req dc data sc).2.sent_requests = 1) ∧
    (zh.state = CONNECTED_STATE → zh.ref_counter = 0 →
      ∃ f, (f.buffer.getD []).take 4 = be32 zh.world.next_xid ∧ 0 ≤ zh.world.next_xid ∧
        zookeeper_close zh =
          ((adaptor_send_queue
              { zh with
                close_requested := 1,
                world := { zh.world with next_xid := zh.world.next_xid + 1 },
                to_send := zh.to_send ++ [f] } 3000).1,
            { destroy (adaptor_send_queue
                { zh with
                  close_requested := 1,
                  world := { zh.world with next_xid := zh.world.next_xid + 1 },
                  to_send := zh.to_send ++ [f] } 3000).2 with freed := true })) := by
  have henv2 : ∀ c ∈ calls, ∀ env, c.env = some env → env.next_fd ≠ -1 := by
    intro c hc env he hf
    apply henv c hc
    rw [he, Option.map_some', hf]
  obtain ⟨hf, _⟩ := pending_fresh_run ad calls zh0 zh henv2 ⟨hfresh, hopen⟩ hrun
  refine ⟨hf, ?_, ?_⟩
  · intro hst hrc
    obtain ⟨type, kind, hop, hsteps⟩ := Op_steps_eq op
    have heq := zoo_arequest_eq type kind _ (fun _ _ _ _ _ => rfl) zh req_rc req dc data sc hst
    rw [if_neg (not_lt.mpr hrc)] at heq
    have hcall := (hop zh req_rc req dc data sc).trans heq
    have hst2 := zoo_arequest_steps_eq type kind _ (fun _ _ _ _ _ => rfl) zh req_rc req dc
      data sc hst hrc
    rw [← hop zh req_rc req dc data sc, ← hsteps zh req_rc req dc data sc] at hst2
    obtain ⟨ts, w, hfl, _, _⟩ := flush_send_queue_fields
      { zh with
        world := { zh.world with next_xid := zh.world.next_xid + 1 },
        sent_requests := zh.sent_requests ++
          [create_completion_entry zh.world.next_xid kind dc data sc],
        outstanding_sync :=
          if dc = FnPtr.SYNCHRONOUS_MARKER then zh.outstanding_sync + 1
          else zh.outstanding_sync,
        to_send := zh.to_send ++
          [{ buffer := some
               (serialize_RequestHeader { xid := zh.world.next_xid, type := type } ++ req),
             len := 8 + req.length, curr_offset := 0 }] } 0
    have hsr : (op.call zh req_rc req dc data sc).2.sent_requests =
        zh.sent_requests ++ [create_completion_entry zh.world.next_xid kind dc data sc] := by
      rw [hcall]
      simp only []
      rw [hfl]
    refine ⟨create_completion_entry zh.world.next_xid kind dc data sc, _, hst2, hcall, rfl,
      hf.1, ?_, rfl, hsr, ?_⟩
    · simp only [Option.getD_some, serialize_RequestHeader, List.append_assoc]
      rw [List.take_left' (be32_length _)]
      rfl
    · rw [hsr]
      exact pending_fresh_count zh _ hf rfl
  · intro hst href
    refine ⟨_, ?_, hf.1, zookeeper_close_connected zh hst href⟩
    simp only [Option.getD_some, serialize_RequestHeader]
    rw [List.take_left' (be32_length _)]

/-- C17 (instance): after `zoo_aget` (xid 1) on the connected handle, `zoo_aexists`
registers the Stat entry with xid 2 behind the Data entry with xid 1 and then queues its
frame behind the frame of the first request: after its second statement the pending xids are
1 and 2 while `to_send` still holds one frame, after the third `to_send` holds two. -/
theorem completion_before_frame_witness :
    pending_fresh connected_handle ∧ connected_handle.close_requested = 0 ∧
    (∀ c ∈ [Call.request World.idle Op.aget 0 [0, 0, 0, 2, 47, 120, 0] (FnPtr.fn 70) 700
        sync_completion.zero], c.env.map World.next_fd ≠ some (-1)) ∧
    (run threaded_adaptor
      [Call.request World.idle Op.aget 0 [0, 0, 0, 2, 47, 120, 0] (FnPtr.fn 70) 700
        sync_completion.zero] connected_handle).map
      (fun z =>
        ((Op.aexists.call z 0 [0, 0, 0, 2, 47, 121, 0] (FnPtr.fn 71) 701
            sync_completion.zero).2.sent_requests.map (fun c => c.xid),
         (Op.aexists.call z 0 [0, 0, 0, 2, 47, 121, 0] (FnPtr.fn 71) 701
            sync_completion.zero).2.to_send.map (fun b => (b.buffer.getD []).take 4))) =
      some ([1, 2], [be32 1, be32 2]) ∧
    (run threaded_adaptor
      [Call.request World.idle Op.aget 0 [0, 0, 0, 2, 47, 120, 0] (FnPtr.fn 70) 700
        sync_completion.zero] connected_handle).map
      (fun z =>
        (Op.aexists.steps z 0 [0, 0, 0, 2, 47, 121, 0] (FnPtr.fn 71) 701
            sync_completion.zero).map
          (fun s => (s.sent_requests.map (fun c => c.xid),
            s.to_send.map (fun b => (b.buffer.getD []).take 4)))) =
      some [([1], [be32 1]), ([1, 2], [be32 1]), ([1, 2], [be32 1, be32 2]),
        ([1, 2], [be32 1, be32 2])] ∧
    pending_fresh ((run threaded_adaptor
      [Call.request World.idle Op.aget 0 [0, 0, 0, 2, 47, 120, 0] (FnPtr.fn 70) 700
        sync_completion.zero] connected_handle).getD connected_handle) := by
  have hfresh : pending_fresh connected_handle :=
    ⟨by decide, fun c hc => absurd hc (List.not_mem_nil _)⟩
  have henv : ∀ c ∈ [Call.request World.idle Op.aget 0 [0, 0, 0, 2, 47, 120, 0] (FnPtr.fn 70)
      700 sync_completion.zero], c.env.map World.next_fd ≠ some (-1) := by
    intro c hc
    rw [List.mem_singleton.mp hc]
    decide
  have h := completion_before_frame threaded_adaptor connected_handle
    ((run threaded_adaptor
      [Call.request World.idle Op.aget 0 [0, 0, 0, 2, 47, 120, 0] (FnPtr.fn 70) 700
        sync_completion.zero] connected_handle).getD connected_handle)
    [Call.request World.idle Op.aget 0 [0, 0, 0, 2, 47, 120, 0] (FnPtr.fn 70) 700
      sync_completion.zero]
    Op.aexists 0 [0, 0, 0, 2, 47, 121, 0] (FnPtr.fn 71) 701 sync_completion.zero
    hfresh (by decide) henv (by decide)
  exact ⟨hfresh, by decide, henv, by decide, by decide, h.1⟩

/-! ## The frame codec: bytes -/

theorem be32_lt (x : Int) : ∀ b ∈ be32 x, b < 256 := by
  intro b hb
  rw [be32_eq] at hb
  simp only [List.mem_cons, List.mem_singleton, List.not_mem_nil, or_false] at hb
  rcases hb with h | h | h | h <;> rw [h] <;> exact Nat.mod_lt _ (by decide)

theorem i32_of_be_four (a b c d : Nat) (ha : a < 256) (hb : b < 256) (hc : c < 256)
    (hd : d < 256) :
    i32_of_be [a, b, c, d] =
      if a < 128 then ((a * 16777216 + b * 65536 + c * 256 + d : Nat) : Int)
      else ((a * 16777216 + b * 65536 + c * 256 + d : Nat) : Int) - 4294967296 := by
  have ht : take_padded 4 [a, b, c, d] = [a, b, c, d] := take_padded_of_length 4 _ rfl
  have hv : be_value [a, b, c, d] = a * 16777216 + b * 65536 + c * 256 + d := by
    unfold be_value
    simp only [List.foldl_cons, List.foldl_nil, Nat.mod_eq_of_lt ha, Nat.mod_eq_of_lt hb,
      Nat.mod_eq_of_lt hc, Nat.mod_eq_of_lt hd]
    ring
  unfold i32_of_be
  simp only [ht, hv]
  split <;> split <;> first | rfl | omega

theorem i32_of_be_be32 (x : Int) (h0 : -2147483648 ≤ x) (h1 : x < 2147483648) :
    i32_of_be (be32 x) = x := by
  rw [be32_eq, i32_of_be_four _ _ _ _ (Nat.mod_lt _ (by decide)) (Nat.mod_lt _ (by decide))
    (Nat.mod_lt _ (by decide)) (Nat.mod_lt _ (by decide))]
  have hu : ((x % 4294967296).toNat : Int) = x % 4294967296 :=
    Int.toNat_of_nonneg (Int.emod_nonneg _ (by decide))
  generalize hn : (x % 4294967296).toNat = u at hu ⊢
  have hlt : u < 4294967296 := by
    have := Int.emod_lt_of_pos x (show (0 : Int) < 4294967296 from by decide)
    omega
  split <;> omega

theorem be32_i32_of_be_four (a b c d : Nat) (ha : a < 256) (hb : b < 256) (hc : c < 256)
    (hd : d < 256) : be32 (i32_of_be [a, b, c, d]) = [a, b, c, d] := by
  rw [be32_eq, i32_of_be_four a b c d ha hb hc hd]
  have key : ∀ v : Int, v = ((a * 16777216 + b * 65536 + c * 256 + d : Nat) : Int) ∨
      v = ((a * 16777216 + b * 65536 + c * 256 + d : Nat) : Int) - 4294967296 →
      (v % 4294967296).toNat = a * 16777216 + b * 65536 + c * 256 + d := by
    intro v hv
    have h1 : v % 4294967296 = ((a * 16777216 + b * 65536 + c * 256 + d : Nat) : Int) := by
      rcases hv with h | h <;> omega
    rw [h1]
    exact Int.toNat_natCast _
  have hk : ((if a < 128 then ((a * 16777216 + b * 65536 + c * 256 + d : Nat) : Int)
      else ((a * 16777216 + b * 65536 + c * 256 + d : Nat) : Int) - 4294967296) %
      4294967296).toNat = a * 16777216 + b * 65536 + c * 256 + d := by
    apply key
    split
    · exact Or.inl rfl
    · exact Or.inr rfl
  rw [hk]
  have e1 : (a * 16777216 + b * 65536 + c * 256 + d) / 16777216 % 256 = a := by omega
  have e2 : (a * 16777216 + b * 65536 + c * 256 + d) / 65536 % 256 = b := by omega
  have e3 : (a * 16777216 + b * 65536 + c * 256 + d) / 256 % 256 = c := by omega
  have e4 : (a * 16777216 + b * 65536 + c * 256 + d) % 256 = d := by omega
  rw [e1, e2, e3, e4]

theorem list_of_length_four (m : List Nat) (h : m.length = 4) :
    ∃ a b c d, m = [a, b, c, d] := by
  match m, h with
  | [a, b, c, d], _ => exact ⟨a, b, c, d, rfl⟩

theorem int_mem_int_of_mem (m : List Nat) (hl : m.length = 4) (hb : ∀ b ∈ m, b < 256) :
    int_mem (int_of_mem m) = m := by
  obtain ⟨a, b, c, d, rfl⟩ := list_of_length_four m hl
  unfold int_mem int_of_mem
  rw [take_padded_of_length 4 [a, b, c, d] rfl]
  simp only [List.reverse_cons, List.reverse_nil, List.nil_append, List.cons_append]
  rw [be32_i32_of_be_four d c b a (hb d (by simp)) (hb c (by simp)) (hb b (by simp))
    (hb a (by simp))]
  rfl

theorem int_of_mem_nonneg (m : List Nat) (hl : m.length = 4) (hb : ∀ b ∈ m, b < 256)
    (h3 : m.drop 3 = [0]) : 0 ≤ int_of_mem m := by
  obtain ⟨a, b, c, d, rfl⟩ := list_of_length_four m hl
  simp only [List.drop_succ_cons, List.drop_zero, List.cons.injEq, and_true] at h3
  unfold int_of_mem
  rw [take_padded_of_length 4 [a, b, c, d] rfl]
  simp only [List.reverse_cons, List.reverse_nil, List.nil_append, List.cons_append]
  rw [i32_of_be_four d c b a (hb d (by simp)) (hb c (by simp)) (hb b (by simp))
    (hb a (by simp)), h3]
  simp only [show (0 : Nat) < 128 from by decide, if_true]
  exact Int.natCast_nonneg _

theorem int_mem_length (x : Int) : (int_mem x).length = 4 := by
  unfold int_mem
  rw [List.length_reverse, be32_length]

theorem int_mem_lt (x : Int) : ∀ b ∈ int_mem x, b < 256 := by
  intro b hb
  unfold int_mem at hb
  exact be32_lt x b (List.mem_reverse.mp hb)

/-! ## The frame codec: the receiving side -/

theorem recv_chunked (w : World) (fd : Int) (n : Int) (hn : 1 ≤ n)
    (hc : chunked w.recv_results = true) :
    ((recv w fd n).1 = -1 ∧ (recv w fd n).2.1 = EAGAIN ∧
      stream_of (recv w fd n).2.2.2.recv_results = stream_of w.recv_results ∧
      chunked (recv w fd n).2.2.2.recv_results = true ∧
      (recv w fd n).2.2.2.recv_results.length ≤ w.recv_results.length ∧
      (w.recv_results ≠ [] →
        (recv w fd n).2.2.2.recv_results.length < w.recv_results.length)) ∨
    (∃ r : Nat, 1 ≤ r ∧ (r : Int) ≤ n ∧ r ≤ (stream_of w.recv_results).length ∧
      (recv w fd n).1 = r ∧ (recv w fd n).2.2.1 = (stream_of w.recv_results).take r ∧
      stream_of (recv w fd n).2.2.2.recv_results = (stream_of w.recv_results).drop r ∧
      chunked (recv w fd n).2.2.2.recv_results = true ∧
      (recv w fd n).2.2.2.recv_results.length ≤ w.recv_results.length) := by
  unfold recv
  cases hrs : w.recv_results with
  | nil =>
    left
    simp [stream_of, chunked, hrs]
  | cons a rest =>
    rw [hrs] at hc
    cases a with
    | error e =>
      left
      simp only [chunked, List.all_cons, Bool.and_eq_true, decide_eq_true_eq] at hc
      simp only [stream_of, List.flatMap_cons, List.nil_append, List.length_cons]
      exact ⟨trivial, hc.1, trivial, by simpa [chunked] using hc.2, by omega,
        fun _ => by omega⟩
    | data bs =>
      right
      simp only [chunked, List.all_cons, Bool.and_eq_true, decide_eq_true_eq] at hc
      obtain ⟨hbs, hrest⟩ := hc
      have hpos : 0 < bs.length := List.length_pos.mpr hbs
      have hnn : 1 ≤ n.toNat := by omega
      have hr : chunked rest = true := by simpa [chunked] using hrest
      dsimp only
      refine ⟨(bs.take n.toNat).length, ?_, ?_, ?_, rfl, ?_, ?_, ?_, ?_⟩
      · rw [List.length_take]; omega
      · rw [List.length_take]; omega
      · simp only [stream_of, List.flatMap_cons, List.length_append, List.length_take]
        omega
      · simp only [stream_of, List.flatMap_cons, List.length_take]
        rw [List.take_append_of_le_length (by omega)]
        by_cases hle : n.toNat ≤ bs.length
        · rw [Nat.min_eq_left hle]
        · rw [Nat.min_eq_right (by omega), List.take_of_length_le (by omega), List.take_length]
      · simp only [stream_of, List.length_take]
        by_cases hd : List.drop n.toNat bs = []
        · rw [if_pos hd]
          have hle : bs.length ≤ n.toNat := List.drop_eq_nil_iff.mp hd
          rw [Nat.min_eq_right hle, List.flatMap_cons,
            List.drop_append_of_le_length (le_refl _), List.drop_length, List.nil_append]
        · rw [if_neg hd]
          have hlt : n.toNat < bs.length := by
            by_contra hcon
            exact hd (List.drop_eq_nil_iff.mpr (by omega))
          rw [Nat.min_eq_left (le_of_lt hlt), List.flatMap_cons, List.flatMap_cons,
            List.drop_append_of_le_length (le_of_lt hlt)]
      · by_cases hd : List.drop n.toNat bs = []
        · rw [if_pos hd]
          exact hr
        · rw [if_neg hd]
          simp only [chunked, List.all_cons, Bool.and_eq_true, decide_eq_true_eq]
          exact ⟨hd, hrest⟩
      · by_cases hd : List.drop n.toNat bs = []
        · rw [if_pos hd]
          simp
        · rw [if_neg hd]
          simp

theorem wire_drop_payload (B : List Nat) (k : Nat) (hk : 4 ≤ k) :
    (be32 B.length ++ B).drop k = B.drop (k - 4) := by
  rw [List.drop_append_eq_append_drop, be32_length, List.drop_of_length_le
    (by rw [be32_length]; exact hk), List.nil_append]

theorem mem_write_payload (B : List Nat) (j r : Nat) (hj : j + r ≤ B.length) :
    mem_write (B.take j ++ List.replicate (B.length - j) 0) j ((B.drop j).take r) =
      B.take (j + r) ++ List.replicate (B.length - (j + r)) 0 := by
  have hl : (B.take j).length = j := by rw [List.length_take]; omega
  have hg : ((B.drop j).take r).length = r := by
    rw [List.length_take, List.length_drop]; omega
  have h1 : take_padded j (B.take j ++ List.replicate (B.length - j) 0) = B.take j := by
    unfold take_padded
    rw [List.append_assoc]
    exact List.take_left' hl
  have h2 : (B.take j ++ List.replicate (B.length - j) 0).drop (j + r) =
      List.replicate (B.length - (j + r)) 0 := by
    have : (B.take j ++ List.replicate (B.length - j) 0).drop ((B.take j).length + r) =
        (List.replicate (B.length - j) 0).drop r := List.drop_append r
    rw [hl] at this
    rw [this, List.drop_replicate]
    congr 1
    omega
  unfold mem_write
  rw [h1, hg, h2, List.take_add]

theorem recv_buffer_payload_step (B : List Nat) (hB2 : B.length ≤ 2147483643) (w : World)
    (fd : Int) (buff : buffer_list_t) (k : Nat) (hk4 : 4 ≤ k) (hk : k < B.length + 4)
    (hinv : receiving B k buff)
    (hs : stream_of w.recv_results = (be32 B.length ++ B).drop k)
    (hc : chunked w.recv_results = true) :
    ∃ k2, k ≤ k2 ∧ k2 ≤ B.length + 4 ∧
      receiving B k2 (recv_buffer_payload w fd buff).2.1 ∧
      stream_of (recv_buffer_payload w fd buff).2.2.recv_results =
        (be32 B.length ++ B).drop k2 ∧
      chunked (recv_buffer_payload w fd buff).2.2.recv_results = true ∧
      (recv_buffer_payload w fd buff).1 = (if k2 = B.length + 4 then 1 else 0) ∧
      (recv_buffer_payload w fd buff).2.2.recv_results.length ≤ w.recv_results.length ∧
      (k2 = k → w.recv_results ≠ [] →
        (recv_buffer_payload w fd buff).2.2.recv_results.length <
          w.recv_results.length) := by
  obtain ⟨hcur, _, hpay⟩ := hinv
  obtain ⟨hlen, hbuf⟩ := hpay hk4
  have hn : buff.len - (buff.curr_offset - 4) = ((B.length - (k - 4) : Nat) : Int) := by
    rw [hlen, hcur]; omega
  have hrc := recv_chunked w fd (buff.len - (buff.curr_offset - 4)) (by rw [hn]; omega) hc
  unfold recv_buffer_payload
  rw [hbuf]
  simp only []
  rcases hr : recv w fd (buff.len - (buff.curr_offset - 4)) with ⟨rc, errno, bytes, w1⟩
  rw [hr] at hrc
  dsimp only at hrc ⊢
  rcases hrc with ⟨h1, h2, h3, h4, h5, h6⟩ | ⟨r, r1, r2, r3, h1, h2, h3, h4, h5⟩
  · refine ⟨k, le_refl _, le_of_lt hk, ?_⟩
    subst h1
    rw [if_neg (by decide), if_pos rfl, if_pos h2]
    simp only []
    refine ⟨⟨hcur, fun h => absurd hk4 (by omega), fun _ => ⟨hlen, hbuf⟩⟩, by rw [h3, hs], h4,
      ?_, h5, fun _ => h6⟩
    rw [hcur, hlen, if_neg (by omega), if_neg (by omega)]
  · have hrn : k + r ≤ B.length + 4 := by
      rw [hn] at r2; omega
    refine ⟨k + r, by omega, hrn, ?_⟩
    subst h1
    rw [if_neg (by omega), if_neg (by omega)]
    simp only []
    rw [int_wrap_id (buff.curr_offset + (r : Int)) (by rw [hcur]; omega) (by rw [hcur]; omega)]
    have hoff : (buff.curr_offset - 4).toNat = k - 4 := by rw [hcur]; omega
    have hbytes : bytes = (B.drop (k - 4)).take r := by
      rw [h2, hs, wire_drop_payload B k hk4]
    refine ⟨⟨by rw [hcur]; push_cast; ring, fun h => absurd hk4 (by omega),
      fun _ => ⟨hlen, ?_⟩⟩, ?_, h4, ?_, h5, fun h => absurd h (by omega)⟩
    · rw [hoff, hbytes, mem_write_payload B (k - 4) r (by omega),
        show k - 4 + r = k + r - 4 from by omega]
    · rw [h3, hs, List.drop_drop, Nat.add_comm]
    · rw [hcur, hlen]
      by_cases hfin : k + r = B.length + 4
      · rw [if_pos hfin, if_pos (by omega)]
      · rw [if_neg hfin, if_neg (by omega)]

theorem mem_write_header (H S : List Nat) (hH : H.length = 4) (k r : Nat)
    (hkr : k + r ≤ 4) :
    mem_write (H.take k ++ S.drop k) k ((H.drop k).take r) =
      H.take (k + r) ++ S.drop (k + r) := by
  have hl : (H.take k).length = k := by rw [List.length_take]; omega
  have hg : ((H.drop k).take r).length = r := by
    rw [List.length_take, List.length_drop]; omega
  have h1 : take_padded k (H.take k ++ S.drop k) = H.take k := by
    unfold take_padded
    rw [List.append_assoc]
    exact List.take_left' hl
  have h2 : (H.take k ++ S.drop k).drop (k + r) = S.drop (k + r) := by
    have : (H.take k ++ S.drop k).drop ((H.take k).length + r) = (S.drop k).drop r :=
      List.drop_append r
    rw [hl] at this
    rw [this, List.drop_drop, Nat.add_comm]
  unfold mem_write
  rw [h1, hg, h2, List.take_add]

theorem wire_take_header (B : List Nat) (k r : Nat) (hkr : k + r ≤ 4) :
    ((be32 B.length ++ B).drop k).take r = ((be32 B.length).drop k).take r := by
  rw [List.drop_append_of_le_length (by rw [be32_length]; omega),
    List.take_append_of_le_length (by rw [List.length_drop, be32_length]; omega)]

theorem header_mem_facts (B : List Nat) (j : Nat) (hj : j ≤ 4) :
    ((be32 B.length).take j ++ (int_mem SIZEOF_BUFFER_LIST).drop j).length = 4 ∧
    (∀ b ∈ (be32 B.length).take j ++ (int_mem SIZEOF_BUFFER_LIST).drop j, b < 256) ∧
    (j < 4 → ((be32 B.length).take j ++ (int_mem SIZEOF_BUFFER_LIST).drop j).drop 3 = [0]) := by
  have hS : int_mem SIZEOF_BUFFER_LIST = [24, 0, 0, 0] := by decide
  refine ⟨?_, ?_, ?_⟩
  · rw [List.length_append, List.length_take, List.length_drop, be32_length, int_mem_length]
    omega
  · intro b hb
    rcases List.mem_append.mp hb with h | h
    · exact be32_lt _ b (List.mem_of_mem_take h)
    · exact int_mem_lt _ b (List.mem_of_mem_drop h)
  · intro hj4
    have hl : ((be32 B.length).take j).length = j := by
      rw [List.length_take, be32_length]; omega
    rw [List.drop_append_eq_append_drop, hl, List.drop_of_length_le (by rw [hl]; omega),
      List.nil_append, List.drop_drop, hS]
    have : j + (3 - j) = 3 := by omega
    rw [this]
    rfl

theorem recv_buffer_step (B : List Nat) (hB1 : 1 ≤ B.length) (hB2 : B.length ≤ 2147483643)
    (w : World) (fd : Int) (buff : buffer_list_t) (k : Nat) (hk : k < B.length + 4)
    (hinv : receiving B k buff)
    (hs : stream_of w.recv_results = (be32 B.length ++ B).drop k)
    (hc : chunked w.recv_results = true) :
    ∃ k2, k ≤ k2 ∧ k2 ≤ B.length + 4 ∧
      receiving B k2 (recv_buffer w fd buff).2.1 ∧
      stream_of (recv_buffer w fd buff).2.2.recv_results = (be32 B.length ++ B).drop k2 ∧
      chunked (recv_buffer w fd buff).2.2.recv_results = true ∧
      (recv_buffer w fd buff).1 = (if k2 = B.length + 4 then 1 else 0) ∧
      (recv_buffer w fd buff).2.2.recv_results.length ≤ w.recv_results.length ∧
      (k2 = k → w.recv_results ≠ [] →
        (recv_buffer w fd buff).2.2.recv_results.length < w.recv_results.length) := by
  by_cases hk4 : 4 ≤ k
  · have hcur := hinv.1
    unfold recv_buffer
    rw [if_neg (by rw [hcur]; omega)]
    exact recv_buffer_payload_step B hB2 w fd buff k hk4 hk hinv hs hc
  · have hk3 : k < 4 := by omega
    obtain ⟨hcur, hhead, _⟩ := hinv
    obtain ⟨hnone, hmem⟩ := hhead hk3
    have hrc := recv_chunked w fd (4 - buff.curr_offset) (by rw [hcur]; omega) hc
    unfold recv_buffer
    rw [if_pos (by rw [hcur]; omega)]
    rcases hr : recv w fd (4 - buff.curr_offset) with ⟨rc, errno, bytes, w1⟩
    rw [hr] at hrc
    dsimp only at hrc ⊢
    rcases hrc with ⟨h1, h2, h3, h4, h5, h6⟩ | ⟨r, r1, r2, r3, h1, h2, h3, h4, h5⟩
    · subst h1
      refine ⟨k, le_refl _, le_of_lt hk, ?_⟩
      rw [if_neg (by decide), if_pos rfl, if_pos h2, if_neg (by omega)]
      exact ⟨⟨hcur, fun _ => ⟨hnone, hmem⟩, fun h => absurd h hk4⟩, by rw [h3, hs], h4, rfl,
        h5, fun _ => h6⟩
    · subst h1
      have hkr : k + r ≤ 4 := by rw [hcur] at r2; omega
      rw [if_neg (by omega), if_neg (by omega)]
      have hbytes : bytes = ((be32 B.length).drop k).take r := by
        rw [h2, hs, wire_take_header B k r hkr]
      have hoff : buff.curr_offset.toNat = k := by rw [hcur]; omega
      have hM1 : mem_write (int_mem buff.len) buff.curr_offset.toNat bytes =
          (be32 B.length).take (k + r) ++ (int_mem SIZEOF_BUFFER_LIST).drop (k + r) := by
        rw [hmem, hoff, hbytes, mem_write_header _ _ (be32_length _) k r hkr]
      obtain ⟨f1, f2, f3⟩ := header_mem_facts B (k + r) hkr
      have hround : int_mem (int_of_mem
          (mem_write (int_mem buff.len) buff.curr_offset.toNat bytes)) =
          (be32 B.length).take (k + r) ++ (int_mem SIZEOF_BUFFER_LIST).drop (k + r) := by
        rw [hM1]
        exact int_mem_int_of_mem _ f1 f2
      by_cases hfull : k + r = 4
      · have hc4 : buff.curr_offset + (r : Int) = 4 := by rw [hcur]; omega
        rw [if_pos hc4]
        have hlen : i32_of_be (int_mem (int_of_mem
            (mem_write (int_mem buff.len) buff.curr_offset.toNat bytes))) = B.length := by
          rw [hround, hfull, List.take_of_length_le (by rw [be32_length]),
            List.drop_of_length_le (by rw [int_mem_length]), List.append_nil]
          exact i32_of_be_be32 _ (by omega) (by omega)
        rw [hlen]
        rw [if_pos (by omega)]
        have hinv4 : receiving B 4
            { buffer := some (List.replicate (B.length : Int).toNat 0), len := B.length,
              curr_offset := buff.curr_offset + (r : Int) } := by
          refine ⟨hc4, fun h => absurd h (by decide), fun _ => ⟨rfl, ?_⟩⟩
          simp
        obtain ⟨k2, p1, p2, p3, p4, p5, p6, p7, _⟩ := recv_buffer_payload_step B hB2 w1 fd _ 4
          (le_refl _) (by omega) hinv4 (by rw [h3, hs, List.drop_drop, ← hfull, Nat.add_comm]) h4
        exact ⟨k2, by omega, p2, p3, p4, p5, p6, le_trans p7 h5,
          fun h => absurd h (by omega)⟩
      · have hc4 : ¬ (buff.curr_offset + (r : Int) = 4) := by rw [hcur]; omega
        rw [if_neg hc4]
        refine ⟨k + r, by omega, by omega, ?_⟩
        unfold recv_buffer_payload
        simp only [hnone]
        have hnn : 0 ≤ int_of_mem
            (mem_write (int_mem buff.len) buff.curr_offset.toNat bytes) := by
          rw [hM1]
          exact int_of_mem_nonneg _ f1 f2 (f3 (by omega))
        rw [if_neg (by omega), if_neg (by omega)]
        refine ⟨⟨by rw [hcur]; push_cast; ring, fun _ => ⟨rfl, hround⟩,
          fun h => absurd h (by omega)⟩, ?_, h4, rfl, h5, fun h => absurd h (by omega)⟩
        rw [h3, hs, List.drop_drop, Nat.add_comm]

theorem receiving_complete (B : List Nat) (buff : buffer_list_t)
    (h : receiving B (B.length + 4) buff) :
    buff = { buffer := some B, len := B.length, curr_offset := (B.length : Int) + 4 } := by
  obtain ⟨h1, _, h3⟩ := h
  obtain ⟨h4, h5⟩ := h3 (by omega)
  cases buff with
  | mk buffer len curr_offset =>
    simp only at h1 h4 h5
    rw [h1, h4, h5]
    simp

theorem recv_until_complete (B : List Nat) (hB1 : 1 ≤ B.length)
    (hB2 : B.length ≤ 2147483643) (fd : Int) :
    ∀ (n : Nat) (w : World) (buff : buffer_list_t) (k : Nat), k < B.length + 4 →
      receiving B k buff → stream_of w.recv_results = (be32 B.length ++ B).drop k →
      chunked w.recv_results = true → w.recv_results.length + (B.length + 4 - k) < n →
      ∃ w2, recv_until n w fd buff =
        (1, { buffer := some B, len := B.length, curr_offset := (B.length : Int) + 4 }, w2) := by
  intro n
  induction n with
  | zero => intro w buff k _ _ _ _ hn; omega
  | succ n ih =>
    intro w buff k hk hinv hs hc hn
    obtain ⟨k2, p1, p2, p3, p4, p5, p6, p7, p8⟩ :=
      recv_buffer_step B hB1 hB2 w fd buff k hk hinv hs hc
    rw [recv_until]
    rcases hr : recv_buffer w fd buff with ⟨rc, buff1, w1⟩
    rw [hr] at p3 p4 p5 p6 p7 p8
    dsimp only at p3 p4 p5 p6 p7 p8 ⊢
    by_cases hfin : k2 = B.length + 4
    · rw [if_pos hfin] at p6
      rw [p6, if_neg (by decide)]
      rw [hfin] at p3
      exact ⟨w1, by rw [receiving_complete B buff1 p3]⟩
    · rw [if_neg hfin] at p6
      rw [p6, if_pos rfl]
      have hne : w.recv_results ≠ [] := by
        intro he
        rw [he] at hs
        have hl := congrArg List.length hs
        simp only [stream_of, List.flatMap_nil, List.length_nil, List.length_drop,
          List.length_append, be32_length] at hl
        omega
      apply ih w1 buff1 k2 (by omega) p3 p4 p5
      by_cases hkk : k2 = k
      · have := p8 hkk hne
        omega
      · omega

/-! ## The frame codec: the sending side -/

theorem wire_bytes_append (l1 l2 : List Syscall) :
    wire_bytes (l1 ++ l2) = wire_bytes l1 ++ wire_bytes l2 := by
  unfold wire_bytes
  exact List.flatMap_append _ _ _

theorem send_wire (w : World) (fd : Int) (bytes : List Nat) :
    ((send w fd bytes).1 = -1 ∧ wire_bytes (send w fd bytes).2.2.log = wire_bytes w.log) ∨
    (∃ m : Nat, m ≤ bytes.length ∧ (send w fd bytes).1 = m ∧
      wire_bytes (send w fd bytes).2.2.log = wire_bytes w.log ++ bytes.take m) := by
  unfold send
  split
  · exact Or.inl ⟨rfl, rfl⟩
  · exact Or.inl ⟨rfl, rfl⟩
  · rename_i n rest _
    refine Or.inr ⟨(bytes.take n).length, ?_, rfl, ?_⟩
    · rw [List.length_take]; omega
    · simp only [wire_bytes_append]
      simp only [wire_bytes, List.flatMap_cons, List.flatMap_nil, List.append_nil,
        List.length_take]
      congr 1
      by_cases h : n ≤ bytes.length
      · rw [Nat.min_eq_left h]
      · rw [Nat.min_eq_right (by omega), List.take_of_length_le (by omega), List.take_length]

theorem send_buffer_payload_step (B : List Nat) (base : List Nat) (w : World) (fd : Int)
    (k : Nat) (hk : k ≤ B.length + 4)
    (hw : wire_bytes w.log = base ++ (be32 B.length ++ B).take k) :
    ∃ k2, k ≤ k2 ∧ k2 ≤ B.length + 4 ∧
      (send_buffer_payload w fd
        { buffer := some B, len := B.length, curr_offset := k }).2.1 =
        { buffer := some B, len := B.length, curr_offset := k2 } ∧
      wire_bytes (send_buffer_payload w fd
        { buffer := some B, len := B.length, curr_offset := k }).2.2.log =
        base ++ (be32 B.length ++ B).take k2 ∧
      ((send_buffer_payload w fd
        { buffer := some B, len := B.length, curr_offset := k }).1 = 1 →
        k2 = B.length + 4) := by
  unfold send_buffer_payload
  simp only [Option.getD_some]
  by_cases hk4 : 4 ≤ k
  · rw [if_pos (by omega)]
    have hoff : ((k : Int) - 4).toNat = k - 4 := by omega
    have hlen : ((B.length : Int) - ((k : Int) - 4)).toNat = B.length - (k - 4) := by omega
    rw [hoff, hlen]
    have htake : (B.drop (k - 4)).take (B.length - (k - 4)) = B.drop (k - 4) :=
      List.take_of_length_le (by rw [List.length_drop])
    simp only [htake]
    have hsw := send_wire w fd (B.drop (k - 4))
    rcases hr : send w fd (B.drop (k - 4)) with ⟨rc, errno, w1⟩
    rw [hr] at hsw
    dsimp only at hsw ⊢
    rcases hsw with ⟨h1, h2⟩ | ⟨m, m1, h1, h2⟩
    · subst h1
      rw [if_pos rfl]
      refine ⟨k, le_refl _, hk, ?_⟩
      split
      · exact ⟨rfl, by rw [h2, hw], fun h => absurd (show (-1 : Int) = 1 from h) (by decide)⟩
      · refine ⟨rfl, by rw [h2, hw], fun h => ?_⟩
        by_cases hfin : (k : Int) = B.length + 4
        · omega
        · rw [if_neg hfin] at h
          exact absurd (show (0 : Int) = 1 from h) (by decide)
    · subst h1
      rw [List.length_drop] at m1
      rw [if_neg (by omega)]
      refine ⟨k + m, by omega, by omega, ?_, ?_, fun h => ?_⟩
      · simp only [Nat.cast_add]
      · rw [h2, hw, List.append_assoc, ← wire_drop_payload B k hk4, ← List.take_add]
      · by_cases hfin : (k : Int) + m = B.length + 4
        · omega
        · simp only [] at h
          rw [if_neg hfin] at h
          exact absurd (show (0 : Int) = 1 from h) (by decide)
  · rw [if_neg (by omega)]
    refine ⟨k, le_refl _, hk, rfl, hw, fun h => ?_⟩
    simp only [] at h
    rw [if_neg (by omega)] at h
    exact absurd (show (0 : Int) = 1 from h) (by decide)

theorem send_buffer_step (B : List Nat) (base : List Nat) (w : World) (fd : Int)
    (k : Nat) (hk : k ≤ B.length + 4)
    (hw : wire_bytes w.log = base ++ (be32 B.length ++ B).take k) :
    ∃ k2, k ≤ k2 ∧ k2 ≤ B.length + 4 ∧
      (send_buffer w fd { buffer := some B, len := B.length, curr_offset := k }).2.1 =
        { buffer := some B, len := B.length, curr_offset := k2 } ∧
      wire_bytes (send_buffer w fd
        { buffer := some B, len := B.length, curr_offset := k }).2.2.log =
        base ++ (be32 B.length ++ B).take k2 ∧
      ((send_buffer w fd { buffer := some B, len := B.length, curr_offset := k }).1 = 1 →
        k2 = B.length + 4) := by
  unfold send_buffer
  by_cases hk4 : 4 ≤ k
  · rw [if_neg (by simp only []; omega)]
    exact send_buffer_payload_step B base w fd k hk hw
  · rw [if_pos (by simp only []; omega)]
    simp only [Int.toNat_ofNat]
    have hsw := send_wire w fd ((be32 B.length).drop k)
    rcases hr : send w fd ((be32 B.length).drop k) with ⟨rc, errno, w1⟩
    rw [hr] at hsw
    dsimp only at hsw ⊢
    rcases hsw with ⟨h1, h2⟩ | ⟨m, m1, h1, h2⟩
    · subst h1
      rw [if_pos rfl]
      refine ⟨k, le_refl _, hk, ?_⟩
      split
      · exact ⟨rfl, by rw [h2, hw], fun h => absurd (show (-1 : Int) = 1 from h) (by decide)⟩
      · exact ⟨rfl, by rw [h2, hw], fun h => absurd (show (0 : Int) = 1 from h) (by decide)⟩
    · subst h1
      rw [List.length_drop, be32_length] at m1
      rw [if_neg (by omega)]
      have hw1 : wire_bytes w1.log = base ++ (be32 B.length ++ B).take (k + m) := by
        rw [h2, hw, List.append_assoc, ← wire_take_header B k m (by omega), ← List.take_add]
      obtain ⟨k2, p1, p2, p3, p4, p5⟩ :=
        send_buffer_payload_step B base w1 fd (k + m) (by omega) hw1
      have hcast : ((k : Int) + (m : Int)) = ((k + m : Nat) : Int) := by push_cast; rfl
      rw [hcast]
      exact ⟨k2, by omega, p2, p3, p4, p5⟩

theorem send_until_wire (B : List Nat) (base : List Nat) (fd : Int) :
    ∀ (n : Nat) (w : World) (k : Nat) (b : buffer_list_t) (w2 : World), k ≤ B.length + 4 →
      wire_bytes w.log = base ++ (be32 B.length ++ B).take k →
      send_until n w fd { buffer := some B, len := B.length, curr_offset := k } = (1, b, w2) →
      wire_bytes w2.log = base ++ (be32 B.length ++ B) ∧
      b = { buffer := some B, len := B.length, curr_offset := (B.length : Int) + 4 } := by
  intro n
  induction n with
  | zero =>
    intro w k b w2 _ _ h
    rw [send_until] at h
    exact absurd (show (0 : Int) = 1 from congrArg Prod.fst h) (by decide)
  | succ n ih =>
    intro w k b w2 hk hw h
    obtain ⟨k2, p1, p2, p3, p4, p5⟩ := send_buffer_step B base w fd k hk hw
    rw [send_until] at h
    rcases hr : send_buffer w fd { buffer := some B, len := B.length, curr_offset := k }
      with ⟨rc, buff1, w1⟩
    rw [hr] at p3 p4 p5 h
    dsimp only at p3 p4 p5 h
    by_cases h0 : rc = 0
    · rw [if_pos h0, p3] at h
      exact ih w1 k2 b w2 p2 p4 h
    · rw [if_neg h0] at h
      have hrc : rc = 1 := congrArg Prod.fst h
      have hb : buff1 = b := congrArg (fun x => x.2.1) h
      have hw2 : w1 = w2 := congrArg (fun x => x.2.2) h
      have hfin := p5 hrc
      rw [← hw2, ← hb, p4, p3, hfin, List.take_of_length_le
        (by rw [List.length_append, be32_length]; omega)]
      exact ⟨rfl, by simp⟩

/-! ## The frame codec: round trip -/

theorem long_payload_length : long_payload.length = 2147483644 := by
  unfold long_payload
  exact List.length_replicate _ _

theorem recv_long_header :
    recv long_frame_world 3 (4 - (allocate_buffer none 0).curr_offset) =
      (4, 0, [127, 255, 255, 252],
        { World.idle with recv_results := [RecvResult.data long_payload] }) := by
  rfl

theorem recv_long_payload :
    recv { World.idle with recv_results := [RecvResult.data long_payload] } 3 2147483644 =
      (2147483644, 0, long_payload, World.idle) := by
  have h1 : long_payload.take 2147483644 = long_payload := by
    apply List.take_of_length_le
    rw [long_payload_length]
  have h2 : long_payload.drop 2147483644 = [] := by
    apply List.drop_of_length_le
    rw [long_payload_length]
  unfold recv
  simp only [show (2147483644 : Int).toNat = 2147483644 from rfl, h1, h2, if_true,
    long_payload_length]
  rfl

theorem mem_write_long :
    mem_write (List.replicate 2147483644 0) 0 long_payload = long_payload := by
  unfold mem_write take_padded
  rw [List.take_zero, List.nil_append, Nat.zero_add, long_payload_length,
    List.drop_of_length_le (by rw [List.length_replicate]), List.append_nil]

theorem recv_buffer_payload_long :
    recv_buffer_payload { World.idle with recv_results := [RecvResult.data long_payload] } 3
        { buffer := some (List.replicate 2147483644 0), len := 2147483644, curr_offset := 4 } =
      (0, long_frame_received, World.idle) := by
  unfold recv_buffer_payload
  simp only [show (2147483644 : Int) - (4 - 4) = 2147483644 from by decide, recv_long_payload,
    show ¬ ((2147483644 : Int) = 0) from by decide,
    show ¬ ((2147483644 : Int) = -1) from by decide, if_false,
    show ((4 : Int) - 4).toNat = 0 from rfl, mem_write_long,
    show int_wrap (4 + 2147483644) = -2147483648 from by decide,
    show ¬ ((-2147483648 : Int) = 2147483644 + 4) from by decide]
  rfl

theorem recv_buffer_long_first :
    recv_buffer long_frame_world 3 (allocate_buffer none 0) =
      (0, long_frame_received, World.idle) := by
  unfold recv_buffer
  rw [if_pos (by decide), recv_long_header]
  simp only [show ¬ ((4 : Int) = 0) from by decide, show ¬ ((4 : Int) = -1) from by decide,
    if_false]
  have hf : (if ((allocate_buffer none 0).curr_offset + 4 : Int) = 4 then
        ({ buffer :=
            if 0 ≤ i32_of_be (int_mem (int_of_mem
                (mem_write (int_mem (allocate_buffer none 0).len)
                  (allocate_buffer none 0).curr_offset.toNat [127, 255, 255, 252]))) then
              some (List.replicate (i32_of_be (int_mem (int_of_mem
                (mem_write (int_mem (allocate_buffer none 0).len)
                  (allocate_buffer none 0).curr_offset.toNat
                  [127, 255, 255, 252])))).toNat 0)
            else none,
           len := i32_of_be (int_mem (int_of_mem
             (mem_write (int_mem (allocate_buffer none 0).len)
               (allocate_buffer none 0).curr_offset.toNat [127, 255, 255, 252]))),
           curr_offset := (allocate_buffer none 0).curr_offset + 4 } : buffer_list_t)
      else
        { buffer := (allocate_buffer none 0).buffer,
          len := int_of_mem (mem_write (int_mem (allocate_buffer none 0).len)
            (allocate_buffer none 0).curr_offset.toNat [127, 255, 255, 252]),
          curr_offset := (allocate_buffer none 0).curr_offset + 4 }) =
      { buffer := some (List.replicate 2147483644 0), len := 2147483644, curr_offset := 4 } :=
    rfl
  rw [hf]
  exact recv_buffer_payload_long

theorem recv_buffer_long_again :
    recv_buffer World.idle 3 long_frame_received = (0, long_frame_received, World.idle) := by
  rfl

theorem recv_until_long_again (n : Nat) :
    recv_until n World.idle 3 long_frame_received = (0, long_frame_received, World.idle) := by
  induction n with
  | zero => rfl
  | succ n ih =>
    rw [recv_until, recv_buffer_long_again]
    simp only [if_true]
    exact ih

theorem recv_until_long (n : Nat) :
    recv_until n long_frame_world 3 (allocate_buffer none 0) =
      (0, if n = 0 then allocate_buffer none 0 else long_frame_received,
        if n = 0 then long_frame_world else World.idle) := by
  cases n with
  | zero => rfl
  | succ n =>
    rw [recv_until, recv_buffer_long_first]
    simp only [if_true, Nat.succ_ne_zero, if_false, Nat.add_eq_zero, one_ne_zero, and_false]
    exact recv_until_long_again n

/-- C15 (counterexample): the two ends of the claimed range.  A payload of `2^31 - 4` bytes:
the socket delivers its frame, the length prefix and then the payload, and the first
`recv_buffer` call on a fresh frame stores all of it but returns 0, not 1, because the
cursor, an `int`, has wrapped to `-2^31` where `len + 4` is `2^31`; there is nothing more to
read and every further call returns 0 and leaves the frame as it is, so that the repeated
calls never end with the result 1.  And the empty payload: `allocate_buffer` gives the frame
that holds it the length `sizeof(*buffer)` = 24, and `send_buffer` writes the length prefix 24
and returns 0, since the frame is complete only after 24 more bytes; the receiver that is
fed this prefix waits for 24 payload bytes, and whatever 24 bytes follow it ends with the
length 24, not with the length 0 and the empty payload. -/
theorem frame_does_not_round_trip :
    long_payload.length = 2147483644 ∧ long_payload.length ≤ 2147483647 ∧
    stream_of long_frame_world.recv_results = be32 long_payload.length ++ long_payload ∧
    recv_buffer long_frame_world 3 (allocate_buffer none 0) =
      (0, long_frame_received, World.idle) ∧
    long_frame_received.buffer = some long_payload ∧
    long_frame_received.curr_offset = -2147483648 ∧
    long_frame_received.len + 4 = 2147483648 ∧
    recv_buffer World.idle 3 long_frame_received = (0, long_frame_received, World.idle) ∧
    (∀ n, (recv_until n long_frame_world 3 (allocate_buffer none 0)).1 = 0) ∧
    allocate_buffer (some []) (([] : List Nat).length : Int) =
      { buffer := some [], len := 24, curr_offset := 0 } ∧
    (send_until 6 { World.idle with send_results := [SendResult.accept 4] } 3
      (allocate_buffer (some []) 0)).1 = 0 ∧
    wire_bytes (send_until 6 { World.idle with send_results := [SendResult.accept 4] } 3
      (allocate_buffer (some []) 0)).2.2.log = [0, 0, 0, 24] ∧
    (recv_until 6
      { World.idle with
        recv_results := [RecvResult.data [0, 0, 0, 24], RecvResult.data (List.replicate 24 7)] }
      3 (allocate_buffer none 0)).2.1 =
      { buffer := some (List.replicate 24 7), len := 24, curr_offset := 28 } := by
  refine ⟨long_payload_length, by rw [long_payload_length]; decide, ?_, recv_buffer_long_first,
    rfl, rfl, by decide, recv_buffer_long_again, fun n => ?_, by decide, by decide, by decide,
    by decide⟩
  · rw [long_payload_length]
    simp only [long_frame_world, stream_of, List.flatMap_cons, List.flatMap_nil,
      List.append_nil]
    rfl
  · rw [recv_until_long]

theorem allocate_buffer_payload (B : List Nat) (hB1 : 1 ≤ B.length) :
    allocate_buffer (some B) B.length =
      { buffer := some B, len := B.length, curr_offset := ((0 : Nat) : Int) } := by
  unfold allocate_buffer
  rw [if_neg (by omega)]
  rfl

theorem receiving_fresh (B : List Nat) : receiving B 0 (allocate_buffer none 0) := by
  refine ⟨rfl, fun _ => ⟨rfl, ?_⟩, fun h => absurd h (by decide)⟩
  simp [allocate_buffer]

/-- C15 (amended): for every payload `B` with `1 <= |B| <= 2^31 - 5`.  Sending: however the
socket accepts the bytes (in chunks, with "would block" answers in between), when the repeated
calls of `send_buffer` on the frame `allocate_buffer(B, |B|)` end with the result 1, the bytes
put on the wire by these calls are the big-endian length `|B|` followed by `B`.  Receiving:
however the socket delivers these bytes (in non-empty chunks, with "would block" answers in
between), repeated calls of `recv_buffer` on a fresh frame `allocate_buffer(0, 0)` end, after
at most one call per answer and per byte, with the result 1 and the frame holding the length
`|B|` and a payload buffer equal to `B`. -/
theorem frame_round_trip (B : List Nat) (hB1 : 1 ≤ B.length)
    (hB2 : B.length ≤ 2147483643) :
    (∀ (n : Nat) (ws : World) (fd : Int) (b : buffer_list_t) (ws2 : World),
      send_until n ws fd (allocate_buffer (some B) B.length) = (1, b, ws2) →
      wire_bytes ws2.log = wire_bytes ws.log ++ (be32 B.length ++ B)) ∧
    (∀ (wr : World) (fd : Int) (n : Nat), chunked wr.recv_results = true →
      stream_of wr.recv_results = be32 B.length ++ B →
      wr.recv_results.length + B.length + 4 < n →
      ∃ wr2, recv_until n wr fd (allocate_buffer none 0) =
        (1, { buffer := some B, len := B.length, curr_offset := (B.length : Int) + 4 },
          wr2)) := by
  constructor
  · intro n ws fd b ws2 h
    rw [allocate_buffer_payload B hB1] at h
    exact (send_until_wire B (wire_bytes ws.log) fd n ws 0 b ws2 (by omega) (by simp) h).1
  · intro wr fd n hc hs hn
    exact recv_until_complete B hB1 hB2 fd n wr (allocate_buffer none 0) 0 (by omega)
      (receiving_fresh B) (by rw [hs]; rfl) hc (by omega)

/-- C15 (instance): the payload `[1, 2, 3, 4, 5]` goes out in the chunks 3, 1, 2 and 3 and
comes in in the chunks 2, 3 and 4, with a "would block" answer on each side. -/
theorem frame_round_trip_witness :
    1 ≤ [1, 2, 3, 4, 5].length ∧ [1, 2, 3, 4, 5].length ≤ 2147483643 ∧
    (send_until 8 choppy_send_world 3 (allocate_buffer (some [1, 2, 3, 4, 5]) 5)).1 = 1 ∧
    wire_bytes (send_until 8 choppy_send_world 3
      (allocate_buffer (some [1, 2, 3, 4, 5]) 5)).2.2.log = [0, 0, 0, 5, 1, 2, 3, 4, 5] ∧
    chunked choppy_recv_world.recv_results = true ∧
    stream_of choppy_recv_world.recv_results = [0, 0, 0, 5, 1, 2, 3, 4, 5] ∧
    ∃ wr2, recv_until 14 choppy_recv_world 3 (allocate_buffer none 0) =
      (1, { buffer := some [1, 2, 3, 4, 5], len := 5, curr_offset := 9 }, wr2) :=
  have h := frame_round_trip [1, 2, 3, 4, 5] (by decide) (by decide)
  ⟨by decide, by decide, by decide,
   (h.1 8 choppy_send_world 3
      (send_until 8 choppy_send_world 3 (allocate_buffer (some [1, 2, 3, 4, 5]) 5)).2.1
      (send_until 8 choppy_send_world 3 (allocate_buffer (some [1, 2, 3, 4, 5]) 5)).2.2
      (by decide)).trans (by decide),
   by decide, by decide,
   h.2 choppy_recv_world 3 14 (by decide) (by decide) (by decide)⟩

/-! ## Replies to synchronous requests -/

theorem process_sync_reply_eq (zh : zhandle_t) (cptr : completion_list_t) (rc : Int)
    (frame : List Nat) :
    ∃ sc : sync_completion, sc.rc = rc ∧ (rc ≠ 0 → sc = { cptr.sc with rc := rc }) ∧
      process_sync_reply zh cptr rc frame =
        { zh with
          outstanding_sync := zh.outstanding_sync - 1,
          trace := zh.trace ++
            (if cptr.completion_type = COMPLETION_ACLLIST ∧ rc = 0 then
              [Event.completion cptr.c COMPLETION_ACLLIST rc (some (reply_body frame))
                cptr.data]
             else []) ++
            [Event.notify_sync_completion cptr.data sc] } := by
  unfold process_sync_reply notify_sync_completion call_completion
  generalize cptr.completion_type = k
  by_cases hrc : rc = 0
  · subst hrc
    by_cases h2 : k = COMPLETION_DATA
    · subst h2
      refine ⟨?sc1, ?a, ?b, ?c⟩
      case c =>
        simp only [if_true, COMPLETION_DATA, COMPLETION_ACLLIST,
          show ¬ ((2 : Int) = 4) from by decide, false_and, if_false, List.append_nil]
        exact rfl
      case a => rfl
      case b => exact fun h => absurd rfl h
    · by_cases h1 : k = COMPLETION_STAT
      · subst h1
        refine ⟨?sc2, ?a, ?b, ?c⟩
        case c =>
          simp only [if_true, COMPLETION_DATA, COMPLETION_STAT, COMPLETION_ACLLIST,
            show ¬ ((1 : Int) = 4) from by decide, show ¬ ((1 : Int) = 2) from by decide,
            false_and, if_false, List.append_nil]
          exact rfl
        case a => rfl
        case b => exact fun h => absurd rfl h
      · by_cases h3 : k = COMPLETION_STRINGLIST
        · subst h3
          refine ⟨?sc3, ?a, ?b, ?c⟩
          case c =>
            simp only [if_true, COMPLETION_DATA, COMPLETION_STAT, COMPLETION_STRINGLIST,
              COMPLETION_ACLLIST,
              show ¬ ((3 : Int) = 4) from by decide, show ¬ ((3 : Int) = 2) from by decide,
              show ¬ ((3 : Int) = 1) from by decide,
              false_and, if_false, List.append_nil]
            exact rfl
          case a => rfl
          case b => exact fun h => absurd rfl h
        · by_cases h5 : k = COMPLETION_STRING
          · subst h5
            refine ⟨?sc4, ?a, ?b, ?c⟩
            case c =>
              simp only [if_true, COMPLETION_DATA, COMPLETION_STAT, COMPLETION_STRINGLIST,
                COMPLETION_ACLLIST, COMPLETION_STRING,
                show ¬ ((5 : Int) = 4) from by decide, show ¬ ((5 : Int) = 2) from by decide,
                show ¬ ((5 : Int) = 1) from by decide, show ¬ ((5 : Int) = 3) from by decide,
                false_and, if_false, List.append_nil]
              exact rfl
            case a => rfl
            case b => exact fun h => absurd rfl h
          · by_cases h4 : k = COMPLETION_ACLLIST
            · subst h4
              refine ⟨?sc5, ?a, ?b, ?c⟩
              case c =>
                simp only [if_true, COMPLETION_DATA, COMPLETION_STAT, COMPLETION_STRINGLIST,
                  COMPLETION_ACLLIST, COMPLETION_STRING,
                  show ¬ ((4 : Int) = 5) from by decide, show ¬ ((4 : Int) = 2) from by decide,
                  show ¬ ((4 : Int) = 1) from by decide, show ¬ ((4 : Int) = 3) from by decide,
                  and_self, if_false, List.append_assoc, List.singleton_append]
                exact rfl
              case a => rfl
              case b => exact fun h => absurd rfl h
            · refine ⟨{ cptr.sc with rc := 0 }, rfl, fun _ => rfl, ?_⟩
              simp only [h1, h2, h3, h4, h5, if_false, false_and, List.append_nil]
  · refine ⟨{ cptr.sc with rc := rc }, rfl, fun _ => rfl, ?_⟩
    simp only [hrc, if_false, and_false, List.append_nil]
    split <;> [skip; split <;> [skip; split <;> [skip; split <;> [skip; split]]]] <;> rfl

theorem zookeeper_process_loop_sync (f : buffer_list_t) (fs : List buffer_list_t)
    (zh : zhandle_t) (cptr : completion_list_t) (rest : List completion_list_t)
    (hsr : zh.sent_requests = cptr :: rest) (hsync : cptr.c = FnPtr.SYNCHRONOUS_MARKER)
    (hx : (deserialize_ReplyHeader (f.buffer.getD [])).xid = cptr.xid)
    (h1 : cptr.xid ≠ -1) (h4 : cptr.xid ≠ AUTH_XID) :
    zookeeper_process_loop (f :: fs) zh =
      zookeeper_process_loop fs
        (process_sync_reply
          { zh with
            to_process := fs,
            last_zxid := (deserialize_ReplyHeader (f.buffer.getD [])).zxid,
            sent_requests := rest }
          cptr (deserialize_ReplyHeader (f.buffer.getD [])).err (f.buffer.getD [])) := by
  rw [zookeeper_process_loop]
  simp only [hx, h1, h4, if_false, hsr, dequeue_completion]
  rw [if_neg (by simp), if_neg (by simp [hsync])]

/-- C26 (replies to synchronous requests): the reply frame `f` matches the head `cptr` of
`sent_requests`, which carries the synchronous marker.  `zookeeper_process` pops the entry,
stores `err` in the caller's `sync_completion` (with the decoded result when `err` is 0),
signals it exactly once and decrements `outstanding_sync`.  For the kinds Void, Stat, Data,
StringList and String, and for every kind when `err` is not 0, nothing else is invoked.  For
an AclList entry with `err = 0`, however, line 1333 calls through the callback slot of the
entry before the signal, and that slot holds `SYNCHRONOUS_MARKER`, which is not a function. -/
theorem synchronous_reply_processing (f : buffer_list_t) (fs : List buffer_list_t)
    (zh : zhandle_t) (cptr : completion_list_t) (rest : List completion_list_t)
    (hsr : zh.sent_requests = cptr :: rest) (hsync : cptr.c = FnPtr.SYNCHRONOUS_MARKER)
    (hx : (deserialize_ReplyHeader (f.buffer.getD [])).xid = cptr.xid)
    (h1 : cptr.xid ≠ -1) (h4 : cptr.xid ≠ AUTH_XID) :
    ∃ sc : sync_completion,
      sc.rc = (deserialize_ReplyHeader (f.buffer.getD [])).err ∧
      ((deserialize_ReplyHeader (f.buffer.getD [])).err ≠ 0 →
        sc = { cptr.sc with rc := (deserialize_ReplyHeader (f.buffer.getD [])).err }) ∧
      zookeeper_process_loop (f :: fs) zh =
        zookeeper_process_loop fs
          { zh with
            to_process := fs,
            last_zxid := (deserialize_ReplyHeader (f.buffer.getD [])).zxid,
            sent_requests := rest,
            outstanding_sync := zh.outstanding_sync - 1,
            trace := zh.trace ++
              (if cptr.completion_type = COMPLETION_ACLLIST ∧
                  (deserialize_ReplyHeader (f.buffer.getD [])).err = 0 then
                [Event.completion FnPtr.SYNCHRONOUS_MARKER COMPLETION_ACLLIST 0
                  (some (reply_body (f.buffer.getD []))) cptr.data]
               else []) ++
              [Event.notify_sync_completion cptr.data sc] } := by
  obtain ⟨sc, a, b, c⟩ := process_sync_reply_eq
    { zh with
      to_process := fs,
      last_zxid := (deserialize_ReplyHeader (f.buffer.getD [])).zxid,
      sent_requests := rest }
    cptr (deserialize_ReplyHeader (f.buffer.getD [])).err (f.buffer.getD [])
  refine ⟨sc, a, b, ?_⟩
  rw [zookeeper_process_loop_sync f fs zh cptr rest hsr hsync hx h1 h4, c, hsync]
  by_cases hacl : cptr.completion_type = COMPLETION_ACLLIST ∧
      (deserialize_ReplyHeader (f.buffer.getD [])).err = 0
  · simp only [hacl, and_self, if_true]
  · simp only [hacl, if_false]

/-- C26 (instance): the synchronous `zoo_get_acl` request 8 is pending when its successful
reply arrives: `zookeeper_process` calls through the marker and then signals the caller.
With the reply `err = -101` (ZNONODE) it only signals. -/
theorem synchronous_reply_processing_witness :
    (∃ sc : sync_completion,
      sc.rc = (deserialize_ReplyHeader ((reply_frame 8 5 0 [1, 2, 3]).buffer.getD [])).err ∧
      ((deserialize_ReplyHeader ((reply_frame 8 5 0 [1, 2, 3]).buffer.getD [])).err ≠ 0 →
        sc = { sync_acl_entry.sc with
          rc := (deserialize_ReplyHeader ((reply_frame 8 5 0 [1, 2, 3]).buffer.getD [])).err }) ∧
      zookeeper_process_loop [reply_frame 8 5 0 [1, 2, 3]]
          { connected_handle with sent_requests := [sync_acl_entry], outstanding_sync := 1 } =
        zookeeper_process_loop []
          { connected_handle with
            to_process := [],
            last_zxid := (deserialize_ReplyHeader
              ((reply_frame 8 5 0 [1, 2, 3]).buffer.getD [])).zxid,
            sent_requests := [],
            outstanding_sync := 1 - 1,
            trace := connected_handle.trace ++
              (if sync_acl_entry.completion_type = COMPLETION_ACLLIST ∧
                  (deserialize_ReplyHeader
                    ((reply_frame 8 5 0 [1, 2, 3]).buffer.getD [])).err = 0 then
                [Event.completion FnPtr.SYNCHRONOUS_MARKER COMPLETION_ACLLIST 0
                  (some (reply_body ((reply_frame 8 5 0 [1, 2, 3]).buffer.getD [])))
                  sync_acl_entry.data]
               else []) ++
              [Event.notify_sync_completion sync_acl_entry.data sc] }) ∧
    (zookeeper_process threaded_adaptor
        { connected_handle with
          sent_requests := [sync_acl_entry], outstanding_sync := 1,
          to_process := [reply_frame 8 5 0 [1, 2, 3]] } 0).map
        (fun r => (r.1, r.2.sent_requests, r.2.outstanding_sync, r.2.trace)) =
      some (ZOK, [], 0,
        [Event.completion FnPtr.SYNCHRONOUS_MARKER COMPLETION_ACLLIST 0 (some [1, 2, 3]) 800,
         Event.notify_sync_completion 800
           { sync_completion.zero with acl := some [1, 2, 3], stat := some [1, 2, 3] }]) ∧
    (zookeeper_process threaded_adaptor
        { connected_handle with
          sent_requests := [sync_acl_entry], outstanding_sync := 1,
          to_process := [reply_frame 8 5 (-101) []] } 0).map
        (fun r => (r.1, r.2.sent_requests, r.2.outstanding_sync, r.2.trace)) =
      some (ZOK, [], 0,
        [Event.notify_sync_completion 800 { sync_completion.zero with rc := -101 }]) :=
  ⟨synchronous_reply_processing (reply_frame 8 5 0 [1, 2, 3]) []
      { connected_handle with sent_requests := [sync_acl_entry], outstanding_sync := 1 }
      sync_acl_entry [] rfl rfl (by decide) (by decide) (by decide),
   by decide, by decide⟩

/-! ## The path stored by a synchronous create -/

theorem strlen_le (p : List Nat) : strlen p ≤ p.length := by
  induction p with
  | nil => simp [strlen]
  | cons b rest ih =>
    rw [strlen]
    split
    · exact Nat.zero_le _
    · simp only [List.length_cons]; omega

theorem mem_write_zero (dst src : List Nat) :
    mem_write dst 0 src = src ++ dst.drop src.length := by
  simp [mem_write, take_padded]

theorem mem_write_nul (a rest : List Nat) (k : Nat) (hk : a.length = k) :
    mem_write (a ++ rest) k [0] = a ++ 0 :: rest.drop 1 := by
  subst hk
  unfold mem_write take_padded
  have h1 : List.take a.length (a ++ rest ++ List.replicate a.length 0) = a := by
    rw [List.append_assoc]
    exact List.take_left' rfl
  have h : (a ++ rest).drop (a.length + [0].length) = rest.drop 1 := by
    simp only [List.length_singleton]
    exact List.drop_append 1
  rw [h1, h]
  simp

/-- C27 (path of a synchronous create): the successful String reply carries the path `p`, and
the caller's buffer has `n >= 1` bytes (`str_len = n`).  The entry is signalled once.  When
`strlen(p) < n` the buffer holds the bytes of `p` up to its end, then the NUL at index
`strlen(p) < n`, and is otherwise untouched.  When `strlen(p) >= n`, lines 1318-1324 copy
the first `n` bytes of `p` and then store the NUL at index `n`, one byte past the end of the
caller's buffer: the memory written has `n + 1` bytes. -/
theorem sync_create_path_store (zh : zhandle_t) (cptr : completion_list_t)
    (frame : List Nat) (p : List Nat) (n : Nat) (hn : 1 ≤ n) (hn2 : n < 2147483648)
    (hkind : cptr.completion_type = COMPLETION_STRING)
    (hp : deserialize_String (reply_body frame) = some p)
    (hcap : cptr.sc.str_len = (n : Int)) (hmem : cptr.sc.str.length = n) :
    ∃ sc : sync_completion,
      process_sync_reply zh cptr 0 frame =
        { zh with
          outstanding_sync := zh.outstanding_sync - 1,
          trace := zh.trace ++ [Event.notify_sync_completion cptr.data sc] } ∧
      (strlen p < n →
        sc.str = p.take (strlen p) ++ 0 :: cptr.sc.str.drop (strlen p + 1) ∧
        sc.str.length = n) ∧
      (n ≤ strlen p → sc.str = p.take n ++ [0] ∧ sc.str.length = n + 1) := by
  have hle := strlen_le p
  have h5 : cptr.completion_type = 5 := hkind
  refine ⟨?sc, ?a, ?b, ?c⟩
  case a =>
    unfold process_sync_reply notify_sync_completion
    simp only [h5, hp, hcap, COMPLETION_DATA, COMPLETION_STAT, COMPLETION_STRINGLIST,
      COMPLETION_STRING, show ¬ ((5 : Int) = 2) from by decide,
      show ¬ ((5 : Int) = 1) from by decide, show ¬ ((5 : Int) = 3) from by decide,
      if_false, if_true, Option.getD_some]
    exact rfl
  case b =>
    intro hlt
    have hmod : (n : Int) % 18446744073709551616 > (strlen p : Int) := by omega
    simp only [hmod, if_true, Int.toNat_ofNat, mem_write_zero]
    have hl : (p.take (strlen p)).length = strlen p := by
      rw [List.length_take]; omega
    rw [hl]
    rw [mem_write_nul _ _ _ hl, List.drop_drop]
    refine ⟨by rw [Nat.add_comm], ?_⟩
    simp only [List.length_append, hl, List.length_cons, List.length_drop, hmem]
    omega
  case c =>
    intro hge
    have hmod : ¬ ((n : Int) % 18446744073709551616 > (strlen p : Int)) := by omega
    simp only [hmod, if_false, Int.toNat_ofNat, mem_write_zero]
    have hl : (p.take n).length = n := by
      rw [List.length_take]; omega
    rw [hl]
    have h0 : List.drop n cptr.sc.str = [] := by
      rw [List.drop_eq_nil_iff]; omega
    rw [h0, mem_write_nul _ _ _ hl]
    exact ⟨rfl, by simp [hl]⟩

/-- C27 (instance): `zoo_create` with a buffer of 4 bytes, and the server assigns the path
`"/abcd"`, of length 5: the four bytes `"/abc"` fill the buffer and the NUL is stored at
index 4.  With the path `"/ab"` the NUL is stored at index 3. -/
theorem sync_create_path_store_witness :
    deserialize_String
      (reply_body ((reply_frame 8 5 0 (create_body [47, 97, 98, 99, 100])).buffer.getD [])) =
      some [47, 97, 98, 99, 100] ∧
    (sync_create_entry 4).sc.str.length = 4 ∧
    strlen [47, 97, 98, 99, 100] = 5 ∧
    (∃ sc : sync_completion,
      process_sync_reply connected_handle (sync_create_entry 4) 0
          ((reply_frame 8 5 0 (create_body [47, 97, 98, 99, 100])).buffer.getD []) =
        { connected_handle with
          outstanding_sync := connected_handle.outstanding_sync - 1,
          trace := connected_handle.trace ++
            [Event.notify_sync_completion (sync_create_entry 4).data sc] } ∧
      sc.str = [47, 97, 98, 99, 0] ∧ sc.str.length = 4 + 1) ∧
    (zookeeper_process threaded_adaptor
        { connected_handle with
          sent_requests := [sync_create_entry 4], outstanding_sync := 1,
          to_process := [reply_frame 8 5 0 (create_body [47, 97, 98, 99, 100])] } 0).map
        (fun r => (r.1, r.2.trace)) =
      some (ZOK,
        [Event.notify_sync_completion 800
          { sync_completion.zero with str := [47, 97, 98, 99, 0], str_len := 4 }]) ∧
    (zookeeper_process threaded_adaptor
        { connected_handle with
          sent_requests := [sync_create_entry 4], outstanding_sync := 1,
          to_process := [reply_frame 8 5 0 (create_body [47, 97, 98])] } 0).map
        (fun r => (r.1, r.2.trace)) =
      some (ZOK,
        [Event.notify_sync_completion 800
          { sync_completion.zero with str := [47, 97, 98, 0], str_len := 4 }]) :=
  have h := sync_create_path_store connected_handle (sync_create_entry 4)
    ((reply_frame 8 5 0 (create_body [47, 97, 98, 99, 100])).buffer.getD [])
    [47, 97, 98, 99, 100] 4 (by decide) (by decide) rfl (by decide) rfl (by decide)
  ⟨by decide, by decide, by decide,
   h.elim (fun sc hsc => ⟨sc, hsc.1, (hsc.2.2 (by decide)).1.trans (by decide),
     (hsc.2.2 (by decide)).2⟩),
   by decide, by decide⟩

/-! ## The three results of `send_buffer` -/

theorem zookeeper_interest_report_mask (z : zhandle_t) (out : interest_args) (to_ms : Int)
    (hlive : z.close_requested = 0 ∨ z.ref_counter ≠ 1) (hf : out.fd = z.fd)
    (hfd : z.fd ≠ -1) :
    mask_reported (zookeeper_interest_report z out to_ms).2.1
      (zookeeper_interest_report z out to_ms).2.2 := by
  rw [zookeeper_interest_report_out, zookeeper_interest_report_handle, api_epilog_live _ _ hlive]
  exact ⟨fun _ => ⟨hf, rfl⟩, fun h => absurd h hfd⟩

theorem zookeeper_interest_timers_mask (z : zhandle_t) (out : interest_args)
    (hlive : z.close_requested = 0 ∨ z.ref_counter ≠ 1) (hi : out.interest = 0)
    (hf : out.fd = z.fd) (hok : (zookeeper_interest_timers z out).1 = ZOK) :
    mask_reported (zookeeper_interest_timers z out).2.1
      (zookeeper_interest_timers z out).2.2 := by
  unfold zookeeper_interest_timers at hok ⊢
  by_cases hfd : z.fd ≠ -1
  · rw [if_pos hfd] at hok ⊢
    simp only [gettimeofday] at hok ⊢
    by_cases hping : z.sent_requests = [] ∧ z.state = CONNECTED_STATE
    · rw [if_pos hping] at hok ⊢
      by_cases hto : Int.tdiv z.recv_timeout 3 - calculate_interval z.last_recv z.world.now ≤ 0
      · rw [if_pos hto]
        simp only [add_void_completion, add_completion, queue_buffer_bytes, ZOK,
          show ¬ ((0 : Int) < 0) from by decide, if_false, reduceCtorEq]
        exact zookeeper_interest_report_mask _ _ _ hlive hf hfd
      · rw [if_neg hto]
        exact zookeeper_interest_report_mask _ _ _ hlive hf hfd
    · rw [if_neg hping] at hok ⊢
      by_cases hto : Int.tdiv (int_wrap (z.recv_timeout * 2)) 3 -
          calculate_interval z.last_recv z.world.now ≤ 0
      · rw [if_pos hto] at hok
        simp only [handle_socket_error_msg] at hok
        rw [api_epilog_fst] at hok
        exact absurd hok (by decide)
      · rw [if_neg hto]
        exact zookeeper_interest_report_mask _ _ _ hlive hf hfd
  · rw [if_neg hfd]
    have hfd' : z.fd = -1 := not_not.mp hfd
    rw [api_epilog_live _ _ hlive]
    exact ⟨fun h => absurd hfd' h, fun _ => ⟨hf.trans hfd', hi⟩⟩

theorem prime_connection_ok_eq (zh : zhandle_t) (h : (prime_connection zh).1 = 0) :
    ∃ w, (prime_connection zh).2 =
      { zh with
        world := w, state := ASSOCIATING_STATE, input_buffer := input_buffer_t.primer,
        primer_buffer := { zh.primer_buffer with curr_offset := 4 } } := by
  unfold prime_connection handle_socket_error_msg at h ⊢
  simp only [] at h ⊢
  by_cases hneg : (send zh.world zh.fd (be32 HANDSHAKE_REQ_SIZE)).1 < 0
  · simp only [hneg, if_true] at h
    exact absurd (show ZCONNECTIONLOSS = 0 from h) (by decide)
  · simp only [hneg, if_false] at h ⊢
    split at h
    · exact absurd (show ZCONNECTIONLOSS = 0 from h) (by decide)
    · rename_i h2
      rw [if_neg h2]
      exact ⟨_, rfl⟩

theorem zookeeper_interest_mask (zh : zhandle_t) (out : interest_args)
    (hlive : zh.close_requested = 0 ∨ zh.ref_counter ≠ 0)
    (hok : (zookeeper_interest zh out).1 = ZOK) :
    mask_reported (zookeeper_interest zh out).2.1 (zookeeper_interest zh out).2.2 := by
  have hl : ∀ z : zhandle_t, z.close_requested = zh.close_requested →
      z.ref_counter = zh.ref_counter + 1 → (z.close_requested = 0 ∨ z.ref_counter ≠ 1) := by
    intro z h1 h2
    rcases hlive with h | h
    · exact Or.inl (h1.trans h)
    · exact Or.inr (by omega)
  unfold zookeeper_interest at hok ⊢
  by_cases hun : is_unrecoverable zh ≠ 0
  · rw [if_pos hun] at hok
    exact absurd (show ZINVALIDSTATE = ZOK from hok) (by decide)
  · rw [if_neg hun] at hok ⊢
    rw [api_prolog_eq] at hok ⊢
    simp only [] at hok ⊢
    by_cases hfd : zh.fd = -1
    · rw [if_pos hfd] at hok ⊢
      by_cases hidx : zh.connect_index = zh.addrs_count
      · rw [if_pos hidx] at hok ⊢
        unfold zookeeper_interest_connected at hok ⊢
        exact zookeeper_interest_timers_mask _ _ (hl _ rfl rfl) rfl rfl hok
      · rw [if_neg hidx] at hok ⊢
        simp only [socket] at hok ⊢
        rcases hc : connect { zh.world with log := zh.world.log ++ [Syscall.socket zh.world.next_fd] }
          zh.world.next_fd zh.connect_index with ⟨rc, errno, w2⟩
        simp only [hc] at hok ⊢
        by_cases hrc : rc = -1
        · rw [if_pos hrc] at hok ⊢
          by_cases he : errno = EWOULDBLOCK ∨ errno = EINPROGRESS
          · rw [if_pos he] at hok ⊢
            unfold zookeeper_interest_connected at hok ⊢
            exact zookeeper_interest_timers_mask _ _ (hl _ rfl rfl) rfl rfl hok
          · rw [if_neg he] at hok
            simp only [handle_socket_error_msg] at hok
            rw [api_epilog_fst] at hok
            exact absurd hok (by decide)
        · rw [if_neg hrc] at hok ⊢
          by_cases hp : (prime_connection { zh with
              ref_counter := zh.ref_counter + 1, fd := zh.world.next_fd, world := w2 }).1 ≠ 0
          · rw [if_pos hp] at hok
            rw [api_epilog_fst] at hok
            exact absurd hok hp
          · rw [if_neg hp] at hok ⊢
            obtain ⟨w, hw⟩ := prime_connection_ok_eq _ (not_not.mp hp)
            rw [hw] at hok ⊢
            unfold zookeeper_interest_connected at hok ⊢
            exact zookeeper_interest_timers_mask _ _ (hl _ rfl rfl) rfl rfl hok
    · rw [if_neg hfd] at hok ⊢
      exact zookeeper_interest_timers_mask _ _ (hl _ rfl rfl) rfl rfl hok

/-- C22 (interest mask): on a live handle (close has not been requested, or another call
still holds a reference), whenever `zookeeper_interest` returns ZOK and leaves the handle
with a socket, `*fd` is that socket and `*interest` is ZOOKEEPER_READ or
ZOOKEEPER_READ|ZOOKEEPER_WRITE: it contains ZOOKEEPER_READ, and it contains ZOOKEEPER_WRITE
if and only if `to_send` is not empty or the state is CONNECTING_STATE.  Whenever it returns
ZOK and leaves the handle without a socket, `*interest` is 0 and `*fd` is -1. -/
theorem interest_mask (zh : zhandle_t) (out : interest_args)
    (hlive : zh.close_requested = 0 ∨ zh.ref_counter ≠ 0)
    (hok : (zookeeper_interest zh out).1 = ZOK) :
    ((zookeeper_interest zh out).2.2.fd ≠ -1 →
      (zookeeper_interest zh out).2.1.fd = (zookeeper_interest zh out).2.2.fd ∧
      ((zookeeper_interest zh out).2.1.interest = ZOOKEEPER_READ ∨
        (zookeeper_interest zh out).2.1.interest = Int.lor ZOOKEEPER_READ ZOOKEEPER_WRITE) ∧
      Int.land (zookeeper_interest zh out).2.1.interest ZOOKEEPER_READ ≠ 0 ∧
      (Int.land (zookeeper_interest zh out).2.1.interest ZOOKEEPER_WRITE ≠ 0 ↔
        ((zookeeper_interest zh out).2.2.to_send ≠ [] ∨
          (zookeeper_interest zh out).2.2.state = CONNECTING_STATE))) ∧
    ((zookeeper_interest zh out).2.2.fd = -1 →
      (zookeeper_interest zh out).2.1.interest = 0 ∧
      (zookeeper_interest zh out).2.1.fd = -1) := by
  obtain ⟨h1, h2⟩ := zookeeper_interest_mask zh out hlive hok
  refine ⟨fun hfd => ?_, fun hfd => ⟨(h2 hfd).2, (h2 hfd).1⟩⟩
  obtain ⟨a, b⟩ := h1 hfd
  refine ⟨a, ?_, ?_, ?_⟩
  · rw [b]
    split
    · exact Or.inr rfl
    · exact Or.inl rfl
  · rw [b]
    split <;> decide
  · rw [b]
    by_cases hw : (zookeeper_interest zh out).2.2.to_send ≠ [] ∨
        (zookeeper_interest zh out).2.2.state = CONNECTING_STATE
    · rw [if_pos hw]
      exact ⟨fun _ => hw, fun _ => by decide⟩
    · rw [if_neg hw]
      exact ⟨fun h => absurd h (by decide), fun h => absurd h hw⟩

/-- C22 (instance): the connected handle after 4 s of silence: a PING is queued, so the mask
is READ|WRITE = 3; after 1 s nothing is queued and the mask is READ = 2; the handle without a
socket whose cursor wraps reports the mask 0 and the descriptor -1. -/
theorem interest_mask_witness :
    (zookeeper_interest (idle_handle 4) no_args).1 = ZOK ∧
    (zookeeper_interest (idle_handle 4) no_args).2.2.fd ≠ -1 ∧
    (Int.land (zookeeper_interest (idle_handle 4) no_args).2.1.interest ZOOKEEPER_WRITE ≠ 0 ↔
      ((zookeeper_interest (idle_handle 4) no_args).2.2.to_send ≠ [] ∨
        (zookeeper_interest (idle_handle 4) no_args).2.2.state = CONNECTING_STATE)) ∧
    (zookeeper_interest (idle_handle 4) no_args).2.1.interest = 3 ∧
    (zookeeper_interest (idle_handle 1) no_args).2.1.interest = 2 ∧
    (zookeeper_interest (three_endpoint_handle 3 World.idle) no_args).2.1.interest = 0 ∧
    (zookeeper_interest (three_endpoint_handle 3 World.idle) no_args).2.1.fd = -1 :=
  have h := interest_mask (idle_handle 4) no_args (by decide) (by decide)
  have h3 := interest_mask (three_endpoint_handle 3 World.idle) no_args (by decide)
    (by decide)
  ⟨by decide, by decide, (h.1 (by decide)).2.2.2, by decide, by decide,
   (h3.2 (by decide)).1, (h3.2 (by decide)).2⟩

/-! ## The idle clock -/

theorem send_auth_info_last_recv (zh : zhandle_t) :
    (send_auth_info zh).2.last_recv = zh.last_recv := by
  rw [send_auth_info_fields]

theorem check_events_complete_last_recv (zh : zhandle_t) :
    (check_events_complete zh).2.last_recv = zh.world.now := by
  unfold check_events_complete handle_socket_error_msg call_watcher gettimeofday
  simp only []
  split
  · split
    · rw [handle_error_eq]
    · simp only [send_auth_info_last_recv]
  · rfl
  · rfl

theorem after_recv_last_recv (zhr : zhandle_t) (rc : Int) :
    (0 < rc →
      (if rc < 0 then handle_socket_error_msg zhr ZCONNECTIONLOSS
        else if rc > 0 then check_events_complete zhr else (ZOK, zhr)).2.last_recv =
        zhr.world.now) ∧
    (rc ≤ 0 →
      (if rc < 0 then handle_socket_error_msg zhr ZCONNECTIONLOSS
        else if rc > 0 then check_events_complete zhr else (ZOK, zhr)).2.last_recv =
        zhr.last_recv) := by
  constructor
  · intro h
    rw [if_neg (by omega), if_pos (by omega)]
    exact check_events_complete_last_recv zhr
  · intro h
    by_cases h0 : rc < 0
    · rw [if_pos h0]
      simp only [handle_socket_error_msg]
      rw [handle_error_eq]
    · rw [if_neg h0, if_neg (by omega)]

theorem check_events_read_last_recv (zh : zhandle_t) (events : Int)
    (hr : Int.land events ZOOKEEPER_READ ≠ 0) :
    (0 < (recv_buffer zh.world zh.fd (read_frame zh)).1 →
      (check_events_read zh events).2.last_recv =
        (recv_buffer zh.world zh.fd (read_frame zh)).2.2.now) ∧
    ((recv_buffer zh.world zh.fd (read_frame zh)).1 ≤ 0 →
      (check_events_read zh events).2.last_recv = zh.last_recv) := by
  unfold check_events_read read_frame
  rw [if_pos hr]
  cases hin : zh.input_buffer with
  | null =>
    simp only [hin, if_true]
    rcases hb : recv_buffer zh.world zh.fd (allocate_buffer none 0) with ⟨rc, b, w⟩
    exact after_recv_last_recv _ rc
  | primer =>
    simp only [hin, reduceCtorEq, if_false]
    rcases hb : recv_buffer zh.world zh.fd zh.primer_buffer with ⟨rc, b, w⟩
    exact after_recv_last_recv _ rc
  | heap b0 =>
    simp only [hin, reduceCtorEq, if_false]
    rcases hb : recv_buffer zh.world zh.fd b0 with ⟨rc, b, w⟩
    exact after_recv_last_recv _ rc

theorem recv_now (w : World) (fd : Int) (n : Int) : (recv w fd n).2.2.2.now = w.now := by
  unfold recv
  split <;> rfl

theorem recv_buffer_payload_now (w : World) (fd : Int) (buff : buffer_list_t) :
    (recv_buffer_payload w fd buff).2.2.now = w.now := by
  unfold recv_buffer_payload
  split
  · have h := recv_now w fd (buff.len - (buff.curr_offset - 4))
    simp only []
    split <;> [split; (split <;> [split; skip])] <;> exact h
  · rfl

theorem recv_buffer_now (w : World) (fd : Int) (buff : buffer_list_t) :
    (recv_buffer w fd buff).2.2.now = w.now := by
  unfold recv_buffer
  split
  · have h := recv_now w fd (4 - buff.curr_offset)
    simp only []
    split
    · exact h
    · split
      · exact h
      · have h2 := recv_buffer_payload_now (recv w fd (4 - buff.curr_offset)).2.2.2 fd
        exact (h2 _).trans h
  · exact recv_buffer_payload_now w fd buff

/-- C25 (counterexample): the connected handle has last heard from the server at time 0; at
5 s the socket is readable and `recv` delivers two bytes of the next reply.  `check_events`
stores them in the input frame (cursor 2) and returns ZOK, but `last_recv` is still 0: the
next `zookeeper_interest` sees an idle interval of 5000 ms. -/
theorem partial_read_keeps_last_recv :
    (recv partial_read_handle.world 3 4).1 = 2 ∧
    (check_events partial_read_handle ZOOKEEPER_READ).1 = ZOK ∧
    (check_events partial_read_handle ZOOKEEPER_READ).2.input_buffer =
      input_buffer_t.heap { buffer := none, len := 0, curr_offset := 2 } ∧
    (check_events partial_read_handle ZOOKEEPER_READ).2.last_recv =
      { tv_sec := 0, tv_usec := 0 } ∧
    (check_events partial_read_handle ZOOKEEPER_READ).2.world.now =
      { tv_sec := 5, tv_usec := 0 } ∧
    calculate_interval (check_events partial_read_handle ZOOKEEPER_READ).2.last_recv
      (check_events partial_read_handle ZOOKEEPER_READ).2.world.now = 5000 := by
  decide

/-- C25 (amended): the READ part of `check_events` (lines 1009-1055) makes one `recv_buffer`
call on the input frame.  When that call completes the frame (result 1), `last_recv` is set
to the current time, whatever happens to the frame afterwards; when it does not (result 0:
no byte, or bytes of a frame that is still incomplete; result -1: error), `last_recv` is left
as it was.  So the idle interval measures the time since the last complete frame, or since
the last connect attempt.  With READ readiness alone on a handle with a socket this is all
that `check_events` does. -/
theorem last_recv_reset (zh : zhandle_t) (events : Int)
    (hr : Int.land events ZOOKEEPER_READ ≠ 0) :
    (0 < (recv_buffer zh.world zh.fd (read_frame zh)).1 →
      (check_events_read zh events).2.last_recv = zh.world.now) ∧
    ((recv_buffer zh.world zh.fd (read_frame zh)).1 ≤ 0 →
      (check_events_read zh events).2.last_recv = zh.last_recv) ∧
    (zh.fd ≠ -1 → Int.land events ZOOKEEPER_WRITE = 0 →
      check_events zh events = check_events_read zh events) := by
  obtain ⟨h1, h2⟩ := check_events_read_last_recv zh events hr
  refine ⟨fun h => ?_, h2, fun hfd hw => ?_⟩
  · rw [h1 h, recv_buffer_now]
  · unfold check_events
    rw [if_neg hfd, if_neg (by simp [hw]), if_neg (by simp [hw])]

/-- C25 (instance): the connected handle at 5 s, when the socket delivers the complete
reply to the pending request 7: `last_recv` becomes 5 s.  When it delivers two bytes only,
`last_recv` stays 0. -/
theorem last_recv_reset_witness :
    Int.land ZOOKEEPER_READ ZOOKEEPER_READ ≠ 0 ∧
    0 < (recv_buffer
      { partial_read_handle.world with
        recv_results := [RecvResult.data (reply_wire 7 5 0 [1, 2, 3])] } 3
      (read_frame partial_read_handle)).1 ∧
    (check_events
      { partial_read_handle with
        sent_requests := [data_entry],
        world := { partial_read_handle.world with
          recv_results := [RecvResult.data (reply_wire 7 5 0 [1, 2, 3])] } }
      ZOOKEEPER_READ).2.last_recv = { tv_sec := 5, tv_usec := 0 } ∧
    (check_events_read partial_read_handle ZOOKEEPER_READ).2.last_recv =
      { tv_sec := 0, tv_usec := 0 } :=
  have h := last_recv_reset partial_read_handle ZOOKEEPER_READ (by decide)
  ⟨by decide, by decide, by decide, (h.2.1 (by decide)).trans (by decide)⟩

/-! ## The last zxid seen -/

theorem zookeeper_close_last_zxid (zh : zhandle_t) :
    (zookeeper_close zh).2.last_zxid = zh.last_zxid := by
  by_cases hst : zh.state = CONNECTED_STATE
  · unfold zookeeper_close inc_ref_counter get_xid
    simp only [show ¬ ((0 : Int) < 0) from by decide, show ¬ ((0 : Int) > 0) from by decide,
      if_false, add_zero, queue_buffer_bytes, adaptor_send_queue,
      show ¬ (ZOK < 0) from by decide]
    split
    · rfl
    · simp only []
      obtain ⟨zhq, hzhq⟩ : ∃ z : zhandle_t, z =
          { zh with
            close_requested := 1,
            world := { zh.world with next_xid := zh.world.next_xid + 1 },
            to_send := queue_buffer zh.to_send
              (allocate_buffer
                (some (serialize_RequestHeader { xid := zh.world.next_xid, type := CLOSE_OP }))
                (serialize_RequestHeader
                  { xid := zh.world.next_xid, type := CLOSE_OP }).length) 0 } := ⟨_, rfl⟩
      obtain ⟨ts, w, hf, _, _⟩ := flush_send_queue_fields zhq 3000
      have h1 : (flush_send_queue zhq 3000).2.last_zxid = zh.last_zxid := by
        rw [hf, hzhq]
      rw [hzhq] at h1
      rw [destroy_eq]
      exact h1
  · rw [zookeeper_close_not_connected zh hst]
    split
    · rfl
    · rw [destroy_eq]

theorem api_epilog_last_zxid (zh : zhandle_t) (rc : Int) :
    (api_epilog zh rc).2.last_zxid = zh.last_zxid := by
  rw [api_epilog_eq]
  split
  · exact zookeeper_close_last_zxid { zh with ref_counter := zh.ref_counter - 1 }
  · rfl

theorem auth_completion_func_last_zxid (rc : Int) (zh : zhandle_t) :
    (auth_completion_func rc zh).last_zxid = zh.last_zxid := by
  unfold auth_completion_func
  simp only []
  split <;> split <;> rfl

theorem process_sync_reply_last_zxid (zh : zhandle_t) (cptr : completion_list_t) (rc : Int)
    (frame : List Nat) : (process_sync_reply zh cptr rc frame).last_zxid = zh.last_zxid := by
  obtain ⟨sc, _, _, h⟩ := process_sync_reply_eq zh cptr rc frame
  rw [h]

theorem zookeeper_process_loop_last_zxid (fs : List buffer_list_t) :
    ∀ (z zl : zhandle_t), zookeeper_process_loop fs z = Outcome.next zl →
      zl.last_zxid = last_zxid_of_frames fs z.last_zxid := by
  induction fs with
  | nil =>
    intro z zl h
    rw [zookeeper_process_loop] at h
    cases h
    rfl
  | cons f fs ih =>
    intro z zl h
    have hstep : ∀ z1 : zhandle_t,
        z1.last_zxid = (deserialize_ReplyHeader (f.buffer.getD [])).zxid →
        zookeeper_process_loop fs z1 = Outcome.next zl →
        zl.last_zxid = last_zxid_of_frames (f :: fs) z.last_zxid := by
      intro z1 h1 h2
      rw [ih z1 zl h2, h1]
      rfl
    rw [zookeeper_process_loop] at h
    simp only [] at h
    split at h
    · exact hstep _ rfl h
    · split at h
      · split at h
        · cases h
        · exact hstep _ (auth_completion_func_last_zxid _ _) h
      · split at h
        · cases h
        · split at h
          · simp only [handle_socket_error_msg] at h
            cases h
          · split at h
            · split at h
              · exact hstep _ rfl h
              · exact hstep _ rfl h
            · exact hstep _ (process_sync_reply_last_zxid _ _ _ _) h

theorem last_zxid_of_frames_append (l : List buffer_list_t) (f : buffer_list_t) (z : Int) :
    last_zxid_of_frames (l ++ [f]) z = (deserialize_ReplyHeader (f.buffer.getD [])).zxid := by
  simp [last_zxid_of_frames]

theorem last_zxid_of_completions_append (l : List completion_list_t) (c : completion_list_t)
    (z : Int) :
    last_zxid_of_completions (l ++ [c]) z =
      (deserialize_ReplyHeader ((c.buffer.map (fun b => b.buffer.getD [])).getD [])).zxid := by
  simp [last_zxid_of_completions]

/-- C21 (counterexample): the Data request 7 and a PING are pending, and the frames of the
reply to 7 (zxid 5) and of the PING reply (zxid 6) are drained by one call that dispatches
inline.  The loop leaves `last_zxid = 6`, but `process_completions` then dispatches the
reply to 7 and stores its zxid: after the call `last_zxid` is 5, and 5 is what the next
handshake carries.  The same happens with one frame per call when the dispatch of an earlier
reply has been deferred: the reply to 7 (zxid 5) is queued while the synchronous request 8
is outstanding, and the call that reads the reply to 8 (zxid 6) dispatches it afterwards. -/
theorem last_zxid_goes_back_to_dispatched_reply :
    (zookeeper_process inline_adaptor
        { connected_handle with
          sent_requests := [data_entry, ping_entry],
          to_process := [reply_frame 7 5 0 [1, 2, 3], reply_frame (-2) 6 0 []] } 0).map
        (fun r => (r.1, r.2.last_zxid, (prime_connection_req r.2).lastZxidSeen)) =
      some (ZOK, 5, 5) ∧
    (deserialize_ReplyHeader ((reply_frame (-2) 6 0 []).buffer.getD [])).zxid = 6 ∧
    (run sync_aware_adaptor
        [Call.process
          { World.idle with recv_results := [RecvResult.data (reply_wire 7 5 0 [1, 2, 3])] }
          ZOOKEEPER_READ,
         Call.process
          { World.idle with recv_results := [RecvResult.data (reply_wire 8 6 0 [4])] }
          ZOOKEEPER_READ]
        async_then_sync_handle).map
        (fun z => (z.last_zxid, z.sent_requests, z.completions_to_process, z.trace)) =
      some (5, [], [],
        [Event.notify_sync_completion 800 { sync_completion.zero with stat := some [4] },
         Event.completion (FnPtr.fn 70) COMPLETION_DATA 0 (some [1, 2, 3]) 700]) := by
  decide

theorem prime_connection_req_zxid (zh : zhandle_t) :
    (prime_connection_req zh).lastZxidSeen = zh.last_zxid ∧
    ((serialize_prime_connect (prime_connection_req zh)).drop 4).take 8 = be64 zh.last_zxid := by
  refine ⟨rfl, ?_⟩
  unfold serialize_prime_connect
  simp only [List.append_assoc]
  exact drop_take_segment _ _ _ 4 8 (be32_length _) (be64_length _)

/-- C21 (amended): `zookeeper_process` returns ZOK after its loop has drained the frames
`fs ++ [f]` that `check_events` left in `to_process`.  At the end of the loop `last_zxid` is
the zxid in the header of the last frame `f`.  When the call leaves the dispatch of the
ready completions to the completion thread, that is `last_zxid` after the call.  When it
dispatches them itself, `process_completions` stores the zxid of every dispatched reply, so
`last_zxid` after the call is the zxid of the last entry of `completions_to_process`: that is
the zxid of `f` when nothing was ready or when the last ready entry carries `f` (a watch
event or the reply to an asynchronous request), and an older zxid otherwise.  The handshake
request that `prime_connection` builds next carries the `last_zxid` of the handle as
`lastZxidSeen`, in the bytes 4..11. -/
theorem last_zxid_tracking (ad : Adaptor) (zh zh1 zh2 : zhandle_t) (events : Int)
    (fs : List buffer_list_t) (f : buffer_list_t) (hun : 0 ≤ zh.state)
    (hce : check_events (api_prolog zh) events = (ZOK, zh1))
    (hfs : zh1.to_process = fs ++ [f])
    (hret : zookeeper_process ad zh events = some (ZOK, zh2)) :
    ∃ zl, zookeeper_process_loop zh1.to_process zh1 = Outcome.next zl ∧
      zl.last_zxid = (deserialize_ReplyHeader (f.buffer.getD [])).zxid ∧
      (ad.process_async zl.outstanding_sync = 0 →
        zh2.last_zxid = (deserialize_ReplyHeader (f.buffer.getD [])).zxid) ∧
      (ad.process_async zl.outstanding_sync ≠ 0 →
        zh2.last_zxid = last_zxid_of_completions zl.completions_to_process
          (deserialize_ReplyHeader (f.buffer.getD [])).zxid ∧
        (zl.completions_to_process = [] →
          zh2.last_zxid = (deserialize_ReplyHeader (f.buffer.getD [])).zxid) ∧
        (∀ l c, zl.completions_to_process = l ++ [c] → c.buffer = some f →
          zh2.last_zxid = (deserialize_ReplyHeader (f.buffer.getD [])).zxid)) ∧
      (prime_connection_req zh2).lastZxidSeen = zh2.last_zxid ∧
      ((serialize_prime_connect (prime_connection_req zh2)).drop 4).take 8 =
        be64 zh2.last_zxid := by
  cases hloop : zookeeper_process_loop zh1.to_process zh1 with
  | abort =>
    exfalso
    unfold zookeeper_process is_unrecoverable at hret
    rw [if_neg (not_lt.mpr hun)] at hret
    simp only [hce] at hret
    rw [if_neg (by decide), if_neg (by simp)] at hret
    simp only [hloop] at hret
    cases hret
  | ret rc z =>
    exfalso
    rw [zookeeper_process_of_loop_ret ad zh zh1 z events rc hun hce hloop] at hret
    have hrc : rc = ZOK := by
      simp only [Option.some.injEq, Prod.mk.injEq] at hret
      exact hret.1
    rcases zookeeper_process_loop_ret_code _ _ _ _ hloop with h | h
    · rw [h] at hrc; exact absurd hrc (by decide)
    · rw [h] at hrc; exact absurd hrc (by decide)
  | next zl =>
    have hz := zookeeper_process_loop_last_zxid _ _ _ hloop
    rw [hfs, last_zxid_of_frames_append] at hz
    rw [zookeeper_process_of_loop_next ad zh zh1 zl events hun hce hloop] at hret
    have h2 : zh2 = (api_epilog
        (if ad.process_async zl.outstanding_sync ≠ 0 then process_completions zl else zl)
        ZOK).2 := by
      simp only [Option.some.injEq] at hret
      rw [hret]
    have h3 : zh2.last_zxid =
        (if ad.process_async zl.outstanding_sync ≠ 0 then process_completions zl
          else zl).last_zxid := by
      rw [h2, api_epilog_last_zxid]
    refine ⟨zl, rfl, hz, fun h0 => ?_, fun h1 => ?_, prime_connection_req_zxid zh2⟩
    · rw [h3, if_neg (not_not.mpr h0), hz]
    · rw [if_pos h1, process_completions_eq] at h3
      simp only [] at h3
      rw [hz] at h3
      refine ⟨h3, fun he => ?_, fun l c hl hc => ?_⟩
      · rw [h3, he]; rfl
      · rw [h3, hl, last_zxid_of_completions_append, hc]
        rfl

/-- C21 (instance): the Data request 7 is pending and the frame of its reply, with zxid 5,
is drained by a call that dispatches inline: `last_zxid` is 5 after the call, and the next
handshake request carries 5. -/
theorem last_zxid_tracking_witness :
    (0 : Int) ≤ data_reply_handle.state ∧
    check_events (api_prolog data_reply_handle) 0 = (ZOK, api_prolog data_reply_handle) ∧
    (api_prolog data_reply_handle).to_process = [] ++ [reply_frame 7 5 0 [1, 2, 3]] ∧
    zookeeper_process inline_adaptor data_reply_handle 0 =
      some (ZOK,
        ((zookeeper_process inline_adaptor data_reply_handle 0).getD
          (ZOK, data_reply_handle)).2) ∧
    (prime_connection_req
      ((zookeeper_process inline_adaptor data_reply_handle 0).getD
        (ZOK, data_reply_handle)).2).lastZxidSeen =
      ((zookeeper_process inline_adaptor data_reply_handle 0).getD
        (ZOK, data_reply_handle)).2.last_zxid ∧
    ((zookeeper_process inline_adaptor data_reply_handle 0).getD
      (ZOK, data_reply_handle)).2.last_zxid = 5 :=
  have h := last_zxid_tracking inline_adaptor data_reply_handle
    (api_prolog data_reply_handle)
    ((zookeeper_process inline_adaptor data_reply_handle 0).getD (ZOK, data_reply_handle)).2
    0 [] (reply_frame 7 5 0 [1, 2, 3]) (by decide) (by decide) (by decide) (by decide)
  ⟨by decide, by decide, by decide, by decide, h.elim (fun _ hz => hz.2.2.2.2.1), by decide⟩

/-! ## Nothing but the handshake is written before the session is established -/

theorem quiet_refl (req : connect_req) (zh : zhandle_t) : quiet req zh zh :=
  ⟨[], by simp, fun _ h => absurd h (List.not_mem_nil _)⟩

theorem quiet_trans (req : connect_req) {a b c : zhandle_t} (h1 : quiet req a b)
    (h2 : quiet req b c) : quiet req a c := by
  obtain ⟨m1, e1, p1⟩ := h1
  obtain ⟨m2, e2, p2⟩ := h2
  refine ⟨m1 ++ m2, by rw [e2, e1, List.append_assoc], fun s hs => ?_⟩
  rcases List.mem_append.mp hs with h | h
  · exact p1 s h
  · exact p2 s h

theorem quiet_of_log (req : connect_req) (zh zh2 : zhandle_t)
    (h : zh2.world.log = zh.world.log) : quiet req zh zh2 :=
  ⟨[], by simp [h], fun _ h => absurd h (List.not_mem_nil _)⟩

theorem quiet_handle_error (req : connect_req) (zh : zhandle_t) (rc : Int) :
    quiet req zh (handle_error zh rc) := by
  rw [handle_error_eq]
  refine ⟨[Syscall.close zh.fd], rfl, fun s hs => ?_⟩
  rw [List.mem_singleton.mp hs]
  trivial

theorem send_log_cases (w : World) (fd : Int) (bytes : List Nat) :
    ((send w fd bytes).2.2.log = w.log ∨
      ∃ sent, sent <+: bytes ∧ (send w fd bytes).2.2.log = w.log ++ [Syscall.send fd sent]) ∧
    (send w fd bytes).2.2.next_xid = w.next_xid ∧ (send w fd bytes).2.2.now = w.now ∧
    (send w fd bytes).2.2.next_fd = w.next_fd := by
  unfold send
  split
  · exact ⟨Or.inl rfl, rfl, rfl, rfl⟩
  · exact ⟨Or.inl rfl, rfl, rfl, rfl⟩
  · exact ⟨Or.inr ⟨_, List.take_prefix _ _, rfl⟩, rfl, rfl, rfl⟩

theorem prime_connection_eq (zh : zhandle_t) :
    ∃ w more, w.log = zh.world.log ++ more ∧
      (∀ s ∈ more, handshake_piece (prime_connection_req zh) s) ∧
      connect_targets w.log = connect_targets zh.world.log ∧
      (prime_connection zh =
          (ZOK, { zh with
            world := w, state := ASSOCIATING_STATE, input_buffer := input_buffer_t.primer,
            primer_buffer := { zh.primer_buffer with curr_offset := 4 } }) ∨
        prime_connection zh =
          (ZCONNECTIONLOSS, handle_error { zh with world := w } ZCONNECTIONLOSS)) := by
  unfold prime_connection handle_socket_error_msg
  simp only []
  have h1 := send_log_cases zh.world zh.fd (be32 HANDSHAKE_REQ_SIZE)
  have t1 := send_world zh.world zh.fd (be32 HANDSHAKE_REQ_SIZE)
  rcases hs1 : send zh.world zh.fd (be32 HANDSHAKE_REQ_SIZE) with ⟨rc1, e1, w1⟩
  rw [hs1] at h1 t1
  simp only [] at h1 t1 ⊢
  have q1 : ∃ m1, w1.log = zh.world.log ++ m1 ∧
      ∀ s ∈ m1, handshake_piece (prime_connection_req zh) s := by
    rcases h1.1 with h | ⟨sent, hp, h⟩
    · exact ⟨[], by simp [h], fun _ h => absurd h (List.not_mem_nil _)⟩
    · refine ⟨[Syscall.send zh.fd sent], h, fun s hs => ?_⟩
      rw [List.mem_singleton.mp hs]
      exact Or.inl hp
  obtain ⟨m1, hm1, pm1⟩ := q1
  by_cases hneg : rc1 < 0
  · simp only [hneg, if_true]
    exact ⟨w1, m1, hm1, pm1, t1.1, Or.inr rfl⟩
  · simp only [hneg, if_false]
    have h2 := send_log_cases w1 zh.fd
      (List.take HANDSHAKE_REQ_SIZE.toNat (serialize_prime_connect (prime_connection_req zh)))
    have t2 := send_world w1 zh.fd
      (List.take HANDSHAKE_REQ_SIZE.toNat (serialize_prime_connect (prime_connection_req zh)))
    rcases hs2 : send w1 zh.fd (List.take HANDSHAKE_REQ_SIZE.toNat
      (serialize_prime_connect (prime_connection_req zh))) with ⟨rc2, e2, w2⟩
    rw [hs2] at h2 t2
    simp only [] at h2 t2 ⊢
    have q2 : ∃ m2, w2.log = zh.world.log ++ m2 ∧
        ∀ s ∈ m2, handshake_piece (prime_connection_req zh) s := by
      rcases h2.1 with h | ⟨sent, hp, h⟩
      · exact ⟨m1, by rw [h, hm1], pm1⟩
      · refine ⟨m1 ++ [Syscall.send zh.fd sent], by rw [h, hm1, List.append_assoc],
          fun s hs => ?_⟩
        rcases List.mem_append.mp hs with hs | hs
        · exact pm1 s hs
        · rw [List.mem_singleton.mp hs]
          exact Or.inr (hp.trans (List.take_prefix _ _))
    obtain ⟨m2, hm2, pm2⟩ := q2
    by_cases hneg2 : rc2 < 0
    · simp only [hneg2, if_true]
      exact ⟨w2, m2, hm2, pm2, t2.1.trans t1.1, Or.inr rfl⟩
    · simp only [hneg2, if_false]
      exact ⟨w2, m2, hm2, pm2, t2.1.trans t1.1, Or.inl rfl⟩

theorem quiet_prime_connection (zh : zhandle_t) :
    quiet (prime_connection_req zh) zh (prime_connection zh).2 := by
  obtain ⟨w, more, h1, h2, _, h4 | h4⟩ := prime_connection_eq zh
  · rw [h4]
    exact ⟨more, h1, h2⟩
  · rw [h4]
    exact quiet_trans _ (b := { zh with world := w }) ⟨more, h1, h2⟩ (quiet_handle_error _ _ _)

theorem send_auth_info_world (zh : zhandle_t) : (send_auth_info zh).2.world = zh.world := by
  rw [send_auth_info_fields]

theorem quiet_check_events_complete (req : connect_req) (zh : zhandle_t) :
    quiet req zh (check_events_complete zh).2 := by
  unfold check_events_complete handle_socket_error_msg call_watcher
  simp only []
  split
  · split
    · exact quiet_trans req (b := { zh with
          last_recv := gettimeofday zh.world,
          primer_storage := deserialize_prime_response (zh.primer_buffer.buffer.getD []),
          state := EXPIRED_SESSION_STATE })
        (quiet_of_log req _ _ rfl) (quiet_handle_error req _ _)
    · refine quiet_of_log req _ _ ?_
      simp only [send_auth_info_world]
  · exact quiet_of_log req _ _ rfl
  · exact quiet_of_log req _ _ rfl

theorem quiet_after_recv (req : connect_req) (zh zhr : zhandle_t) (rc : Int)
    (h : quiet req zh zhr) :
    quiet req zh
      (if rc < 0 then handle_socket_error_msg zhr ZCONNECTIONLOSS
        else if rc > 0 then check_events_complete zhr else (ZOK, zhr)).2 := by
  split
  · exact quiet_trans req h (quiet_handle_error req _ _)
  · split
    · exact quiet_trans req h (quiet_check_events_complete req _)
    · exact h

theorem quiet_check_events_read (req : connect_req) (zh : zhandle_t) (events : Int) :
    quiet req zh (check_events_read zh events).2 := by
  unfold check_events_read
  by_cases hr : Int.land events ZOOKEEPER_READ ≠ 0
  · rw [if_pos hr]
    cases hin : zh.input_buffer with
    | null =>
      simp only [hin, if_true]
      have hw := recv_buffer_world zh.world zh.fd (allocate_buffer none 0)
      rcases hb : recv_buffer zh.world zh.fd (allocate_buffer none 0) with ⟨rc, b, w⟩
      rw [hb] at hw
      exact quiet_after_recv req zh _ rc (quiet_of_log req _ _ hw.1)
    | primer =>
      simp only [hin, reduceCtorEq, if_false]
      have hw := recv_buffer_world zh.world zh.fd zh.primer_buffer
      rcases hb : recv_buffer zh.world zh.fd zh.primer_buffer with ⟨rc, b, w⟩
      rw [hb] at hw
      exact quiet_after_recv req zh _ rc (quiet_of_log req _ _ hw.1)
    | heap b0 =>
      simp only [hin, reduceCtorEq, if_false]
      have hw := recv_buffer_world zh.world zh.fd b0
      rcases hb : recv_buffer zh.world zh.fd b0 with ⟨rc, b, w⟩
      rw [hb] at hw
      exact quiet_after_recv req zh _ rc (quiet_of_log req _ _ hw.1)
  · rw [if_neg hr]
    exact quiet_refl req zh

theorem quiet_check_events (zh : zhandle_t) (events : Int)
    (hst : zh.state ≠ CONNECTED_STATE) :
    quiet (prime_connection_req zh) zh (check_events zh events).2 := by
  unfold check_events
  by_cases hfd : zh.fd = -1
  · rw [if_pos hfd]
    exact quiet_refl _ zh
  · rw [if_neg hfd]
    by_cases hc : Int.land events ZOOKEEPER_WRITE ≠ 0 ∧ zh.state = CONNECTING_STATE
    · rw [if_pos hc]
      have hw := getsockopt_world zh.world
      rcases hg : getsockopt zh.world with ⟨rc, error, w1⟩
      rw [hg] at hw
      simp only [handle_socket_error_msg]
      have h1 : quiet (prime_connection_req zh) zh { zh with world := w1 } :=
        quiet_of_log _ _ _ hw.1
      by_cases he : rc < 0 ∨ error ≠ 0
      · rw [if_pos he]
        exact quiet_trans _ h1 (quiet_handle_error _ _ _)
      · rw [if_neg he]
        have h2 := quiet_prime_connection { zh with world := w1 }
        split <;> exact quiet_trans _ h1 h2
    · rw [if_neg hc]
      by_cases hw : zh.to_send ≠ [] ∧ Int.land events ZOOKEEPER_WRITE ≠ 0
      · rw [if_pos hw, flush_send_queue_not_connected zh 0 hst]
        simp only []
        rw [if_neg (by decide)]
        exact quiet_check_events_read _ zh events
      · rw [if_neg hw]
        exact quiet_check_events_read _ zh events

theorem quiet_api_epilog (req : connect_req) (zh : zhandle_t) (rc : Int)
    (hopen : zh.close_requested = 0) : quiet req zh (api_epilog zh rc).2 := by
  rw [api_epilog_open zh rc hopen]
  exact quiet_of_log req _ _ rfl

theorem auth_completion_func_world (rc : Int) (zh : zhandle_t) :
    (auth_completion_func rc zh).world = zh.world ∧
    (auth_completion_func rc zh).close_requested = zh.close_requested := by
  unfold auth_completion_func
  simp only []
  split <;> split <;> exact ⟨rfl, rfl⟩

theorem process_sync_reply_world (zh : zhandle_t) (cptr : completion_list_t) (rc : Int)
    (frame : List Nat) :
    (process_sync_reply zh cptr rc frame).world = zh.world ∧
    (process_sync_reply zh cptr rc frame).close_requested = zh.close_requested := by
  obtain ⟨sc, _, _, h⟩ := process_sync_reply_eq zh cptr rc frame
  rw [h]
  exact ⟨rfl, rfl⟩

theorem quiet_zookeeper_process_loop (req : connect_req) (l : List buffer_list_t)
    (zh : zhandle_t) (hopen : zh.close_requested = 0) :
    (∀ rc zh2, zookeeper_process_loop l zh = Outcome.ret rc zh2 → quiet req zh zh2) ∧
    (∀ zh2, zookeeper_process_loop l zh = Outcome.next zh2 → quiet req zh zh2) := by
  induction l generalizing zh with
  | nil =>
    rw [zookeeper_process_loop]
    refine ⟨fun _ _ h => ?_, fun zh2 h => ?_⟩
    · cases h
    · cases h
      exact quiet_refl _ _
  | cons bptr rest ih =>
    have step : ∀ zh1, quiet req zh zh1 → zh1.close_requested = 0 →
        ((∀ rc zh2, zookeeper_process_loop rest zh1 = Outcome.ret rc zh2 → quiet req zh zh2) ∧
         (∀ zh2, zookeeper_process_loop rest zh1 = Outcome.next zh2 → quiet req zh zh2)) :=
      fun zh1 he ho =>
        ⟨fun rc zh2 h => quiet_trans req he ((ih zh1 ho).1 rc zh2 h),
         fun zh2 h => quiet_trans req he ((ih zh1 ho).2 zh2 h)⟩
    rw [zookeeper_process_loop]
    simp only []
    split
    · exact step _ (quiet_of_log req _ _ rfl) hopen
    · split
      · obtain ⟨zh0, hzh0⟩ : ∃ z : zhandle_t, z =
            { zh with
              to_process := rest,
              last_zxid := (deserialize_ReplyHeader (bptr.buffer.getD [])).zxid } := ⟨_, rfl⟩
        rw [← hzh0]
        have ha := auth_completion_func_world
          (deserialize_ReplyHeader (bptr.buffer.getD [])).err zh0
        have hq : quiet req zh (auth_completion_func
            (deserialize_ReplyHeader (bptr.buffer.getD [])).err zh0) :=
          quiet_of_log req _ _ (by rw [ha.1, hzh0])
        have hoa : (auth_completion_func (deserialize_ReplyHeader (bptr.buffer.getD [])).err
            zh0).close_requested = 0 := by
          rw [ha.2, hzh0]; exact hopen
        split
        · refine ⟨fun rc zh2 h => ?_, fun zh2 h => by cases h⟩
          cases h
          refine quiet_trans req hq
            (quiet_trans req (quiet_handle_error req _ ZAUTHFAILED)
              (quiet_api_epilog req _ _ ?_))
          rw [handle_error_eq]
          exact hoa
        · exact step _ hq hoa
      · cases hsr : zh.sent_requests with
        | nil =>
          simp only [dequeue_completion]
          exact ⟨fun _ _ h => (by cases h), fun _ h => (by cases h)⟩
        | cons cptr tl =>
          simp only [dequeue_completion, handle_socket_error_msg]
          split
          · refine ⟨fun rc zh2 h => ?_, fun zh2 h => by cases h⟩
            cases h
            exact quiet_trans req (b := { zh with
                to_process := rest,
                last_zxid := (deserialize_ReplyHeader (bptr.buffer.getD [])).zxid,
                sent_requests := queue_completion tl cptr 1 })
              (quiet_of_log req _ _ rfl) (quiet_handle_error req _ _)
          · split
            · split
              · exact step _ (quiet_of_log req _ _ rfl) hopen
              · exact step _ (quiet_of_log req _ _ rfl) hopen
            · obtain ⟨zh0, hzh0⟩ : ∃ z : zhandle_t, z =
                  { zh with
                    to_process := rest,
                    last_zxid := (deserialize_ReplyHeader (bptr.buffer.getD [])).zxid,
                    sent_requests := tl } := ⟨_, rfl⟩
              rw [← hzh0]
              have hp := process_sync_reply_world zh0 cptr
                (deserialize_ReplyHeader (bptr.buffer.getD [])).err (bptr.buffer.getD [])
              exact step _ (quiet_of_log req _ _ (by rw [hp.1, hzh0]))
                (by rw [hp.2, hzh0]; exact hopen)

theorem quiet_zookeeper_process (ad : Adaptor) (zh : zhandle_t) (events : Int)
    (r : Int × zhandle_t) (hopen : zh.close_requested = 0)
    (hst : zh.state ≠ CONNECTED_STATE)
    (h : zookeeper_process ad zh events = some r) :
    quiet (prime_connection_req zh) zh r.2 := by
  unfold zookeeper_process at h
  by_cases hun : is_unrecoverable zh ≠ 0
  · rw [if_pos hun] at h
    cases h
    exact quiet_refl _ zh
  · rw [if_neg hun] at h
    simp only [] at h
    have hp : quiet (prime_connection_req zh) zh (api_prolog zh) := by
      rw [api_prolog_eq]; exact quiet_of_log _ _ _ rfl
    have hc : quiet (prime_connection_req zh) (api_prolog zh)
        (check_events (api_prolog zh) events).2 := by
      have := quiet_check_events (api_prolog zh) events (by rw [api_prolog_eq]; exact hst)
      rw [api_prolog_eq] at this ⊢
      exact this
    have hev := evolves_check_events (api_prolog zh) events
    have hfd := check_events_ok_fd (api_prolog zh) events
    rcases hce : check_events (api_prolog zh) events with ⟨rc1, zh1⟩
    rw [hce] at hc hev h hfd
    simp only [] at h hc hev hfd
    have he1 := quiet_trans _ hp hc
    have ho1 : zh1.close_requested = 0 :=
      (evolves_trans (evolves_api_prolog zh) hev).2.1.trans hopen
    by_cases hrc : rc1 ≠ ZOK
    · rw [if_pos hrc] at h
      cases h
      exact quiet_trans _ he1 (quiet_api_epilog _ zh1 rc1 ho1)
    · rw [if_neg hrc] at h
      have hl := quiet_zookeeper_process_loop (prime_connection_req zh) zh1.to_process zh1 ho1
      cases hloop : zookeeper_process_loop zh1.to_process zh1 with
      | abort =>
        rw [hloop] at h
        cases h
      | ret rc zh2 =>
        rw [hloop] at h
        cases h
        exact quiet_trans _ he1 (hl.1 rc zh2 hloop)
      | next zh2 =>
        rw [hloop] at h
        simp only [] at h
        cases h
        have he2 := quiet_trans _ he1 (hl.2 zh2 hloop)
        have hfd1 : zh1.fd ≠ -1 := by
          obtain ⟨e1, e2⟩ := hfd (not_not.mp hrc)
          rw [e1]; exact e2
        have ho2 : zh2.close_requested = 0 :=
          ((evolves_zookeeper_process_loop zh1.to_process zh1 hfd1 ho1).2 zh2
            hloop).2.1.trans ho1
        have hpc : quiet (prime_connection_req zh) zh2 (process_completions zh2) := by
          rw [process_completions_eq]; exact quiet_of_log _ _ _ rfl
        split
        · refine quiet_trans _ (quiet_trans _ he2 hpc) (quiet_api_epilog _ _ _ ?_)
          rw [process_completions_eq]; exact ho2
        · exact quiet_trans _ he2 (quiet_api_epilog _ _ _ ho2)

theorem quiet_zookeeper_interest_timers (req : connect_req) (zh : zhandle_t)
    (out : interest_args) (hopen : zh.close_requested = 0) :
    quiet req zh (zookeeper_interest_timers zh out).2.2 := by
  unfold zookeeper_interest_timers
  by_cases hfd : zh.fd ≠ -1
  · rw [if_pos hfd]
    simp only []
    split
    · split
      · simp only [add_void_completion, add_completion, queue_buffer_bytes, ZOK,
          show ¬ ((0 : Int) < 0) from by decide, if_false, reduceCtorEq]
        rw [zookeeper_interest_report_handle]
        exact quiet_trans req (quiet_of_log req _ _ rfl) (quiet_api_epilog req _ _ hopen)
      · rw [zookeeper_interest_report_handle]
        exact quiet_api_epilog req _ _ hopen
    · split
      · simp only [handle_socket_error_msg]
        refine quiet_trans req (quiet_handle_error req zh _) (quiet_api_epilog req _ _ ?_)
        rw [handle_error_eq]; exact hopen
      · rw [zookeeper_interest_report_handle]
        exact quiet_api_epilog req _ _ hopen
  · rw [if_neg hfd]
    exact quiet_api_epilog req zh ZOK hopen

theorem quiet_zookeeper_interest_connected (req : connect_req) (zh : zhandle_t)
    (out : interest_args) (hopen : zh.close_requested = 0) :
    quiet req zh (zookeeper_interest_connected zh out).2.2 := by
  unfold zookeeper_interest_connected
  exact quiet_trans req (b := { zh with last_recv := gettimeofday zh.world })
    (quiet_of_log req _ _ rfl) (quiet_zookeeper_interest_timers req _ _ hopen)

theorem quiet_zookeeper_interest (zh : zhandle_t) (out : interest_args)
    (hopen : zh.close_requested = 0) :
    quiet (prime_connection_req zh) zh (zookeeper_interest zh out).2.2 := by
  unfold zookeeper_interest
  by_cases hun : is_unrecoverable zh ≠ 0
  · rw [if_pos hun]
    exact quiet_refl _ zh
  · rw [if_neg hun, api_prolog_eq]
    simp only []
    by_cases hfd : zh.fd = -1
    · rw [if_pos hfd]
      by_cases hidx : zh.connect_index = zh.addrs_count
      · rw [if_pos hidx]
        exact quiet_trans _ (b := { zh with ref_counter := zh.ref_counter + 1, connect_index := 0 })
          (quiet_of_log _ _ _ rfl) (quiet_zookeeper_interest_connected _ _ _ hopen)
      · rw [if_neg hidx]
        simp only [socket]
        have hcw := connect_world
          { zh.world with log := zh.world.log ++ [Syscall.socket zh.world.next_fd] }
          zh.world.next_fd zh.connect_index
        rcases hc : connect { zh.world with log := zh.world.log ++ [Syscall.socket zh.world.next_fd] }
          zh.world.next_fd zh.connect_index with ⟨crc, errno, w2⟩
        rw [hc] at hcw
        simp only [] at hcw ⊢
        have hq : ∀ z : zhandle_t, z.world = w2 → quiet (prime_connection_req zh) zh z := by
          intro z hz
          refine ⟨[Syscall.socket zh.world.next_fd,
            Syscall.connect zh.world.next_fd zh.connect_index], ?_, fun s hs => ?_⟩
          · rw [hz, hcw.1]; simp
          · simp only [List.mem_cons, List.mem_singleton, List.not_mem_nil, or_false] at hs
            rcases hs with hs | hs <;> rw [hs] <;> trivial
        by_cases hc1 : crc = -1
        · rw [if_pos hc1]
          by_cases hc2 : errno = EWOULDBLOCK ∨ errno = EINPROGRESS
          · rw [if_pos hc2]
            exact quiet_trans _ (hq _ rfl) (quiet_zookeeper_interest_connected _ _ _ hopen)
          · rw [if_neg hc2]
            simp only [handle_socket_error_msg]
            refine quiet_trans _ (hq _ rfl)
              (quiet_trans _ (quiet_handle_error _ _ _) (quiet_api_epilog _ _ _ ?_))
            rw [handle_error_eq]
            exact hopen
        · rw [if_neg hc1]
          obtain ⟨zhp, hzhp⟩ : ∃ z : zhandle_t, z =
              { zh with
                fd := zh.world.next_fd, world := w2,
                ref_counter := zh.ref_counter + 1 } := ⟨_, rfl⟩
          have hb : quiet (prime_connection_req zh) zh zhp := hq _ (by rw [hzhp])
          have hop : zhp.close_requested = 0 := by rw [hzhp]; exact hopen
          rw [← hzhp]
          have hp : quiet (prime_connection_req zh) zhp (prime_connection zhp).2 := by
            have := quiet_prime_connection zhp
            rw [hzhp] at this ⊢
            exact this
          have ho : (prime_connection zhp).2.close_requested = 0 := by
            obtain ⟨w, more, _, _, _, h4 | h4⟩ := prime_connection_eq zhp
            · rw [h4]; exact hop
            · rw [h4, handle_error_eq]; exact hop
          split
          · exact quiet_trans _ hb (quiet_trans _ hp (quiet_api_epilog _ _ _ ho))
          · exact quiet_trans _ hb (quiet_trans _ hp
              (quiet_zookeeper_interest_connected _ _ _ ho))
    · rw [if_neg hfd]
      exact quiet_trans _ (b := { zh with ref_counter := zh.ref_counter + 1 })
        (quiet_of_log _ _ _ rfl) (quiet_zookeeper_interest_timers _ _ _ hopen)

theorem quiet_op_call (req : connect_req) (op : Op) (zh : zhandle_t) (req_rc : Int)
    (body : List Nat) (dc : FnPtr) (data : Nat) (sc : sync_completion)
    (hst : zh.state ≠ CONNECTED_STATE) :
    quiet req zh (op.call zh req_rc body dc data sc).2 := by
  obtain ⟨type, kind, h⟩ := Op_call_eq op
  rw [h]
  by_cases hneg : zh.state < 0
  · rw [zoo_arequest_unrecoverable _ _ _ _ _ _ _ _ hneg]
    exact quiet_of_log req _ _ rfl
  · rw [zoo_arequest_eq type kind _ (fun _ _ _ _ _ => rfl) zh req_rc body dc data sc
      (not_lt.mp hneg)]
    split
    · rw [flush_send_queue_not_connected]
      · exact quiet_of_log req _ _ rfl
      · exact hst
    · rw [flush_send_queue_not_connected]
      · exact quiet_of_log req _ _ rfl
      · exact hst

theorem zoo_add_auth_world (zh : zhandle_t) (scheme : List Nat) (cert : Option (List Nat))
    (certLen : Int) (completion : FnPtr) (data : Nat) :
    (zoo_add_auth zh scheme cert certLen completion data).2.world = zh.world := by
  unfold zoo_add_auth
  split
  · rfl
  · cases cert with
    | none =>
      simp only []
      split
      · rw [send_auth_info_world]
      · rfl
    | some bytes =>
      by_cases hl : certLen ≠ 0
      · simp only [if_pos hl]
        split
        · rw [send_auth_info_world]
        · rfl
      · simp only [if_neg hl]
        split
        · rw [send_auth_info_world]
        · rfl

theorem quiet_zookeeper_close (req : connect_req) (zh : zhandle_t)
    (hst : zh.state ≠ CONNECTED_STATE) : quiet req zh (zookeeper_close zh).2 := by
  rw [zookeeper_close_not_connected zh hst]
  split
  · exact quiet_of_log req _ _ rfl
  · simp only [destroy_eq]
    by_cases hfd : zh.fd ≠ -1
    · refine ⟨[Syscall.close zh.fd], ?_, fun s hs => ?_⟩
      · simp only [if_pos hfd, close]
      · rw [List.mem_singleton.mp hs]
        trivial
    · refine quiet_of_log req _ _ ?_
      simp only [if_neg hfd]

theorem quiet_install (req : connect_req) (env : World) (zh zh2 : zhandle_t)
    (h : quiet req (install env zh) zh2) : quiet req zh zh2 := h

theorem quiet_run_call (ad : Adaptor) (c : Call) (zh zh2 : zhandle_t)
    (hopen : zh.close_requested = 0) (hst : zh.state ≠ CONNECTED_STATE)
    (h : run_call ad c zh = some zh2) : quiet (prime_connection_req zh) zh zh2 := by
  cases c with
  | interest env out =>
    simp only [run_call, Option.some.injEq] at h
    rw [← h]
    exact quiet_install _ env zh _ (quiet_zookeeper_interest (install env zh) out hopen)
  | process env events =>
    simp only [run_call, Option.map_eq_some'] at h
    obtain ⟨r, hr, h⟩ := h
    rw [← h]
    exact quiet_install _ env zh _ (quiet_zookeeper_process ad (install env zh) events r hopen hst hr)
  | request env op req_rc req dc data sc =>
    simp only [run_call, Option.some.injEq] at h
    rw [← h]
    exact quiet_install _ env zh _ (quiet_op_call _ op (install env zh) req_rc req dc data sc hst)
  | add_auth env scheme cert certLen completion data =>
    simp only [run_call, Option.some.injEq] at h
    rw [← h]
    exact quiet_install _ env zh _ (quiet_of_log _ _ _ (by rw [zoo_add_auth_world]))
  | set_watcher newFn =>
    simp only [run_call, Option.some.injEq] at h
    rw [← h]
    refine quiet_of_log _ _ _ ?_
    unfold zoo_set_watcher
    cases newFn <;> rfl

/-- C29 (nothing is sent before the handshake completes): for a handle whose state is not
CONNECTED_STATE, `flush_send_queue` returns ZOK and leaves the whole handle as it was, so
`to_send`, the cursor of every frame and the log of the system calls; outside
CONNECTING_STATE, where `check_events` completes the connection instead, the WRITE bit of
`events` makes no difference to `check_events`; and when the handle is not being closed,
after any call of the API (`zookeeper_interest`, `zookeeper_process`, a request,
`zoo_add_auth`, `zoo_set_watcher`), as after `check_events` and `zookeeper_close`, the log
has only grown, and each `send` made by the call has written the beginning of the four bytes
of the handshake length or of the handshake request of `prime_connection`. -/
theorem nothing_sent_before_connected (ad : Adaptor) (zh : zhandle_t)
    (hst : zh.state ≠ CONNECTED_STATE) :
    (∀ timeout, flush_send_queue zh timeout = (ZOK, zh)) ∧
    (zh.state ≠ CONNECTING_STATE → zh.fd ≠ -1 → ∀ events,
      check_events zh events = check_events_read zh events) ∧
    (∀ events, quiet (prime_connection_req zh) zh (check_events zh events).2) ∧
    quiet (prime_connection_req zh) zh (zookeeper_close zh).2 ∧
    (zh.close_requested = 0 → ∀ c zh2, run_call ad c zh = some zh2 →
      quiet (prime_connection_req zh) zh zh2) := by
  refine ⟨fun timeout => flush_send_queue_not_connected zh timeout hst, ?_,
    fun events => quiet_check_events zh events hst, quiet_zookeeper_close _ zh hst,
    fun hopen c zh2 h => quiet_run_call ad c zh zh2 hopen hst h⟩
  intro hc hfd events
  unfold check_events
  rw [if_neg hfd, if_neg (fun h => hc h.2)]
  split
  · rw [flush_send_queue_not_connected zh 0 hst]
    simp only [ZOK, show ¬ ((0 : Int) < 0) from by decide, if_false]
  · rfl

/-- C29 (instance): the handle `queued_fresh_handle` has the request `get_x_frame` queued and
no connection.  Flushing it writes nothing; the call of `zookeeper_interest` that connects
writes the four bytes of the length 44 and the 44 bytes of the handshake request and nothing
else, and the queued frame is still whole in `to_send`. -/
theorem nothing_sent_before_connected_witness :
    queued_fresh_handle.state ≠ CONNECTED_STATE ∧
    flush_send_queue queued_fresh_handle 0 = (ZOK, queued_fresh_handle) ∧
    quiet (prime_connection_req queued_fresh_handle) queued_fresh_handle
      (zookeeper_interest (install queued_fresh_handle.world queued_fresh_handle)
        { fd := 0, interest := 0, tv := { tv_sec := 0, tv_usec := 0 } }).2.2 ∧
    (zookeeper_interest (install queued_fresh_handle.world queued_fresh_handle)
        { fd := 0, interest := 0, tv := { tv_sec := 0, tv_usec := 0 } }).2.2.world.log =
      [Syscall.socket 3, Syscall.connect 3 0, Syscall.send 3 (be32 HANDSHAKE_REQ_SIZE),
        Syscall.send 3 (serialize_prime_connect (prime_connection_req queued_fresh_handle))] ∧
    (zookeeper_interest (install queued_fresh_handle.world queued_fresh_handle)
        { fd := 0, interest := 0, tv := { tv_sec := 0, tv_usec := 0 } }).2.2.to_send =
      [get_x_frame] :=
  have h := nothing_sent_before_connected inline_adaptor queued_fresh_handle (by decide)
  ⟨by decide, h.1 0,
    h.2.2.2.2 (by decide)
      (Call.interest queued_fresh_handle.world
        { fd := 0, interest := 0, tv := { tv_sec := 0, tv_usec := 0 } }) _ rfl,
    by decide, by decide⟩

/-- C28 (code bug): `zoo_add_auth` on a connected handle returns ZOK and puts the SETAUTH
frame at the front of `to_send` whatever the cursor of the frame that was at the head: the
queue afterwards is the new frame, with cursor 0, followed by the former queue unchanged.  So
when the former head was partly written, a frame other than the head has a cursor that is not
0, and the new frame goes on the wire in the middle of the old one. -/
theorem add_auth_ahead_of_head (zh : zhandle_t) (scheme : List Nat)
    (cert : Option (List Nat)) (certLen : Int) (completion : FnPtr) (data : Nat)
    (head : buffer_list_t) (rest : List buffer_list_t)
    (hst : zh.state = CONNECTED_STATE) (hts : zh.to_send = head :: rest) :
    (zoo_add_auth zh scheme cert certLen completion data).1 = ZOK ∧
    (zoo_add_auth zh scheme cert certLen completion data).2.to_send =
      { buffer := some (serialize_RequestHeader { xid := AUTH_XID, type := SETAUTH_OP } ++
          serialize_AuthPacket 0 scheme
            (zoo_add_auth zh scheme cert certLen completion data).2.auth.auth),
        len := 8 + ((serialize_AuthPacket 0 scheme
          (zoo_add_auth zh scheme cert certLen completion data).2.auth.auth).length : Int),
        curr_offset := 0 } :: head :: rest := by
  have hlen : ∀ a : List Nat,
      (((serialize_RequestHeader { xid := AUTH_XID, type := SETAUTH_OP } ++
        serialize_AuthPacket 0 scheme a).length : Nat) : Int) =
        8 + ((serialize_AuthPacket 0 scheme a).length : Int) := by
    intro a
    simp only [serialize_RequestHeader, List.length_append, be32_length]
    omega
  have hal : ∀ a : List Nat,
      allocate_buffer (some (serialize_RequestHeader { xid := AUTH_XID, type := SETAUTH_OP } ++
        serialize_AuthPacket 0 scheme a))
        (((serialize_RequestHeader { xid := AUTH_XID, type := SETAUTH_OP } ++
          serialize_AuthPacket 0 scheme a).length : Nat) : Int) =
      { buffer := some (serialize_RequestHeader { xid := AUTH_XID, type := SETAUTH_OP } ++
          serialize_AuthPacket 0 scheme a),
        len := 8 + ((serialize_AuthPacket 0 scheme a).length : Int),
        curr_offset := 0 } := by
    intro a
    unfold allocate_buffer
    rw [hlen a, if_neg (by omega)]
  have hun : ¬ (is_unrecoverable zh ≠ 0) := by
    unfold is_unrecoverable
    rw [hst]
    decide
  unfold zoo_add_auth
  rw [if_neg hun]
  cases cert with
  | none =>
    simp only [hst, true_or, if_true, send_auth_info, queue_front_buffer_bytes, queue_buffer,
      hts, show ¬ ((0 : Int) < 0) from by decide, if_false, ne_eq, one_ne_zero,
      not_false_eq_true, hal]
    exact ⟨rfl, trivial⟩
  | some bytes =>
    by_cases hl : certLen ≠ 0
    · simp only [if_pos hl, hst, true_or, if_true, send_auth_info, queue_front_buffer_bytes,
        queue_buffer, hts, show ¬ ((0 : Int) < 0) from by decide, if_false, ne_eq,
        one_ne_zero, not_false_eq_true, hal]
      exact ⟨rfl, trivial⟩
    · simp only [if_neg hl, hst, true_or, if_true, send_auth_info, queue_front_buffer_bytes,
        queue_buffer, hts, show ¬ ((0 : Int) < 0) from by decide, if_false, ne_eq,
        one_ne_zero, not_false_eq_true, hal]
      exact ⟨rfl, trivial⟩

/-- C28 (failing input): `zoo_aget(zh, "/x", ...)` on a connected handle, then a
`zookeeper_process` that writes three bytes of the length of its frame, then
`zoo_add_auth(zh, "digest", "u:p", 3, ...)`.  In `to_send` the SETAUTH frame, with cursor 0,
is then ahead of the frame of the request, with cursor 3; and the next `zookeeper_process`
writes the whole SETAUTH frame between the third and the fourth byte of the request frame. -/
theorem add_auth_ahead_of_head_witness :
    run inline_adaptor partial_get_calls connected_handle = some partly_sent_handle ∧
    partly_sent_handle.state = CONNECTED_STATE ∧
    partly_sent_handle.to_send = [{ get_x_frame with curr_offset := 3 }] ∧
    wire_bytes partly_sent_handle.world.log = [0, 0, 0] ∧
    (zoo_add_auth partly_sent_handle [100, 105, 103, 101, 115, 116] (some [117, 58, 112]) 3
      (FnPtr.fn 40) 400).2.to_send.map (fun f => f.curr_offset) = [0, 3] ∧
    (run inline_adaptor add_auth_calls partly_sent_handle).map
        (fun z => (z.to_send, wire_bytes z.world.log)) =
      some ([], [0, 0, 0] ++
        (be32 29 ++ serialize_RequestHeader { xid := AUTH_XID, type := SETAUTH_OP } ++
          serialize_AuthPacket 0 [100, 105, 103, 101, 115, 116] [117, 58, 112]) ++
        (frame_image get_x_frame).drop 3) :=
  have h := add_auth_ahead_of_head partly_sent_handle [100, 105, 103, 101, 115, 116]
    (some [117, 58, 112]) 3 (FnPtr.fn 40) 400 { get_x_frame with curr_offset := 3 } []
    (by decide) (by decide)
  ⟨by decide, by decide, by decide, by decide,
    (congrArg (List.map (fun f => f.curr_offset)) h.2).trans rfl, by decide⟩

theorem cursor_bounded_evolves (N : Int) (base : List Int) (zh zh2 : zhandle_t)
    (h : evolves zh zh2) (hb : cursor_bounded N base zh) : cursor_bounded N base zh2 := by
  obtain ⟨b1, b2, b3, b4, b5, T, b6, b7⟩ := hb
  obtain ⟨e1, e2, e3, -, -, e6⟩ := h
  refine ⟨e1.trans b1, e2.trans b2, ?_, ?_, ?_, T, by rw [e3]; exact b6, b7⟩
  · rcases e6 with ⟨-, i⟩ | ⟨-, -, i⟩ <;> rw [i] <;> omega
  · rcases e6 with ⟨-, i⟩ | ⟨f0, -, i⟩
    · rw [i]; exact b4
    · rw [i]
      have := b5 f0
      omega
  · intro hfd
    rcases e6 with ⟨f, i⟩ | ⟨-, f, -⟩
    · rw [i]
      exact b5 (by rw [← f]; exact hfd)
    · exact absurd f hfd

theorem cursor_bounded_of_fields (N : Int) (base : List Int) (zh zh2 : zhandle_t)
    (hb : cursor_bounded N base zh) (hlt : zh.connect_index < N)
    (h1 : zh2.addrs_count = zh.addrs_count) (h2 : zh2.close_requested = zh.close_requested)
    (h3 : connect_targets zh2.world.log = connect_targets zh.world.log)
    (h4 : zh2.connect_index = zh.connect_index ∨
      (zh2.fd = -1 ∧ zh2.connect_index = zh.connect_index + 1)) :
    cursor_bounded N base zh2 := by
  obtain ⟨b1, b2, b3, b4, b5, T, b6, b7⟩ := hb
  refine ⟨h1.trans b1, h2.trans b2, ?_, ?_, ?_, T, by rw [h3]; exact b6, b7⟩
  · rcases h4 with i | ⟨-, i⟩ <;> rw [i] <;> omega
  · rcases h4 with i | ⟨-, i⟩ <;> rw [i] <;> omega
  · intro hfd
    rcases h4 with i | ⟨f, -⟩
    · rw [i]; exact hlt
    · exact absurd f hfd

theorem cursor_bounded_handle_error (N : Int) (base : List Int) (zh : zhandle_t) (rc : Int)
    (hb : cursor_bounded N base zh) (hlt : zh.connect_index < N) :
    cursor_bounded N base (handle_error zh rc) := by
  refine cursor_bounded_of_fields N base zh _ hb hlt ?_ ?_ ?_ (Or.inr ⟨?_, ?_⟩) <;>
    rw [handle_error_eq]
  exact (close_world zh.world zh.fd).1

theorem cursor_bounded_prime_connection (N : Int) (base : List Int) (zh : zhandle_t)
    (hb : cursor_bounded N base zh) (hlt : zh.connect_index < N) :
    cursor_bounded N base (prime_connection zh).2 := by
  obtain ⟨w, more, -, -, h3, h4 | h4⟩ := prime_connection_eq zh
  · rw [h4]
    exact cursor_bounded_of_fields N base zh _ hb hlt rfl rfl h3 (Or.inl rfl)
  · rw [h4]
    exact cursor_bounded_handle_error N base _ _
      (cursor_bounded_of_fields N base zh { zh with world := w } hb hlt rfl rfl h3 (Or.inl rfl))
      hlt

theorem cursor_bounded_interest (N : Int) (base : List Int) (zh : zhandle_t)
    (out : interest_args) (hb : cursor_bounded N base zh) :
    cursor_bounded N base (zookeeper_interest zh out).2.2 := by
  have hopen := hb.2.1
  unfold zookeeper_interest
  by_cases hun : is_unrecoverable zh ≠ 0
  · rw [if_pos hun]
    exact hb
  · rw [if_neg hun, api_prolog_eq]
    simp only []
    by_cases hfd : zh.fd = -1
    · rw [if_pos hfd]
      by_cases hidx : zh.connect_index = zh.addrs_count
      · rw [if_pos hidx]
        refine cursor_bounded_evolves N base _ _
          (evolves_zookeeper_interest_connected _ _ hopen) ?_
        obtain ⟨b1, b2, b3, b4, b5, T, b6, b7⟩ := hb
        exact ⟨b1, b2, le_refl 0, le_trans b3 b4,
          fun h => absurd hfd h, T, b6, b7⟩
      · rw [if_neg hidx]
        simp only [socket]
        have hcw := connect_world
          { zh.world with log := zh.world.log ++ [Syscall.socket zh.world.next_fd] }
          zh.world.next_fd zh.connect_index
        rcases hc : connect { zh.world with log := zh.world.log ++ [Syscall.socket zh.world.next_fd] }
          zh.world.next_fd zh.connect_index with ⟨crc, errno, w2⟩
        rw [hc] at hcw
        simp only [] at hcw ⊢
        have hlt : zh.connect_index < N := by
          have := hb.2.2.2.1
          rw [hb.1] at hidx
          omega
        have hq : ∀ z : zhandle_t, z.world = w2 → z.addrs_count = zh.addrs_count →
            z.close_requested = zh.close_requested → z.connect_index = zh.connect_index →
            cursor_bounded N base z := by
          intro z hz h1 h2 h3
          obtain ⟨b1, b2, b3, b4, b5, T, b6, b7⟩ := hb
          refine ⟨h1.trans b1, h2.trans b2, by rw [h3]; exact b3, by rw [h3]; exact b4,
            fun _ => by rw [h3]; exact hlt, T ++ [zh.connect_index], ?_, fun t ht => ?_⟩
          · rw [hz, hcw.1]
            simp only [connect_targets_append, b6]
            simp [connect_targets]
          · rcases List.mem_append.mp ht with ht | ht
            · exact b7 t ht
            · rw [List.mem_singleton.mp ht]
              exact ⟨b3, hlt⟩
        by_cases hc1 : crc = -1
        · rw [if_pos hc1]
          by_cases hc2 : errno = EWOULDBLOCK ∨ errno = EINPROGRESS
          · rw [if_pos hc2]
            exact cursor_bounded_evolves N base _ _
              (evolves_zookeeper_interest_connected _ _ hopen) (hq _ rfl rfl rfl rfl)
          · rw [if_neg hc2]
            simp only [handle_socket_error_msg]
            have hh := cursor_bounded_handle_error N base _ ZCONNECTIONLOSS
              (hq { zh with
                fd := zh.world.next_fd, world := w2,
                ref_counter := zh.ref_counter + 1 } rfl rfl rfl rfl) hlt
            exact cursor_bounded_evolves N base _ _ (evolves_api_epilog _ _ hh.2.1) hh
        · rw [if_neg hc1]
          have hp := cursor_bounded_prime_connection N base _
            (hq { zh with
                fd := zh.world.next_fd, world := w2,
                ref_counter := zh.ref_counter + 1 } rfl rfl rfl rfl) hlt
          split
          · exact cursor_bounded_evolves N base _ _ (evolves_api_epilog _ _ hp.2.1) hp
          · exact cursor_bounded_evolves N base _ _
              (evolves_zookeeper_interest_connected _ _ hp.2.1) hp
    · rw [if_neg hfd]
      refine cursor_bounded_evolves N base _ _
        (evolves_zookeeper_interest_timers _ _ hopen) ?_
      obtain ⟨b1, b2, b3, b4, b5, T, b6, b7⟩ := hb
      exact ⟨b1, b2, b3, b4, b5, T, b6, b7⟩

theorem cursor_bounded_run_call (ad : Adaptor) (N : Int) (base : List Int) (c : Call)
    (zh zh2 : zhandle_t) (hb : cursor_bounded N base zh) (h : run_call ad c zh = some zh2) :
    cursor_bounded N base zh2 := by
  have hi : ∀ env, cursor_bounded N base (install env zh) := fun env =>
    cursor_bounded_evolves N base _ _ (evolves_install env zh) hb
  cases c with
  | interest env out =>
    simp only [run_call, Option.some.injEq] at h
    rw [← h]
    exact cursor_bounded_interest N base _ out (hi env)
  | process env events =>
    simp only [run_call, Option.map_eq_some'] at h
    obtain ⟨r, hz, hz2⟩ := h
    rw [← hz2]
    exact cursor_bounded_evolves N base _ _
      (evolves_zookeeper_process ad _ events r (hi env).2.1 hz) (hi env)
  | request env op req_rc req dc data sc =>
    simp only [run_call, Option.some.injEq] at h
    rw [← h]
    exact cursor_bounded_evolves N base _ _ (evolves_op_call op _ req_rc req dc data sc)
      (hi env)
  | add_auth env scheme cert certLen completion data =>
    simp only [run_call, Option.some.injEq] at h
    rw [← h]
    exact cursor_bounded_evolves N base _ _
      (evolves_zoo_add_auth _ scheme cert certLen completion data) (hi env)
  | set_watcher newFn =>
    simp only [run_call, Option.some.injEq] at h
    rw [← h]
    exact cursor_bounded_evolves N base _ _ (evolves_zoo_set_watcher zh newFn) hb

theorem cursor_bounded_run (ad : Adaptor) (N : Int) (base : List Int) (calls : List Call)
    (zh zh2 : zhandle_t) (hb : cursor_bounded N base zh) (h : run ad calls zh = some zh2) :
    cursor_bounded N base zh2 := by
  induction calls generalizing zh with
  | nil =>
    simp only [run, Option.some.injEq] at h
    rw [← h]; exact hb
  | cons c cs ih =>
    simp only [run, Option.bind_eq_some] at h
    obtain ⟨zh1, h1, h2⟩ := h
    exact ih zh1 (cursor_bounded_run_call ad N base c zh zh1 hb h1) h2

/-- C30 (endpoint cursor bound): from the handle that `zookeeper_init` makes for `N`
endpoints (cursor 0, no socket), after any sequence of calls of the API that runs to its end
(`zookeeper_interest` and `zookeeper_process`, and requests, `zoo_add_auth` and
`zoo_set_watcher` as well), whatever the operating system answers, the cursor is in `[0, N]`,
it is below `N` while the handle has a socket, and every `connect` made since the handle was
created was given an endpoint index in `[0, N)`. -/
theorem endpoint_cursor_bound (ad : Adaptor) (N : Int) (watcher : Option Nat)
    (recv_timeout : Int) (clientid : Option clientid_t) (context : Nat) (w : World)
    (calls : List Call) (zh2 : zhandle_t) (hN : 0 ≤ N)
    (h : run ad calls (zookeeper_init N watcher recv_timeout clientid context w) = some zh2) :
    0 ≤ zh2.connect_index ∧ zh2.connect_index ≤ N ∧
    (zh2.fd ≠ -1 → zh2.connect_index < N) ∧
    ∃ T, connect_targets zh2.world.log = connect_targets w.log ++ T ∧
      ∀ t ∈ T, 0 ≤ t ∧ t < N := by
  have hb : cursor_bounded N (connect_targets w.log)
      (zookeeper_init N watcher recv_timeout clientid context w) :=
    ⟨rfl, rfl, le_refl 0, hN, fun hfd => absurd rfl hfd, [], by simp [zookeeper_init],
      fun t ht => absurd ht (List.not_mem_nil _)⟩
  obtain ⟨-, -, b3, b4, b5, hT⟩ := cursor_bounded_run ad N _ calls _ zh2 hb h
  exact ⟨b3, b4, b5, hT⟩

/-- C30 (instance): a handle with two endpoints; three calls of `zookeeper_interest` whose
connection is refused, then one in which `socket` fails.  The cursor goes 1, 2, 0 (the wrap,
without an attempt) and 1, and the attempts were made at the endpoints 0, 1 and 0. -/
theorem endpoint_cursor_bound_witness :
    (0 : Int) ≤ 2 ∧
    (run inline_adaptor refused_calls (zookeeper_init 2 (some 0) 9000 none 0 World.idle)).map
        (fun z => (z.connect_index, connect_targets z.world.log)) = some (1, [0, 1, 0]) ∧
    (run inline_adaptor (refused_calls.take 2)
        (zookeeper_init 2 (some 0) 9000 none 0 World.idle)).map
        (fun z => (z.connect_index, connect_targets z.world.log)) = some (2, [0, 1]) ∧
    0 ≤ ((run inline_adaptor refused_calls
        (zookeeper_init 2 (some 0) 9000 none 0 World.idle)).getD connected_handle).connect_index ∧
    ((run inline_adaptor refused_calls
        (zookeeper_init 2 (some 0) 9000 none 0 World.idle)).getD connected_handle).connect_index
      ≤ 2 :=
  have h := endpoint_cursor_bound inline_adaptor 2 (some 0) 9000 none 0 World.idle
    refused_calls
    ((run inline_adaptor refused_calls
      (zookeeper_init 2 (some 0) 9000 none 0 World.idle)).getD connected_handle)
    (by decide) (by decide)
  ⟨by decide, by decide, by decide, h.1, h.2.1⟩

end Zookeeper
